import Mathlib

/-!
# FreeOrion production queue: allocation pass, rate limiter and reserve accounting

A shallow embedding of `Empire/ProductionQueue.cpp`.

Conventions of the embedding:

* C++ `float` / `double` values are embedded as rationals (`ℚ`). The arithmetic of the source is
  read twice: over exact numbers (the definitions without a prefix), and in the namespace
  `Binary32` with the rounding of IEEE 754 binary32 (binary64 for the `double` intermediates)
  after every operation. Results whose truth depends on the rounding are stated about the
  `Binary32` reading; the theorems named `exact_...` record what holds over exact numbers.
* C++ `int` values are embedded as `Int`; none of the modelled code paths relies on wrap-around.
* `std::set<int>` (a resource sharing group) is a `Finset Int`.
* `std::map<K, float>` is an association list with at most one binding per key that is ever
  looked up; `find`, `operator[] +=` and `clear` are the only operations the source uses.
* reference parameters of the source (`queue`, `allocated_pp`, ...) become explicit inputs and
  outputs.
-/

namespace FreeOrion

/-! ## Data model -/

/-- Modelled from the spec: the `BuildType` enumeration is declared in a header that is not part
of the sources at hand; the kinds are the ones the spec lists (building, ship, project,
stockpile transfer) in the numeric order of the enumeration. -/
inductive BuildType where
  | INVALID_BUILD_TYPE
  | BT_NOT_BUILDING
  | BT_BUILDING
  | BT_SHIP
  | BT_PROJECT
  | BT_STOCKPILE
  deriving DecidableEq, Repr

/-- Numeric value of a build type, used by the comparison operators on `BuildType`. -/
def BuildType.toInt : BuildType → Int
  | .INVALID_BUILD_TYPE => -1
  | .BT_NOT_BUILDING => 0
  | .BT_BUILDING => 1
  | .BT_SHIP => 2
  | .BT_PROJECT => 3
  | .BT_STOCKPILE => 4

/-- Modelled from the spec: `INVALID_OBJECT_ID`, a constant of a header that is not part of the
sources at hand; the sentinel used as location of location-invariant cost lookups. -/
def INVALID_OBJECT_ID : Int := -1

/-- Modelled from the spec: `INVALID_DESIGN_ID`, a constant of a header that is not part of the
sources at hand. -/
def INVALID_DESIGN_ID : Int := -1

/-- Modelled from the spec: `ProductionQueue::ProductionItem` (declared in the absent header
`ProductionQueue.h`): a kind plus the kind-specific identity. -/
structure ProductionItem where
  build_type : BuildType := BuildType.INVALID_BUILD_TYPE
  name : String := ""
  design_id : Int := INVALID_DESIGN_ID
  deriving DecidableEq, Repr

/-- Modelled from the spec: `ProductionQueue::Element` (declared in the absent header
`ProductionQueue.h`), one line of the queue. The unique identifier is a natural number, `0`
playing the role of the nil identifier. -/
structure Element where
  item : ProductionItem := {}
  empire_id : Int := -1
  ordered : Int := 0
  blocksize : Int := 1
  remaining : Int := 0
  location : Int := INVALID_OBJECT_ID
  allocated_pp : ℚ := 0
  progress : ℚ := 0
  blocksize_memory : Int := 1
  turns_left_to_next_item : Int := -1
  turns_left_to_completion : Int := -1
  paused : Bool := false
  allowed_imperial_stockpile_use : Bool := false
  uuid : Nat := 0
  deriving DecidableEq

/-- A resource sharing group, `std::set<int>` in the source. -/
abbrev ObjectGroup := Finset Int

/-- The type `std::map<std::set<int>, float>` of the source. -/
abbrev GroupMap := List (ObjectGroup × ℚ)

/-- The type `std::map<std::pair<ProductionItem, int>, std::pair<float, int>>` of the source. -/
abbrev CostTimeMap := List ((ProductionItem × Int) × (ℚ × Int))

/-- The game rules read by the production queue (`GetGameRules().Get<...>(...)`); the two
factors are percentages, validated to the range `[0, 30]` by `AddRules`. -/
structure GameRules where
  RULE_STOCKPILE_IMPORT_LIMITED : Bool := false
  RULE_PRODUCTION_QUEUE_FRONTLOAD_FACTOR : ℚ := 0
  RULE_PRODUCTION_QUEUE_TOPPING_UP_FACTOR : ℚ := 0

/-- Modelled from the spec: the part of `Universe` and of the building type registry that
`ProductionItem::CostIsProductionLocationInvariant` consults. `none` stands for a null
`GetBuildingType(name)` / `GetShipDesign(design_id)`, `some b` for an existing type or design
whose `ProductionCostTimeLocationInvariant()` is `b`. -/
structure Universe where
  buildingTypeLocationInvariant : String → Option Bool
  shipDesignLocationInvariant : Int → Option Bool

/-- The constant `EPSILON = 0.001f`. -/
def EPSILON : ℚ := 1 / 1000

/-! ## Maps -/

/-- Lookup `m.find(g)`: the value bound to `g`, if any. -/
def mapFind (m : GroupMap) (g : ObjectGroup) : Option ℚ :=
  match m with
  | [] => none
  | (k, v) :: rest => if k = g then some v else mapFind rest g

/-- Update `m[g] += x`, relying on the default initial mapped value `0` for an absent key. -/
def mapAdd (m : GroupMap) (g : ObjectGroup) (x : ℚ) : GroupMap :=
  match m with
  | [] => [(g, 0 + x)]
  | (k, v) :: rest => if k = g then (k, v + x) :: rest else (k, v) :: mapAdd rest g x

/-- Sum of all mapped values (`boost::accumulate(m | map_values, 0.0f)`). -/
def mapSum (m : GroupMap) : ℚ :=
  m.foldl (fun acc kv => acc + kv.2) 0

/-! ## ProductionItem -/

/-- The source operator `ProductionItem::operator<`. -/
def ProductionItem.lt (lhs rhs : ProductionItem) : Bool :=
  if lhs.build_type.toInt < rhs.build_type.toInt then true
  else if lhs.build_type.toInt > rhs.build_type.toInt then false
  else if lhs.build_type = BuildType.BT_BUILDING then decide (lhs.name < rhs.name)
  else if lhs.build_type = BuildType.BT_SHIP then decide (lhs.design_id < rhs.design_id)
  else false

/-- The source function `ProductionItem::CostIsProductionLocationInvariant`. -/
def ProductionItem.CostIsProductionLocationInvariant (item : ProductionItem)
    (the_universe : Universe) : Bool :=
  if item.build_type = BuildType.BT_BUILDING then
    match the_universe.buildingTypeLocationInvariant item.name with
    | none => true
    | some b => b
  else if item.build_type = BuildType.BT_SHIP then
    match the_universe.shipDesignLocationInvariant item.design_id with
    | none => true
    | some b => b
  else if item.build_type = BuildType.BT_STOCKPILE then true
  else false

/-- Comparison `std::pair<ProductionItem, int>::operator<`, the key order of the cost map. -/
def costKeyLt (a b : ProductionItem × Int) : Bool :=
  a.1.lt b.1 || (!(b.1.lt a.1) && decide (a.2 < b.2))

/-- Key equivalence of the cost map: neither key is smaller than the other. -/
def costKeyEquiv (a b : ProductionItem × Int) : Bool :=
  !(costKeyLt a b) && !(costKeyLt b a)

/-- Lookup `queue_item_costs_and_times.find(key)`. -/
def costFind (m : CostTimeMap) (key : ProductionItem × Int) : Option (ℚ × Int) :=
  match m with
  | [] => none
  | (k, v) :: rest => if costKeyEquiv k key then some v else costFind rest key

/-! ## Rate limiter -/

/-- The source function `CalculateProductionPerTurnLimit`. -/
def CalculateProductionPerTurnLimit (rules : GameRules) (queue_element : Element)
    (item_cost : ℚ) (build_turns : Int) : ℚ :=
  let frontload_limit_factor : ℚ := rules.RULE_PRODUCTION_QUEUE_FRONTLOAD_FACTOR * (1 / 100)
  let topping_up_limit_factor : ℚ :=
    max 0 (rules.RULE_PRODUCTION_QUEUE_TOPPING_UP_FACTOR * (1 / 100) - frontload_limit_factor)
  let item_cost : ℚ := item_cost * (queue_element.blocksize : ℚ)
  let build_turns : Int := max build_turns 1
  let element_accumulated_PP : ℚ := queue_element.progress * item_cost
  let element_total_cost : ℚ := item_cost * (queue_element.remaining : ℚ)
  let additional_pp_to_complete_element : ℚ := element_total_cost - element_accumulated_PP
  let additional_pp_to_complete_item : ℚ := item_cost - element_accumulated_PP
  let basic_element_per_turn_limit : ℚ := item_cost / (build_turns : ℚ)
  let frontload : ℚ :=
    (1 + frontload_limit_factor / ((max (build_turns - 1) 1 : Int) : ℚ)) *
      basic_element_per_turn_limit - 2 * EPSILON
  let topping_up_limit : ℚ := basic_element_per_turn_limit +
    min (topping_up_limit_factor * item_cost) (basic_element_per_turn_limit - 2 * EPSILON)
  let topping_up : ℚ :=
    if additional_pp_to_complete_item < topping_up_limit then additional_pp_to_complete_item
    else basic_element_per_turn_limit
  min additional_pp_to_complete_element
    (max basic_element_per_turn_limit (max frontload topping_up))

/-- The reference formula of the rate limiter, following the words of the specification
(section 4.1), over plain numbers. -/
def perTurnLimitReference (unitCost : ℚ) (blocksize remaining : Int) (progress : ℚ)
    (minBuildTurns : Int) (frontloadRule toppingUpRule : ℚ) : ℚ :=
  let cost : ℚ := unitCost * (blocksize : ℚ)
  let T : Int := max minBuildTurns 1
  let accumulated : ℚ := progress * cost
  let neededForElement : ℚ := cost * (remaining : ℚ) - accumulated
  let neededForItem : ℚ := cost - accumulated
  let base : ℚ := cost / (T : ℚ)
  let f : ℚ := frontloadRule * (1 / 100)
  let t : ℚ := max 0 (toppingUpRule * (1 / 100) - f)
  let frontloadAmount : ℚ := base * (1 + f / ((max (T - 1) 1 : Int) : ℚ)) - 2 * EPSILON
  let ceiling : ℚ := base + min (t * cost) (base - 2 * EPSILON)
  let toppingUpAmount : ℚ := if neededForItem < ceiling then neededForItem else base
  min neededForElement (max base (max frontloadAmount toppingUpAmount))

/-! ## Reserve accounting -/

/-- Modelled from the spec: `ALL_EMPIRES`, a constant of a header that is not part of the sources
at hand; the identifier that stands for "no empire". -/
def ALL_EMPIRES : Int := -1

/-- Modelled from the spec: the part of a `Planet` that `StockpileCapacity` reads: its owner and
its stockpile meter (`none` when `GetMeter(METER_STOCKPILE)` is null, else the current value). -/
structure Planet where
  owner : Int
  stockpile_meter : Option ℚ

/-- Modelled from the spec: the part of class `Empire` (absent from the sources at hand) that the
production queue reads: the empire identifier held by the production queue of the empire, the
output and the stockpile of its industry resource pool, and its producibility test. -/
structure Empire where
  production_queue_empire_id : Int
  industry_output : GroupMap := []
  industry_stockpile : ℚ := 0
  ProducibleItem : ProductionItem → Int → Bool := fun _ _ => true

/-- Modelled from the spec: the part of `ScriptingContext` (absent from the sources at hand) that
the production queue reads: empire resolution (`GetEmpire`, `none` for a null empire), the planets
among the context objects, the universe, and the production cost and time that an existing
building type (by name) or ship design (by id) reports for an empire and a location. -/
structure ScriptingContext where
  GetEmpire : Int → Option Empire
  planets : List Planet := []
  ContextUniverse : Universe := ⟨fun _ => none, fun _ => none⟩
  buildingCostAndTime : String → Int → Int → ℚ × Int := fun _ _ _ => (0, 0)
  shipCostAndTime : Int → Int → Int → ℚ × Int := fun _ _ _ => (0, 0)

/-- The source function `ProductionQueue::StockpileCapacity`, for the queue of the empire
`m_empire_id`. -/
def StockpileCapacity (m_empire_id : Int) (planets : List Planet) : ℚ :=
  if m_empire_id = ALL_EMPIRES then 0
  else
    (planets.filter (fun p => decide (p.owner = m_empire_id))).foldl
      (fun retval obj =>
        match obj.stockpile_meter with
        | some current => retval + current
        | none => retval) 0

/-- Body of the loop over `available_pp` in `CalculateNewStockpile`: the excess of one group is
added to `new_contributions` unless it is below `EPSILON`. -/
def addGroupExcess (allocated_pp : GroupMap) (new_contributions : ℚ)
    (available_group : ObjectGroup × ℚ) : ℚ :=
  let allocated_here : ℚ :=
    match mapFind allocated_pp available_group.1 with
    | none => 0
    | some v => v
  let excess_here : ℚ := available_group.2 - allocated_here
  if excess_here < EPSILON then new_contributions
  else new_contributions + excess_here

/-- The source function `CalculateNewStockpile`. -/
def CalculateNewStockpile (rules : GameRules) (empire_id : Int) (starting_stockpile : ℚ)
    (project_transfer_to_stockpile : ℚ) (available_pp allocated_pp : GroupMap)
    (allocated_stockpile_pp : GroupMap) (context : ScriptingContext) : ℚ :=
  match context.GetEmpire empire_id with
  | none => 0
  | some empire =>
    let stockpile_limit : ℚ := StockpileCapacity empire.production_queue_empire_id context.planets
    let stockpile_used : ℚ := mapSum allocated_stockpile_pp
    let new_contributions : ℚ := available_pp.foldl (addGroupExcess allocated_pp) 0
    let new_contributions : ℚ :=
      if new_contributions + project_transfer_to_stockpile > stockpile_limit ∧
          rules.RULE_STOCKPILE_IMPORT_LIMITED = true then
        stockpile_limit - project_transfer_to_stockpile
      else new_contributions
    starting_stockpile + new_contributions + project_transfer_to_stockpile - stockpile_used

/-! ## Allocation pass -/

/-- The read-only inputs of one allocation pass (`SetProdQueueElementSpending`). -/
structure SpendingParams where
  rules : GameRules
  stockpile_limit : ℚ
  queue_element_resource_sharing_object_groups : List ObjectGroup
  queue_item_costs_and_times : CostTimeMap
  is_producible : List Bool
  simulating : Bool
  the_universe : Universe

/-- The variables that `SetProdQueueElementSpending` mutates while it walks the queue: the local
copy of `available_pp`, `dummy_pp_source`, `available_stockpile`, `stockpile_transfer`, and the
three outputs `allocated_pp`, `allocated_stockpile_pp`, `projects_in_progress`. -/
structure SpendingState where
  available_pp : GroupMap
  dummy_pp_source : ℚ
  available_stockpile : ℚ
  stockpile_transfer : ℚ
  allocated_pp : GroupMap
  allocated_stockpile_pp : GroupMap
  projects_in_progress : Int

/-- The local variables of one loop iteration that funds an element. -/
structure ElementSpending where
  item_cost : ℚ
  build_turns : Int
  element_this_turn_limit : ℚ
  group_pp_available : ℚ
  stockpile_available_for_this : ℚ
  allocation : ℚ
  group_drawdown : ℚ
  stockpile_drawdown : ℚ

/-- The value read through the reference `group_pp_available`: the entry of the group in the
local `available_pp`, or `dummy_pp_source` when the group has no entry. -/
def groupPPAvailable (st : SpendingState) (group : ObjectGroup) : ℚ :=
  match mapFind st.available_pp group with
  | some v => v
  | none => st.dummy_pp_source

/-- Assignment through an iterator of the map: replaces the value bound to `g`, if any. -/
def mapSet (m : GroupMap) (g : ObjectGroup) (x : ℚ) : GroupMap :=
  match m with
  | [] => []
  | (k, v) :: rest => if k = g then (k, x) :: rest else (k, v) :: mapSet rest g x

/-- A write through the reference `group_pp_available`. -/
def setGroupPPAvailable (st : SpendingState) (group : ObjectGroup) (x : ℚ) : SpendingState :=
  match mapFind st.available_pp group with
  | some _ => { st with available_pp := mapSet st.available_pp group x }
  | none => { st with dummy_pp_source := x }

/-- The three tests that make the loop `continue` without funding the element: it is paused,
or its group has nothing available and it cannot use the stockpile, or it is not producible. -/
def skipsElement (st : SpendingState) (queue_element : Element) (group : ObjectGroup)
    (producible : Bool) : Bool :=
  queue_element.paused ||
    (decide (groupPPAvailable st group ≤ 0) &&
      (decide (st.available_stockpile ≤ 0) || !queue_element.allowed_imperial_stockpile_use)) ||
    !producible

/-- The cost and time lookup of the pass, with the dummy values `1e6` and `1` for a missing
key. -/
def lookupCostTime (p : SpendingParams) (queue_element : Element) : ℚ × Int :=
  let location_id : Int :=
    if queue_element.item.CostIsProductionLocationInvariant p.the_universe then INVALID_OBJECT_ID
    else queue_element.location
  match costFind p.queue_item_costs_and_times (queue_element.item, location_id) with
  | some v => v
  | none => (1000000, 1)

/-- The amounts computed for an element that is funded (lines 236 to 301 of the source). -/
def spendOnElement (p : SpendingParams) (st : SpendingState) (queue_element : Element)
    (group : ObjectGroup) : ElementSpending :=
  let item_cost : ℚ := (lookupCostTime p queue_element).1
  let build_turns : Int := (lookupCostTime p queue_element).2
  let element_this_turn_limit : ℚ :=
    CalculateProductionPerTurnLimit p.rules queue_element item_cost build_turns
  let group_pp_available : ℚ := groupPPAvailable st group
  let stockpile_available_for_this : ℚ :=
    if queue_element.allowed_imperial_stockpile_use then st.available_stockpile else 0
  let allocation : ℚ :=
    max 0 (min element_this_turn_limit (group_pp_available + stockpile_available_for_this))
  let allocation : ℚ :=
    if queue_element.item.build_type = BuildType.BT_STOCKPILE ∧
        p.rules.RULE_STOCKPILE_IMPORT_LIMITED = true then
      min allocation (max 0 (p.stockpile_limit - st.stockpile_transfer))
    else allocation
  let group_drawdown : ℚ := min allocation group_pp_available
  let stockpile_drawdown : ℚ :=
    if allocation ≤ group_drawdown then 0 else allocation - group_drawdown
  let stockpile_drawdown : ℚ := min stockpile_drawdown st.available_stockpile
  { item_cost := item_cost
    build_turns := build_turns
    element_this_turn_limit := element_this_turn_limit
    group_pp_available := group_pp_available
    stockpile_available_for_this := stockpile_available_for_this
    allocation := allocation
    group_drawdown := group_drawdown
    stockpile_drawdown := stockpile_drawdown }

/-- The state after the element was funded with the amounts `s` (lines 285 to 317). -/
def recordSpending (st : SpendingState) (queue_element : Element) (group : ObjectGroup)
    (s : ElementSpending) : SpendingState :=
  let st : SpendingState :=
    { st with allocated_pp := mapAdd st.allocated_pp group s.group_drawdown }
  let st : SpendingState :=
    if queue_element.item.build_type = BuildType.BT_STOCKPILE then
      { st with stockpile_transfer := st.stockpile_transfer + s.group_drawdown }
    else st
  let st : SpendingState := setGroupPPAvailable st group (s.group_pp_available - s.group_drawdown)
  let st : SpendingState :=
    if s.stockpile_drawdown > 0 then
      { st with
        allocated_stockpile_pp := mapAdd st.allocated_stockpile_pp group s.stockpile_drawdown
        available_stockpile := st.available_stockpile - s.stockpile_drawdown }
    else st
  if s.allocation > 0 then { st with projects_in_progress := st.projects_in_progress + 1 }
  else st

/-- The completion test of line 309. -/
def completesThisTurn (block_cost progress allocated_pp : ℚ) : Bool :=
  decide (block_cost * (1 - progress) - allocated_pp < EPSILON)

/-- The element after it was funded with the amounts `s` (lines 280 and 307 to 314). -/
def fundElement (simulating : Bool) (queue_element : Element) (s : ElementSpending) : Element :=
  let queue_element : Element := { queue_element with allocated_pp := max s.allocation EPSILON }
  let block_cost : ℚ := s.item_cost * (queue_element.blocksize : ℚ)
  let queue_element : Element :=
    if completesThisTurn block_cost queue_element.progress queue_element.allocated_pp then
      { queue_element with turns_left_to_next_item := 1 }
    else queue_element
  if simulating then
    { queue_element with
      progress := queue_element.progress + s.allocation / max EPSILON block_cost }
  else queue_element

/-- One iteration of the loop of `SetProdQueueElementSpending`: the new state, the new element,
and the amounts computed for it (`none` when the element was skipped). -/
def elementStep (p : SpendingParams) (st : SpendingState) (queue_element : Element)
    (group : ObjectGroup) (producible : Bool) :
    SpendingState × Element × Option ElementSpending :=
  let queue_element : Element := { queue_element with allocated_pp := 0 }
  if skipsElement st queue_element group producible then (st, queue_element, none)
  else
    let s : ElementSpending := spendOnElement p st queue_element group
    (recordSpending st queue_element group s, fundElement p.simulating queue_element s, some s)

/-- The loop of `SetProdQueueElementSpending` from index `i` on: the final state, the updated
elements, and the amounts computed for each element. A read of `is_producible` past its end
(undefined in the source) is taken as `false`. -/
def spendingLoop (p : SpendingParams) :
    Nat → List Element → SpendingState →
      SpendingState × List Element × List (Option ElementSpending)
  | _, [], st => (st, [], [])
  | i, queue_element :: rest, st =>
    let r := elementStep p st queue_element
      (p.queue_element_resource_sharing_object_groups.getD i ∅) (p.is_producible.getD i false)
    let r2 := spendingLoop p (i + 1) rest r.1
    (r2.1, r.2.1 :: r2.2.1, r.2.2 :: r2.2.2)

/-- The values of the mutable variables when the loop starts (lines 190 to 194). -/
def initialSpendingState (available_pp : GroupMap) (available_stockpile : ℚ) : SpendingState :=
  { available_pp := available_pp
    dummy_pp_source := 0
    available_stockpile := available_stockpile
    stockpile_transfer := 0
    allocated_pp := []
    allocated_stockpile_pp := []
    projects_in_progress := 0 }

/-- What `SetProdQueueElementSpending` leaves behind: its return value and the values of its
in-out parameters. -/
structure SpendingResult where
  retval : ℚ
  queue : List Element
  allocated_pp : GroupMap
  allocated_stockpile_pp : GroupMap
  projects_in_progress : Int

/-- The source function `SetProdQueueElementSpending`. -/
def SetProdQueueElementSpending (rules : GameRules) (available_pp : GroupMap)
    (available_stockpile stockpile_limit : ℚ)
    (queue_element_resource_sharing_object_groups : List ObjectGroup)
    (queue_item_costs_and_times : CostTimeMap) (is_producible : List Bool)
    (queue : List Element) (allocated_pp allocated_stockpile_pp : GroupMap)
    (projects_in_progress : Int) (simulating : Bool) (the_universe : Universe) :
    SpendingResult :=
  if queue.length ≠ queue_element_resource_sharing_object_groups.length then
    { retval := 0
      queue := queue
      allocated_pp := allocated_pp
      allocated_stockpile_pp := allocated_stockpile_pp
      projects_in_progress := projects_in_progress }
  else
    let p : SpendingParams :=
      { rules := rules
        stockpile_limit := stockpile_limit
        queue_element_resource_sharing_object_groups :=
          queue_element_resource_sharing_object_groups
        queue_item_costs_and_times := queue_item_costs_and_times
        is_producible := is_producible
        simulating := simulating
        the_universe := the_universe }
    let r := spendingLoop p 0 queue (initialSpendingState available_pp available_stockpile)
    { retval := r.1.stockpile_transfer
      queue := r.2.1
      allocated_pp := r.1.allocated_pp
      allocated_stockpile_pp := r.1.allocated_stockpile_pp
      projects_in_progress := r.1.projects_in_progress }

/-- The state of the pass on entry to the element at index `k`: the state reached from `st0`
after the first `k` elements were processed. -/
def stateBeforeEntry (p : SpendingParams) (queue : List Element) (st0 : SpendingState)
    (k : Nat) : SpendingState :=
  (spendingLoop p 0 (queue.take k) st0).1

/-- The per-turn limit of an element in a pass: `CalculateProductionPerTurnLimit` at the cost
and time the pass looks up for it. -/
def elementLimit (p : SpendingParams) (queue_element : Element) : ℚ :=
  CalculateProductionPerTurnLimit p.rules queue_element (lookupCostTime p queue_element).1
    (lookupCostTime p queue_element).2

/-- The reserve share of an element: the reserve availability if the element may use the
imperial stockpile, else `0` (`stockpile_available_for_this`). -/
def reserveShare (st : SpendingState) (queue_element : Element) : ℚ :=
  if queue_element.allowed_imperial_stockpile_use then st.available_stockpile else 0

/-- The sum of the group excesses of the specification (section 4.3): over every group of the
availability map, `available − consumed` (`consumed` taken as 0 for a group without an entry in
the consumption map), for the groups where that excess is at least `ε`. -/
def excessSum (available consumed : GroupMap) : ℚ :=
  ((available.map (fun g => g.2 - (mapFind consumed g.1).getD 0)).filter
    (fun x => decide (EPSILON ≤ x))).sum

/-- The contributions `C` of the specification (section 4.3): the sum of the group excesses,
replaced by `capacity − directTransfer` when import limiting is enabled and the sum plus
`directTransfer` exceeds the capacity. -/
def contributionsReference (limited : Bool) (capacity directTransfer : ℚ)
    (available consumed : GroupMap) : ℚ :=
  if limited = true ∧ capacity < excessSum available consumed + directTransfer then
    capacity - directTransfer
  else excessSum available consumed

/-! ## Funding at the limit -/

/-- The amounts of a turn on which the element receives exactly its per-turn limit, all of it
from its group. -/
def limitSpending (rules : GameRules) (item_cost : ℚ) (build_turns : Int)
    (queue_element : Element) : ElementSpending :=
  { item_cost := item_cost
    build_turns := build_turns
    element_this_turn_limit :=
      CalculateProductionPerTurnLimit rules queue_element item_cost build_turns
    group_pp_available := CalculateProductionPerTurnLimit rules queue_element item_cost build_turns
    stockpile_available_for_this := 0
    allocation := CalculateProductionPerTurnLimit rules queue_element item_cost build_turns
    group_drawdown := CalculateProductionPerTurnLimit rules queue_element item_cost build_turns
    stockpile_drawdown := 0 }

/-- One simulated turn on which the element receives exactly its per-turn limit: the element is
funded as the simulating pass funds it (`fundElement`), its next-batch flag having been reset to
`-1` as the simulator does between turns. -/
def limitFundedTurn (rules : GameRules) (item_cost : ℚ) (build_turns : Int)
    (queue_element : Element) : Element :=
  fundElement true { queue_element with turns_left_to_next_item := -1 }
    (limitSpending rules item_cost build_turns queue_element)

/-- The element after `n` simulated turns on each of which it received exactly its limit, cost
and build time staying the same. -/
def limitFundedTurns (rules : GameRules) (item_cost : ℚ) (build_turns : Int) :
    Nat → Element → Element
  | 0, queue_element => queue_element
  | n + 1, queue_element =>
    limitFundedTurn rules item_cost build_turns
      (limitFundedTurns rules item_cost build_turns n queue_element)

/-- Whether the completion test of the pass fires on turn `k` (turns counted from 1) of such a
run. -/
def completionFiresOnTurn (rules : GameRules) (item_cost : ℚ) (build_turns : Int)
    (queue_element : Element) (k : Nat) : Bool :=
  decide ((limitFundedTurns rules item_cost build_turns k queue_element).turns_left_to_next_item
    = 1)

/-- The largest limit the rate limiter grants while topping up does not apply: the larger of
the base limit and the frontloaded limit, for a build time of at least 2. -/
def steadyLimit (rules : GameRules) (block_cost : ℚ) (build_turns : Int) : ℚ :=
  max (block_cost / (build_turns : ℚ))
    ((1 + rules.RULE_PRODUCTION_QUEUE_FRONTLOAD_FACTOR * (1 / 100) / ((build_turns : ℚ) - 1)) *
      (block_cost / (build_turns : ℚ)) - 2 * EPSILON)

/-! ## The production queue -/

/-- Modelled from the spec: the data members of class `ProductionQueue` (declared in the absent
header `ProductionQueue.h`): the entries in queue order, the aggregate counters and maps that
`Update` publishes, and the owning empire. -/
structure ProductionQueue where
  m_queue : List Element := []
  m_projects_in_progress : Int := 0
  m_object_group_allocated_pp : GroupMap := []
  m_object_group_allocated_stockpile_pp : GroupMap := []
  m_expected_new_stockpile_amount : ℚ := 0
  m_expected_project_transfer_to_stockpile : ℚ := 0
  m_empire_id : Int := ALL_EMPIRES

/-- The two exceptions that the queue throws. -/
inductive QueueError where
  | invalid_argument
  | out_of_range
  deriving DecidableEq, Repr

/-- The source function `ProductionQueue::size`. -/
def ProductionQueue.size (q : ProductionQueue) : Nat := q.m_queue.length

/-- The loop of `find(uuid)`: the position of the first element with the identifier, or the
length of the list (the end position) when there is none. -/
def uuidPosition (uuid : Nat) : List Element → Nat
  | [] => 0
  | e :: rest => if e.uuid = uuid then 0 else uuidPosition uuid rest + 1

/-- The source function `ProductionQueue::find(boost::uuids::uuid)`; an iterator is its
distance from `begin()`, so `size()` is the end position. -/
def ProductionQueue.findUUID (q : ProductionQueue) (uuid : Nat) : Nat :=
  if uuid = 0 then q.size else uuidPosition uuid q.m_queue

/-- The source function `ProductionQueue::find(int)`. -/
def ProductionQueue.find (q : ProductionQueue) (i : Int) : Nat :=
  if 0 ≤ i ∧ i < (q.size : Int) then i.toNat else q.size

/-- The source function `ProductionQueue::operator[]`. -/
def ProductionQueue.subscript (q : ProductionQueue) (i : Int) : Except QueueError Element :=
  if h : i < 0 ∨ i ≥ (q.m_queue.length : Int) then Except.error QueueError.out_of_range
  else Except.ok (q.m_queue.get ⟨i.toNat, by omega⟩)

/-- The source function `ProductionQueue::push_back`: the queue afterwards, and the exception
thrown, if any. -/
def ProductionQueue.push_back (q : ProductionQueue) (element : Element) :
    ProductionQueue × Option QueueError :=
  if q.findUUID element.uuid ≠ q.size then (q, some QueueError.invalid_argument)
  else ({ q with m_queue := q.m_queue ++ [element] }, none)

/-- The source function `ProductionQueue::insert`, the iterator `it` given as its distance from
`begin()`: the queue afterwards, and the exception thrown, if any. An iterator past the end
(undefined in the source) leaves the entries as they are. -/
def ProductionQueue.insert (q : ProductionQueue) (it : Nat) (element : Element) :
    ProductionQueue × Option QueueError :=
  if q.findUUID element.uuid ≠ q.size then (q, some QueueError.invalid_argument)
  else ({ q with m_queue := q.m_queue.insertIdx it element }, none)

/-- The source function `ProductionQueue::erase(int)`: the queue afterwards, and the exception
thrown, if any. -/
def ProductionQueue.erase (q : ProductionQueue) (i : Int) :
    ProductionQueue × Option QueueError :=
  if i < 0 ∨ i ≥ (q.m_queue.length : Int) then (q, some QueueError.out_of_range)
  else ({ q with m_queue := q.m_queue.eraseIdx i.toNat }, none)

/-- The source function `ProductionQueue::clear`. -/
def ProductionQueue.clear (q : ProductionQueue) : ProductionQueue :=
  { q with m_queue := [], m_projects_in_progress := 0, m_object_group_allocated_pp := [] }

/-- The queues that can be built from an empty queue by `push_back`, `insert`, `erase` and
`clear`, whether or not a call throws. -/
inductive ProductionQueue.Built : ProductionQueue → Prop where
  | new (empire_id : Int) : ProductionQueue.Built { m_empire_id := empire_id }
  | push_back (q : ProductionQueue) (element : Element) :
      ProductionQueue.Built q → ProductionQueue.Built (q.push_back element).1
  | insert (q : ProductionQueue) (it : Nat) (element : Element) :
      ProductionQueue.Built q → ProductionQueue.Built (q.insert it element).1
  | erase (q : ProductionQueue) (i : Int) :
      ProductionQueue.Built q → ProductionQueue.Built (q.erase i).1
  | clear (q : ProductionQueue) : ProductionQueue.Built q → ProductionQueue.Built q.clear

/-! ## Update -/

/-- The source function `ProductionItem::ProductionCostAndTime`. -/
def ProductionItem.ProductionCostAndTime (item : ProductionItem) (empire_id location_id : Int)
    (context : ScriptingContext) : ℚ × Int :=
  if item.build_type = BuildType.BT_BUILDING then
    match context.ContextUniverse.buildingTypeLocationInvariant item.name with
    | none => (-1, -1)
    | some _ => context.buildingCostAndTime item.name empire_id location_id
  else if item.build_type = BuildType.BT_SHIP then
    match context.ContextUniverse.shipDesignLocationInvariant item.design_id with
    | some _ => context.shipCostAndTime item.design_id empire_id location_id
    | none => (-1, -1)
  else if item.build_type = BuildType.BT_STOCKPILE then (1, 1)
  else (-1, -1)

/-- The source function `Element::ProductionCostAndTime`. -/
def Element.ProductionCostAndTime (elem : Element) (context : ScriptingContext) : ℚ × Int :=
  elem.item.ProductionCostAndTime elem.empire_id elem.location context

/-- The search of lines 720 to 735: the first group of `available_pp` that contains the
location, or the empty group when no group contains it. -/
def elementGroup (available_pp : GroupMap) (location_id : Int) : ObjectGroup :=
  match available_pp with
  | [] => ∅
  | (group, _) :: rest =>
    if location_id ∈ group then group else elementGroup rest location_id

/-- The cost and time cache of lines 741 to 752: each element stores the cost and time of its
key unless the cache already has an entry for the key. -/
def cacheCosts (context : ScriptingContext) : List Element → CostTimeMap → CostTimeMap
  | [], queue_item_costs_and_times => queue_item_costs_and_times
  | elem :: rest, queue_item_costs_and_times =>
    let location_id : Int :=
      if elem.item.CostIsProductionLocationInvariant context.ContextUniverse then
        INVALID_OBJECT_ID
      else elem.location
    match costFind queue_item_costs_and_times (elem.item, location_id) with
    | some _ => cacheCosts context rest queue_item_costs_and_times
    | none =>
      cacheCosts context rest
        (queue_item_costs_and_times ++
          [((elem.item, location_id), elem.ProductionCostAndTime context)])

/-- Lines 754 and 755: both forecasts of an element are initialised to "never". -/
def resetForecast (elem : Element) : Element :=
  { elem with turns_left_to_next_item := -1, turns_left_to_completion := -1 }

/-- Assignment through `m_queue[idx]`: the element at `idx` is replaced by its image under
`f`. An index past the end (undefined in the source) changes nothing. -/
def modifyAt (f : Element → Element) : Nat → List Element → List Element
  | _, [] => []
  | 0, e :: rest => f e :: rest
  | idx + 1, e :: rest => e :: modifyAt f idx rest

/-- The variables of the forward simulation of `Update`: the simulated queue and its three
parallel vectors, the real queue (whose forecasts the simulation writes), the simulated reserve
and the dummy counter. -/
structure SimulationState where
  sim_queue : List Element
  is_producible : List Bool
  queue_element_groups : List ObjectGroup
  sim_queue_original_indices : List Nat
  m_queue : List Element
  sim_pp_in_stockpile : ℚ
  sim_available_stockpile : ℚ
  dummy_int : Int

/-- The four `erase(begin() + i)` calls that drop row `i` of the simulated queue and of its
parallel vectors. -/
def SimulationState.eraseRow (s : SimulationState) (i : Nat) : SimulationState :=
  { s with
    sim_queue := s.sim_queue.eraseIdx i
    is_producible := s.is_producible.eraseIdx i
    queue_element_groups := s.queue_element_groups.eraseIdx i
    sim_queue_original_indices := s.sim_queue_original_indices.eraseIdx i }

/-- The loop of lines 815 to 822 from index `i` on: paused and unproducible elements leave the
simulated queue. After an erasure the loop stays at the same index (`i--` followed by `++i`).
`fuel` bounds the number of iterations; the length of the simulated queue is enough. -/
def removeUnproducible : Nat → Nat → SimulationState → SimulationState
  | 0, _, s => s
  | fuel + 1, i, s =>
    match s.sim_queue[i]? with
    | none => s
    | some sim_element =>
      if sim_element.paused || !(s.is_producible.getD i false) then
        removeUnproducible fuel i (s.eraseRow i)
      else removeUnproducible fuel (i + 1) s

/-- Line 859 and 860: the first completed batch stamps the next-batch forecast. -/
def stampNextItem (sim_turn : Int) (orig_element : Element) : Element :=
  if orig_element.turns_left_to_next_item = -1 then
    { orig_element with turns_left_to_next_item := sim_turn }
  else orig_element

/-- Line 865: the last completed batch stamps the completion forecast. -/
def stampCompletion (sim_turn : Int) (orig_element : Element) : Element :=
  { orig_element with turns_left_to_completion := sim_turn }

/-- The loop of lines 853 to 871 from index `i` on, in simulated turn `sim_turn`. A row without
an original index (undefined in the source) stamps nothing. `fuel` bounds the number of
iterations; the length of the simulated queue is enough. -/
def completionLoop (sim_turn : Int) : Nat → Nat → SimulationState → SimulationState
  | 0, _, s => s
  | fuel + 1, i, s =>
    match s.sim_queue[i]? with
    | none => s
    | some sim_element =>
      if sim_element.turns_left_to_next_item ≠ 1 then completionLoop sim_turn fuel (i + 1) s
      else
        let sim_element : Element :=
          { sim_element with progress := max 0 (sim_element.progress - 1) }
        let m_queue : List Element :=
          match s.sim_queue_original_indices[i]? with
          | some idx => modifyAt (stampNextItem sim_turn) idx s.m_queue
          | none => s.m_queue
        let sim_element : Element := { sim_element with turns_left_to_next_item := -1 }
        let sim_element : Element := { sim_element with remaining := sim_element.remaining - 1 }
        if sim_element.remaining = 0 then
          let m_queue : List Element :=
            match s.sim_queue_original_indices[i]? with
            | some idx => modifyAt (stampCompletion sim_turn) idx m_queue
            | none => m_queue
          completionLoop sim_turn fuel i ({ s with m_queue := m_queue }.eraseRow i)
        else
          completionLoop sim_turn fuel (i + 1)
            { s with sim_queue := s.sim_queue.set i sim_element, m_queue := m_queue }

/-- The constant `TOO_MANY_TURNS = 500`. -/
def TOO_MANY_TURNS : Nat := 500

/-- What the simulation reads and never writes. `timed_out sim_turn` tells whether the clock
check at the start of simulated turn `sim_turn` finds the time budget `TOO_LONG_TIME` used up. -/
structure SimulationParams where
  rules : GameRules
  timed_out : Nat → Bool
  m_empire_id : Int
  available_pp : GroupMap
  stockpile_limit : ℚ
  queue_item_costs_and_times : CostTimeMap
  context : ScriptingContext

/-- The body of the loop over simulated turns (lines 844 to 876): one simulating allocation
pass over the simulated queue, the completion loop, and the update of the simulated reserve. -/
def simulateTurn (sp : SimulationParams) (sim_turn : Nat) (s : SimulationState) :
    SimulationState :=
  let r := SetProdQueueElementSpending sp.rules sp.available_pp s.sim_available_stockpile
    sp.stockpile_limit s.queue_element_groups sp.queue_item_costs_and_times s.is_producible
    s.sim_queue [] [] s.dummy_int true sp.context.ContextUniverse
  let s1 : SimulationState :=
    completionLoop (sim_turn : Int) r.queue.length 0
      { s with sim_queue := r.queue, dummy_int := r.projects_in_progress }
  let sim_pp_in_stockpile : ℚ :=
    CalculateNewStockpile sp.rules sp.m_empire_id s.sim_pp_in_stockpile r.retval
      sp.available_pp r.allocated_pp r.allocated_stockpile_pp sp.context
  { s1 with
    sim_pp_in_stockpile := sim_pp_in_stockpile
    sim_available_stockpile := min sim_pp_in_stockpile sp.stockpile_limit }

/-- The loop over simulated turns of lines 835 to 877, from turn `sim_turn` on; `fuel` is the
number of turns left up to `TOO_MANY_TURNS`. -/
def simulateTurns (sp : SimulationParams) : Nat → Nat → SimulationState → SimulationState
  | 0, _, s => s
  | fuel + 1, sim_turn, s =>
    if sp.timed_out sim_turn then s
    else if s.sim_queue.isEmpty && decide (sim_turn > 2) then s
    else simulateTurns sp fuel (sim_turn + 1) (simulateTurn sp sim_turn s)

/-- The source function `ProductionQueue::Update`, for the game rules `rules` and the clock
`timed_out` of the simulation. -/
def ProductionQueue.Update (rules : GameRules) (timed_out : Nat → Bool) (q : ProductionQueue)
    (context : ScriptingContext) : ProductionQueue :=
  match context.GetEmpire q.m_empire_id with
  | none => { q with m_projects_in_progress := 0, m_object_group_allocated_pp := [] }
  | some empire =>
    let available_pp : GroupMap := empire.industry_output
    let pp_in_stockpile : ℚ := empire.industry_stockpile
    let stockpile_limit : ℚ := StockpileCapacity q.m_empire_id context.planets
    let available_stockpile : ℚ := min pp_in_stockpile stockpile_limit
    let queue_element_groups : List ObjectGroup :=
      q.m_queue.map (fun element => elementGroup available_pp element.location)
    let queue_item_costs_and_times : CostTimeMap := cacheCosts context q.m_queue []
    let is_producible : List Bool :=
      q.m_queue.map (fun elem => empire.ProducibleItem elem.item elem.location)
    let m_queue : List Element := q.m_queue.map resetForecast
    let sim_queue : List Element := m_queue
    let sim_queue_original_indices : List Nat := List.range sim_queue.length
    let r := SetProdQueueElementSpending rules available_pp available_stockpile stockpile_limit
      queue_element_groups queue_item_costs_and_times is_producible m_queue
      q.m_object_group_allocated_pp q.m_object_group_allocated_stockpile_pp
      q.m_projects_in_progress false context.ContextUniverse
    let q1 : ProductionQueue :=
      { q with
        m_queue := r.queue
        m_projects_in_progress := r.projects_in_progress
        m_object_group_allocated_pp := r.allocated_pp
        m_object_group_allocated_stockpile_pp := r.allocated_stockpile_pp
        m_expected_new_stockpile_amount :=
          CalculateNewStockpile rules q.m_empire_id pp_in_stockpile r.retval available_pp
            r.allocated_pp r.allocated_stockpile_pp context
        m_expected_project_transfer_to_stockpile := r.retval }
    if available_pp.any (fun available => decide (available.2 > EPSILON)) then
      let s0 : SimulationState :=
        removeUnproducible sim_queue.length 0
          { sim_queue := sim_queue
            is_producible := is_producible
            queue_element_groups := queue_element_groups
            sim_queue_original_indices := sim_queue_original_indices
            m_queue := q1.m_queue
            sim_pp_in_stockpile := pp_in_stockpile
            sim_available_stockpile := available_stockpile
            dummy_int := 0 }
      let sp : SimulationParams :=
        { rules := rules
          timed_out := timed_out
          m_empire_id := q.m_empire_id
          available_pp := available_pp
          stockpile_limit := stockpile_limit
          queue_item_costs_and_times := queue_item_costs_and_times
          context := context }
      { q1 with m_queue := (simulateTurns sp TOO_MANY_TURNS 1 s0).m_queue }
    else q1

/-- The parameters of the authoritative pass of `Update` for a resolved empire. -/
def updateSpendingParams (rules : GameRules) (q : ProductionQueue) (context : ScriptingContext)
    (empire : Empire) : SpendingParams :=
  { rules := rules
    stockpile_limit := StockpileCapacity q.m_empire_id context.planets
    queue_element_resource_sharing_object_groups :=
      q.m_queue.map (fun element => elementGroup empire.industry_output element.location)
    queue_item_costs_and_times := cacheCosts context q.m_queue []
    is_producible := q.m_queue.map (fun elem => empire.ProducibleItem elem.item elem.location)
    simulating := false
    the_universe := context.ContextUniverse }

/-- The state in which the authoritative pass of `Update` starts for a resolved empire. -/
def updateStart (q : ProductionQueue) (context : ScriptingContext) (empire : Empire) :
    SpendingState :=
  initialSpendingState empire.industry_output
    (min empire.industry_stockpile (StockpileCapacity q.m_empire_id context.planets))

/-- The authoritative pass of `Update` for a resolved empire (lines 767 to 771). -/
def authoritativePass (rules : GameRules) (q : ProductionQueue) (context : ScriptingContext)
    (empire : Empire) : SpendingResult :=
  SetProdQueueElementSpending rules empire.industry_output
    (min empire.industry_stockpile (StockpileCapacity q.m_empire_id context.planets))
    (StockpileCapacity q.m_empire_id context.planets)
    (q.m_queue.map (fun element => elementGroup empire.industry_output element.location))
    (cacheCosts context q.m_queue [])
    (q.m_queue.map (fun elem => empire.ProducibleItem elem.item elem.location))
    (q.m_queue.map resetForecast) q.m_object_group_allocated_pp
    q.m_object_group_allocated_stockpile_pp q.m_projects_in_progress false
    context.ContextUniverse

/-- The queue object that `Update` leaves for a resolved empire when it does not simulate
(lines 767 to 779). -/
def afterAuthoritativePass (rules : GameRules) (q : ProductionQueue)
    (context : ScriptingContext) (empire : Empire) : ProductionQueue :=
  { q with
    m_queue := (authoritativePass rules q context empire).queue
    m_projects_in_progress := (authoritativePass rules q context empire).projects_in_progress
    m_object_group_allocated_pp := (authoritativePass rules q context empire).allocated_pp
    m_object_group_allocated_stockpile_pp :=
      (authoritativePass rules q context empire).allocated_stockpile_pp
    m_expected_new_stockpile_amount :=
      CalculateNewStockpile rules q.m_empire_id empire.industry_stockpile
        (authoritativePass rules q context empire).retval empire.industry_output
        (authoritativePass rules q context empire).allocated_pp
        (authoritativePass rules q context empire).allocated_stockpile_pp context
    m_expected_project_transfer_to_stockpile := (authoritativePass rules q context empire).retval }

/-- The parameters of the forward simulation of `Update` for a resolved empire. -/
def updateSimulationParams (rules : GameRules) (timed_out : Nat → Bool) (q : ProductionQueue)
    (context : ScriptingContext) (empire : Empire) : SimulationParams :=
  { rules := rules
    timed_out := timed_out
    m_empire_id := q.m_empire_id
    available_pp := empire.industry_output
    stockpile_limit := StockpileCapacity q.m_empire_id context.planets
    queue_item_costs_and_times := cacheCosts context q.m_queue []
    context := context }

/-- The state in which the forward simulation of `Update` starts, before paused and
unproducible elements are removed (lines 759 to 762 and 828 to 832). -/
def simulationStart (rules : GameRules) (q : ProductionQueue) (context : ScriptingContext)
    (empire : Empire) : SimulationState :=
  { sim_queue := q.m_queue.map resetForecast
    is_producible := q.m_queue.map (fun elem => empire.ProducibleItem elem.item elem.location)
    queue_element_groups :=
      q.m_queue.map (fun element => elementGroup empire.industry_output element.location)
    sim_queue_original_indices := List.range (q.m_queue.map resetForecast).length
    m_queue := (authoritativePass rules q context empire).queue
    sim_pp_in_stockpile := empire.industry_stockpile
    sim_available_stockpile :=
      min empire.industry_stockpile (StockpileCapacity q.m_empire_id context.planets)
    dummy_int := 0 }

/-- An element with the three fields that `Update` writes set to fixed values: what is left
are the fields that `Update` only reads. -/
def clearUpdateFields (e : Element) : Element :=
  { e with allocated_pp := 0, turns_left_to_next_item := -1, turns_left_to_completion := -1 }

/-- A forecast is either `-1` or a turn number from 1 to `TOO_MANY_TURNS`. -/
def forecastInRange (forecast : Int) : Prop :=
  forecast = -1 ∨ (1 ≤ forecast ∧ forecast ≤ (TOO_MANY_TURNS : Int))

/-- The rows of the simulated queue that stand for the real entry `j` carry the group `G`, are
not allowed to use the imperial stockpile, and are not flagged as completing a batch. -/
def starvedRows (j : Nat) (G : ObjectGroup) (s : SimulationState) : Prop :=
  ∀ k : Nat, s.sim_queue_original_indices[k]? = some j →
    s.queue_element_groups.getD k ∅ = G ∧
    ∀ e : Element, s.sim_queue[k]? = some e →
      e.allowed_imperial_stockpile_use = false ∧ e.turns_left_to_next_item ≠ 1

/-- An element with `allocated_pp` set to 0, as line 208 leaves it before the skip tests. -/
def zeroAllocated (e : Element) : Element := { e with allocated_pp := 0 }

/-- A simulation state with `allocated_pp` set to 0 in every simulated element. -/
def SimulationState.zeroAllocated (s : SimulationState) : SimulationState :=
  { s with sim_queue := s.sim_queue.map FreeOrion.zeroAllocated }

/-! ## Accessors -/

/-- The source function `ProductionQueue::ProjectsInProgress`. -/
def ProductionQueue.ProjectsInProgress (q : ProductionQueue) : Int := q.m_projects_in_progress

/-- The source function `ProductionQueue::TotalPPsSpent`: the allocated PP of all resource
sharing object groups added up. -/
def ProductionQueue.TotalPPsSpent (q : ProductionQueue) : ℚ :=
  q.m_object_group_allocated_pp.foldl (fun retval entry => retval + entry.2) 0

/-- The source function `ProductionQueue::AllocatedPP`. -/
def ProductionQueue.AllocatedPP (q : ProductionQueue) : GroupMap := q.m_object_group_allocated_pp

/-- The source function `ProductionQueue::AllocatedStockpilePP`. -/
def ProductionQueue.AllocatedStockpilePP (q : ProductionQueue) : GroupMap :=
  q.m_object_group_allocated_stockpile_pp

/-- One iteration of the loop of `ObjectsWithWastedPP` over the output of the pool. -/
def addWastedGroup (allocated_pp : GroupMap) (retval : Finset ObjectGroup)
    (entry : ObjectGroup × ℚ) : Finset ObjectGroup :=
  if entry.2 ≤ 0 then retval
  else
    match mapFind allocated_pp entry.1 with
    | none => insert entry.1 retval
    | some allocated => if allocated < entry.2 then insert entry.1 retval else retval

/-- The source function `ProductionQueue::ObjectsWithWastedPP`. The resource pool (a class
that is not part of the sources at hand) is given by its output map, `none` standing for a null
pool. -/
def ProductionQueue.ObjectsWithWastedPP (q : ProductionQueue) (industry_pool : Option GroupMap) :
    Finset ObjectGroup :=
  match industry_pool with
  | none => ∅
  | some output => output.foldl (addWastedGroup q.m_object_group_allocated_pp) ∅

/-- The local `basic_element_per_turn_limit` of `CalculateProductionPerTurnLimit` (lines 83 to
90): the cost of the block divided by the build time, the build time being at least 1. -/
def basic_element_per_turn_limit (queue_element : Element) (item_cost : ℚ)
    (build_turns : Int) : ℚ :=
  item_cost * (queue_element.blocksize : ℚ) / ((max build_turns 1 : Int) : ℚ)

/-- Two items have the same kind and the same kind-specific identity: the name for buildings,
the design id for ships, nothing more for the other kinds. -/
def sameIdentity (a b : ProductionItem) : Prop :=
  a.build_type = b.build_type ∧
    (a.build_type = BuildType.BT_BUILDING → a.name = b.name) ∧
    (a.build_type = BuildType.BT_SHIP → a.design_id = b.design_id)

/-- The key of lines 236 to 238 under which the pass looks up the cost and time of an element:
its item and its location, or the sentinel when the cost does not depend on the location. -/
def costKey (the_universe : Universe) (queue_element : Element) : ProductionItem × Int :=
  (queue_element.item,
    if queue_element.item.CostIsProductionLocationInvariant the_universe then INVALID_OBJECT_ID
    else queue_element.location)

/-- The accounting invariant of a pass that starts with the group availabilities
`available_pp` and the reserve availability `available_stockpile`: the dummy source holds 0,
no availability is negative, and what each consumption map records is what the matching
availability has lost. -/
def conservation (available_pp : GroupMap) (available_stockpile : ℚ) (st : SpendingState) :
    Prop :=
  st.dummy_pp_source = 0 ∧ 0 ≤ st.available_stockpile ∧
  (∀ g, 0 ≤ groupPPAvailable st g) ∧
  (∀ g, 0 ≤ (mapFind st.allocated_pp g).getD 0) ∧
  (∀ g, (mapFind st.allocated_pp g).getD 0 + groupPPAvailable st g =
    (mapFind available_pp g).getD 0) ∧
  0 ≤ mapSum st.allocated_stockpile_pp ∧
  mapSum st.allocated_stockpile_pp + st.available_stockpile = available_stockpile

/-- The source function `ProductionQueue::IndexOfUUID`. -/
def ProductionQueue.IndexOfUUID (q : ProductionQueue) (uuid : Nat) : Int :=
  if q.findUUID uuid = q.size then -1 else (q.findUUID uuid : Int)

/-- The test of line 316 on the amounts of one iteration: the element was funded and its
computed allocation is positive. -/
def countsAsInProgress (amounts : Option ElementSpending) : Bool :=
  match amounts with
  | some s => decide (s.allocation > 0)
  | none => false

/-- The simulated queue and its parallel vectors are in correspondence: the four lists have
the same length, the original indices are strictly increasing and in range of the real queue,
and each simulated element carries the unique identifier of the real element at its original
index. -/
def corresponding (s : SimulationState) : Prop :=
  s.is_producible.length = s.sim_queue.length ∧
  s.queue_element_groups.length = s.sim_queue.length ∧
  s.sim_queue_original_indices.length = s.sim_queue.length ∧
  s.sim_queue_original_indices.Pairwise (fun a b => a < b) ∧
  (∀ idx ∈ s.sim_queue_original_indices, idx < s.m_queue.length) ∧
  (∀ (i : Nat) (e : Element) (idx : Nat), s.sim_queue[i]? = some e →
    s.sim_queue_original_indices[i]? = some idx →
    ∃ orig : Element, s.m_queue[idx]? = some orig ∧ e.uuid = orig.uuid)

/-- No element of the simulated queue is paused or unproducible. -/
def noneUnproducible (s : SimulationState) : Prop :=
  ∀ (i : Nat) (e : Element), s.sim_queue[i]? = some e →
    e.paused = false ∧ s.is_producible.getD i false = true

/-- The order that the forecasts of a real element keep during the simulation: a next-batch
forecast other than -1 lies between 1 and `bound`, and with a completion forecast other than
-1 the next-batch forecast is set, at least 1 and at most the completion forecast, which is at
least the number of remaining batches. -/
def forecastsOrdered (bound : Int) (e : Element) : Prop :=
  (e.turns_left_to_next_item ≠ -1 →
    1 ≤ e.turns_left_to_next_item ∧ e.turns_left_to_next_item ≤ bound) ∧
  (e.turns_left_to_completion ≠ -1 →
    e.turns_left_to_next_item ≠ -1 ∧ 1 ≤ e.turns_left_to_next_item ∧
      e.turns_left_to_next_item ≤ e.turns_left_to_completion ∧
      e.remaining ≤ e.turns_left_to_completion)

/-- Row `j` of the simulated queue has lost at most `k` batches: the remaining count `R[idx]`
of the real element at its original index exceeds the row's remaining count by at most `k`. -/
def remainingWithin (k : Int) (R : List Int) (s : SimulationState) (j : Nat) : Prop :=
  ∀ (idx : Nat) (es : Element) (r : Int), s.sim_queue_original_indices[j]? = some idx →
    s.sim_queue[j]? = some es → R[idx]? = some r → r ≤ es.remaining + k

/-! ## Binary floating point

The source computes in C++ `float` (IEEE 754 binary32) and, for the two smoothing rules, in
`double` (binary64). The definitions of this section give the rounding of a rational to the
nearest number of such a format, a tie going to the neighbour with an even significand; the
namespace `Binary32` below reads the arithmetic of the source with that rounding after every
operation. Gradual underflow is part of the model; overflow to infinity and NaN are not (the
exponent is unbounded upwards). -/

/-- Rounding of a rational to the nearest integer, a tie going to the even neighbour. -/
def roundHalfEven (q : ℚ) : ℤ :=
  if q - (⌊q⌋ : ℚ) < 1 / 2 then ⌊q⌋
  else if 1 / 2 < q - (⌊q⌋ : ℚ) then ⌊q⌋ + 1
  else if ⌊q⌋ % 2 = 0 then ⌊q⌋
  else ⌊q⌋ + 1

/-- The spacing of the binary floating point numbers with `prec` significand bits and least
normal exponent `emin` in the binade of `x`; below `2 ^ emin` the spacing is that of the
subnormal numbers. -/
def ulpBinary (prec : ℕ) (emin : ℤ) (x : ℚ) : ℚ :=
  (2 : ℚ) ^ (max (Int.log 2 |x|) emin - ((prec : ℤ) - 1))

/-- Rounding to the nearest binary floating point number with `prec` significand bits and least
normal exponent `emin`, ties to even. -/
def roundBinary (prec : ℕ) (emin : ℤ) (x : ℚ) : ℚ :=
  (roundHalfEven (x / ulpBinary prec emin x) : ℚ) * ulpBinary prec emin x

/-- Rounding to C++ `float` (binary32: 24 significand bits, least normal exponent -126). -/
def roundF32 (x : ℚ) : ℚ := roundBinary 24 (-126) x

/-- Rounding to C++ `double` (binary64: 53 significand bits, least normal exponent -1022). -/
def roundF64 (x : ℚ) : ℚ := roundBinary 53 (-1022) x

/-- The rational `x` is a `float`: it is its own binary32 rounding. -/
def isF32 (x : ℚ) : Prop := roundF32 x = x

/-- The multiples of the least spacing `2 ^ (emin - (prec - 1))` of a binary format. -/
def onGridBinary (prec : ℕ) (emin : ℤ) (x : ℚ) : Prop :=
  ∃ k : ℤ, x = (k : ℚ) * (2 : ℚ) ^ (emin - ((prec : ℤ) - 1))

/-- The bound `1 + 2 ^ (-24)` on the factor by which one binary32 rounding changes a sum or a
difference of two `float`s. -/
def roundingFactor : ℚ := 1 + 1 / 2 ^ 24

/-! ## The arithmetic of the source in binary32

The functions of the source that compute with `float`s, with every operation rounded as the
hardware rounds it. Control flow and order of operations are those of the exact reading above;
the numbers that enter (costs, availabilities, meters, progress) are taken as they are. -/

namespace Binary32

/-- The constant `EPSILON = 0.001f`: the `float` nearest to 1/1000. -/
def EPSILON : ℚ := roundF32 (1 / 1000)

/-- Update `m[g] += x` in `float`, relying on the default initial mapped value `0` for an absent
key. -/
def mapAdd (m : GroupMap) (g : ObjectGroup) (x : ℚ) : GroupMap :=
  match m with
  | [] => [(g, roundF32 (0 + x))]
  | (k, v) :: rest =>
    if k = g then (k, roundF32 (v + x)) :: rest else (k, v) :: mapAdd rest g x

/-- Sum of all mapped values (`boost::accumulate(m | map_values, 0.0f)`), accumulated in `float`
in the order of the map. -/
def mapSum (m : GroupMap) : ℚ :=
  m.foldl (fun acc kv => roundF32 (acc + kv.2)) 0

/-- The source function `CalculateProductionPerTurnLimit`. The two rules are `double`s, their
products with `0.01` and the difference of line 81 are computed in `double` and then cast to
`float`; integers are converted to `float` where they meet one. -/
def CalculateProductionPerTurnLimit (rules : GameRules) (queue_element : Element)
    (item_cost : ℚ) (build_turns : Int) : ℚ :=
  let frontload_limit_factor : ℚ :=
    roundF32 (roundF64 (rules.RULE_PRODUCTION_QUEUE_FRONTLOAD_FACTOR * roundF64 (1 / 100)))
  let topping_up_limit_factor : ℚ :=
    roundF32 (max 0
      (roundF64 (roundF64 (rules.RULE_PRODUCTION_QUEUE_TOPPING_UP_FACTOR * roundF64 (1 / 100)) -
        frontload_limit_factor)))
  let item_cost : ℚ := roundF32 (item_cost * roundF32 (queue_element.blocksize : ℚ))
  let build_turns : Int := max build_turns 1
  let element_accumulated_PP : ℚ := roundF32 (queue_element.progress * item_cost)
  let element_total_cost : ℚ := roundF32 (item_cost * roundF32 (queue_element.remaining : ℚ))
  let additional_pp_to_complete_element : ℚ :=
    roundF32 (element_total_cost - element_accumulated_PP)
  let additional_pp_to_complete_item : ℚ := roundF32 (item_cost - element_accumulated_PP)
  let basic_element_per_turn_limit : ℚ := roundF32 (item_cost / roundF32 (build_turns : ℚ))
  let frontload : ℚ :=
    roundF32
      (roundF32
          (roundF32
              (1 + roundF32
                (frontload_limit_factor / roundF32 ((max (build_turns - 1) 1 : Int) : ℚ))) *
            basic_element_per_turn_limit) -
        roundF32 (2 * EPSILON))
  let topping_up_limit : ℚ :=
    roundF32 (basic_element_per_turn_limit +
      min (roundF32 (topping_up_limit_factor * item_cost))
        (roundF32 (basic_element_per_turn_limit - roundF32 (2 * EPSILON))))
  let topping_up : ℚ :=
    if additional_pp_to_complete_item < topping_up_limit then additional_pp_to_complete_item
    else basic_element_per_turn_limit
  min additional_pp_to_complete_element
    (max basic_element_per_turn_limit (max frontload topping_up))

/-- The source function `ProductionQueue::StockpileCapacity`, the meters summed in `float`. -/
def StockpileCapacity (m_empire_id : Int) (planets : List Planet) : ℚ :=
  if m_empire_id = ALL_EMPIRES then 0
  else
    (planets.filter (fun p => decide (p.owner = m_empire_id))).foldl
      (fun retval obj =>
        match obj.stockpile_meter with
        | some current => roundF32 (retval + current)
        | none => retval) 0

/-- Body of the loop over `available_pp` in `CalculateNewStockpile`. -/
def addGroupExcess (allocated_pp : GroupMap) (new_contributions : ℚ)
    (available_group : ObjectGroup × ℚ) : ℚ :=
  let allocated_here : ℚ :=
    match mapFind allocated_pp available_group.1 with
    | none => 0
    | some v => v
  let excess_here : ℚ := roundF32 (available_group.2 - allocated_here)
  if excess_here < EPSILON then new_contributions
  else roundF32 (new_contributions + excess_here)

/-- The source function `CalculateNewStockpile`. -/
def CalculateNewStockpile (rules : GameRules) (empire_id : Int) (starting_stockpile : ℚ)
    (project_transfer_to_stockpile : ℚ) (available_pp allocated_pp : GroupMap)
    (allocated_stockpile_pp : GroupMap) (context : ScriptingContext) : ℚ :=
  match context.GetEmpire empire_id with
  | none => 0
  | some empire =>
    let stockpile_limit : ℚ := StockpileCapacity empire.production_queue_empire_id context.planets
    let stockpile_used : ℚ := mapSum allocated_stockpile_pp
    let new_contributions : ℚ := available_pp.foldl (addGroupExcess allocated_pp) 0
    let new_contributions : ℚ :=
      if roundF32 (new_contributions + project_transfer_to_stockpile) > stockpile_limit ∧
          rules.RULE_STOCKPILE_IMPORT_LIMITED = true then
        roundF32 (stockpile_limit - project_transfer_to_stockpile)
      else new_contributions
    roundF32
      (roundF32 (roundF32 (starting_stockpile + new_contributions) +
          project_transfer_to_stockpile) -
        stockpile_used)

/-- The amounts computed for an element that is funded (lines 236 to 301 of the source). -/
def spendOnElement (p : SpendingParams) (st : SpendingState) (queue_element : Element)
    (group : ObjectGroup) : ElementSpending :=
  let item_cost : ℚ := (lookupCostTime p queue_element).1
  let build_turns : Int := (lookupCostTime p queue_element).2
  let element_this_turn_limit : ℚ :=
    CalculateProductionPerTurnLimit p.rules queue_element item_cost build_turns
  let group_pp_available : ℚ := groupPPAvailable st group
  let stockpile_available_for_this : ℚ :=
    if queue_element.allowed_imperial_stockpile_use then st.available_stockpile else 0
  let allocation : ℚ :=
    max 0 (min element_this_turn_limit
      (roundF32 (group_pp_available + stockpile_available_for_this)))
  let allocation : ℚ :=
    if queue_element.item.build_type = BuildType.BT_STOCKPILE ∧
        p.rules.RULE_STOCKPILE_IMPORT_LIMITED = true then
      min allocation (max 0 (roundF32 (p.stockpile_limit - st.stockpile_transfer)))
    else allocation
  let group_drawdown : ℚ := min allocation group_pp_available
  let stockpile_drawdown : ℚ :=
    if allocation ≤ group_drawdown then 0 else roundF32 (allocation - group_drawdown)
  let stockpile_drawdown : ℚ := min stockpile_drawdown st.available_stockpile
  { item_cost := item_cost
    build_turns := build_turns
    element_this_turn_limit := element_this_turn_limit
    group_pp_available := group_pp_available
    stockpile_available_for_this := stockpile_available_for_this
    allocation := allocation
    group_drawdown := group_drawdown
    stockpile_drawdown := stockpile_drawdown }

/-- The state after the element was funded with the amounts `s` (lines 285 to 317). -/
def recordSpending (st : SpendingState) (queue_element : Element) (group : ObjectGroup)
    (s : ElementSpending) : SpendingState :=
  let st : SpendingState :=
    { st with allocated_pp := mapAdd st.allocated_pp group s.group_drawdown }
  let st : SpendingState :=
    if queue_element.item.build_type = BuildType.BT_STOCKPILE then
      { st with stockpile_transfer := roundF32 (st.stockpile_transfer + s.group_drawdown) }
    else st
  let st : SpendingState :=
    setGroupPPAvailable st group (roundF32 (s.group_pp_available - s.group_drawdown))
  let st : SpendingState :=
    if s.stockpile_drawdown > 0 then
      { st with
        allocated_stockpile_pp := mapAdd st.allocated_stockpile_pp group s.stockpile_drawdown
        available_stockpile := roundF32 (st.available_stockpile - s.stockpile_drawdown) }
    else st
  if s.allocation > 0 then { st with projects_in_progress := st.projects_in_progress + 1 }
  else st

/-- The completion test of line 309. -/
def completesThisTurn (block_cost progress allocated_pp : ℚ) : Bool :=
  decide (roundF32 (roundF32 (block_cost * roundF32 (1 - progress)) - allocated_pp) < EPSILON)

/-- The element after it was funded with the amounts `s` (lines 280 and 307 to 314). -/
def fundElement (simulating : Bool) (queue_element : Element) (s : ElementSpending) : Element :=
  let queue_element : Element := { queue_element with allocated_pp := max s.allocation EPSILON }
  let block_cost : ℚ := roundF32 (s.item_cost * roundF32 (queue_element.blocksize : ℚ))
  let queue_element : Element :=
    if completesThisTurn block_cost queue_element.progress queue_element.allocated_pp then
      { queue_element with turns_left_to_next_item := 1 }
    else queue_element
  if simulating then
    { queue_element with
      progress :=
        roundF32 (queue_element.progress + roundF32 (s.allocation / max EPSILON block_cost)) }
  else queue_element

/-- One iteration of the loop of `SetProdQueueElementSpending`. -/
def elementStep (p : SpendingParams) (st : SpendingState) (queue_element : Element)
    (group : ObjectGroup) (producible : Bool) :
    SpendingState × Element × Option ElementSpending :=
  let queue_element : Element := { queue_element with allocated_pp := 0 }
  if skipsElement st queue_element group producible then (st, queue_element, none)
  else
    let s : ElementSpending := spendOnElement p st queue_element group
    (recordSpending st queue_element group s, fundElement p.simulating queue_element s, some s)

/-- The loop of `SetProdQueueElementSpending` from index `i` on. -/
def spendingLoop (p : SpendingParams) :
    Nat → List Element → SpendingState →
      SpendingState × List Element × List (Option ElementSpending)
  | _, [], st => (st, [], [])
  | i, queue_element :: rest, st =>
    let r := elementStep p st queue_element
      (p.queue_element_resource_sharing_object_groups.getD i ∅) (p.is_producible.getD i false)
    let r2 := spendingLoop p (i + 1) rest r.1
    (r2.1, r.2.1 :: r2.2.1, r.2.2 :: r2.2.2)

/-- The source function `SetProdQueueElementSpending`. -/
def SetProdQueueElementSpending (rules : GameRules) (available_pp : GroupMap)
    (available_stockpile stockpile_limit : ℚ)
    (queue_element_resource_sharing_object_groups : List ObjectGroup)
    (queue_item_costs_and_times : CostTimeMap) (is_producible : List Bool)
    (queue : List Element) (allocated_pp allocated_stockpile_pp : GroupMap)
    (projects_in_progress : Int) (simulating : Bool) (the_universe : Universe) :
    SpendingResult :=
  if queue.length ≠ queue_element_resource_sharing_object_groups.length then
    { retval := 0
      queue := queue
      allocated_pp := allocated_pp
      allocated_stockpile_pp := allocated_stockpile_pp
      projects_in_progress := projects_in_progress }
  else
    let p : SpendingParams :=
      { rules := rules
        stockpile_limit := stockpile_limit
        queue_element_resource_sharing_object_groups :=
          queue_element_resource_sharing_object_groups
        queue_item_costs_and_times := queue_item_costs_and_times
        is_producible := is_producible
        simulating := simulating
        the_universe := the_universe }
    let r := spendingLoop p 0 queue (initialSpendingState available_pp available_stockpile)
    { retval := r.1.stockpile_transfer
      queue := r.2.1
      allocated_pp := r.1.allocated_pp
      allocated_stockpile_pp := r.1.allocated_stockpile_pp
      projects_in_progress := r.1.projects_in_progress }

/-- The state of the pass on entry to the element at index `k`. -/
def stateBeforeEntry (p : SpendingParams) (queue : List Element) (st0 : SpendingState)
    (k : Nat) : SpendingState :=
  (spendingLoop p 0 (queue.take k) st0).1

end Binary32

namespace Binary32

/-- The amounts of a turn on which the element receives exactly its per-turn limit, all of it
from its group. -/
def limitSpending (rules : GameRules) (item_cost : ℚ) (build_turns : Int)
    (queue_element : Element) : ElementSpending :=
  { item_cost := item_cost
    build_turns := build_turns
    element_this_turn_limit :=
      CalculateProductionPerTurnLimit rules queue_element item_cost build_turns
    group_pp_available := CalculateProductionPerTurnLimit rules queue_element item_cost build_turns
    stockpile_available_for_this := 0
    allocation := CalculateProductionPerTurnLimit rules queue_element item_cost build_turns
    group_drawdown := CalculateProductionPerTurnLimit rules queue_element item_cost build_turns
    stockpile_drawdown := 0 }

/-- One simulated turn on which the element receives exactly its per-turn limit, its next-batch
flag having been reset to `-1` as the simulator does between turns. -/
def limitFundedTurn (rules : GameRules) (item_cost : ℚ) (build_turns : Int)
    (queue_element : Element) : Element :=
  fundElement true { queue_element with turns_left_to_next_item := -1 }
    (limitSpending rules item_cost build_turns queue_element)

/-- The element after `n` simulated turns on each of which it received exactly its limit, cost
and build time staying the same. -/
def limitFundedTurns (rules : GameRules) (item_cost : ℚ) (build_turns : Int) :
    Nat → Element → Element
  | 0, queue_element => queue_element
  | n + 1, queue_element =>
    limitFundedTurn rules item_cost build_turns
      (limitFundedTurns rules item_cost build_turns n queue_element)

/-- Whether the completion test of the pass fires on turn `k` (turns counted from 1) of such a
run. -/
def completionFiresOnTurn (rules : GameRules) (item_cost : ℚ) (build_turns : Int)
    (queue_element : Element) (k : Nat) : Bool :=
  decide ((limitFundedTurns rules item_cost build_turns k queue_element).turns_left_to_next_item
    = 1)

/-- The loop of lines 853 to 871 from index `i` on, in simulated turn `sim_turn`. -/
def completionLoop (sim_turn : Int) : Nat → Nat → SimulationState → SimulationState
  | 0, _, s => s
  | fuel + 1, i, s =>
    match s.sim_queue[i]? with
    | none => s
    | some sim_element =>
      if sim_element.turns_left_to_next_item ≠ 1 then completionLoop sim_turn fuel (i + 1) s
      else
        let sim_element : Element :=
          { sim_element with progress := max 0 (roundF32 (sim_element.progress - 1)) }
        let m_queue : List Element :=
          match s.sim_queue_original_indices[i]? with
          | some idx => modifyAt (stampNextItem sim_turn) idx s.m_queue
          | none => s.m_queue
        let sim_element : Element := { sim_element with turns_left_to_next_item := -1 }
        let sim_element : Element := { sim_element with remaining := sim_element.remaining - 1 }
        if sim_element.remaining = 0 then
          let m_queue : List Element :=
            match s.sim_queue_original_indices[i]? with
            | some idx => modifyAt (stampCompletion sim_turn) idx m_queue
            | none => m_queue
          completionLoop sim_turn fuel i ({ s with m_queue := m_queue }.eraseRow i)
        else
          completionLoop sim_turn fuel (i + 1)
            { s with sim_queue := s.sim_queue.set i sim_element, m_queue := m_queue }

/-- The body of the loop over simulated turns (lines 844 to 876). -/
def simulateTurn (sp : SimulationParams) (sim_turn : Nat) (s : SimulationState) :
    SimulationState :=
  let r := SetProdQueueElementSpending sp.rules sp.available_pp s.sim_available_stockpile
    sp.stockpile_limit s.queue_element_groups sp.queue_item_costs_and_times s.is_producible
    s.sim_queue [] [] s.dummy_int true sp.context.ContextUniverse
  let s1 : SimulationState :=
    completionLoop (sim_turn : Int) r.queue.length 0
      { s with sim_queue := r.queue, dummy_int := r.projects_in_progress }
  let sim_pp_in_stockpile : ℚ :=
    CalculateNewStockpile sp.rules sp.m_empire_id s.sim_pp_in_stockpile r.retval
      sp.available_pp r.allocated_pp r.allocated_stockpile_pp sp.context
  { s1 with
    sim_pp_in_stockpile := sim_pp_in_stockpile
    sim_available_stockpile := min sim_pp_in_stockpile sp.stockpile_limit }

/-- The loop over simulated turns of lines 835 to 877. -/
def simulateTurns (sp : SimulationParams) : Nat → Nat → SimulationState → SimulationState
  | 0, _, s => s
  | fuel + 1, sim_turn, s =>
    if sp.timed_out sim_turn then s
    else if s.sim_queue.isEmpty && decide (sim_turn > 2) then s
    else simulateTurns sp fuel (sim_turn + 1) (simulateTurn sp sim_turn s)

/-- The source function `ProductionQueue::Update`. -/
def Update (rules : GameRules) (timed_out : Nat → Bool) (q : ProductionQueue)
    (context : ScriptingContext) : ProductionQueue :=
  match context.GetEmpire q.m_empire_id with
  | none => { q with m_projects_in_progress := 0, m_object_group_allocated_pp := [] }
  | some empire =>
    let available_pp : GroupMap := empire.industry_output
    let pp_in_stockpile : ℚ := empire.industry_stockpile
    let stockpile_limit : ℚ := StockpileCapacity q.m_empire_id context.planets
    let available_stockpile : ℚ := min pp_in_stockpile stockpile_limit
    let queue_element_groups : List ObjectGroup :=
      q.m_queue.map (fun element => elementGroup available_pp element.location)
    let queue_item_costs_and_times : CostTimeMap := cacheCosts context q.m_queue []
    let is_producible : List Bool :=
      q.m_queue.map (fun elem => empire.ProducibleItem elem.item elem.location)
    let m_queue : List Element := q.m_queue.map resetForecast
    let sim_queue : List Element := m_queue
    let sim_queue_original_indices : List Nat := List.range sim_queue.length
    let r := SetProdQueueElementSpending rules available_pp available_stockpile stockpile_limit
      queue_element_groups queue_item_costs_and_times is_producible m_queue
      q.m_object_group_allocated_pp q.m_object_group_allocated_stockpile_pp
      q.m_projects_in_progress false context.ContextUniverse
    let q1 : ProductionQueue :=
      { q with
        m_queue := r.queue
        m_projects_in_progress := r.projects_in_progress
        m_object_group_allocated_pp := r.allocated_pp
        m_object_group_allocated_stockpile_pp := r.allocated_stockpile_pp
        m_expected_new_stockpile_amount :=
          CalculateNewStockpile rules q.m_empire_id pp_in_stockpile r.retval available_pp
            r.allocated_pp r.allocated_stockpile_pp context
        m_expected_project_transfer_to_stockpile := r.retval }
    if available_pp.any (fun available => decide (available.2 > EPSILON)) then
      let s0 : SimulationState :=
        removeUnproducible sim_queue.length 0
          { sim_queue := sim_queue
            is_producible := is_producible
            queue_element_groups := queue_element_groups
            sim_queue_original_indices := sim_queue_original_indices
            m_queue := q1.m_queue
            sim_pp_in_stockpile := pp_in_stockpile
            sim_available_stockpile := available_stockpile
            dummy_int := 0 }
      let sp : SimulationParams :=
        { rules := rules
          timed_out := timed_out
          m_empire_id := q.m_empire_id
          available_pp := available_pp
          stockpile_limit := stockpile_limit
          queue_item_costs_and_times := queue_item_costs_and_times
          context := context }
      { q1 with m_queue := (simulateTurns sp TOO_MANY_TURNS 1 s0).m_queue }
    else q1

end Binary32

namespace Binary32

/-- The per-turn limit of an element in a pass: `CalculateProductionPerTurnLimit` at the cost
and time the pass looks up for it. -/
def elementLimit (p : SpendingParams) (queue_element : Element) : ℚ :=
  CalculateProductionPerTurnLimit p.rules queue_element (lookupCostTime p queue_element).1
    (lookupCostTime p queue_element).2

/-- Invariant of the binary32 pass for the import limit `L`: the running transfer is a
non-negative `float` that exceeds `L` by at most two roundings, and every group availability
is a non-negative `float`. -/
def transferWithin (L : ℚ) (st : SpendingState) : Prop :=
  isF32 st.stockpile_transfer ∧ 0 ≤ st.stockpile_transfer ∧
  st.stockpile_transfer ≤ L * roundingFactor ^ 2 ∧
  ∀ g, isF32 (groupPPAvailable st g) ∧ 0 ≤ groupPPAvailable st g

end Binary32

namespace Binary32

/-- Invariant of the binary32 pass after `k` iterations, for the initial group availabilities
`available_pp` and the initial reserve availability `available_stockpile`: all availabilities
and all recorded consumptions are non-negative `float`s, and what each consumption map records
plus what is still available exceeds the initial availability by at most `k` roundings. -/
def roundedConservation (available_pp : GroupMap) (available_stockpile : ℚ) (k : Nat)
    (st : SpendingState) : Prop :=
  (isF32 st.available_stockpile ∧ 0 ≤ st.available_stockpile) ∧
  (∀ g, isF32 (groupPPAvailable st g) ∧ 0 ≤ groupPPAvailable st g) ∧
  (∀ g, isF32 ((mapFind st.allocated_pp g).getD 0) ∧ 0 ≤ (mapFind st.allocated_pp g).getD 0) ∧
  (∀ g, (mapFind st.allocated_pp g).getD 0 + groupPPAvailable st g ≤
    (mapFind available_pp g).getD 0 * roundingFactor ^ k) ∧
  (∀ kv ∈ st.allocated_stockpile_pp, isF32 kv.2 ∧ 0 ≤ kv.2) ∧
  (st.allocated_stockpile_pp.map Prod.snd).sum + st.available_stockpile ≤
    available_stockpile * roundingFactor ^ k

end Binary32

/-- The parameters of the authoritative binary32 pass of `Update` for a resolved empire. -/
def Binary32.updateSpendingParams (rules : GameRules) (q : ProductionQueue)
    (context : ScriptingContext) (empire : Empire) : SpendingParams :=
  { rules := rules
    stockpile_limit := Binary32.StockpileCapacity q.m_empire_id context.planets
    queue_element_resource_sharing_object_groups :=
      q.m_queue.map (fun element => elementGroup empire.industry_output element.location)
    queue_item_costs_and_times := cacheCosts context q.m_queue []
    is_producible := q.m_queue.map (fun elem => empire.ProducibleItem elem.item elem.location)
    simulating := false
    the_universe := context.ContextUniverse }

/-- The state in which the authoritative binary32 pass of `Update` starts. -/
def Binary32.updateStart (q : ProductionQueue) (context : ScriptingContext) (empire : Empire) :
    SpendingState :=
  initialSpendingState empire.industry_output
    (min empire.industry_stockpile (Binary32.StockpileCapacity q.m_empire_id context.planets))

/-- The sum of the group excesses of the specification (section 4.3) read in binary32: over
every group of the availability map, in the order of the map, the `float` excess
`available − consumed` (`consumed` taken as 0 for a group without an entry in the consumption
map), for the groups where that excess is at least `ε`, accumulated in `float`. -/
def Binary32.excessSum (available consumed : GroupMap) : ℚ :=
  ((available.map (fun g => roundF32 (g.2 - (mapFind consumed g.1).getD 0))).filter
    (fun x => decide (Binary32.EPSILON ≤ x))).foldl (fun acc x => roundF32 (acc + x)) 0

/-- The contributions `C` of the specification (section 4.3) read in binary32: the sum of the
group excesses, replaced by the `float` `capacity − directTransfer` when import limiting is
enabled and the `float` sum plus `directTransfer` exceeds the capacity. -/
def Binary32.contributionsReference (limited : Bool) (capacity directTransfer : ℚ)
    (available consumed : GroupMap) : ℚ :=
  if limited = true ∧
      capacity < roundF32 (Binary32.excessSum available consumed + directTransfer) then
    roundF32 (capacity - directTransfer)
  else Binary32.excessSum available consumed

/-- The block cost of the rate limiter: the unit cost times the blocksize, in `float`
(`item_cost *= queue_element.blocksize`, line 83). -/
def Binary32.blockCost (item_cost : ℚ) (queue_element : Element) : ℚ :=
  roundF32 (item_cost * roundF32 (queue_element.blocksize : ℚ))

/-- The local `frontload_limit_factor` of `CalculateProductionPerTurnLimit` (lines 77 and 78):
the rule times `0.01` in `double`, cast to `float`. -/
def Binary32.frontloadLimitFactor (rules : GameRules) : ℚ :=
  roundF32 (roundF64 (rules.RULE_PRODUCTION_QUEUE_FRONTLOAD_FACTOR * roundF64 (1 / 100)))

/-- The local `topping_up_limit_factor` of `CalculateProductionPerTurnLimit` (lines 80 and 81):
the effective topping-up factor, what the topping-up rule exceeds the frontload factor by. -/
def Binary32.toppingUpLimitFactor (rules : GameRules) : ℚ :=
  roundF32 (max 0
    (roundF64 (roundF64 (rules.RULE_PRODUCTION_QUEUE_TOPPING_UP_FACTOR * roundF64 (1 / 100)) -
      Binary32.frontloadLimitFactor rules)))

/-- The local `basic_element_per_turn_limit` of `CalculateProductionPerTurnLimit` (line 90) for
the block cost `block_cost`. -/
def Binary32.basicLimit (block_cost : ℚ) (build_turns : Int) : ℚ :=
  roundF32 (block_cost / roundF32 ((max build_turns 1 : Int) : ℚ))

/-- The local `frontload` of `CalculateProductionPerTurnLimit` (lines 92 and 93) for the block
cost `block_cost`. -/
def Binary32.frontloadLimit (rules : GameRules) (block_cost : ℚ) (build_turns : Int) : ℚ :=
  roundF32
    (roundF32
        (roundF32
            (1 + roundF32
              (Binary32.frontloadLimitFactor rules /
                roundF32 ((max (max build_turns 1 - 1) 1 : Int) : ℚ))) *
          Binary32.basicLimit block_cost build_turns) -
      roundF32 (2 * Binary32.EPSILON))

/-- The larger of the basic and the frontloaded per-turn limit, in binary32. -/
def Binary32.steadyLimit (rules : GameRules) (block_cost : ℚ) (build_turns : Int) : ℚ :=
  max (Binary32.basicLimit block_cost build_turns)
    (Binary32.frontloadLimit rules block_cost build_turns)

/-! ## Sample data -/

/-- A building item used in the examples. -/
def sampleItem : ProductionItem := { build_type := BuildType.BT_BUILDING, name := "BLD" }

/-- A universe in which no building type and no ship design is known. -/
def sampleUniverse : Universe := ⟨fun _ => none, fun _ => none⟩

/-- Cost 40 and minimum build time 4 for the sample item. -/
def sampleCosts : CostTimeMap := [((sampleItem, INVALID_OBJECT_ID), (40, 4))]

/-- One unpaused entry of the sample item: blocksize 1, one batch remaining, no progress. -/
def sampleElement : Element := { item := sampleItem, ordered := 1, remaining := 1, uuid := 1 }

/-- Parameters of a pass over a one-element queue located in the group `{1}`. -/
def sampleParams : SpendingParams :=
  { rules := {}
    stockpile_limit := 0
    queue_element_resource_sharing_object_groups := [{1}]
    queue_item_costs_and_times := sampleCosts
    is_producible := [true]
    simulating := false
    the_universe := sampleUniverse }

/-- A second entry of the sample item, queued behind the first. -/
def sampleElementTwo : Element := { item := sampleItem, ordered := 1, remaining := 1, uuid := 2 }

/-- The two sample entries in queue order. -/
def sampleQueueTwo : List Element := [sampleElement, sampleElementTwo]

/-- Parameters of a pass over the two-element sample queue, both entries in the group `{1}`. -/
def sampleParamsTwo : SpendingParams :=
  { rules := {}
    stockpile_limit := 0
    queue_element_resource_sharing_object_groups := [{1}, {1}]
    queue_item_costs_and_times := sampleCosts
    is_producible := [true, true]
    simulating := false
    the_universe := sampleUniverse }

/-- An empire whose production queue belongs to empire 0. -/
def sampleEmpire : Empire := { production_queue_empire_id := 0 }

/-- A context in which empire 0 resolves to the sample empire and owns one planet whose
stockpile meter stands at 5. -/
def sampleContext : ScriptingContext :=
  { GetEmpire := fun i => if i = 0 then some sampleEmpire else none
    planets := [{ owner := 0, stockpile_meter := some 5 }] }

/-- The stockpile-transfer item (`ProductionItem(BuildType::BT_STOCKPILE)`). -/
def stockpileItem : ProductionItem :=
  { build_type := BuildType.BT_STOCKPILE, name := "PROJECT_BT_STOCKPILE" }

/-- Cost 1 and build time 1 per unit of stockpile transfer, the value that
`ProductionItem::ProductionCostAndTime` gives for a stockpile-transfer item. -/
def stockpileCosts : CostTimeMap := [((stockpileItem, INVALID_OBJECT_ID), (1, 1))]

/-- A stockpile-transfer entry with a batch of 4. -/
def stockpileElementOne : Element :=
  { item := stockpileItem, ordered := 1, remaining := 1, blocksize := 4, uuid := 1 }

/-- A reserve-eligible stockpile-transfer entry with a batch of 3. -/
def stockpileElementTwo : Element :=
  { item := stockpileItem
    ordered := 1
    remaining := 1
    blocksize := 3
    allowed_imperial_stockpile_use := true
    uuid := 2 }

/-- The two stockpile-transfer entries in queue order. -/
def stockpileQueue : List Element := [stockpileElementOne, stockpileElementTwo]

/-- Parameters of a pass over the stockpile-transfer queue, with import limiting enabled, a
capacity of 5, and the entries located in the groups `{1}` and `{2}`. -/
def stockpileParams : SpendingParams :=
  { rules := { RULE_STOCKPILE_IMPORT_LIMITED := true }
    stockpile_limit := 5
    queue_element_resource_sharing_object_groups := [{1}, {2}]
    queue_item_costs_and_times := stockpileCosts
    is_producible := [true, true]
    simulating := false
    the_universe := sampleUniverse }

/-- The sample entry, allowed to use the imperial stockpile. -/
def reserveElement : Element := { sampleElement with allowed_imperial_stockpile_use := true }

/-- Start of a pass in which the group `{1}` has 0 available and the reserve has 5. -/
def reserveStart : SpendingState := initialSpendingState [({1}, 0)] 5

/-- The queue that holds the reserve-eligible sample entry only. -/
def reserveQueue : List Element := [reserveElement]

/-- Rules with a frontload factor of 10 percent and a topping-up factor of 30 percent. -/
def bothFactorsRules : GameRules :=
  { RULE_PRODUCTION_QUEUE_FRONTLOAD_FACTOR := 10, RULE_PRODUCTION_QUEUE_TOPPING_UP_FACTOR := 30 }

/-- A production queue of empire 0 that holds the two sample entries. -/
def sampleProductionQueue : ProductionQueue := { m_queue := sampleQueueTwo, m_empire_id := 0 }

/-- An entry whose unique identifier is the nil identifier. -/
def nilElement : Element := { item := sampleItem, ordered := 1, remaining := 1, uuid := 0 }

/-- Identifiers are pairwise distinct apart from the nil identifier: two entries at different
positions share an identifier only if it is nil. -/
def distinctUUIDs (queue : List Element) : Prop :=
  queue.Pairwise (fun a b => a.uuid = b.uuid → a.uuid = 0)

/-- A clock that never reports the time budget of the simulation as used up. -/
def noTimeout : Nat → Bool := fun _ => false

/-- One unpaused entry of the sample item at location 1: blocksize 1, one batch remaining, no
progress. -/
def scenarioElement : Element :=
  { item := sampleItem, empire_id := 0, ordered := 1, remaining := 1, location := 1, uuid := 1 }

/-- A universe that knows the building type of the sample item, with a location-invariant
cost. -/
def scenarioUniverse : Universe :=
  ⟨fun name => if name = "BLD" then some true else none, fun _ => none⟩

/-- An empire whose industry pool has one group `{1}` with 10 available and an empty
stockpile, and for which every item is producible. -/
def scenarioEmpire : Empire :=
  { production_queue_empire_id := 0, industry_output := [({1}, 10)], industry_stockpile := 0 }

/-- A context in which empire 0 is the scenario empire, no planet has a stockpile meter, and
every building costs 40 with a minimum build time of 4. -/
def scenarioContext : ScriptingContext :=
  { GetEmpire := fun i => if i = 0 then some scenarioEmpire else none
    planets := []
    ContextUniverse := scenarioUniverse
    buildingCostAndTime := fun _ _ _ => (40, 4) }

/-- The production queue of empire 0 that holds the scenario entry only. -/
def scenarioQueue : ProductionQueue := { m_queue := [scenarioElement], m_empire_id := 0 }

/-- The scenario entry as `Update` leaves it: allocation 10 and both forecasts 4. -/
def scenarioResult : Element :=
  { scenarioElement with
    allocated_pp := 10, turns_left_to_next_item := 4, turns_left_to_completion := 4 }

/-- The parameters of the simulation that `Update` runs for the scenario queue. -/
def scenarioSimulation : SimulationParams :=
  { rules := {}
    timed_out := noTimeout
    m_empire_id := 0
    available_pp := [({1}, 10)]
    stockpile_limit := 0
    queue_item_costs_and_times := sampleCosts
    context := scenarioContext }

/-- The state of the scenario simulation in which the simulated entry has the given progress
and allocation, and the real queue is as the authoritative pass left it. -/
def scenarioState (progress allocated_pp : ℚ) : SimulationState :=
  { sim_queue := [{ scenarioElement with progress := progress, allocated_pp := allocated_pp }]
    is_producible := [true]
    queue_element_groups := [{1}]
    sim_queue_original_indices := [0]
    m_queue := [{ scenarioElement with allocated_pp := 10 }]
    sim_pp_in_stockpile := 0
    sim_available_stockpile := 0
    dummy_int := if progress = 0 then 0 else 1 }

/-- The state of the scenario simulation after the entry was completed in turn 4. -/
def scenarioDone : SimulationState :=
  { sim_queue := []
    is_producible := []
    queue_element_groups := []
    sim_queue_original_indices := []
    m_queue := [{ scenarioElement with
      allocated_pp := 10, turns_left_to_next_item := 4, turns_left_to_completion := 4 }]
    sim_pp_in_stockpile := 0
    sim_available_stockpile := 0
    dummy_int := 1 }

/-- The scenario entry three quarters done and allowed to use the imperial stockpile. -/
def lateElement : Element :=
  { scenarioElement with progress := 3 / 4, allowed_imperial_stockpile_use := true }

/-- An empire whose only group `{1}` has nothing available and whose stockpile holds 50. -/
def reserveEmpire : Empire :=
  { production_queue_empire_id := 0, industry_output := [({1}, 0)], industry_stockpile := 50 }

/-- A context in which empire 0 is the reserve empire and owns one planet whose stockpile meter
stands at 50, and every building costs 40 with a minimum build time of 4. -/
def reserveContext : ScriptingContext :=
  { GetEmpire := fun i => if i = 0 then some reserveEmpire else none
    planets := [{ owner := 0, stockpile_meter := some 50 }]
    ContextUniverse := scenarioUniverse
    buildingCostAndTime := fun _ _ _ => (40, 4) }

/-- The production queue of empire 0 that holds the late entry only. -/
def lateQueue : ProductionQueue := { m_queue := [lateElement], m_empire_id := 0 }

/-- An empire whose only group `{1}` has nothing available and whose stockpile is empty. -/
def emptyEmpire : Empire :=
  { production_queue_empire_id := 0, industry_output := [({1}, 0)], industry_stockpile := 0 }

/-- A context in which empire 0 is the empty empire. -/
def emptyContext : ScriptingContext :=
  { GetEmpire := fun i => if i = 0 then some emptyEmpire else none
    planets := [{ owner := 0, stockpile_meter := some 50 }]
    ContextUniverse := scenarioUniverse
    buildingCostAndTime := fun _ _ _ => (40, 4) }

/-- An empire whose group `{1}` has nothing available while its group `{2}` has 10, with an
empty stockpile. -/
def twoGroupEmpire : Empire :=
  { production_queue_empire_id := 0, industry_output := [({1}, 0), ({2}, 10)] }

/-- A context in which empire 0 is the empire of two groups and every building costs 40 with a
minimum build time of 4. -/
def twoGroupContext : ScriptingContext :=
  { GetEmpire := fun i => if i = 0 then some twoGroupEmpire else none
    ContextUniverse := scenarioUniverse
    buildingCostAndTime := fun _ _ _ => (40, 4) }

/-- The production queue of empire 0 with the scenario entry at location 1 followed by an entry
of the same item at location 2. -/
def twoGroupQueue : ProductionQueue :=
  { m_queue := [scenarioElement, { scenarioElement with location := 2, uuid := 2 }]
    m_empire_id := 0 }

/-- A context in which no empire resolves. -/
def noEmpireContext : ScriptingContext := { GetEmpire := fun _ => none }

/-- The queue of the late entry as a resolved `Update` leaves it when the entry is funded with
10 from the imperial stockpile of 50. -/
def fundedFromReserve : ProductionQueue :=
  { m_queue := [{ lateElement with allocated_pp := 10, turns_left_to_next_item := 1 }]
    m_projects_in_progress := 1
    m_object_group_allocated_pp := [({1}, 0)]
    m_object_group_allocated_stockpile_pp := [({1}, 10)]
    m_expected_new_stockpile_amount := 40
    m_expected_project_transfer_to_stockpile := 0
    m_empire_id := 0 }

/-- A queue object whose allocation map records 19999/2000 spent in the group `{1}`. -/
def nearlySpentQueue : ProductionQueue :=
  { m_object_group_allocated_pp := [({1}, 19999 / 2000)] }

/-- Two building items of the same name that differ in the design id, a field that the order
of items does not read for buildings. -/
def buildingWithDesign (design_id : Int) : ProductionItem :=
  { build_type := BuildType.BT_BUILDING, name := "BLD", design_id := design_id }

/-- The sample parameters with an empty cost and time map. -/
def missingCostParams : SpendingParams := { sampleParams with queue_item_costs_and_times := [] }

/-- Game rules with a frontload factor of 30 percent and no topping up. -/
def frontloadRules : GameRules := { RULE_PRODUCTION_QUEUE_FRONTLOAD_FACTOR := 30 }

/-- The scenario entry with three batches remaining, the first of them four fifths done. -/
def batchElement : Element :=
  { scenarioElement with ordered := 3, remaining := 3, progress := 4 / 5 }

/-- A simulation under the frontload rules in which the group `{1}` has 100 available each turn
and the sample item costs 40 with a minimum build time of 1 turn. -/
def overshootSimulation : SimulationParams :=
  { rules := frontloadRules
    timed_out := noTimeout
    m_empire_id := 0
    available_pp := [({1}, 100)]
    stockpile_limit := 0
    queue_item_costs_and_times := [((sampleItem, INVALID_OBJECT_ID), (40, 1))]
    context := scenarioContext }

/-- The state of the simulation before a turn in which the simulated queue holds the entry of
three batches. -/
def overshootState : SimulationState :=
  { sim_queue := [batchElement]
    is_producible := [true]
    queue_element_groups := [{1}]
    sim_queue_original_indices := [0]
    m_queue := [batchElement]
    sim_pp_in_stockpile := 0
    sim_available_stockpile := 0
    dummy_int := 0 }

/-- A stockpile-transfer entry with a batch of 1 whose next unit is four fifths done (the
`float` nearest to 0.8). -/
def partTransferElement : Element :=
  { item := stockpileItem, ordered := 1, remaining := 1, blocksize := 1,
    progress := roundF32 (4 / 5), uuid := 1 }

/-- A stockpile-transfer entry with a batch of 2. -/
def pairTransferElement : Element :=
  { item := stockpileItem, ordered := 1, remaining := 1, blocksize := 2, uuid := 2 }

/-- Parameters of a pass over two stockpile-transfer entries of the group `{1}`, with import
limiting enabled and a capacity of 1.4 (the `float` nearest to it). -/
def roundingParams : SpendingParams :=
  { rules := { RULE_STOCKPILE_IMPORT_LIMITED := true }
    stockpile_limit := roundF32 (7 / 5)
    queue_element_resource_sharing_object_groups := [{1}, {1}]
    queue_item_costs_and_times := stockpileCosts
    is_producible := [true, true]
    simulating := false
    the_universe := sampleUniverse }

/-- A ship item of design 1. -/
def shipItem : ProductionItem := { build_type := BuildType.BT_SHIP, design_id := 1 }

/-- A universe that knows every building type and every ship design, all with a
location-invariant cost. -/
def roundingUniverse : Universe := ⟨fun _ => some true, fun _ => some true⟩

/-- An unpaused entry of the sample building at location 1 that may use the imperial
stockpile: blocksize 1, one batch remaining, no progress. -/
def smallElementOne : Element :=
  { item := sampleItem, empire_id := 0, ordered := 1, remaining := 1, location := 1,
    allowed_imperial_stockpile_use := true, uuid := 1 }

/-- A second entry of the same building. -/
def smallElementTwo : Element := { smallElementOne with uuid := 2 }

/-- An entry of the ship item at location 1 that may use the imperial stockpile. -/
def largeElement : Element := { smallElementOne with item := shipItem, uuid := 3 }

/-- Parameters of a pass over three entries of the group `{1}`, import limiting disabled, in
which the building costs 0.1 (the `float` nearest to it) and the ship 1000, both with a minimum
build time of 1 turn. -/
def reserveRoundingParams : SpendingParams :=
  { rules := {}
    stockpile_limit := 50
    queue_element_resource_sharing_object_groups := [{1}, {1}, {1}]
    queue_item_costs_and_times :=
      [((sampleItem, INVALID_OBJECT_ID), (roundF32 (1 / 10), 1)),
        ((shipItem, INVALID_OBJECT_ID), (1000, 1))]
    is_producible := [true, true, true]
    simulating := false
    the_universe := roundingUniverse }

/-- A context in which empire 0 is the sample empire and owns one planet whose stockpile meter
stands at 1.4 (the `float` nearest to it). -/
def capacityContext : ScriptingContext :=
  { GetEmpire := fun i => if i = 0 then some sampleEmpire else none
    planets := [{ owner := 0, stockpile_meter := some (roundF32 (7 / 5)) }] }

/-- Rules with a topping-up factor of 30 percent and no frontloading. -/
def toppingUpRules : GameRules := { RULE_PRODUCTION_QUEUE_TOPPING_UP_FACTOR := 30 }

/-! ## Theorems -/

/-- C1: the rate limiter `CalculateProductionPerTurnLimit` equals the reference formula of the
specification, for every entry, unit cost and build time. -/
theorem C1_limit_eq_reference (rules : GameRules) (queue_element : Element) (item_cost : ℚ)
    (build_turns : Int) :
    CalculateProductionPerTurnLimit rules queue_element item_cost build_turns =
      perTurnLimitReference item_cost queue_element.blocksize queue_element.remaining
        queue_element.progress build_turns rules.RULE_PRODUCTION_QUEUE_FRONTLOAD_FACTOR
        rules.RULE_PRODUCTION_QUEUE_TOPPING_UP_FACTOR := by
  simp only [CalculateProductionPerTurnLimit, perTurnLimitReference]
  rw [mul_comm (1 + _) (item_cost * (queue_element.blocksize : ℚ) / _)]


/-! ### The loop of the allocation pass -/

theorem spendingLoop_length (p : SpendingParams) (q : List Element) :
    ∀ (i : Nat) (st : SpendingState),
      (spendingLoop p i q st).2.1.length = q.length ∧
      (spendingLoop p i q st).2.2.length = q.length := by
  induction q with
  | nil => intro i st; simp [spendingLoop]
  | cons e rest ih =>
    intro i st
    simp only [spendingLoop, List.length_cons]
    exact ⟨by rw [(ih _ _).1], by rw [(ih _ _).2]⟩

theorem spendingLoop_append (p : SpendingParams) (xs ys : List Element) :
    ∀ (i : Nat) (st : SpendingState),
      spendingLoop p i (xs ++ ys) st =
        ((spendingLoop p (i + xs.length) ys (spendingLoop p i xs st).1).1,
         (spendingLoop p i xs st).2.1 ++
           (spendingLoop p (i + xs.length) ys (spendingLoop p i xs st).1).2.1,
         (spendingLoop p i xs st).2.2 ++
           (spendingLoop p (i + xs.length) ys (spendingLoop p i xs st).1).2.2) := by
  induction xs with
  | nil => intro i st; simp [spendingLoop]
  | cons e rest ih =>
    intro i st
    rw [List.cons_append]
    simp only [spendingLoop, ih, List.length_cons]
    simp [Nat.add_assoc, Nat.add_comm 1]

/-- The element at index `k` is processed by one `elementStep` from the state reached after the
first `k` elements. -/
theorem spendingLoop_entry (p : SpendingParams) (q : List Element) (st0 : SpendingState)
    (k : Nat) (e : Element) (hk : q[k]? = some e) :
    (spendingLoop p 0 q st0).2.1[k]? =
        some (elementStep p (stateBeforeEntry p q st0 k) e
          (p.queue_element_resource_sharing_object_groups.getD k ∅)
          (p.is_producible.getD k false)).2.1 ∧
      (spendingLoop p 0 q st0).2.2[k]? =
        some (elementStep p (stateBeforeEntry p q st0 k) e
          (p.queue_element_resource_sharing_object_groups.getD k ∅)
          (p.is_producible.getD k false)).2.2 ∧
      stateBeforeEntry p q st0 (k + 1) =
        (elementStep p (stateBeforeEntry p q st0 k) e
          (p.queue_element_resource_sharing_object_groups.getD k ∅)
          (p.is_producible.getD k false)).1 := by
  have hlt : k < q.length := by
    rcases Nat.lt_or_ge k q.length with h | h
    · exact h
    · rw [List.getElem?_eq_none h] at hk; cases hk
  have he : q[k] = e := by
    rw [List.getElem?_eq_getElem hlt] at hk
    exact Option.some.inj hk
  have hsplit : q = q.take k ++ e :: q.drop (k + 1) := by
    rw [← he, List.getElem_cons_drop q k hlt, List.take_append_drop]
  have hlen : (q.take k).length = k := by
    rw [List.length_take]; omega
  have hlen1 := (spendingLoop_length p (q.take k) 0 st0).1
  have hlen2 := (spendingLoop_length p (q.take k) 0 st0).2
  have htake : q.take (k + 1) = q.take k ++ [e] := by
    rw [← he, List.take_succ, List.getElem?_eq_getElem hlt]; rfl
  refine ⟨?_, ?_, ?_⟩
  · rw [hsplit, spendingLoop_append]
    simp only [hlen, Nat.zero_add, spendingLoop]
    rw [← hsplit, List.getElem?_append_right (by omega)]
    simp [hlen1, hlen, stateBeforeEntry]
  · rw [hsplit, spendingLoop_append]
    simp only [hlen, Nat.zero_add, spendingLoop]
    rw [← hsplit, List.getElem?_append_right (by omega)]
    simp [hlen2, hlen, stateBeforeEntry]
  · simp only [stateBeforeEntry]
    rw [htake, spendingLoop_append]
    simp [hlen, spendingLoop]

/-! ### One iteration -/

theorem elementStep_skip (p : SpendingParams) (st : SpendingState) (e : Element)
    (g : ObjectGroup) (b : Bool) (h : skipsElement st e g b = true) :
    elementStep p st e g b = (st, { e with allocated_pp := 0 }, none) := by
  have h2 : skipsElement st { e with allocated_pp := 0 } g b = true := h
  simp [elementStep, h2]

theorem elementStep_fund (p : SpendingParams) (st : SpendingState) (e : Element)
    (g : ObjectGroup) (b : Bool) (h : skipsElement st e g b = false) :
    elementStep p st e g b =
      (recordSpending st e g (spendOnElement p st e g),
       fundElement p.simulating { e with allocated_pp := 0 } (spendOnElement p st e g),
       some (spendOnElement p st e g)) := by
  have h2 : skipsElement st { e with allocated_pp := 0 } g b = false := h
  have h3 : spendOnElement p st { e with allocated_pp := 0 } g = spendOnElement p st e g := rfl
  have h4 : ∀ s, recordSpending st { e with allocated_pp := 0 } g s = recordSpending st e g s :=
    fun _ => rfl
  simp [elementStep, h2, h3, h4]

theorem EPSILON_pos : 0 < EPSILON := by norm_num [EPSILON]

/-- The allocation of a funded element never exceeds the unclamped formula and is never
negative. -/
theorem spendOnElement_allocation_bounds (p : SpendingParams) (st : SpendingState)
    (e : Element) (g : ObjectGroup) :
    0 ≤ (spendOnElement p st e g).allocation ∧
      (spendOnElement p st e g).allocation ≤
        max 0 (min (elementLimit p e) (groupPPAvailable st g + reserveShare st e)) := by
  simp only [spendOnElement, elementLimit, reserveShare]
  by_cases h : e.item.build_type = BuildType.BT_STOCKPILE ∧
      p.rules.RULE_STOCKPILE_IMPORT_LIMITED = true
  · rw [if_pos h]
    exact ⟨le_min (le_max_left _ _) (le_max_left _ _), min_le_left _ _⟩
  · rw [if_neg h]
    exact ⟨le_max_left _ _, le_refl _⟩

theorem SetProdQueueElementSpending_eq_loop (p : SpendingParams) (available_pp : GroupMap)
    (available_stockpile : ℚ) (queue : List Element) (a0 as0 : GroupMap) (pip0 : Int)
    (hlen : queue.length = p.queue_element_resource_sharing_object_groups.length) :
    SetProdQueueElementSpending p.rules available_pp available_stockpile p.stockpile_limit
        p.queue_element_resource_sharing_object_groups p.queue_item_costs_and_times
        p.is_producible queue a0 as0 pip0 p.simulating p.the_universe =
      { retval :=
          (spendingLoop p 0 queue
            (initialSpendingState available_pp available_stockpile)).1.stockpile_transfer
        queue :=
          (spendingLoop p 0 queue (initialSpendingState available_pp available_stockpile)).2.1
        allocated_pp :=
          (spendingLoop p 0 queue
            (initialSpendingState available_pp available_stockpile)).1.allocated_pp
        allocated_stockpile_pp :=
          (spendingLoop p 0 queue
            (initialSpendingState available_pp available_stockpile)).1.allocated_stockpile_pp
        projects_in_progress :=
          (spendingLoop p 0 queue
            (initialSpendingState available_pp available_stockpile)).1.projects_in_progress } := by
  simp [SetProdQueueElementSpending, hlen]

/-! ### Claims -/

/-- C3: in an allocation pass, for every entry that is not skipped and is not a
stockpile-transfer item, the amounts computed for it exist and its allocation is
`max(0, min(limit, groupAvailable + reserveShare))`, where `limit` is
`CalculateProductionPerTurnLimit` for the entry, `groupAvailable` is what remains of its group
after the earlier entries were processed, and `reserveShare` is the remaining reserve
availability if the entry is reserve-eligible and `0` otherwise. -/
theorem C3_allocation_formula (p : SpendingParams) (available_pp : GroupMap)
    (available_stockpile : ℚ) (queue : List Element) (k : Nat) (e : Element)
    (hk : queue[k]? = some e)
    (hfunded : skipsElement
      (stateBeforeEntry p queue (initialSpendingState available_pp available_stockpile) k) e
      (p.queue_element_resource_sharing_object_groups.getD k ∅)
      (p.is_producible.getD k false) = false)
    (hkind : e.item.build_type ≠ BuildType.BT_STOCKPILE) :
    ∃ s : ElementSpending,
      (spendingLoop p 0 queue
        (initialSpendingState available_pp available_stockpile)).2.2[k]? = some (some s) ∧
      s.element_this_turn_limit =
        CalculateProductionPerTurnLimit p.rules e (lookupCostTime p e).1 (lookupCostTime p e).2 ∧
      s.allocation = max 0 (min s.element_this_turn_limit
        (groupPPAvailable
            (stateBeforeEntry p queue (initialSpendingState available_pp available_stockpile) k)
            (p.queue_element_resource_sharing_object_groups.getD k ∅) +
          reserveShare
            (stateBeforeEntry p queue (initialSpendingState available_pp available_stockpile) k)
            e)) := by
  obtain ⟨-, h2, -⟩ := spendingLoop_entry p queue
    (initialSpendingState available_pp available_stockpile) k e hk
  rw [elementStep_fund p _ e _ _ hfunded] at h2
  refine ⟨_, h2, rfl, ?_⟩
  simp [spendOnElement, reserveShare, hkind]

/-- Witness of C3: the one-element sample queue with 10 available in its group. -/
theorem C3_allocation_formula_witness :
    ∃ s : ElementSpending,
      (spendingLoop sampleParams 0 [sampleElement]
        (initialSpendingState [({1}, 10)] 0)).2.2[0]? = some (some s) ∧
      s.element_this_turn_limit =
        CalculateProductionPerTurnLimit sampleParams.rules sampleElement
          (lookupCostTime sampleParams sampleElement).1
          (lookupCostTime sampleParams sampleElement).2 ∧
      s.allocation = max 0 (min s.element_this_turn_limit
        (groupPPAvailable
            (stateBeforeEntry sampleParams [sampleElement]
              (initialSpendingState [({1}, 10)] 0) 0)
            (sampleParams.queue_element_resource_sharing_object_groups.getD 0 ∅) +
          reserveShare
            (stateBeforeEntry sampleParams [sampleElement]
              (initialSpendingState [({1}, 10)] 0) 0)
            sampleElement)) :=
  C3_allocation_formula sampleParams [({1}, 10)] 0 [sampleElement] 0 sampleElement rfl
    (by
      norm_num +decide [stateBeforeEntry, spendingLoop, skipsElement, groupPPAvailable, mapFind,
        initialSpendingState, sampleParams, sampleElement])
    (by decide)

/-- The loop reads the group list and the producibility list only at the indices of the
elements it processes. -/
theorem spendingLoop_congr (p : SpendingParams) (gs : List ObjectGroup) (pr : List Bool)
    (q : List Element) :
    ∀ (i : Nat) (st : SpendingState),
      (∀ j, i ≤ j → j < i + q.length →
        gs.getD j ∅ = p.queue_element_resource_sharing_object_groups.getD j ∅ ∧
        pr.getD j false = p.is_producible.getD j false) →
      spendingLoop
        { p with queue_element_resource_sharing_object_groups := gs, is_producible := pr }
        i q st = spendingLoop p i q st := by
  induction q with
  | nil => intro i st _; rfl
  | cons e rest ih =>
    intro i st h
    have h0 := h i (le_refl _) (by simp)
    simp only [spendingLoop, h0.1, h0.2]
    have hstep : ∀ s g b, elementStep
        { p with queue_element_resource_sharing_object_groups := gs, is_producible := pr }
        s e g b = elementStep p s e g b := fun _ _ _ => rfl
    rw [hstep, ih (i + 1) _ (fun j hj1 hj2 => h j (by omega) (by simp; omega))]

theorem take_append_of_length_min {α : Type} (A B : List α) (k n : Nat)
    (hA : A.length = min k n) (hB : n ≤ k → B = []) : (A ++ B).take k = A := by
  rw [List.take_append_eq_append_take]
  rcases Nat.le_total k n with h | h
  · have hAk : A.length = k := by rw [hA]; exact Nat.min_eq_left h
    rw [List.take_of_length_le (le_of_eq hAk), hAk, Nat.sub_self, List.take_zero,
      List.append_nil]
  · have hAk : A.length ≤ k := by rw [hA]; exact Nat.min_le_left _ _
    rw [hB h, List.take_of_length_le hAk, List.take_nil, List.append_nil]

/-- The entries and amounts of the first `k` elements are those of the loop run on the first
`k` elements only. -/
theorem spendingLoop_take (p : SpendingParams) (q : List Element) (st : SpendingState)
    (k : Nat) :
    (spendingLoop p 0 (q.take k) st).2.1 = (spendingLoop p 0 q st).2.1.take k ∧
      (spendingLoop p 0 (q.take k) st).2.2 = (spendingLoop p 0 q st).2.2.take k := by
  have happ := spendingLoop_append p (q.take k) (q.drop k) 0 st
  rw [List.take_append_drop] at happ
  have hl := spendingLoop_length p (q.take k) 0 st
  have hlk : (q.take k).length = min k q.length := List.length_take k q
  have hB1 : q.length ≤ k → (spendingLoop p (0 + (q.take k).length) (q.drop k)
      (spendingLoop p 0 (q.take k) st).1).2.1 = [] := by
    intro h; rw [List.drop_eq_nil_of_le h]; rfl
  have hB2 : q.length ≤ k → (spendingLoop p (0 + (q.take k).length) (q.drop k)
      (spendingLoop p 0 (q.take k) st).1).2.2 = [] := by
    intro h; rw [List.drop_eq_nil_of_le h]; rfl
  constructor
  · rw [happ]
    exact (take_append_of_length_min _ _ k q.length (hl.1.trans hlk) hB1).symm
  · rw [happ]
    exact (take_append_of_length_min _ _ k q.length (hl.2.trans hlk) hB2).symm

/-- C5: first come, first served. On a structurally consistent input, the entries produced by
a pass over the whole queue, cut to the first `k`, are the entries produced by a pass over the
queue truncated to its first `k` entries (group list and producibility list truncated alike);
and so are the amounts computed for these entries (allocation, group drawdown, reserve
drawdown): an earlier entry does not depend on the existence of any later entry. -/
theorem C5_first_come_first_served (p : SpendingParams) (available_pp : GroupMap)
    (available_stockpile : ℚ) (queue : List Element) (a0 as0 : GroupMap) (pip0 : Int) (k : Nat)
    (hlen : queue.length = p.queue_element_resource_sharing_object_groups.length) :
    (SetProdQueueElementSpending p.rules available_pp available_stockpile p.stockpile_limit
        (p.queue_element_resource_sharing_object_groups.take k) p.queue_item_costs_and_times
        (p.is_producible.take k) (queue.take k) a0 as0 pip0 p.simulating p.the_universe).queue =
      (SetProdQueueElementSpending p.rules available_pp available_stockpile p.stockpile_limit
        p.queue_element_resource_sharing_object_groups p.queue_item_costs_and_times
        p.is_producible queue a0 as0 pip0 p.simulating p.the_universe).queue.take k ∧
    (spendingLoop
        { p with
          queue_element_resource_sharing_object_groups :=
            p.queue_element_resource_sharing_object_groups.take k
          is_producible := p.is_producible.take k }
        0 (queue.take k) (initialSpendingState available_pp available_stockpile)).2.2 =
      (spendingLoop p 0 queue
        (initialSpendingState available_pp available_stockpile)).2.2.take k := by
  have hcongr := spendingLoop_congr p (p.queue_element_resource_sharing_object_groups.take k)
    (p.is_producible.take k) (queue.take k) 0
    (initialSpendingState available_pp available_stockpile)
    (by
      intro j _ hj
      have hjk : j < k := by
        rw [List.length_take] at hj; omega
      simp [List.getD_eq_getElem?_getD, List.getElem?_take, hjk])
  have htake := spendingLoop_take p queue
    (initialSpendingState available_pp available_stockpile) k
  have hlenk : (queue.take k).length =
      (p.queue_element_resource_sharing_object_groups.take k).length := by
    simp [List.length_take, hlen]
  constructor
  · have h1 := SetProdQueueElementSpending_eq_loop
      { p with
        queue_element_resource_sharing_object_groups :=
          p.queue_element_resource_sharing_object_groups.take k
        is_producible := p.is_producible.take k }
      available_pp available_stockpile (queue.take k) a0 as0 pip0 hlenk
    have h2 := SetProdQueueElementSpending_eq_loop p available_pp available_stockpile queue a0
      as0 pip0 hlen
    simp only at h1
    rw [h1, h2, hcongr]
    exact htake.1
  · rw [hcongr]
    exact htake.2

/-- Witness of C5: a two-element queue sharing the group `{1}`, truncated to its first entry. -/
theorem C5_first_come_first_served_witness :
    (SetProdQueueElementSpending sampleParamsTwo.rules [({1}, 10)] 0
        sampleParamsTwo.stockpile_limit
        (sampleParamsTwo.queue_element_resource_sharing_object_groups.take 1)
        sampleParamsTwo.queue_item_costs_and_times
        (sampleParamsTwo.is_producible.take 1) (sampleQueueTwo.take 1) [] [] 0
        sampleParamsTwo.simulating sampleParamsTwo.the_universe).queue =
      (SetProdQueueElementSpending sampleParamsTwo.rules [({1}, 10)] 0
        sampleParamsTwo.stockpile_limit
        sampleParamsTwo.queue_element_resource_sharing_object_groups
        sampleParamsTwo.queue_item_costs_and_times
        sampleParamsTwo.is_producible sampleQueueTwo [] [] 0
        sampleParamsTwo.simulating sampleParamsTwo.the_universe).queue.take 1 ∧
    (spendingLoop
        { sampleParamsTwo with
          queue_element_resource_sharing_object_groups :=
            sampleParamsTwo.queue_element_resource_sharing_object_groups.take 1
          is_producible := sampleParamsTwo.is_producible.take 1 }
        0 (sampleQueueTwo.take 1) (initialSpendingState [({1}, 10)] 0)).2.2 =
      (spendingLoop sampleParamsTwo 0 sampleQueueTwo
        (initialSpendingState [({1}, 10)] 0)).2.2.take 1 :=
  C5_first_come_first_served sampleParamsTwo [({1}, 10)] 0 sampleQueueTwo [] [] 0 1 rfl

/-- C6: in an allocation pass, an entry that is paused, or not producible this turn, or whose
group has at most 0 available while it is not reserve-eligible or the reserve has at most 0
available, comes out with `allocated_pp = 0` and all its other fields (progress, forecasts, ...)
as they were, no amounts are computed for it, and the state of the pass (every group
availability, the reserve availability, both consumption maps, the stockpile-transfer total and
the in-progress count) is the same after it as before it. -/
theorem C6_skipped_entry_frame (p : SpendingParams) (available_pp : GroupMap)
    (available_stockpile : ℚ) (queue : List Element) (k : Nat) (e : Element)
    (hk : queue[k]? = some e)
    (hskip : e.paused = true ∨ p.is_producible.getD k false = false ∨
      (groupPPAvailable
          (stateBeforeEntry p queue (initialSpendingState available_pp available_stockpile) k)
          (p.queue_element_resource_sharing_object_groups.getD k ∅) ≤ 0 ∧
        (e.allowed_imperial_stockpile_use = false ∨
          (stateBeforeEntry p queue (initialSpendingState available_pp available_stockpile)
            k).available_stockpile ≤ 0))) :
    (spendingLoop p 0 queue (initialSpendingState available_pp available_stockpile)).2.1[k]? =
        some { e with allocated_pp := 0 } ∧
      (spendingLoop p 0 queue (initialSpendingState available_pp available_stockpile)).2.2[k]? =
        some none ∧
      stateBeforeEntry p queue (initialSpendingState available_pp available_stockpile) (k + 1) =
        stateBeforeEntry p queue (initialSpendingState available_pp available_stockpile) k := by
  have hs : skipsElement
      (stateBeforeEntry p queue (initialSpendingState available_pp available_stockpile) k) e
      (p.queue_element_resource_sharing_object_groups.getD k ∅)
      (p.is_producible.getD k false) = true := by
    simp only [skipsElement, Bool.or_eq_true, Bool.and_eq_true, decide_eq_true_eq,
      Bool.not_eq_true']
    rcases hskip with h | h | ⟨h1, h2 | h2⟩
    · exact Or.inl (Or.inl h)
    · exact Or.inr h
    · exact Or.inl (Or.inr ⟨h1, Or.inr h2⟩)
    · exact Or.inl (Or.inr ⟨h1, Or.inl h2⟩)
  have h := spendingLoop_entry p queue
    (initialSpendingState available_pp available_stockpile) k e hk
  rw [elementStep_skip p _ e _ _ hs] at h
  exact h

/-- Witness of C6: the sample entry, paused. -/
theorem C6_skipped_entry_frame_witness :
    (spendingLoop sampleParams 0 [{ sampleElement with paused := true }]
        (initialSpendingState [({1}, 10)] 0)).2.1[0]? =
        some { { sampleElement with paused := true } with allocated_pp := 0 } ∧
      (spendingLoop sampleParams 0 [{ sampleElement with paused := true }]
        (initialSpendingState [({1}, 10)] 0)).2.2[0]? = some none ∧
      stateBeforeEntry sampleParams [{ sampleElement with paused := true }]
          (initialSpendingState [({1}, 10)] 0) (0 + 1) =
        stateBeforeEntry sampleParams [{ sampleElement with paused := true }]
          (initialSpendingState [({1}, 10)] 0) 0 :=
  C6_skipped_entry_frame sampleParams [({1}, 10)] 0 [{ sampleElement with paused := true }] 0
    { sampleElement with paused := true } rfl (Or.inl rfl)

/-- C7: if the length of the group list differs from the length of the queue, the allocation
pass returns a stockpile transfer of 0 and leaves the queue entries, the per-group consumption
map, the reserve-consumption map and the in-progress count exactly as they were. -/
theorem C7_length_mismatch_aborts (rules : GameRules) (available_pp : GroupMap)
    (available_stockpile stockpile_limit : ℚ)
    (queue_element_resource_sharing_object_groups : List ObjectGroup)
    (queue_item_costs_and_times : CostTimeMap) (is_producible : List Bool)
    (queue : List Element) (allocated_pp allocated_stockpile_pp : GroupMap)
    (projects_in_progress : Int) (simulating : Bool) (the_universe : Universe)
    (hne : queue_element_resource_sharing_object_groups.length ≠ queue.length) :
    SetProdQueueElementSpending rules available_pp available_stockpile stockpile_limit
        queue_element_resource_sharing_object_groups queue_item_costs_and_times is_producible
        queue allocated_pp allocated_stockpile_pp projects_in_progress simulating the_universe =
      { retval := 0
        queue := queue
        allocated_pp := allocated_pp
        allocated_stockpile_pp := allocated_stockpile_pp
        projects_in_progress := projects_in_progress } := by
  have h : queue.length ≠ queue_element_resource_sharing_object_groups.length :=
    fun h => hne h.symm
  simp [SetProdQueueElementSpending, h]

/-- Witness of C7: a one-element queue with an empty group list, and outputs of an earlier
pass in place. -/
theorem C7_length_mismatch_aborts_witness :
    SetProdQueueElementSpending {} [({1}, 10)] 0 0 [] sampleCosts [true]
        [{ sampleElement with allocated_pp := 7 }] [({1}, 7)] [({1}, 2)] 1 false sampleUniverse =
      { retval := 0
        queue := [{ sampleElement with allocated_pp := 7 }]
        allocated_pp := [({1}, 7)]
        allocated_stockpile_pp := [({1}, 2)]
        projects_in_progress := 1 } :=
  C7_length_mismatch_aborts {} [({1}, 10)] 0 0 [] sampleCosts [true]
    [{ sampleElement with allocated_pp := 7 }] [({1}, 7)] [({1}, 2)] 1 false sampleUniverse
    (by decide)


theorem addGroupExcess_eq (allocated_pp : GroupMap) (acc : ℚ) (g : ObjectGroup × ℚ) :
    addGroupExcess allocated_pp acc g =
      if g.2 - (mapFind allocated_pp g.1).getD 0 < EPSILON then acc
      else acc + (g.2 - (mapFind allocated_pp g.1).getD 0) := by
  unfold addGroupExcess
  cases mapFind allocated_pp g.1 <;> rfl

theorem foldl_addGroupExcess (allocated_pp : GroupMap) (available_pp : GroupMap) :
    ∀ acc : ℚ, available_pp.foldl (addGroupExcess allocated_pp) acc =
      acc + ((available_pp.map
        (fun g => g.2 - (mapFind allocated_pp g.1).getD 0)).filter
          (fun x => decide (EPSILON ≤ x))).sum := by
  induction available_pp with
  | nil => intro acc; simp
  | cons g rest ih =>
    intro acc
    simp only [List.foldl_cons, List.map_cons, ih]
    rw [addGroupExcess_eq]
    by_cases h : g.2 - (mapFind allocated_pp g.1).getD 0 < EPSILON
    · rw [if_pos h, List.filter_cons_of_neg (by simpa using h)]
    · rw [if_neg h, List.filter_cons_of_pos (by simpa using h), List.sum_cons]
      ring

theorem mapSum_eq_sum (m : GroupMap) : mapSum m = (m.map Prod.snd).sum := by
  have h : ∀ acc : ℚ, m.foldl (fun a kv => a + kv.2) acc = acc + (m.map Prod.snd).sum := by
    induction m with
    | nil => intro acc; simp
    | cons kv rest ih =>
      intro acc
      simp only [List.foldl_cons, ih, List.map_cons, List.sum_cons]
      ring
  simp [mapSum, h]

/-- Over exact numbers, without rounding: for a resolvable empire, `CalculateNewStockpile`
returns
`startingLevel + C + directTransfer − used`, where `used` is the sum of all per-group reserve
consumption and `C` is the sum, over every group of the availability map, of
`available − consumed` for the groups where that excess is at least `ε` (`consumed` taken as 0
for a group absent from the consumption map), except that when import limiting is enabled and
that sum plus `directTransfer` exceeds the reserve capacity, `C` is `capacity − directTransfer`;
hence with import limiting enabled `C + directTransfer ≤ capacity`. -/
theorem exact_new_stockpile_formula (rules : GameRules) (empire_id : Int)
    (starting_stockpile project_transfer_to_stockpile : ℚ)
    (available_pp allocated_pp allocated_stockpile_pp : GroupMap) (context : ScriptingContext)
    (empire : Empire) (hempire : context.GetEmpire empire_id = some empire) :
    CalculateNewStockpile rules empire_id starting_stockpile project_transfer_to_stockpile
        available_pp allocated_pp allocated_stockpile_pp context =
      starting_stockpile +
        contributionsReference rules.RULE_STOCKPILE_IMPORT_LIMITED
          (StockpileCapacity empire.production_queue_empire_id context.planets)
          project_transfer_to_stockpile available_pp allocated_pp +
        project_transfer_to_stockpile - (allocated_stockpile_pp.map Prod.snd).sum ∧
    (rules.RULE_STOCKPILE_IMPORT_LIMITED = true →
      contributionsReference rules.RULE_STOCKPILE_IMPORT_LIMITED
          (StockpileCapacity empire.production_queue_empire_id context.planets)
          project_transfer_to_stockpile available_pp allocated_pp +
        project_transfer_to_stockpile ≤
        StockpileCapacity empire.production_queue_empire_id context.planets) := by
  constructor
  · simp only [CalculateNewStockpile, hempire, foldl_addGroupExcess, mapSum_eq_sum, zero_add,
      gt_iff_lt, contributionsReference, excessSum]
    by_cases hlim : rules.RULE_STOCKPILE_IMPORT_LIMITED = true
    · by_cases hover : StockpileCapacity empire.production_queue_empire_id context.planets <
          ((available_pp.map (fun g => g.2 - (mapFind allocated_pp g.1).getD 0)).filter
            (fun x => decide (EPSILON ≤ x))).sum + project_transfer_to_stockpile
      · rw [if_pos ⟨hover, hlim⟩, if_pos ⟨hlim, hover⟩]
      · rw [if_neg (fun h => hover h.1), if_neg (fun h => hover h.2)]
    · rw [if_neg (fun h => hlim h.2), if_neg (fun h => hlim h.1)]
  · intro hlim
    simp only [contributionsReference, excessSum]
    by_cases hover : StockpileCapacity empire.production_queue_empire_id context.planets <
        ((available_pp.map (fun g => g.2 - (mapFind allocated_pp g.1).getD 0)).filter
          (fun x => decide (EPSILON ≤ x))).sum + project_transfer_to_stockpile
    · rw [if_pos ⟨hlim, hover⟩]; linarith
    · rw [if_neg (fun h => hover h.2)]; exact not_lt.mp hover

/-- Sample of the exact formula of the new stockpile: an empire with a reserve capacity of 5, one
group with 10 available of which 3 were consumed, import limiting enabled. -/
theorem exact_new_stockpile_formula_sample :
    CalculateNewStockpile { RULE_STOCKPILE_IMPORT_LIMITED := true } 0 2 1
        [({1}, 10)] [({1}, 3)] [({1}, 1)] sampleContext =
      2 +
        contributionsReference true
          (StockpileCapacity sampleEmpire.production_queue_empire_id sampleContext.planets)
          1 [({1}, 10)] [({1}, 3)] +
        1 - (([({1}, 1)] : GroupMap).map Prod.snd).sum ∧
    ((true : Bool) = true →
      contributionsReference true
          (StockpileCapacity sampleEmpire.production_queue_empire_id sampleContext.planets)
          1 [({1}, 10)] [({1}, 3)] + 1 ≤
        StockpileCapacity sampleEmpire.production_queue_empire_id sampleContext.planets) :=
  exact_new_stockpile_formula { RULE_STOCKPILE_IMPORT_LIMITED := true } 0 2 1
    [({1}, 10)] [({1}, 3)] [({1}, 1)] sampleContext sampleEmpire rfl


/-! ### What funding an element records -/

theorem setGroupPPAvailable_fields (st : SpendingState) (g : ObjectGroup) (x : ℚ) :
    (setGroupPPAvailable st g x).stockpile_transfer = st.stockpile_transfer ∧
    (setGroupPPAvailable st g x).allocated_pp = st.allocated_pp ∧
    (setGroupPPAvailable st g x).allocated_stockpile_pp = st.allocated_stockpile_pp ∧
    (setGroupPPAvailable st g x).available_stockpile = st.available_stockpile ∧
    (setGroupPPAvailable st g x).projects_in_progress = st.projects_in_progress := by
  unfold setGroupPPAvailable
  cases mapFind st.available_pp g <;> exact ⟨rfl, rfl, rfl, rfl, rfl⟩

theorem recordSpending_stockpile_transfer (st : SpendingState) (e : Element) (g : ObjectGroup)
    (s : ElementSpending) :
    (recordSpending st e g s).stockpile_transfer =
      if e.item.build_type = BuildType.BT_STOCKPILE then st.stockpile_transfer + s.group_drawdown
      else st.stockpile_transfer := by
  simp only [recordSpending]
  split_ifs <;> simp [(setGroupPPAvailable_fields _ _ _).1]

theorem recordSpending_allocated_pp (st : SpendingState) (e : Element) (g : ObjectGroup)
    (s : ElementSpending) :
    (recordSpending st e g s).allocated_pp = mapAdd st.allocated_pp g s.group_drawdown := by
  simp only [recordSpending]
  split_ifs <;> simp [(setGroupPPAvailable_fields _ _ _).2.1]

theorem recordSpending_allocated_stockpile_pp (st : SpendingState) (e : Element)
    (g : ObjectGroup) (s : ElementSpending) :
    (recordSpending st e g s).allocated_stockpile_pp =
      if s.stockpile_drawdown > 0 then mapAdd st.allocated_stockpile_pp g s.stockpile_drawdown
      else st.allocated_stockpile_pp := by
  simp only [recordSpending]
  split_ifs <;> simp [(setGroupPPAvailable_fields _ _ _).2.2.1]

theorem recordSpending_available_stockpile (st : SpendingState) (e : Element)
    (g : ObjectGroup) (s : ElementSpending) :
    (recordSpending st e g s).available_stockpile =
      if s.stockpile_drawdown > 0 then st.available_stockpile - s.stockpile_drawdown
      else st.available_stockpile := by
  simp only [recordSpending]
  split_ifs <;> simp [(setGroupPPAvailable_fields _ _ _).2.2.2.1]

/-- With import limiting enabled, one iteration keeps the stockpile-transfer total within the
stockpile limit. -/
theorem elementStep_transfer_le (p : SpendingParams) (st : SpendingState) (e : Element)
    (g : ObjectGroup) (b : Bool) (hlim : p.rules.RULE_STOCKPILE_IMPORT_LIMITED = true)
    (h : st.stockpile_transfer ≤ p.stockpile_limit) :
    (elementStep p st e g b).1.stockpile_transfer ≤ p.stockpile_limit := by
  cases hskip : skipsElement st e g b
  · rw [elementStep_fund p st e g b hskip]
    simp only [recordSpending_stockpile_transfer]
    by_cases hk : e.item.build_type = BuildType.BT_STOCKPILE
    · rw [if_pos hk]
      have hd : (spendOnElement p st e g).group_drawdown ≤
          max 0 (p.stockpile_limit - st.stockpile_transfer) := by
        simp only [spendOnElement]
        rw [if_pos ⟨hk, hlim⟩]
        exact le_trans (min_le_left _ _) (min_le_right _ _)
      have hm : max 0 (p.stockpile_limit - st.stockpile_transfer) =
          p.stockpile_limit - st.stockpile_transfer := max_eq_right (by linarith)
      rw [hm] at hd
      linarith
    · rw [if_neg hk]; exact h
  · rw [elementStep_skip p st e g b hskip]; exact h

theorem spendingLoop_transfer_le (p : SpendingParams) (q : List Element)
    (hlim : p.rules.RULE_STOCKPILE_IMPORT_LIMITED = true) :
    ∀ (i : Nat) (st : SpendingState), st.stockpile_transfer ≤ p.stockpile_limit →
      (spendingLoop p i q st).1.stockpile_transfer ≤ p.stockpile_limit := by
  induction q with
  | nil => intro i st h; exact h
  | cons e rest ih =>
    intro i st h
    simp only [spendingLoop]
    exact ih _ _ (elementStep_transfer_le p st e _ _ hlim h)

/-- Over exact numbers, without rounding: when the stockpile import limit rule is enabled and the
reserve capacity is non-negative, the amount transferred to the reserve by stockpile-transfer
items in one allocation pass (the return value of the pass) never exceeds the reserve capacity,
for every queue and every group availability. -/
theorem exact_transfer_within_capacity (rules : GameRules) (available_pp : GroupMap)
    (available_stockpile stockpile_limit : ℚ)
    (queue_element_resource_sharing_object_groups : List ObjectGroup)
    (queue_item_costs_and_times : CostTimeMap) (is_producible : List Bool)
    (queue : List Element) (allocated_pp allocated_stockpile_pp : GroupMap)
    (projects_in_progress : Int) (simulating : Bool) (the_universe : Universe)
    (hlim : rules.RULE_STOCKPILE_IMPORT_LIMITED = true) (hcap : 0 ≤ stockpile_limit) :
    (SetProdQueueElementSpending rules available_pp available_stockpile stockpile_limit
        queue_element_resource_sharing_object_groups queue_item_costs_and_times is_producible
        queue allocated_pp allocated_stockpile_pp projects_in_progress simulating
        the_universe).retval ≤ stockpile_limit := by
  unfold SetProdQueueElementSpending
  split_ifs with hlen
  · exact hcap
  · exact spendingLoop_transfer_le
      { rules := rules
        stockpile_limit := stockpile_limit
        queue_element_resource_sharing_object_groups :=
          queue_element_resource_sharing_object_groups
        queue_item_costs_and_times := queue_item_costs_and_times
        is_producible := is_producible
        simulating := simulating
        the_universe := the_universe } queue hlim 0
      (initialSpendingState available_pp available_stockpile) hcap

/-- Sample of the exact transfer bound: two stockpile-transfer entries asking for 4 and 3 with a
capacity of 5. -/
theorem exact_transfer_within_capacity_sample :
    (SetProdQueueElementSpending { RULE_STOCKPILE_IMPORT_LIMITED := true }
        [({1}, 4), ({2}, 0)] 5 5 [{1}, {2}] stockpileCosts [true, true] stockpileQueue [] [] 0
        false sampleUniverse).retval ≤ 5 :=
  exact_transfer_within_capacity { RULE_STOCKPILE_IMPORT_LIMITED := true }
    [({1}, 4), ({2}, 0)] 5 5 [{1}, {2}] stockpileCosts [true, true] stockpileQueue [] [] 0
    false sampleUniverse rfl (by norm_num)


/-! ### Map updates -/

theorem mapFind_mapAdd (m : GroupMap) (g : ObjectGroup) (x : ℚ) (g2 : ObjectGroup) :
    (mapFind (mapAdd m g x) g2).getD 0 =
      (mapFind m g2).getD 0 + (if g2 = g then x else 0) := by
  induction m with
  | nil =>
    by_cases h : g2 = g
    · simp [mapAdd, mapFind, h]
    · have h2 : ¬ g = g2 := fun hh => h hh.symm
      simp [mapAdd, mapFind, h, h2]
  | cons kv rest ih =>
    obtain ⟨k, v⟩ := kv
    by_cases hk : k = g
    · by_cases hk2 : k = g2
      · have h : g2 = g := hk2.symm.trans hk
        simp [mapAdd, mapFind, hk, hk2, h]
      · have h : ¬ g2 = g := fun hh => hk2 (hk.trans hh.symm)
        have h3 : ¬ g = g2 := fun hh => h hh.symm
        simp [mapAdd, mapFind, hk, h, h3]
    · by_cases hk2 : k = g2
      · have h : ¬ g2 = g := fun hh => hk (hk2.trans hh)
        simp [mapAdd, mapFind, hk, hk2, h]
      · simp only [mapAdd, mapFind, hk, hk2, if_false]
        exact ih

theorem mapSum_mapAdd (m : GroupMap) (g : ObjectGroup) (x : ℚ) :
    mapSum (mapAdd m g x) = mapSum m + x := by
  rw [mapSum_eq_sum, mapSum_eq_sum]
  induction m with
  | nil => simp [mapAdd]
  | cons kv rest ih =>
    obtain ⟨k, v⟩ := kv
    by_cases hk : k = g
    · simp [mapAdd, hk]; ring
    · simp only [mapAdd, hk, if_false, List.map_cons, List.sum_cons, ih]; ring

/-- The result of `CalculateNewStockpile` depends on the consumption map only through its
lookups and on the reserve-consumption map only through its sum. -/
theorem CalculateNewStockpile_shift (rules : GameRules) (empire_id : Int)
    (starting_stockpile transfer : ℚ) (available_pp a1 a2 s1 s2 : GroupMap)
    (context : ScriptingContext) (empire : Empire) (x : ℚ)
    (hempire : context.GetEmpire empire_id = some empire)
    (ha : ∀ g, (mapFind a2 g).getD 0 = (mapFind a1 g).getD 0)
    (hs : mapSum s2 = mapSum s1 + x) :
    CalculateNewStockpile rules empire_id starting_stockpile transfer available_pp a2 s2
        context =
      CalculateNewStockpile rules empire_id starting_stockpile transfer available_pp a1 s1
        context - x := by
  have hfun : (fun g : ObjectGroup × ℚ => g.2 - (mapFind a2 g.1).getD 0) =
      (fun g : ObjectGroup × ℚ => g.2 - (mapFind a1 g.1).getD 0) := by
    funext g; rw [ha]
  simp only [CalculateNewStockpile, hempire, foldl_addGroupExcess, hfun, hs]
  ring

/-- Over exact numbers, the import clamp of the pass limits a reserve-only entry: with import
limiting enabled and a capacity of 5, after a first stockpile-transfer entry took 4, a second,
unpaused, producible, reserve-eligible stockpile-transfer entry with limit 3, whose group has
exactly 0 available while the reserve has 5, is allocated 1 and not `min(3, 5) = 3`. -/
theorem exact_clamp_limits_reserve_entry :
    ∃ s : ElementSpending,
      stockpileQueue[1]? = some stockpileElementTwo ∧
      (spendingLoop stockpileParams 0 stockpileQueue
        (initialSpendingState [({1}, 4), ({2}, 0)] 5)).2.2[1]? = some (some s) ∧
      stockpileElementTwo.paused = false ∧
      stockpileParams.is_producible.getD 1 false = true ∧
      stockpileElementTwo.allowed_imperial_stockpile_use = true ∧
      groupPPAvailable
        (stateBeforeEntry stockpileParams stockpileQueue
          (initialSpendingState [({1}, 4), ({2}, 0)] 5) 1) {2} = 0 ∧
      (stateBeforeEntry stockpileParams stockpileQueue
          (initialSpendingState [({1}, 4), ({2}, 0)] 5) 1).available_stockpile = 5 ∧
      s.element_this_turn_limit = 3 ∧
      s.allocation = 1 ∧
      s.allocation ≠ max 0 (min s.element_this_turn_limit 5) := by
  refine ⟨⟨1, 1, 3, 0, 5, 1, 0, 1⟩, rfl, ?_, rfl, rfl, rfl, ?_, ?_, ?_, ?_, ?_⟩ <;>
  norm_num +decide [stateBeforeEntry, spendingLoop, elementStep, skipsElement,
      groupPPAvailable, mapFind, mapSet, mapAdd, setGroupPPAvailable, initialSpendingState,
      spendOnElement, lookupCostTime, costFind, costKeyEquiv, costKeyLt, ProductionItem.lt,
      ProductionItem.CostIsProductionLocationInvariant, INVALID_OBJECT_ID,
      CalculateProductionPerTurnLimit, EPSILON, fundElement, completesThisTurn,
      recordSpending, BuildType.toInt, stockpileCosts, stockpileQueue, stockpileItem,
      stockpileParams, sampleUniverse, stockpileElementOne, stockpileElementTwo]

/-- What funding records for an entry that draws on the reserve only: the amounts of an
unpaused, producible, reserve-eligible entry whose group has exactly 0 available while the
reserve has more than 0, the import clamp not applying. -/
theorem spendOnElement_reserve_only (p : SpendingParams) (st : SpendingState) (e : Element)
    (g : ObjectGroup) (helig : e.allowed_imperial_stockpile_use = true)
    (hgroup : groupPPAvailable st g = 0) (hres : 0 < st.available_stockpile)
    (hkind : ¬ (e.item.build_type = BuildType.BT_STOCKPILE ∧
      p.rules.RULE_STOCKPILE_IMPORT_LIMITED = true)) :
    (spendOnElement p st e g).allocation =
        max 0 (min (elementLimit p e) st.available_stockpile) ∧
      (spendOnElement p st e g).group_drawdown = 0 ∧
      (spendOnElement p st e g).stockpile_drawdown = (spendOnElement p st e g).allocation := by
  have halloc : (spendOnElement p st e g).allocation =
      max 0 (min (elementLimit p e) st.available_stockpile) := by
    simp only [spendOnElement, elementLimit, hgroup, helig, if_true, zero_add]
    rw [if_neg hkind]
  have h0 : 0 ≤ (spendOnElement p st e g).allocation := by
    rw [halloc]; exact le_max_left _ _
  have hR : (spendOnElement p st e g).allocation ≤ st.available_stockpile := by
    rw [halloc]; exact max_le hres.le (min_le_right _ _)
  have hgd : (spendOnElement p st e g).group_drawdown = 0 := by
    have : (spendOnElement p st e g).group_drawdown =
        min (spendOnElement p st e g).allocation (groupPPAvailable st g) := rfl
    rw [this, hgroup]; exact min_eq_right h0
  have hsd : (spendOnElement p st e g).stockpile_drawdown =
      min (if (spendOnElement p st e g).allocation ≤ (spendOnElement p st e g).group_drawdown
        then 0
        else (spendOnElement p st e g).allocation - (spendOnElement p st e g).group_drawdown)
        st.available_stockpile := rfl
  refine ⟨halloc, hgd, ?_⟩
  rw [hsd, hgd]
  by_cases hz : (spendOnElement p st e g).allocation ≤ 0
  · rw [if_pos hz, min_eq_left hres.le]; linarith
  · rw [if_neg hz, sub_zero, min_eq_left hR]

/-- Over exact numbers, without rounding: for every unpaused, producible, reserve-eligible entry
that is not a stockpile-transfer item under the import limit, and whose group has exactly 0
available while the reserve has `R > 0` available, the allocation is `min(limit, R)` floored at 0,
none of it is recorded as group consumption, all of it is recorded as reserve consumption, and the
new reserve level that `CalculateNewStockpile` returns (for a resolvable empire) from the
accumulators after the entry is lower by exactly that allocation than the one it returns from the
accumulators before the entry. -/
theorem exact_reserve_only_entry (p : SpendingParams) (st0 : SpendingState)
    (queue : List Element) (k : Nat) (e : Element)
    (hk : queue[k]? = some e) (hpaused : e.paused = false)
    (hprod : p.is_producible.getD k false = true)
    (helig : e.allowed_imperial_stockpile_use = true)
    (hgroup : groupPPAvailable (stateBeforeEntry p queue st0 k)
      (p.queue_element_resource_sharing_object_groups.getD k ∅) = 0)
    (hres : 0 < (stateBeforeEntry p queue st0 k).available_stockpile)
    (hkind : ¬ (e.item.build_type = BuildType.BT_STOCKPILE ∧
      p.rules.RULE_STOCKPILE_IMPORT_LIMITED = true)) :
    ∃ s : ElementSpending,
      (spendingLoop p 0 queue st0).2.2[k]? = some (some s) ∧
      s.allocation =
        max 0 (min (elementLimit p e) (stateBeforeEntry p queue st0 k).available_stockpile) ∧
      s.group_drawdown = 0 ∧
      s.stockpile_drawdown = s.allocation ∧
      (∀ g, (mapFind (stateBeforeEntry p queue st0 (k + 1)).allocated_pp g).getD 0 =
        (mapFind (stateBeforeEntry p queue st0 k).allocated_pp g).getD 0) ∧
      mapSum (stateBeforeEntry p queue st0 (k + 1)).allocated_pp =
        mapSum (stateBeforeEntry p queue st0 k).allocated_pp ∧
      mapSum (stateBeforeEntry p queue st0 (k + 1)).allocated_stockpile_pp =
        mapSum (stateBeforeEntry p queue st0 k).allocated_stockpile_pp + s.allocation ∧
      (stateBeforeEntry p queue st0 (k + 1)).available_stockpile =
        (stateBeforeEntry p queue st0 k).available_stockpile - s.allocation ∧
      (∀ (rules : GameRules) (empire_id : Int) (starting_stockpile : ℚ)
          (available_pp : GroupMap) (context : ScriptingContext) (empire : Empire),
        context.GetEmpire empire_id = some empire →
        CalculateNewStockpile rules empire_id starting_stockpile
            (stateBeforeEntry p queue st0 (k + 1)).stockpile_transfer available_pp
            (stateBeforeEntry p queue st0 (k + 1)).allocated_pp
            (stateBeforeEntry p queue st0 (k + 1)).allocated_stockpile_pp context =
          CalculateNewStockpile rules empire_id starting_stockpile
            (stateBeforeEntry p queue st0 k).stockpile_transfer available_pp
            (stateBeforeEntry p queue st0 k).allocated_pp
            (stateBeforeEntry p queue st0 k).allocated_stockpile_pp context - s.allocation) := by
  have hfunded : skipsElement (stateBeforeEntry p queue st0 k) e
      (p.queue_element_resource_sharing_object_groups.getD k ∅)
      (p.is_producible.getD k false) = false := by
    unfold skipsElement
    rw [hpaused, hprod, helig]
    simp [hres]
  obtain ⟨-, h2, h3⟩ := spendingLoop_entry p queue st0 k e hk
  rw [elementStep_fund p _ e _ _ hfunded] at h2 h3
  obtain ⟨halloc, hgd, hsd⟩ := spendOnElement_reserve_only p (stateBeforeEntry p queue st0 k) e
    (p.queue_element_resource_sharing_object_groups.getD k ∅) helig hgroup hres hkind
  have h0 : 0 ≤ (spendOnElement p (stateBeforeEntry p queue st0 k) e
      (p.queue_element_resource_sharing_object_groups.getD k ∅)).allocation := by
    rw [halloc]; exact le_max_left _ _
  have hA : ∀ g, (mapFind (stateBeforeEntry p queue st0 (k + 1)).allocated_pp g).getD 0 =
      (mapFind (stateBeforeEntry p queue st0 k).allocated_pp g).getD 0 := by
    intro g
    rw [h3]
    simp only [recordSpending_allocated_pp, mapFind_mapAdd, hgd]
    simp
  have hAsum : mapSum (stateBeforeEntry p queue st0 (k + 1)).allocated_pp =
      mapSum (stateBeforeEntry p queue st0 k).allocated_pp := by
    rw [h3]
    simp only [recordSpending_allocated_pp, mapSum_mapAdd, hgd, add_zero]
  have hS : mapSum (stateBeforeEntry p queue st0 (k + 1)).allocated_stockpile_pp =
      mapSum (stateBeforeEntry p queue st0 k).allocated_stockpile_pp +
        (spendOnElement p (stateBeforeEntry p queue st0 k) e
          (p.queue_element_resource_sharing_object_groups.getD k ∅)).allocation := by
    rw [h3]
    simp only [recordSpending_allocated_stockpile_pp, hsd]
    split_ifs with hpos
    · rw [mapSum_mapAdd]
    · have : (spendOnElement p (stateBeforeEntry p queue st0 k) e
          (p.queue_element_resource_sharing_object_groups.getD k ∅)).allocation = 0 :=
        le_antisymm (not_lt.mp hpos) h0
      rw [this, add_zero]
  have hR : (stateBeforeEntry p queue st0 (k + 1)).available_stockpile =
      (stateBeforeEntry p queue st0 k).available_stockpile -
        (spendOnElement p (stateBeforeEntry p queue st0 k) e
          (p.queue_element_resource_sharing_object_groups.getD k ∅)).allocation := by
    rw [h3]
    simp only [recordSpending_available_stockpile, hsd]
    split_ifs with hpos
    · rfl
    · have : (spendOnElement p (stateBeforeEntry p queue st0 k) e
          (p.queue_element_resource_sharing_object_groups.getD k ∅)).allocation = 0 :=
        le_antisymm (not_lt.mp hpos) h0
      rw [this, sub_zero]
  have hT : (stateBeforeEntry p queue st0 (k + 1)).stockpile_transfer =
      (stateBeforeEntry p queue st0 k).stockpile_transfer := by
    rw [h3]
    simp only [recordSpending_stockpile_transfer, hgd, add_zero, ite_self]
  refine ⟨_, h2, halloc, hgd, hsd, hA, hAsum, hS, hR, ?_⟩
  intro rules empire_id starting_stockpile available_pp context empire hempire
  rw [hT]
  exact CalculateNewStockpile_shift rules empire_id starting_stockpile _ available_pp _ _ _ _
    context empire _ hempire hA hS

/-- Sample of the exact reserve-only entry: a reserve-eligible entry with limit 10 in a group
with 0 available, and `R = 5` in the reserve. -/
theorem exact_reserve_only_entry_sample :
    ∃ s : ElementSpending,
      (spendingLoop sampleParams 0 reserveQueue reserveStart).2.2[0]? = some (some s) ∧
      s.allocation =
        max 0 (min (elementLimit sampleParams reserveElement)
          (stateBeforeEntry sampleParams reserveQueue reserveStart 0).available_stockpile) ∧
      s.group_drawdown = 0 ∧
      s.stockpile_drawdown = s.allocation ∧
      (∀ g,
        (mapFind (stateBeforeEntry sampleParams reserveQueue reserveStart (0 + 1)).allocated_pp
            g).getD 0 =
          (mapFind (stateBeforeEntry sampleParams reserveQueue reserveStart 0).allocated_pp
            g).getD 0) ∧
      mapSum (stateBeforeEntry sampleParams reserveQueue reserveStart (0 + 1)).allocated_pp =
        mapSum (stateBeforeEntry sampleParams reserveQueue reserveStart 0).allocated_pp ∧
      mapSum
          (stateBeforeEntry sampleParams reserveQueue reserveStart (0 + 1)).allocated_stockpile_pp =
        mapSum
            (stateBeforeEntry sampleParams reserveQueue reserveStart 0).allocated_stockpile_pp +
          s.allocation ∧
      (stateBeforeEntry sampleParams reserveQueue reserveStart (0 + 1)).available_stockpile =
        (stateBeforeEntry sampleParams reserveQueue reserveStart 0).available_stockpile -
          s.allocation ∧
      (∀ (rules : GameRules) (empire_id : Int) (starting_stockpile : ℚ)
          (available_pp : GroupMap) (context : ScriptingContext) (empire : Empire),
        context.GetEmpire empire_id = some empire →
        CalculateNewStockpile rules empire_id starting_stockpile
            (stateBeforeEntry sampleParams reserveQueue reserveStart (0 + 1)).stockpile_transfer
            available_pp
            (stateBeforeEntry sampleParams reserveQueue reserveStart (0 + 1)).allocated_pp
            (stateBeforeEntry sampleParams reserveQueue reserveStart
              (0 + 1)).allocated_stockpile_pp context =
          CalculateNewStockpile rules empire_id starting_stockpile
            (stateBeforeEntry sampleParams reserveQueue reserveStart 0).stockpile_transfer
            available_pp
            (stateBeforeEntry sampleParams reserveQueue reserveStart 0).allocated_pp
            (stateBeforeEntry sampleParams reserveQueue reserveStart 0).allocated_stockpile_pp
            context - s.allocation) :=
  exact_reserve_only_entry sampleParams reserveStart reserveQueue 0 reserveElement rfl rfl rfl rfl
    (by
      norm_num +decide [stateBeforeEntry, spendingLoop, groupPPAvailable, mapFind,
        initialSpendingState, sampleParams, reserveStart, reserveQueue])
    (by
      norm_num [stateBeforeEntry, spendingLoop, initialSpendingState, reserveStart,
        reserveQueue])
    (by decide)

/-! ### Funding at the limit -/

/-- Arithmetic behind the minimum build time safeguard, over plain numbers: with a base limit
of at least `ε` and at most one of the two smoothing factors active, the steady limit `m`
(the larger of base and frontloaded limit) is at least `ε`, `T − 1` turns at `m` stay `ε` short
of the cost, and `T − 2` turns at `m` leave at least the topping-up ceiling `U` to pay. -/
theorem steady_arith (C Tq f t ε : ℚ) (hT : 2 ≤ Tq) (hε : 0 < ε) (hf0 : 0 ≤ f) (hf1 : f ≤ 1)
    (hone : f = 0 ∨ t = 0) (hbase : ε * Tq ≤ C) :
    ε ≤ max (C / Tq) ((1 + f / (Tq - 1)) * (C / Tq) - 2 * ε) ∧
    (Tq - 1) * max (C / Tq) ((1 + f / (Tq - 1)) * (C / Tq) - 2 * ε) ≤ C - ε ∧
    (Tq - 2) * max (C / Tq) ((1 + f / (Tq - 1)) * (C / Tq) - 2 * ε) ≤
      C - (C / Tq + min (t * C) (C / Tq - 2 * ε)) := by
  have hTpos : 0 < Tq := by linarith
  have hT1 : 0 < Tq - 1 := by linarith
  obtain ⟨b, hb⟩ : ∃ b, b = C / Tq := ⟨_, rfl⟩
  have hbT : b * Tq = C := by rw [hb]; field_simp
  have hεb : ε ≤ b := by
    have : ε * Tq ≤ b * Tq := by rw [hbT]; exact hbase
    exact le_of_mul_le_mul_right this hTpos
  have hb0 : 0 ≤ b := le_trans hε.le hεb
  obtain ⟨g, hg⟩ : ∃ g, g = f / (Tq - 1) * b := ⟨_, rfl⟩
  have hgT : g * (Tq - 1) = f * b := by rw [hg]; field_simp
  have hg0 : 0 ≤ g := by
    rw [hg]; exact mul_nonneg (div_nonneg hf0 hT1.le) hb0
  have hF : (1 + f / (Tq - 1)) * b - 2 * ε = b + g - 2 * ε := by rw [hg]; ring
  have hfb : f * b ≤ b := by nlinarith
  rw [← hb, hF]
  have hU1 : min (t * C) (b - 2 * ε) ≤ b - 2 * ε := min_le_right _ _
  have hU2 : min (t * C) (b - 2 * ε) ≤ t * C := min_le_left _ _
  refine ⟨le_trans hεb (le_max_left _ _), ?_, ?_⟩
  · rcases le_total (b + g - 2 * ε) b with h | h
    · rw [max_eq_left h]; nlinarith
    · rw [max_eq_right h]; nlinarith
  · rcases le_total (b + g - 2 * ε) b with h | h
    · rw [max_eq_left h]; nlinarith
    · rw [max_eq_right h]
      rcases hone with h0 | h0
      · have hg00 : g = 0 := by rw [hg, h0]; simp
        rw [hg00] at h; linarith
      · subst h0
        rw [zero_mul] at hU2 ⊢
        have h2 : 0 ≤ (Tq - 2) * ε := mul_nonneg (sub_nonneg.mpr hT) hε.le
        nlinarith

/-- The rate limiter for a build time of at least 2, with the two `max` on the build time
resolved. -/
theorem limit_eq_of_two_le (rules : GameRules) (e : Element) (item_cost : ℚ) (T : Int)
    (hT : 2 ≤ T) :
    CalculateProductionPerTurnLimit rules e item_cost T =
      min (item_cost * (e.blocksize : ℚ) * (e.remaining : ℚ) -
          e.progress * (item_cost * (e.blocksize : ℚ)))
        (max (item_cost * (e.blocksize : ℚ) / (T : ℚ))
          (max
            ((1 + rules.RULE_PRODUCTION_QUEUE_FRONTLOAD_FACTOR * (1 / 100) / ((T : ℚ) - 1)) *
              (item_cost * (e.blocksize : ℚ) / (T : ℚ)) - 2 * EPSILON)
            (if item_cost * (e.blocksize : ℚ) - e.progress * (item_cost * (e.blocksize : ℚ)) <
                item_cost * (e.blocksize : ℚ) / (T : ℚ) +
                  min (max 0 (rules.RULE_PRODUCTION_QUEUE_TOPPING_UP_FACTOR * (1 / 100) -
                      rules.RULE_PRODUCTION_QUEUE_FRONTLOAD_FACTOR * (1 / 100)) *
                    (item_cost * (e.blocksize : ℚ)))
                    (item_cost * (e.blocksize : ℚ) / (T : ℚ) - 2 * EPSILON)
              then item_cost * (e.blocksize : ℚ) - e.progress * (item_cost * (e.blocksize : ℚ))
              else item_cost * (e.blocksize : ℚ) / (T : ℚ)))) := by
  have h1 : max T 1 = T := max_eq_left (by omega)
  have h2 : max (T - 1) 1 = T - 1 := max_eq_left (by omega)
  simp only [CalculateProductionPerTurnLimit, h1, h2]
  push_cast
  rfl

/-- While the accumulated production is at most `T − 2` steady limits, topping up does not
apply and the per-turn limit is at most the steady limit. -/
theorem limit_le_steady (rules : GameRules) (e : Element) (item_cost : ℚ) (T : Int)
    (hT : 2 ≤ T)
    (hf0 : 0 ≤ rules.RULE_PRODUCTION_QUEUE_FRONTLOAD_FACTOR)
    (hf1 : rules.RULE_PRODUCTION_QUEUE_FRONTLOAD_FACTOR ≤ 30)
    (hone : rules.RULE_PRODUCTION_QUEUE_FRONTLOAD_FACTOR = 0 ∨
      rules.RULE_PRODUCTION_QUEUE_TOPPING_UP_FACTOR ≤
        rules.RULE_PRODUCTION_QUEUE_FRONTLOAD_FACTOR)
    (hbase : EPSILON * (T : ℚ) ≤ item_cost * (e.blocksize : ℚ))
    (hp : e.progress * (item_cost * (e.blocksize : ℚ)) ≤
      ((T : ℚ) - 2) * steadyLimit rules (item_cost * (e.blocksize : ℚ)) T) :
    CalculateProductionPerTurnLimit rules e item_cost T ≤
      steadyLimit rules (item_cost * (e.blocksize : ℚ)) T := by
  have hTq : (2 : ℚ) ≤ (T : ℚ) := by exact_mod_cast hT
  have hone2 : rules.RULE_PRODUCTION_QUEUE_FRONTLOAD_FACTOR * (1 / 100) = 0 ∨
      max 0 (rules.RULE_PRODUCTION_QUEUE_TOPPING_UP_FACTOR * (1 / 100) -
        rules.RULE_PRODUCTION_QUEUE_FRONTLOAD_FACTOR * (1 / 100)) = 0 := by
    rcases hone with h | h
    · left; rw [h]; norm_num
    · right; exact max_eq_left (by linarith)
  obtain ⟨-, -, h3⟩ := steady_arith (item_cost * (e.blocksize : ℚ)) (T : ℚ)
    (rules.RULE_PRODUCTION_QUEUE_FRONTLOAD_FACTOR * (1 / 100))
    (max 0 (rules.RULE_PRODUCTION_QUEUE_TOPPING_UP_FACTOR * (1 / 100) -
        rules.RULE_PRODUCTION_QUEUE_FRONTLOAD_FACTOR * (1 / 100)))
    EPSILON hTq EPSILON_pos (by linarith) (by linarith) hone2 hbase
  rw [limit_eq_of_two_le rules e item_cost T hT]
  have hp2 := hp
  simp only [steadyLimit] at hp2 ⊢
  have hno : ¬ (item_cost * (e.blocksize : ℚ) - e.progress * (item_cost * (e.blocksize : ℚ)) <
      item_cost * (e.blocksize : ℚ) / (T : ℚ) +
        min (max 0 (rules.RULE_PRODUCTION_QUEUE_TOPPING_UP_FACTOR * (1 / 100) -
            rules.RULE_PRODUCTION_QUEUE_FRONTLOAD_FACTOR * (1 / 100)) *
          (item_cost * (e.blocksize : ℚ)))
          (item_cost * (e.blocksize : ℚ) / (T : ℚ) - 2 * EPSILON)) := by
    rw [not_lt]; linarith
  rw [if_neg hno]
  apply le_trans (min_le_right _ _)
  exact max_le (le_max_left _ _) (max_le (le_max_right _ _) (le_max_left _ _))

theorem limitFundedTurn_fields (rules : GameRules) (item_cost : ℚ) (T : Int) (e : Element) :
    (limitFundedTurn rules item_cost T e).blocksize = e.blocksize ∧
    (limitFundedTurn rules item_cost T e).remaining = e.remaining ∧
    (limitFundedTurn rules item_cost T e).progress =
      e.progress + CalculateProductionPerTurnLimit rules e item_cost T /
        max EPSILON (item_cost * (e.blocksize : ℚ)) ∧
    (limitFundedTurn rules item_cost T e).turns_left_to_next_item =
      if completesThisTurn (item_cost * (e.blocksize : ℚ)) e.progress
          (max (CalculateProductionPerTurnLimit rules e item_cost T) EPSILON) = true
        then 1 else -1 := by
  simp only [limitFundedTurn, fundElement, limitSpending, if_true]
  split_ifs <;> exact ⟨rfl, rfl, rfl, rfl⟩

/-- Invariant of a run funded at the limit: during the first `T − 1` turns the accumulated
production after `n` turns is at most `n` steady limits. -/
theorem limitFundedTurns_progress (rules : GameRules) (e : Element) (item_cost : ℚ) (T : Int)
    (hprog : e.progress = 0)
    (hf0 : 0 ≤ rules.RULE_PRODUCTION_QUEUE_FRONTLOAD_FACTOR)
    (hf1 : rules.RULE_PRODUCTION_QUEUE_FRONTLOAD_FACTOR ≤ 30)
    (hone : rules.RULE_PRODUCTION_QUEUE_FRONTLOAD_FACTOR = 0 ∨
      rules.RULE_PRODUCTION_QUEUE_TOPPING_UP_FACTOR ≤
        rules.RULE_PRODUCTION_QUEUE_FRONTLOAD_FACTOR)
    (hbase : EPSILON * (T : ℚ) ≤ item_cost * (e.blocksize : ℚ)) :
    ∀ n : Nat, (n : Int) + 1 ≤ T →
      (limitFundedTurns rules item_cost T n e).blocksize = e.blocksize ∧
      (limitFundedTurns rules item_cost T n e).progress * (item_cost * (e.blocksize : ℚ)) ≤
        (n : ℚ) * steadyLimit rules (item_cost * (e.blocksize : ℚ)) T := by
  intro n
  induction n with
  | zero => intro _; simp [limitFundedTurns, hprog]
  | succ n ih =>
    intro hn
    have hT : 2 ≤ T := by omega
    have hTq : (2 : ℚ) ≤ (T : ℚ) := by exact_mod_cast hT
    obtain ⟨hbs, hpn⟩ := ih (by omega)
    obtain ⟨hm1, -, -⟩ := steady_arith (item_cost * (e.blocksize : ℚ)) (T : ℚ)
      (rules.RULE_PRODUCTION_QUEUE_FRONTLOAD_FACTOR * (1 / 100)) 0
      EPSILON hTq EPSILON_pos (by linarith) (by linarith) (Or.inr rfl) hbase
    have hm0 : 0 ≤ steadyLimit rules (item_cost * (e.blocksize : ℚ)) T :=
      le_trans EPSILON_pos.le hm1
    have hnT : (n : ℚ) ≤ (T : ℚ) - 2 := by
      have : (n : Int) ≤ T - 2 := by omega
      exact_mod_cast this
    have hL := limit_le_steady rules (limitFundedTurns rules item_cost T n e) item_cost T hT
      hf0 hf1 hone (by rw [hbs]; exact hbase)
      (by rw [hbs]; exact le_trans hpn (mul_le_mul_of_nonneg_right hnT hm0))
    rw [hbs] at hL
    obtain ⟨f1, -, f3, -⟩ := limitFundedTurn_fields rules item_cost T
      (limitFundedTurns rules item_cost T n e)
    have hCε : EPSILON ≤ item_cost * (e.blocksize : ℚ) := by
      have := EPSILON_pos
      nlinarith
    have hCpos : 0 < item_cost * (e.blocksize : ℚ) := lt_of_lt_of_le EPSILON_pos hCε
    refine ⟨by simp only [limitFundedTurns]; rw [f1, hbs], ?_⟩
    simp only [limitFundedTurns]
    rw [f3, hbs, max_eq_right hCε, add_mul, div_mul_cancel₀ _ hCpos.ne']
    push_cast
    linarith

/-- The safeguard of the rate limiter fails when frontloading and topping up are both active:
with a frontload factor of 10 percent, a topping-up factor of 30 percent, unit cost 50 and a
minimum build time of 5 turns, an entry funded at its limit completes on turn 4. -/
theorem frontload_and_topping_up_complete_early :
    completionFiresOnTurn bothFactorsRules 50 5 sampleElement 3 = false ∧
      completionFiresOnTurn bothFactorsRules 50 5 sampleElement 4 = true := by
  constructor <;>
  norm_num +decide [completionFiresOnTurn, limitFundedTurns, limitFundedTurn, limitSpending,
    fundElement, completesThisTurn, CalculateProductionPerTurnLimit, EPSILON, sampleElement,
    bothFactorsRules]

/-- Over exact numbers, without rounding: under stable costs the rate limiter does not fund a
batch faster than its minimum build time when the base limit `cost × blocksize / T` is at least
`ε` and at most one smoothing allowance is active (the frontload factor is 0, or the topping-up
factor does not exceed the frontload factor): for every entry starting at progress 0, with the
frontload factor in its range, that receives exactly `CalculateProductionPerTurnLimit` on each
turn and advances as the simulating pass advances it, the completion test does not fire on any
turn `k` with `1 ≤ k < T`. -/
theorem exact_no_early_completion (rules : GameRules) (e : Element) (item_cost : ℚ) (T : Int)
    (k : Nat) (hprog : e.progress = 0)
    (hf0 : 0 ≤ rules.RULE_PRODUCTION_QUEUE_FRONTLOAD_FACTOR)
    (hf1 : rules.RULE_PRODUCTION_QUEUE_FRONTLOAD_FACTOR ≤ 30)
    (hone : rules.RULE_PRODUCTION_QUEUE_FRONTLOAD_FACTOR = 0 ∨
      rules.RULE_PRODUCTION_QUEUE_TOPPING_UP_FACTOR ≤
        rules.RULE_PRODUCTION_QUEUE_FRONTLOAD_FACTOR)
    (hbase : EPSILON * (T : ℚ) ≤ item_cost * (e.blocksize : ℚ))
    (hk1 : 1 ≤ k) (hkT : (k : Int) < T) :
    completionFiresOnTurn rules item_cost T e k = false := by
  obtain ⟨n, rfl⟩ : ∃ n, k = n + 1 := ⟨k - 1, by omega⟩
  have hT : 2 ≤ T := by omega
  have hTq : (2 : ℚ) ≤ (T : ℚ) := by exact_mod_cast hT
  obtain ⟨hbs, hpn⟩ := limitFundedTurns_progress rules e item_cost T hprog hf0 hf1 hone hbase n
    (by omega)
  obtain ⟨hm1, hm2, -⟩ := steady_arith (item_cost * (e.blocksize : ℚ)) (T : ℚ)
    (rules.RULE_PRODUCTION_QUEUE_FRONTLOAD_FACTOR * (1 / 100)) 0
    EPSILON hTq EPSILON_pos (by linarith) (by linarith) (Or.inr rfl) hbase
  have hm0 : 0 ≤ steadyLimit rules (item_cost * (e.blocksize : ℚ)) T :=
    le_trans EPSILON_pos.le hm1
  have hnT : (n : ℚ) ≤ (T : ℚ) - 2 := by
    have : (n : Int) ≤ T - 2 := by omega
    exact_mod_cast this
  have hL := limit_le_steady rules (limitFundedTurns rules item_cost T n e) item_cost T hT
    hf0 hf1 hone (by rw [hbs]; exact hbase)
    (by rw [hbs]; exact le_trans hpn (mul_le_mul_of_nonneg_right hnT hm0))
  rw [hbs] at hL
  obtain ⟨-, -, -, f4⟩ := limitFundedTurn_fields rules item_cost T
    (limitFundedTurns rules item_cost T n e)
  have hnot : completesThisTurn
      (item_cost * ((limitFundedTurns rules item_cost T n e).blocksize : ℚ))
      (limitFundedTurns rules item_cost T n e).progress
      (max (CalculateProductionPerTurnLimit rules (limitFundedTurns rules item_cost T n e)
        item_cost T) EPSILON) = false := by
    simp only [completesThisTurn, decide_eq_false_iff_not, not_lt]
    rw [hbs]
    have hmax : max (CalculateProductionPerTurnLimit rules
        (limitFundedTurns rules item_cost T n e) item_cost T) EPSILON ≤
        steadyLimit rules (item_cost * (e.blocksize : ℚ)) T := max_le hL hm1
    have hm2b : ((T : ℚ) - 1) * steadyLimit rules (item_cost * (e.blocksize : ℚ)) T ≤
        item_cost * (e.blocksize : ℚ) - EPSILON := hm2
    have hn1 : ((n : ℚ) + 1) * steadyLimit rules (item_cost * (e.blocksize : ℚ)) T ≤
        ((T : ℚ) - 1) * steadyLimit rules (item_cost * (e.blocksize : ℚ)) T :=
      mul_le_mul_of_nonneg_right (by linarith) hm0
    nlinarith
  have hflag : (limitFundedTurn rules item_cost T
      (limitFundedTurns rules item_cost T n e)).turns_left_to_next_item = -1 := by
    rw [f4, hnot]; rfl
  simp only [completionFiresOnTurn, limitFundedTurns]
  rw [decide_eq_false_iff_not, hflag]
  decide

/-- Sample of the exact safeguard: unit cost 40, minimum build time 4, no smoothing, turn 3. -/
theorem exact_no_early_completion_sample :
    completionFiresOnTurn {} 40 4 sampleElement 3 = false :=
  exact_no_early_completion {} sampleElement 40 4 3 rfl (le_refl _) (by norm_num) (Or.inl rfl)
    (by norm_num [EPSILON, sampleElement]) (by decide) (by decide)


/-! ### Queue access and mutation -/

/-- C19: indexed access `operator[](i)` fails with an out-of-range error if and only if
`i < 0` or `i ≥ size()`, and otherwise returns the `i`-th entry in queue order; `find(i)` returns
the position of the `i`-th entry when `0 ≤ i < size()` and the end position otherwise. -/
theorem C19_indexed_access (q : ProductionQueue) (i : Int) :
    (q.subscript i = Except.error QueueError.out_of_range ↔ (i < 0 ∨ i ≥ (q.size : Int))) ∧
    (0 ≤ i → i < (q.size : Int) →
      ∃ e, q.m_queue[i.toNat]? = some e ∧ q.subscript i = Except.ok e ∧ q.find i = i.toNat) ∧
    ((i < 0 ∨ i ≥ (q.size : Int)) → q.find i = q.size) := by
  refine ⟨?_, ?_, ?_⟩
  · unfold ProductionQueue.subscript ProductionQueue.size
    by_cases h : i < 0 ∨ i ≥ (q.m_queue.length : Int)
    · simp [h]
    · simp [h]
  · intro h0 h1
    have hlt : i.toNat < q.m_queue.length := by
      unfold ProductionQueue.size at h1; omega
    refine ⟨q.m_queue[i.toNat], List.getElem?_eq_getElem hlt, ?_, ?_⟩
    · unfold ProductionQueue.subscript
      have hn : ¬ (i < 0 ∨ i ≥ (q.m_queue.length : Int)) := by
        unfold ProductionQueue.size at h1; omega
      rw [dif_neg hn]
      rfl
    · unfold ProductionQueue.find
      rw [if_pos ⟨h0, h1⟩]
  · intro h
    unfold ProductionQueue.find
    rw [if_neg (by omega)]

/-- Witness of C19: index 1 of the two-element sample queue. -/
theorem C19_indexed_access_witness :
    ∃ e, sampleProductionQueue.m_queue[(1 : Int).toNat]? = some e ∧
      sampleProductionQueue.subscript 1 = Except.ok e ∧
      sampleProductionQueue.find 1 = (1 : Int).toNat :=
  (C19_indexed_access sampleProductionQueue 1).2.1 (by decide) (by decide)

/-- C20: `erase(i)` fails with an out-of-range error, leaving the queue unchanged, if and only
if `i < 0` or `i ≥ size()`; otherwise it throws nothing and removes exactly the `i`-th entry:
the new queue is one shorter and consists of the entries before position `i` followed by the
entries after it, in their original order. -/
theorem C20_erase (q : ProductionQueue) (i : Int) :
    ((q.erase i).2 = some QueueError.out_of_range ↔ (i < 0 ∨ i ≥ (q.size : Int))) ∧
    ((i < 0 ∨ i ≥ (q.size : Int)) → (q.erase i).1 = q) ∧
    (0 ≤ i → i < (q.size : Int) →
      (q.erase i).2 = none ∧
      (q.erase i).1 = { q with m_queue := q.m_queue.eraseIdx i.toNat } ∧
      (q.erase i).1.size + 1 = q.size ∧
      (q.erase i).1.m_queue = q.m_queue.take i.toNat ++ q.m_queue.drop (i.toNat + 1)) := by
  unfold ProductionQueue.erase ProductionQueue.size
  by_cases h : i < 0 ∨ i ≥ (q.m_queue.length : Int)
  · rw [if_pos h]
    refine ⟨by simp [h], fun _ => rfl, fun h0 h1 => by omega⟩
  · rw [if_neg h]
    refine ⟨by simp [h], fun h2 => absurd h2 h, fun h0 h1 => ?_⟩
    have hlt : i.toNat < q.m_queue.length := by omega
    refine ⟨rfl, rfl, ?_, ?_⟩
    · simp only
      rw [List.length_eraseIdx_of_lt hlt]
      omega
    · exact List.eraseIdx_eq_take_drop_succ _ _

/-- Witness of C20: erasing index 0 of the two-element sample queue. -/
theorem C20_erase_witness :
    (sampleProductionQueue.erase 0).2 = none ∧
      (sampleProductionQueue.erase 0).1 =
        { sampleProductionQueue with
          m_queue := sampleProductionQueue.m_queue.eraseIdx (0 : Int).toNat } ∧
      (sampleProductionQueue.erase 0).1.size + 1 = sampleProductionQueue.size ∧
      (sampleProductionQueue.erase 0).1.m_queue =
        sampleProductionQueue.m_queue.take (0 : Int).toNat ++
          sampleProductionQueue.m_queue.drop ((0 : Int).toNat + 1) :=
  (C20_erase sampleProductionQueue 0).2.2 (by decide) (by decide)


theorem uuidPosition_le (uuid : Nat) (l : List Element) : uuidPosition uuid l ≤ l.length := by
  induction l with
  | nil => simp [uuidPosition]
  | cons e rest ih =>
    simp only [uuidPosition, List.length_cons]
    split_ifs <;> omega

theorem uuidPosition_eq_length (uuid : Nat) (l : List Element) :
    uuidPosition uuid l = l.length ↔ ∀ e ∈ l, e.uuid ≠ uuid := by
  induction l with
  | nil => simp [uuidPosition]
  | cons e rest ih =>
    simp only [uuidPosition, List.length_cons, List.mem_cons, forall_eq_or_imp]
    by_cases h : e.uuid = uuid
    · simp [h]
    · simp only [h, if_false, Nat.add_right_cancel_iff, ih]
      simp [h]

/-- The duplicate test of `push_back` and `insert` fires exactly for a non-nil identifier
that an entry of the queue already carries. -/
theorem findUUID_ne_size (q : ProductionQueue) (uuid : Nat) :
    q.findUUID uuid ≠ q.size ↔ (uuid ≠ 0 ∧ ∃ e ∈ q.m_queue, e.uuid = uuid) := by
  unfold ProductionQueue.findUUID ProductionQueue.size
  by_cases h0 : uuid = 0
  · simp [h0]
  · rw [if_neg h0, Ne, uuidPosition_eq_length]
    simp [h0]

theorem distinctUUIDs_append_one (l : List Element) (element : Element)
    (hl : distinctUUIDs l) (hnew : ¬ (element.uuid ≠ 0 ∧ ∃ e ∈ l, e.uuid = element.uuid)) :
    distinctUUIDs (l ++ [element]) := by
  unfold distinctUUIDs at hl ⊢
  rw [List.pairwise_append]
  refine ⟨hl, List.pairwise_singleton _ _, ?_⟩
  intro a ha b hb hab
  rw [List.mem_singleton] at hb
  subst hb
  by_contra hne
  exact hnew ⟨by rw [← hab]; exact hne, a, ha, hab⟩

theorem distinctUUIDs_cons (l : List Element) (element : Element)
    (hl : distinctUUIDs l) (hnew : ¬ (element.uuid ≠ 0 ∧ ∃ e ∈ l, e.uuid = element.uuid)) :
    distinctUUIDs (element :: l) := by
  unfold distinctUUIDs at hl ⊢
  rw [List.pairwise_cons]
  refine ⟨?_, hl⟩
  intro b hb hab
  by_contra hne
  exact hnew ⟨hne, b, hb, hab.symm⟩

theorem distinctUUIDs_insertIdx (l : List Element) (element : Element) (it : Nat)
    (hl : distinctUUIDs l) (hnew : ¬ (element.uuid ≠ 0 ∧ ∃ e ∈ l, e.uuid = element.uuid)) :
    distinctUUIDs (l.insertIdx it element) := by
  rcases Nat.lt_or_ge l.length it with h | h
  · rw [List.insertIdx_of_length_lt l element it h]; exact hl
  · have hperm := List.perm_insertIdx element l h
    have hcons := distinctUUIDs_cons l element hl hnew
    unfold distinctUUIDs at hcons ⊢
    refine (List.Perm.pairwise_iff ?_ hperm).mpr hcons
    intro x y hxy hyx
    rw [hyx]; exact hxy hyx.symm

/-- Every mutator keeps non-nil identifiers distinct. -/
theorem built_distinctUUIDs (q : ProductionQueue) (hq : q.Built) : distinctUUIDs q.m_queue := by
  induction hq with
  | new empire_id => exact List.Pairwise.nil
  | push_back q element _ ih =>
    unfold ProductionQueue.push_back
    by_cases h : q.findUUID element.uuid ≠ q.size
    · rw [if_pos h]; exact ih
    · rw [if_neg h]
      exact distinctUUIDs_append_one _ _ ih (fun hh => h ((findUUID_ne_size q _).mpr hh))
  | insert q it element _ ih =>
    unfold ProductionQueue.insert
    by_cases h : q.findUUID element.uuid ≠ q.size
    · rw [if_pos h]; exact ih
    · rw [if_neg h]
      exact distinctUUIDs_insertIdx _ _ _ ih (fun hh => h ((findUUID_ne_size q _).mpr hh))
  | erase q i _ ih =>
    unfold ProductionQueue.erase
    split_ifs
    · exact ih
    · exact List.Pairwise.eraseIdx _ ih
  | clear q _ _ => exact List.Pairwise.nil

/-- Counterexample to C18 as stated: a queue built by one `push_back` holds an entry with the
nil identifier; a second `push_back` of an element with the same (nil) identifier does not
fail, and the queue it builds holds the identifier twice. -/
theorem C18_counterexample :
    (∃ e ∈ (({} : ProductionQueue).push_back nilElement).1.m_queue, e.uuid = nilElement.uuid) ∧
    ((({} : ProductionQueue).push_back nilElement).1.push_back nilElement).2 = none ∧
    ((({} : ProductionQueue).push_back nilElement).1.push_back nilElement).1.Built ∧
    ¬ (((({} : ProductionQueue).push_back nilElement).1.push_back nilElement).1.m_queue.map
        (fun e => e.uuid)).Nodup := by
  refine ⟨⟨nilElement, ?_, rfl⟩, ?_, ?_, ?_⟩
  · simp [ProductionQueue.push_back, ProductionQueue.findUUID, ProductionQueue.size, nilElement]
  · simp [ProductionQueue.push_back, ProductionQueue.findUUID, ProductionQueue.size, nilElement]
  · exact ProductionQueue.Built.push_back _ _
      (ProductionQueue.Built.push_back _ _ (ProductionQueue.Built.new ALL_EMPIRES))
  · simp [ProductionQueue.push_back, ProductionQueue.findUUID, ProductionQueue.size, nilElement]

/-- C18 (amended): for every queue and every element whose unique identifier is not nil and
equals that of an element already in the queue, `push_back` and `insert` fail with an
invalid-argument error and leave the queue unchanged, while an element whose identifier is nil
or new is appended by `push_back` without error; consequently in every queue built from the
empty queue by `push_back`, `insert`, `erase` and `clear` two entries share an identifier only
if it is the nil identifier. -/
theorem C18_duplicate_uuid_rejected (q : ProductionQueue) (element : Element) (it : Nat) :
    (element.uuid ≠ 0 → (∃ e ∈ q.m_queue, e.uuid = element.uuid) →
      q.push_back element = (q, some QueueError.invalid_argument) ∧
      q.insert it element = (q, some QueueError.invalid_argument)) ∧
    ((element.uuid = 0 ∨ ∀ e ∈ q.m_queue, e.uuid ≠ element.uuid) →
      q.push_back element = ({ q with m_queue := q.m_queue ++ [element] }, none)) ∧
    (q.Built → distinctUUIDs q.m_queue) := by
  refine ⟨?_, ?_, built_distinctUUIDs q⟩
  · intro h0 hex
    have h := (findUUID_ne_size q element.uuid).mpr ⟨h0, hex⟩
    unfold ProductionQueue.push_back ProductionQueue.insert
    rw [if_pos h, if_pos h]
    exact ⟨rfl, rfl⟩
  · intro hfree
    have h : ¬ q.findUUID element.uuid ≠ q.size := by
      rw [findUUID_ne_size]
      rintro ⟨h0, e, he, heq⟩
      rcases hfree with h1 | h1
      · exact h0 h1
      · exact h1 e he heq
    unfold ProductionQueue.push_back
    rw [if_neg h]

/-- Witness of C18 (amended): the first sample entry pushed or inserted again into the built
queue that already holds it. -/
theorem C18_duplicate_uuid_rejected_witness :
    ((({} : ProductionQueue).push_back sampleElement).1.push_back sampleElement =
        ((({} : ProductionQueue).push_back sampleElement).1,
          some QueueError.invalid_argument) ∧
      (({} : ProductionQueue).push_back sampleElement).1.insert 0 sampleElement =
        ((({} : ProductionQueue).push_back sampleElement).1,
          some QueueError.invalid_argument)) ∧
    distinctUUIDs (({} : ProductionQueue).push_back sampleElement).1.m_queue :=
  ⟨(C18_duplicate_uuid_rejected (({} : ProductionQueue).push_back sampleElement).1
      sampleElement 0).1 (by decide)
      ⟨sampleElement, by
        simp [ProductionQueue.push_back, ProductionQueue.findUUID, ProductionQueue.size,
          uuidPosition, sampleElement], rfl⟩,
    (C18_duplicate_uuid_rejected (({} : ProductionQueue).push_back sampleElement).1
      sampleElement 0).2.2
      (ProductionQueue.Built.push_back _ _ (ProductionQueue.Built.new ALL_EMPIRES))⟩


/-! ### The scenario of one entry of cost 40 and build time 4 -/

theorem scenario_turn_1 : simulateTurn scenarioSimulation 1 (scenarioState 0 0) =
    scenarioState (1 / 4) 10 := by
  norm_num +decide [simulateTurn, scenarioSimulation, scenarioState, scenarioContext,
    scenarioEmpire, scenarioUniverse, scenarioElement, sampleItem, sampleCosts,
    completionLoop, SimulationState.eraseRow, modifyAt, stampNextItem,
    stampCompletion, StockpileCapacity, CalculateNewStockpile,
    addGroupExcess, mapSum,
    SetProdQueueElementSpending, spendingLoop, elementStep, skipsElement,
    groupPPAvailable, mapFind, mapSet, mapAdd, setGroupPPAvailable, initialSpendingState,
    spendOnElement, lookupCostTime, costFind, costKeyEquiv, costKeyLt, ProductionItem.lt,
    ProductionItem.CostIsProductionLocationInvariant, INVALID_OBJECT_ID,
    CalculateProductionPerTurnLimit, EPSILON, fundElement, completesThisTurn,
    recordSpending, BuildType.toInt, ALL_EMPIRES]

theorem scenario_turn_4 : simulateTurn scenarioSimulation 4 (scenarioState (3 / 4) 10) =
    scenarioDone := by
  norm_num +decide [simulateTurn, scenarioSimulation, scenarioState, scenarioContext,
    scenarioEmpire, scenarioUniverse, scenarioElement, sampleItem, sampleCosts,
    completionLoop, SimulationState.eraseRow, modifyAt, stampNextItem,
    stampCompletion, StockpileCapacity, CalculateNewStockpile,
    addGroupExcess, mapSum, scenarioDone,
    SetProdQueueElementSpending, spendingLoop, elementStep, skipsElement,
    groupPPAvailable, mapFind, mapSet, mapAdd, setGroupPPAvailable, initialSpendingState,
    spendOnElement, lookupCostTime, costFind, costKeyEquiv, costKeyLt, ProductionItem.lt,
    ProductionItem.CostIsProductionLocationInvariant, INVALID_OBJECT_ID,
    CalculateProductionPerTurnLimit, EPSILON, fundElement, completesThisTurn,
    recordSpending, BuildType.toInt, ALL_EMPIRES]

theorem scenario_turn_2 : simulateTurn scenarioSimulation 2 (scenarioState (1 / 4) 10) =
    scenarioState (1 / 2) 10 := by
  norm_num +decide [simulateTurn, scenarioSimulation, scenarioState, scenarioContext,
    scenarioEmpire, scenarioUniverse, scenarioElement, sampleItem, sampleCosts,
    completionLoop, SimulationState.eraseRow, modifyAt, stampNextItem,
    stampCompletion, StockpileCapacity, CalculateNewStockpile,
    addGroupExcess, mapSum,
    SetProdQueueElementSpending, spendingLoop, elementStep, skipsElement,
    groupPPAvailable, mapFind, mapSet, mapAdd, setGroupPPAvailable, initialSpendingState,
    spendOnElement, lookupCostTime, costFind, costKeyEquiv, costKeyLt, ProductionItem.lt,
    ProductionItem.CostIsProductionLocationInvariant, INVALID_OBJECT_ID,
    CalculateProductionPerTurnLimit, EPSILON, fundElement, completesThisTurn,
    recordSpending, BuildType.toInt, ALL_EMPIRES]

theorem scenario_turn_3 : simulateTurn scenarioSimulation 3 (scenarioState (1 / 2) 10) =
    scenarioState (3 / 4) 10 := by
  norm_num +decide [simulateTurn, scenarioSimulation, scenarioState, scenarioContext,
    scenarioEmpire, scenarioUniverse, scenarioElement, sampleItem, sampleCosts,
    completionLoop, SimulationState.eraseRow, modifyAt, stampNextItem,
    stampCompletion, StockpileCapacity, CalculateNewStockpile,
    addGroupExcess, mapSum,
    SetProdQueueElementSpending, spendingLoop, elementStep, skipsElement,
    groupPPAvailable, mapFind, mapSet, mapAdd, setGroupPPAvailable, initialSpendingState,
    spendOnElement, lookupCostTime, costFind, costKeyEquiv, costKeyLt, ProductionItem.lt,
    ProductionItem.CostIsProductionLocationInvariant, INVALID_OBJECT_ID,
    CalculateProductionPerTurnLimit, EPSILON, fundElement, completesThisTurn,
    recordSpending, BuildType.toInt, ALL_EMPIRES]

theorem simulateTurns_continue (sp : SimulationParams) (fuel sim_turn : Nat)
    (s : SimulationState) (hclock : sp.timed_out sim_turn = false)
    (hgo : (s.sim_queue.isEmpty && decide (sim_turn > 2)) = false) :
    simulateTurns sp (fuel + 1) sim_turn s =
      simulateTurns sp fuel (sim_turn + 1) (simulateTurn sp sim_turn s) := by
  simp [simulateTurns, hclock, hgo]

theorem simulateTurns_stop (sp : SimulationParams) (fuel sim_turn : Nat)
    (s : SimulationState)
    (hstop : sp.timed_out sim_turn = true ∨
      (s.sim_queue.isEmpty && decide (sim_turn > 2)) = true) :
    simulateTurns sp (fuel + 1) sim_turn s = s := by
  rcases hstop with h | h
  · simp [simulateTurns, h]
  · simp only [simulateTurns, h, if_true, ite_self]

/-- The forward simulation of the scenario: four funded turns, then the empty simulated queue
ends the loop in turn 5. -/
theorem scenario_simulation :
    simulateTurns scenarioSimulation TOO_MANY_TURNS 1 (scenarioState 0 0) = scenarioDone := by
  rw [show TOO_MANY_TURNS = 495 + 1 + 1 + 1 + 1 + 1 from rfl,
    simulateTurns_continue scenarioSimulation _ 1 (scenarioState 0 0) rfl rfl, scenario_turn_1,
    simulateTurns_continue scenarioSimulation _ 2 (scenarioState (1 / 4) 10) rfl rfl,
    scenario_turn_2,
    simulateTurns_continue scenarioSimulation _ 3 (scenarioState (1 / 2) 10) rfl rfl,
    scenario_turn_3,
    simulateTurns_continue scenarioSimulation _ 4 (scenarioState (3 / 4) 10) rfl rfl,
    scenario_turn_4,
    simulateTurns_stop scenarioSimulation _ 5 scenarioDone (Or.inr rfl)]

set_option maxHeartbeats 1000000 in
theorem scenario_update :
    ProductionQueue.Update {} noTimeout scenarioQueue scenarioContext =
      { m_queue := (simulateTurns scenarioSimulation TOO_MANY_TURNS 1 (scenarioState 0 0)).m_queue
        m_projects_in_progress := 1
        m_object_group_allocated_pp := [({1}, 10)]
        m_object_group_allocated_stockpile_pp := []
        m_expected_new_stockpile_amount := 0
        m_expected_project_transfer_to_stockpile := 0
        m_empire_id := 0 } := by
  norm_num +decide [ProductionQueue.Update, scenarioQueue, removeUnproducible, resetForecast,
    cacheCosts, elementGroup, Element.ProductionCostAndTime,
    ProductionItem.ProductionCostAndTime, scenarioSimulation, scenarioState, scenarioContext,
    scenarioEmpire, scenarioUniverse, scenarioElement, sampleItem, sampleCosts,
    SimulationState.eraseRow, StockpileCapacity, CalculateNewStockpile,
    addGroupExcess, mapSum,
    SetProdQueueElementSpending, spendingLoop, elementStep, skipsElement,
    groupPPAvailable, mapFind, mapSet, mapAdd, setGroupPPAvailable, initialSpendingState,
    spendOnElement, lookupCostTime, costFind, costKeyEquiv, costKeyLt, ProductionItem.lt,
    ProductionItem.CostIsProductionLocationInvariant, INVALID_OBJECT_ID,
    CalculateProductionPerTurnLimit, EPSILON, fundElement, completesThisTurn,
    recordSpending, BuildType.toInt, ALL_EMPIRES, show List.range 1 = [0] from rfl]

/-- C11: scenario of one unpaused producible entry with unit cost 40, minimum build time 4,
blocksize 1, one batch remaining and no progress, in a group with 10 available each turn, an
empty reserve and both smoothing factors 0. The per-turn limit is 10 at the progress of each of
the four simulated turns; the simulated turns 1, 2 and 3 leave the entry in the simulated queue
with progress 1/4, 1/2 and 3/4 and the real forecasts at -1, and turn 4 completes it; after
`Update` the entry has allocation 10 and both forecasts equal to 4. -/
theorem C11_scenario_forecast_four :
    (CalculateProductionPerTurnLimit {} { scenarioElement with progress := 0 } 40 4 = 10 ∧
      CalculateProductionPerTurnLimit {} { scenarioElement with progress := 1 / 4 } 40 4 = 10 ∧
      CalculateProductionPerTurnLimit {} { scenarioElement with progress := 1 / 2 } 40 4 = 10 ∧
      CalculateProductionPerTurnLimit {} { scenarioElement with progress := 3 / 4 } 40 4 = 10) ∧
    (simulateTurn scenarioSimulation 1 (scenarioState 0 0) = scenarioState (1 / 4) 10 ∧
      simulateTurn scenarioSimulation 2 (scenarioState (1 / 4) 10) = scenarioState (1 / 2) 10 ∧
      simulateTurn scenarioSimulation 3 (scenarioState (1 / 2) 10) = scenarioState (3 / 4) 10 ∧
      simulateTurn scenarioSimulation 4 (scenarioState (3 / 4) 10) = scenarioDone) ∧
    (ProductionQueue.Update {} noTimeout scenarioQueue scenarioContext).m_queue =
      [{ scenarioElement with
        allocated_pp := 10, turns_left_to_next_item := 4, turns_left_to_completion := 4 }] := by
  refine ⟨⟨?_, ?_, ?_, ?_⟩,
    ⟨scenario_turn_1, scenario_turn_2, scenario_turn_3, scenario_turn_4⟩, ?_⟩
  · norm_num [CalculateProductionPerTurnLimit, EPSILON, scenarioElement]
  · norm_num [CalculateProductionPerTurnLimit, EPSILON, scenarioElement]
  · norm_num [CalculateProductionPerTurnLimit, EPSILON, scenarioElement]
  · norm_num [CalculateProductionPerTurnLimit, EPSILON, scenarioElement]
  · rw [scenario_update, scenario_simulation]
    rfl


/-! ### The shape of `Update` -/

theorem Update_unresolved (rules : GameRules) (timed_out : Nat → Bool) (q : ProductionQueue)
    (context : ScriptingContext) (hempire : context.GetEmpire q.m_empire_id = none) :
    q.Update rules timed_out context =
      { q with m_projects_in_progress := 0, m_object_group_allocated_pp := [] } := by
  unfold ProductionQueue.Update
  rw [hempire]

theorem Update_resolved (rules : GameRules) (timed_out : Nat → Bool) (q : ProductionQueue)
    (context : ScriptingContext) (empire : Empire)
    (hempire : context.GetEmpire q.m_empire_id = some empire) :
    q.Update rules timed_out context =
      if empire.industry_output.any (fun available => decide (available.2 > EPSILON)) then
        { afterAuthoritativePass rules q context empire with
          m_queue :=
            (simulateTurns (updateSimulationParams rules timed_out q context empire)
              TOO_MANY_TURNS 1
              (removeUnproducible (q.m_queue.map resetForecast).length 0
                (simulationStart rules q context empire))).m_queue }
      else afterAuthoritativePass rules q context empire := by
  unfold ProductionQueue.Update
  rw [hempire]
  rfl

/-- The authoritative pass of `Update` never takes the abort branch: it is the loop over the
queue with its forecasts reset. -/
theorem authoritativePass_eq_loop (rules : GameRules) (q : ProductionQueue)
    (context : ScriptingContext) (empire : Empire) :
    authoritativePass rules q context empire =
      { retval := (spendingLoop (updateSpendingParams rules q context empire) 0
          (q.m_queue.map resetForecast) (updateStart q context empire)).1.stockpile_transfer
        queue := (spendingLoop (updateSpendingParams rules q context empire) 0
          (q.m_queue.map resetForecast) (updateStart q context empire)).2.1
        allocated_pp := (spendingLoop (updateSpendingParams rules q context empire) 0
          (q.m_queue.map resetForecast) (updateStart q context empire)).1.allocated_pp
        allocated_stockpile_pp := (spendingLoop (updateSpendingParams rules q context empire) 0
          (q.m_queue.map resetForecast)
          (updateStart q context empire)).1.allocated_stockpile_pp
        projects_in_progress := (spendingLoop (updateSpendingParams rules q context empire) 0
          (q.m_queue.map resetForecast)
          (updateStart q context empire)).1.projects_in_progress } :=
  SetProdQueueElementSpending_eq_loop (updateSpendingParams rules q context empire)
    empire.industry_output _ (q.m_queue.map resetForecast) _ _ _
    (by simp [updateSpendingParams])

/-! ### Writes to the real queue -/

theorem modifyAt_length (f : Element → Element) :
    ∀ (idx : Nat) (l : List Element), (modifyAt f idx l).length = l.length := by
  intro idx l
  induction l generalizing idx with
  | nil => cases idx <;> rfl
  | cons e rest ih =>
    cases idx with
    | zero => rfl
    | succ n => simp [modifyAt, ih]

theorem modifyAt_map {β : Type} (f : Element → Element) (g : Element → β)
    (hfg : ∀ e, g (f e) = g e) :
    ∀ (idx : Nat) (l : List Element), (modifyAt f idx l).map g = l.map g := by
  intro idx l
  induction l generalizing idx with
  | nil => cases idx <;> rfl
  | cons e rest ih =>
    cases idx with
    | zero => simp [modifyAt, hfg]
    | succ n => simp [modifyAt, ih]

theorem modifyAt_forall (f : Element → Element) (P : Element → Prop)
    (hf : ∀ e, P e → P (f e)) :
    ∀ (idx : Nat) (l : List Element), (∀ e ∈ l, P e) → ∀ e ∈ modifyAt f idx l, P e := by
  intro idx l
  induction l generalizing idx with
  | nil => cases idx <;> simp [modifyAt]
  | cons e rest ih =>
    intro h
    cases idx with
    | zero =>
      simp only [modifyAt, List.mem_cons, forall_eq_or_imp]
      exact ⟨hf e (h e (List.mem_cons_self _ _)),
        fun x hx => h x (List.mem_cons_of_mem _ hx)⟩
    | succ n =>
      simp only [modifyAt, List.mem_cons, forall_eq_or_imp]
      exact ⟨h e (List.mem_cons_self _ _),
        ih n (fun x hx => h x (List.mem_cons_of_mem _ hx))⟩

theorem modifyAt_getElem? (f : Element → Element) :
    ∀ (idx : Nat) (l : List Element) (k : Nat),
      (modifyAt f idx l)[k]? = if k = idx then l[k]?.map f else l[k]? := by
  intro idx l
  induction l generalizing idx with
  | nil => intro k; cases idx <;> simp [modifyAt]
  | cons e rest ih =>
    intro k
    cases idx with
    | zero =>
      cases k with
      | zero => simp [modifyAt]
      | succ k => simp [modifyAt]
    | succ n =>
      cases k with
      | zero => simp [modifyAt]
      | succ k => simp [modifyAt, ih]

/-- Whatever holds of the real queue and survives both stamps holds after the completion
loop. -/
theorem completionLoop_m_queue (P : List Element → Prop) (sim_turn : Int)
    (hnext : ∀ idx l, P l → P (modifyAt (stampNextItem sim_turn) idx l))
    (hdone : ∀ idx l, P l → P (modifyAt (stampCompletion sim_turn) idx l)) :
    ∀ (fuel i : Nat) (s : SimulationState),
      P s.m_queue → P (completionLoop sim_turn fuel i s).m_queue := by
  intro fuel
  induction fuel with
  | zero => intro i s h; exact h
  | succ fuel ih =>
    intro i s h
    unfold completionLoop
    cases hrow : s.sim_queue[i]? with
    | none => exact h
    | some sim_element =>
      simp only
      split_ifs with hflag hrem
      · exact ih _ _ h
      · apply ih
        cases hidx : s.sim_queue_original_indices[i]? with
        | none => simpa [SimulationState.eraseRow] using h
        | some idx =>
          simp only [SimulationState.eraseRow]
          exact hdone _ _ (hnext _ _ h)
      · apply ih
        cases hidx : s.sim_queue_original_indices[i]? with
        | none => exact h
        | some idx => exact hnext _ _ h

theorem removeUnproducible_m_queue :
    ∀ (fuel i : Nat) (s : SimulationState), (removeUnproducible fuel i s).m_queue = s.m_queue := by
  intro fuel
  induction fuel with
  | zero => intro i s; rfl
  | succ fuel ih =>
    intro i s
    unfold removeUnproducible
    cases hrow : s.sim_queue[i]? with
    | none => rfl
    | some sim_element =>
      simp only
      split_ifs
      · rw [ih]; rfl
      · rw [ih]

theorem simulateTurn_m_queue (P : List Element → Prop) (sp : SimulationParams) (sim_turn : Nat)
    (hnext : ∀ idx l, P l → P (modifyAt (stampNextItem (sim_turn : Int)) idx l))
    (hdone : ∀ idx l, P l → P (modifyAt (stampCompletion (sim_turn : Int)) idx l))
    (s : SimulationState) (h : P s.m_queue) : P (simulateTurn sp sim_turn s).m_queue := by
  unfold simulateTurn
  exact completionLoop_m_queue P _ hnext hdone _ _ _ h

/-- Whatever holds of the real queue and survives the stamps of the turns 1 to
`TOO_MANY_TURNS` holds after the forward simulation. -/
theorem simulateTurns_m_queue (P : List Element → Prop) (sp : SimulationParams)
    (hnext : ∀ t : Nat, 1 ≤ t → t ≤ TOO_MANY_TURNS →
      ∀ idx l, P l → P (modifyAt (stampNextItem (t : Int)) idx l))
    (hdone : ∀ t : Nat, 1 ≤ t → t ≤ TOO_MANY_TURNS →
      ∀ idx l, P l → P (modifyAt (stampCompletion (t : Int)) idx l)) :
    ∀ (fuel sim_turn : Nat) (s : SimulationState), 1 ≤ sim_turn →
      sim_turn + fuel ≤ TOO_MANY_TURNS + 1 → P s.m_queue →
      P (simulateTurns sp fuel sim_turn s).m_queue := by
  intro fuel
  induction fuel with
  | zero => intro t s _ _ h; exact h
  | succ fuel ih =>
    intro t s h1 h2 h
    unfold simulateTurns
    split_ifs
    · exact h
    · exact h
    · exact ih _ _ (by omega) (by omega)
        (simulateTurn_m_queue P sp t (hnext t h1 (by omega)) (hdone t h1 (by omega)) s h)


/-! ### What a pass writes into an element -/

theorem fundElement_fields (simulating : Bool) (e : Element) (s : ElementSpending) :
    clearUpdateFields (fundElement false e s) = clearUpdateFields e ∧
    (fundElement simulating e s).turns_left_to_completion = e.turns_left_to_completion ∧
    ((fundElement simulating e s).turns_left_to_next_item = e.turns_left_to_next_item ∨
      (fundElement simulating e s).turns_left_to_next_item = 1) ∧
    (fundElement simulating e s).allocated_pp = max s.allocation EPSILON := by
  refine ⟨?_, ?_, ?_, ?_⟩
  · simp only [fundElement, clearUpdateFields, Bool.false_eq_true, if_false]
    split_ifs <;> rfl
  · simp only [fundElement]
    split_ifs <;> rfl
  · simp only [fundElement]
    split_ifs <;> first | exact Or.inl rfl | exact Or.inr rfl
  · simp only [fundElement]
    split_ifs <;> rfl

theorem elementStep_fields (p : SpendingParams) (st : SpendingState) (e : Element)
    (g : ObjectGroup) (b : Bool) :
    (p.simulating = false →
      clearUpdateFields (elementStep p st e g b).2.1 = clearUpdateFields e) ∧
    (elementStep p st e g b).2.1.turns_left_to_completion = e.turns_left_to_completion ∧
    ((elementStep p st e g b).2.1.turns_left_to_next_item = e.turns_left_to_next_item ∨
      (elementStep p st e g b).2.1.turns_left_to_next_item = 1) ∧
    0 ≤ (elementStep p st e g b).2.1.allocated_pp := by
  cases hskip : skipsElement st e g b
  · rw [elementStep_fund p st e g b hskip]
    obtain ⟨h1, h2, h3, h4⟩ := fundElement_fields p.simulating { e with allocated_pp := 0 }
      (spendOnElement p st e g)
    refine ⟨fun hsim => ?_, h2, h3, ?_⟩
    · simp only [hsim]
      exact h1
    · simp only [h4]
      exact le_trans EPSILON_pos.le (le_max_right _ _)
  · rw [elementStep_skip p st e g b hskip]
    exact ⟨fun _ => rfl, rfl, Or.inl rfl, le_refl _⟩

/-- A pass that does not simulate changes nothing but `allocated_pp` and the two forecasts. -/
theorem spendingLoop_clearUpdateFields (p : SpendingParams) (hsim : p.simulating = false)
    (q : List Element) :
    ∀ (i : Nat) (st : SpendingState),
      (spendingLoop p i q st).2.1.map clearUpdateFields = q.map clearUpdateFields := by
  induction q with
  | nil => intro i st; rfl
  | cons e rest ih =>
    intro i st
    simp only [spendingLoop, List.map_cons, ih]
    rw [(elementStep_fields p st e _ _).1 hsim]

/-- A pass leaves the completion forecast of every element alone and either leaves its
next-batch forecast alone or sets it to 1. -/
theorem spendingLoop_forecasts (p : SpendingParams) (P : Int → Int → Prop)
    (hP : ∀ a b, P a b → P 1 b) (q : List Element) :
    ∀ (i : Nat) (st : SpendingState),
      (∀ e ∈ q, P e.turns_left_to_next_item e.turns_left_to_completion) →
      ∀ e ∈ (spendingLoop p i q st).2.1,
        P e.turns_left_to_next_item e.turns_left_to_completion := by
  induction q with
  | nil => intro i st _ e he; simp [spendingLoop] at he
  | cons e0 rest ih =>
    intro i st h e he
    simp only [spendingLoop, List.mem_cons] at he
    rcases he with he | he
    · obtain ⟨-, h2, h3, -⟩ := elementStep_fields p st e0
        (p.queue_element_resource_sharing_object_groups.getD i ∅) (p.is_producible.getD i false)
      have h0 := h e0 (List.mem_cons_self _ _)
      rw [he, h2]
      rcases h3 with h3 | h3
      · rw [h3]; exact h0
      · rw [h3]; exact hP _ _ h0
    · exact ih _ _ (fun x hx => h x (List.mem_cons_of_mem _ hx)) e he


/-! ### Forecasts after `Update` -/

/-- After the authoritative pass of `Update` every completion forecast is `-1` and every
next-batch forecast is `-1` or `1`. -/
theorem authoritativePass_forecasts (rules : GameRules) (q : ProductionQueue)
    (context : ScriptingContext) (empire : Empire) :
    ∀ e ∈ (authoritativePass rules q context empire).queue,
      (e.turns_left_to_next_item = -1 ∨ e.turns_left_to_next_item = 1) ∧
        e.turns_left_to_completion = -1 := by
  rw [authoritativePass_eq_loop]
  apply spendingLoop_forecasts _ (fun a b => (a = -1 ∨ a = 1) ∧ b = -1)
    (fun a b h => ⟨Or.inr rfl, h.2⟩)
  intro e he
  rw [List.mem_map] at he
  obtain ⟨e0, -, rfl⟩ := he
  exact ⟨Or.inl rfl, rfl⟩

theorem forecastInRange_stamps (t : Nat) (h1 : 1 ≤ t) (h2 : t ≤ TOO_MANY_TURNS) (e : Element)
    (he : forecastInRange e.turns_left_to_next_item ∧
      forecastInRange e.turns_left_to_completion) :
    (forecastInRange (stampNextItem (t : Int) e).turns_left_to_next_item ∧
      forecastInRange (stampNextItem (t : Int) e).turns_left_to_completion) ∧
    (forecastInRange (stampCompletion (t : Int) e).turns_left_to_next_item ∧
      forecastInRange (stampCompletion (t : Int) e).turns_left_to_completion) := by
  have ht : forecastInRange (t : Int) := Or.inr ⟨by exact_mod_cast h1, by exact_mod_cast h2⟩
  refine ⟨?_, he.1, ht⟩
  unfold stampNextItem
  split_ifs
  · exact ⟨ht, he.2⟩
  · exact he

/-- C12: after `Update`, for every queue entry, the next-batch forecast and the completion
forecast are each either `-1` or an integer from 1 to 500, provided the owning empire resolves
or the forecasts were in that range before the call (an `Update` without empire leaves the
entries alone). -/
theorem C12_forecasts_in_range (rules : GameRules) (timed_out : Nat → Bool)
    (q : ProductionQueue) (context : ScriptingContext)
    (hprior : context.GetEmpire q.m_empire_id = none →
      ∀ e ∈ q.m_queue, forecastInRange e.turns_left_to_next_item ∧
        forecastInRange e.turns_left_to_completion) :
    ∀ e ∈ (q.Update rules timed_out context).m_queue,
      forecastInRange e.turns_left_to_next_item ∧
        forecastInRange e.turns_left_to_completion := by
  cases hempire : context.GetEmpire q.m_empire_id with
  | none =>
    rw [Update_unresolved rules timed_out q context hempire]
    exact hprior hempire
  | some empire =>
    have hpass : ∀ e ∈ (authoritativePass rules q context empire).queue,
        forecastInRange e.turns_left_to_next_item ∧
          forecastInRange e.turns_left_to_completion := by
      intro e he
      obtain ⟨h1, h2⟩ := authoritativePass_forecasts rules q context empire e he
      refine ⟨?_, Or.inl h2⟩
      rcases h1 with h1 | h1
      · exact Or.inl h1
      · rw [h1]; exact Or.inr ⟨le_refl _, by simp [TOO_MANY_TURNS]⟩
    rw [Update_resolved rules timed_out q context empire hempire]
    split_ifs
    · simp only
      apply simulateTurns_m_queue
        (fun l => ∀ e ∈ l, forecastInRange e.turns_left_to_next_item ∧
          forecastInRange e.turns_left_to_completion)
      · intro t h1 h2 idx l hl
        exact modifyAt_forall _ _ (fun e he => (forecastInRange_stamps t h1 h2 e he).1) idx l hl
      · intro t h1 h2 idx l hl
        exact modifyAt_forall _ _ (fun e he => (forecastInRange_stamps t h1 h2 e he).2) idx l hl
      · exact le_refl _
      · simp [TOO_MANY_TURNS]
      · rw [removeUnproducible_m_queue]
        exact hpass
    · exact hpass

theorem scenario_update_queue :
    (scenarioQueue.Update {} noTimeout scenarioContext).m_queue = [scenarioResult] := by
  rw [scenario_update, scenario_simulation]
  rfl

/-- Witness of C12: the entry of the scenario queue, whose empire resolves. -/
theorem C12_forecasts_in_range_witness :
    forecastInRange scenarioResult.turns_left_to_next_item ∧
      forecastInRange scenarioResult.turns_left_to_completion :=
  C12_forecasts_in_range {} noTimeout scenarioQueue scenarioContext
    (fun h => by simp [scenarioContext, scenarioQueue] at h) scenarioResult
    (by rw [scenario_update_queue]; exact List.mem_singleton.mpr rfl)


set_option maxHeartbeats 1000000 in
/-- Counterexample to C15 as stated: no group has more than `ε` available (the only group has
0) and the reserve holds 50; the reserve-eligible entry, three quarters done, receives its
last 10 from the reserve in the authoritative pass, whose completion test sets its next-batch
forecast to 1; `Update` does not simulate and the forecast stays 1, not `-1`. -/
theorem C15_counterexample :
    reserveContext.GetEmpire lateQueue.m_empire_id = some reserveEmpire ∧
    reserveEmpire.industry_output.any (fun available => decide (available.2 > EPSILON)) = false ∧
    (lateQueue.Update {} noTimeout reserveContext).m_queue =
      [{ lateElement with allocated_pp := 10, turns_left_to_next_item := 1 }] := by
  refine ⟨rfl, ?_, ?_⟩
  · norm_num +decide [reserveEmpire, EPSILON]
  · norm_num +decide [ProductionQueue.Update, lateQueue, lateElement, reserveContext,
      reserveEmpire, resetForecast,
      cacheCosts, elementGroup, Element.ProductionCostAndTime,
      ProductionItem.ProductionCostAndTime, scenarioUniverse, scenarioElement, sampleItem,
      StockpileCapacity, CalculateNewStockpile, addGroupExcess, mapSum,
      SetProdQueueElementSpending, spendingLoop, elementStep, skipsElement,
      groupPPAvailable, mapFind, mapSet, mapAdd, setGroupPPAvailable, initialSpendingState,
      spendOnElement, lookupCostTime, costFind, costKeyEquiv, costKeyLt, ProductionItem.lt,
      ProductionItem.CostIsProductionLocationInvariant, INVALID_OBJECT_ID,
      CalculateProductionPerTurnLimit, EPSILON, fundElement, completesThisTurn,
      recordSpending, BuildType.toInt, ALL_EMPIRES]

/-- C15 (amended): if the owning empire resolves and no group has an available amount above
`ε` this turn, `Update` skips the forward simulation and leaves the queue object exactly as the
authoritative pass leaves it; afterwards every entry's completion forecast is `-1` and its
next-batch forecast is `-1` or `1` (the value 1 being what the completion test of the
authoritative pass writes), for every queue and every reserve level. -/
theorem C15_no_simulation (rules : GameRules) (timed_out : Nat → Bool) (q : ProductionQueue)
    (context : ScriptingContext) (empire : Empire)
    (hempire : context.GetEmpire q.m_empire_id = some empire)
    (hlow : ∀ kv ∈ empire.industry_output, kv.2 ≤ EPSILON) :
    q.Update rules timed_out context = afterAuthoritativePass rules q context empire ∧
    ∀ e ∈ (q.Update rules timed_out context).m_queue,
      e.turns_left_to_completion = -1 ∧
        (e.turns_left_to_next_item = -1 ∨ e.turns_left_to_next_item = 1) := by
  have hany : empire.industry_output.any (fun available => decide (available.2 > EPSILON)) =
      false := by
    rw [List.any_eq_false]
    intro kv hkv
    simpa using hlow kv hkv
  have hupd : q.Update rules timed_out context = afterAuthoritativePass rules q context empire := by
    rw [Update_resolved rules timed_out q context empire hempire, hany]
    rfl
  refine ⟨hupd, ?_⟩
  rw [hupd]
  intro e he
  obtain ⟨h1, h2⟩ := authoritativePass_forecasts rules q context empire e he
  exact ⟨h2, h1⟩

/-- Witness of C15 (amended): the late entry funded from the reserve. -/
theorem C15_no_simulation_witness :
    lateQueue.Update {} noTimeout reserveContext =
        afterAuthoritativePass {} lateQueue reserveContext reserveEmpire ∧
    ∀ e ∈ (lateQueue.Update {} noTimeout reserveContext).m_queue,
      e.turns_left_to_completion = -1 ∧
        (e.turns_left_to_next_item = -1 ∨ e.turns_left_to_next_item = 1) :=
  C15_no_simulation {} noTimeout lateQueue reserveContext reserveEmpire rfl
    (by norm_num +decide [reserveEmpire, EPSILON])


/-! ### Nothing available -/

theorem mapFind_mem (m : GroupMap) (g : ObjectGroup) (v : ℚ) (h : mapFind m g = some v) :
    ∃ kv ∈ m, kv.2 = v := by
  induction m with
  | nil => simp [mapFind] at h
  | cons kv rest ih =>
    obtain ⟨k, w⟩ := kv
    simp only [mapFind] at h
    split_ifs at h with hk
    · exact ⟨(k, w), List.mem_cons_self _ _, Option.some.inj h⟩
    · obtain ⟨kv, hkv, hv⟩ := ih h
      exact ⟨kv, List.mem_cons_of_mem _ hkv, hv⟩

/-- When no group, the dummy source and the reserve hold anything, the loop skips every
element and leaves its state alone. -/
theorem spendingLoop_all_skipped (p : SpendingParams) (q : List Element) :
    ∀ (i : Nat) (st : SpendingState), (∀ kv ∈ st.available_pp, kv.2 ≤ 0) →
      st.dummy_pp_source ≤ 0 → st.available_stockpile ≤ 0 →
      spendingLoop p i q st =
        (st, q.map (fun e => { e with allocated_pp := 0 }), q.map (fun _ => none)) := by
  induction q with
  | nil => intro i st _ _ _; rfl
  | cons e rest ih =>
    intro i st hmap hdummy hres
    have hskip : ∀ g b, skipsElement st e g b = true := by
      intro g b
      have hg : groupPPAvailable st g ≤ 0 := by
        unfold groupPPAvailable
        cases hfind : mapFind st.available_pp g with
        | none => exact hdummy
        | some v =>
          obtain ⟨kv, hkv, hv⟩ := mapFind_mem _ _ _ hfind
          rw [← hv]; exact hmap kv hkv
      simp [skipsElement, hg, hres]
    simp only [spendingLoop, elementStep_skip p st e _ _ (hskip _ _), List.map_cons]
    rw [ih (i + 1) st hmap hdummy hres]

/-- C14: if the owning empire resolves, every group reports 0 (or less) available and the
reserve is empty, then after `Update` every entry has `allocated_pp = 0` and both forecasts
equal to `-1`, all its other fields being as before, and the projects-in-progress count is 0;
`Update` is a total function, so it completes without raising an error, for every queue. -/
theorem C14_nothing_available (rules : GameRules) (timed_out : Nat → Bool)
    (q : ProductionQueue) (context : ScriptingContext) (empire : Empire)
    (hempire : context.GetEmpire q.m_empire_id = some empire)
    (hgroups : ∀ kv ∈ empire.industry_output, kv.2 ≤ 0)
    (hreserve : empire.industry_stockpile ≤ 0) :
    (q.Update rules timed_out context).m_queue = q.m_queue.map clearUpdateFields ∧
    (∀ e ∈ (q.Update rules timed_out context).m_queue,
      e.allocated_pp = 0 ∧ e.turns_left_to_next_item = -1 ∧ e.turns_left_to_completion = -1) ∧
    (q.Update rules timed_out context).m_projects_in_progress = 0 := by
  have hlow : ∀ kv ∈ empire.industry_output, kv.2 ≤ EPSILON :=
    fun kv hkv => le_trans (hgroups kv hkv) EPSILON_pos.le
  have hany : empire.industry_output.any (fun available => decide (available.2 > EPSILON)) =
      false := by
    rw [List.any_eq_false]
    intro kv hkv
    simpa using hlow kv hkv
  have hupd : q.Update rules timed_out context = afterAuthoritativePass rules q context empire := by
    rw [Update_resolved rules timed_out q context empire hempire, hany]
    rfl
  have hloop := spendingLoop_all_skipped (updateSpendingParams rules q context empire)
    (q.m_queue.map resetForecast) 0 (updateStart q context empire) hgroups (le_refl _)
    (le_trans (min_le_left _ _) hreserve)
  have hqueue : (q.Update rules timed_out context).m_queue = q.m_queue.map clearUpdateFields := by
    rw [hupd]
    simp only [afterAuthoritativePass]
    rw [authoritativePass_eq_loop, hloop]
    simp only [List.map_map]
    rfl
  refine ⟨hqueue, ?_, ?_⟩
  · rw [hqueue]
    intro e he
    rw [List.mem_map] at he
    obtain ⟨e0, -, rfl⟩ := he
    exact ⟨rfl, rfl, rfl⟩
  · rw [hupd]
    simp only [afterAuthoritativePass]
    rw [authoritativePass_eq_loop, hloop]
    rfl

/-- Witness of C14: the late entry when its group has 0 available and the reserve is empty. -/
theorem C14_nothing_available_witness :
    (lateQueue.Update {} noTimeout emptyContext).m_queue =
      lateQueue.m_queue.map clearUpdateFields ∧
    (∀ e ∈ (lateQueue.Update {} noTimeout emptyContext).m_queue,
      e.allocated_pp = 0 ∧ e.turns_left_to_next_item = -1 ∧ e.turns_left_to_completion = -1) ∧
    (lateQueue.Update {} noTimeout emptyContext).m_projects_in_progress = 0 :=
  C14_nothing_available {} noTimeout lateQueue emptyContext emptyEmpire rfl
    (by norm_num +decide [emptyEmpire]) (by norm_num [emptyEmpire])


/-! ### The frame of `Update` -/

theorem stamps_clearUpdateFields (t : Int) (e : Element) :
    clearUpdateFields (stampNextItem t e) = clearUpdateFields e ∧
    clearUpdateFields (stampCompletion t e) = clearUpdateFields e ∧
    (stampNextItem t e).allocated_pp = e.allocated_pp ∧
    (stampCompletion t e).allocated_pp = e.allocated_pp := by
  refine ⟨?_, rfl, ?_, rfl⟩
  · unfold stampNextItem
    split_ifs <;> rfl
  · unfold stampNextItem
    split_ifs <;> rfl

/-- The forward simulation changes no field of the real queue that `g` reads, when the two
stamps do not change what `g` reads. -/
theorem simulateTurns_map {β : Type} (g : Element → β)
    (hnext : ∀ t e, g (stampNextItem t e) = g e)
    (hdone : ∀ t e, g (stampCompletion t e) = g e) (sp : SimulationParams)
    (fuel sim_turn : Nat) (s : SimulationState) (h1 : 1 ≤ sim_turn)
    (h2 : sim_turn + fuel ≤ TOO_MANY_TURNS + 1) :
    (simulateTurns sp fuel sim_turn s).m_queue.map g = s.m_queue.map g :=
  simulateTurns_m_queue (fun l => l.map g = s.m_queue.map g) sp
    (fun t _ _ idx l hl => (modifyAt_map _ g (hnext t) idx l).trans hl)
    (fun t _ _ idx l hl => (modifyAt_map _ g (hdone t) idx l).trans hl)
    fuel sim_turn s h1 h2 rfl

/-- The real queue after `Update` for a resolved empire agrees with the queue after the
authoritative pass on every field that the two stamps leave alone. -/
theorem Update_map_eq_pass {β : Type} (g : Element → β)
    (hnext : ∀ t e, g (stampNextItem t e) = g e)
    (hdone : ∀ t e, g (stampCompletion t e) = g e)
    (rules : GameRules) (timed_out : Nat → Bool) (q : ProductionQueue)
    (context : ScriptingContext) (empire : Empire)
    (hempire : context.GetEmpire q.m_empire_id = some empire) :
    (q.Update rules timed_out context).m_queue.map g =
      (authoritativePass rules q context empire).queue.map g := by
  rw [Update_resolved rules timed_out q context empire hempire]
  split_ifs
  · simp only
    rw [simulateTurns_map g hnext hdone _ _ _ _ (le_refl _) (by simp [TOO_MANY_TURNS]),
      removeUnproducible_m_queue]
    rfl
  · rfl

theorem authoritativePass_clearUpdateFields (rules : GameRules) (q : ProductionQueue)
    (context : ScriptingContext) (empire : Empire) :
    (authoritativePass rules q context empire).queue.map clearUpdateFields =
      q.m_queue.map clearUpdateFields := by
  rw [authoritativePass_eq_loop]
  simp only
  rw [spendingLoop_clearUpdateFields _ rfl, List.map_map]
  rfl

/-- The queue after `Update` differs from the queue before in no field other than
`allocated_pp` and the two forecasts. -/
theorem Update_clearUpdateFields (rules : GameRules) (timed_out : Nat → Bool)
    (q : ProductionQueue) (context : ScriptingContext) :
    (q.Update rules timed_out context).m_queue.map clearUpdateFields =
      q.m_queue.map clearUpdateFields := by
  cases hempire : context.GetEmpire q.m_empire_id with
  | none => rw [Update_unresolved rules timed_out q context hempire]
  | some empire =>
    rw [Update_map_eq_pass clearUpdateFields (fun t e => (stamps_clearUpdateFields t e).1)
      (fun t e => (stamps_clearUpdateFields t e).2.1) rules timed_out q context empire hempire,
      authoritativePass_clearUpdateFields]

theorem clearUpdateFields_eq (e1 e : Element) (h : clearUpdateFields e1 = clearUpdateFields e) :
    e1 = { e with allocated_pp := e1.allocated_pp
                  turns_left_to_next_item := e1.turns_left_to_next_item
                  turns_left_to_completion := e1.turns_left_to_completion } := by
  cases e1
  cases e
  simp only [clearUpdateFields, Element.mk.injEq] at h
  simp only [Element.mk.injEq]
  tauto

/-- C16: `Update` keeps the length and the order of the queue and changes, in each entry,
only `allocated_pp` and the two forecast fields (the entry at each position is the former entry
with new values in these three fields, so progress, remaining, ordered, blocksize, location,
pause flag, reserve-eligibility flag, item and unique identifier are as before); for a resolved
empire the allocated amounts after `Update` are those of the authoritative pass, and without
an empire the entries are untouched. -/
theorem C16_update_frame (rules : GameRules) (timed_out : Nat → Bool) (q : ProductionQueue)
    (context : ScriptingContext) :
    (q.Update rules timed_out context).m_queue.length = q.m_queue.length ∧
    (∀ (k : Nat) (e : Element), q.m_queue[k]? = some e →
      ∃ (a : ℚ) (next done : Int),
        (q.Update rules timed_out context).m_queue[k]? =
          some { e with allocated_pp := a, turns_left_to_next_item := next
                        turns_left_to_completion := done }) ∧
    (∀ empire : Empire, context.GetEmpire q.m_empire_id = some empire →
      (q.Update rules timed_out context).m_queue.map (fun e => e.allocated_pp) =
        (authoritativePass rules q context empire).queue.map (fun e => e.allocated_pp)) ∧
    (context.GetEmpire q.m_empire_id = none →
      (q.Update rules timed_out context).m_queue = q.m_queue) := by
  have hmap := Update_clearUpdateFields rules timed_out q context
  refine ⟨?_, ?_, ?_, ?_⟩
  · have := congrArg List.length hmap
    simpa using this
  · intro k e hk
    have h1 : ((q.Update rules timed_out context).m_queue.map clearUpdateFields)[k]? =
        (q.m_queue.map clearUpdateFields)[k]? := by rw [hmap]
    rw [List.getElem?_map, List.getElem?_map, hk] at h1
    cases hk1 : (q.Update rules timed_out context).m_queue[k]? with
    | none => rw [hk1] at h1; simp at h1
    | some e1 =>
      rw [hk1] at h1
      simp only [Option.map_some', Option.some.injEq] at h1
      exact ⟨e1.allocated_pp, e1.turns_left_to_next_item, e1.turns_left_to_completion,
        congrArg some (clearUpdateFields_eq e1 e h1)⟩
  · intro empire hempire
    exact Update_map_eq_pass (fun e => e.allocated_pp)
      (fun t e => (stamps_clearUpdateFields t e).2.2.1)
      (fun t e => (stamps_clearUpdateFields t e).2.2.2) rules timed_out q context empire hempire
  · intro hempire
    rw [Update_unresolved rules timed_out q context hempire]


/-! ### A group with nothing available -/

theorem mapFind_mapSet (m : GroupMap) (g : ObjectGroup) (x : ℚ) (G : ObjectGroup) :
    mapFind (mapSet m g x) G =
      if g = G then (mapFind m g).map (fun _ => x) else mapFind m G := by
  induction m with
  | nil => simp [mapSet, mapFind]
  | cons kv rest ih =>
    obtain ⟨k, v⟩ := kv
    by_cases hg : g = G
    · subst hg
      rw [if_pos rfl] at ih
      by_cases hk : k = g
      · simp [mapSet, mapFind, hk]
      · simp [mapSet, mapFind, hk, ih]
    · rw [if_neg hg] at ih
      by_cases hk : k = g
      · subst hk
        simp [mapSet, mapFind, hg]
      · by_cases hk2 : k = G
        · subst hk2
          simp [mapSet, mapFind, hk, hg]
        · simp [mapSet, mapFind, hk, hk2, hg, ih]

/-- A write through the reference of the group `g` either leaves the amount read for the group
`G` alone, or both groups read the same cell and `G` now reads the written value. -/
theorem groupPPAvailable_set (st : SpendingState) (g : ObjectGroup) (x : ℚ) (G : ObjectGroup) :
    groupPPAvailable (setGroupPPAvailable st g x) G = groupPPAvailable st G ∨
    (groupPPAvailable (setGroupPPAvailable st g x) G = x ∧
      groupPPAvailable st g = groupPPAvailable st G) := by
  unfold setGroupPPAvailable
  cases hg : mapFind st.available_pp g with
  | some v =>
    simp only
    by_cases h : g = G
    · right
      subst h
      simp [groupPPAvailable, mapFind_mapSet, hg]
    · left
      simp [groupPPAvailable, mapFind_mapSet, h]
  | none =>
    simp only
    cases hG : mapFind st.available_pp G with
    | some w => left; simp [groupPPAvailable, hG]
    | none => right; simp [groupPPAvailable, hG, hg]

theorem recordSpending_groupPPAvailable (st : SpendingState) (e : Element) (g : ObjectGroup)
    (s : ElementSpending) (G : ObjectGroup) :
    groupPPAvailable (recordSpending st e g s) G =
      groupPPAvailable (setGroupPPAvailable st g (s.group_pp_available - s.group_drawdown)) G := by
  unfold recordSpending setGroupPPAvailable groupPPAvailable
  split_ifs <;> dsimp only <;> cases mapFind st.available_pp g <;> rfl

/-- One iteration of the pass keeps a group that has nothing available at nothing available. -/
theorem elementStep_starved (p : SpendingParams) (st : SpendingState) (e : Element)
    (g : ObjectGroup) (b : Bool) (G : ObjectGroup) (h : groupPPAvailable st G ≤ 0) :
    groupPPAvailable (elementStep p st e g b).1 G ≤ 0 := by
  cases hskip : skipsElement st e g b
  · rw [elementStep_fund p st e g b hskip]
    simp only
    rw [recordSpending_groupPPAvailable]
    rcases groupPPAvailable_set st g
      ((spendOnElement p st e g).group_pp_available - (spendOnElement p st e g).group_drawdown)
      G with h1 | ⟨h1, h2⟩
    · rw [h1]; exact h
    · rw [h1]
      have h0 := (spendOnElement_allocation_bounds p st e g).1
      have hgpa : (spendOnElement p st e g).group_pp_available = groupPPAvailable st g := rfl
      have hdraw : (spendOnElement p st e g).group_drawdown =
          min (spendOnElement p st e g).allocation (groupPPAvailable st g) := rfl
      rw [hgpa, hdraw, h2, min_eq_right (le_trans h h0), sub_self]
  · rw [elementStep_skip p st e g b hskip]
    exact h

/-- In a pass, an element whose group has nothing available and that may not use the imperial
stockpile is skipped: it comes out with `allocated_pp = 0` and is otherwise unchanged. -/
theorem spendingLoop_starved (p : SpendingParams) (G : ObjectGroup) (q : List Element) :
    ∀ (i : Nat) (st : SpendingState), groupPPAvailable st G ≤ 0 →
      ∀ (k : Nat) (e : Element), q[k]? = some e →
        p.queue_element_resource_sharing_object_groups.getD (i + k) ∅ = G →
        e.allowed_imperial_stockpile_use = false →
        (spendingLoop p i q st).2.1[k]? = some { e with allocated_pp := 0 } := by
  induction q with
  | nil => intro i st _ k e hk; simp at hk
  | cons e0 rest ih =>
    intro i st h k e hk hG hallowed
    cases k with
    | zero =>
      simp only [List.getElem?_cons_zero, Option.some.injEq] at hk
      subst hk
      have hskip : skipsElement st e0
          (p.queue_element_resource_sharing_object_groups.getD i ∅)
          (p.is_producible.getD i false) = true := by
        rw [Nat.add_zero] at hG
        rw [hG]
        simp [skipsElement, h, hallowed]
      simp only [spendingLoop, List.getElem?_cons_zero]
      rw [elementStep_skip p st e0 _ _ hskip]
    | succ k =>
      simp only [List.getElem?_cons_succ] at hk
      simp only [spendingLoop, List.getElem?_cons_succ]
      apply ih (i + 1) _ (elementStep_starved p st e0 _ _ G h) k e hk _ hallowed
      rw [← hG]
      congr 1
      omega


/-! ### The simulation and an entry whose group has nothing available -/

theorem eraseRow_starvedRows (j : Nat) (G : ObjectGroup) (s : SimulationState) (i : Nat)
    (m_queue : List Element) (h : starvedRows j G s) :
    starvedRows j G ({ s with m_queue := m_queue }.eraseRow i) := by
  intro k hk
  simp only [SimulationState.eraseRow, List.getElem?_eraseIdx, List.getD_eq_getElem?_getD]
    at hk ⊢
  by_cases hlt : k < i
  · simp only [hlt, if_true] at hk ⊢
    have := h k hk
    simpa [List.getD_eq_getElem?_getD] using this
  · simp only [hlt, if_false] at hk ⊢
    have := h (k + 1) hk
    simpa [List.getD_eq_getElem?_getD] using this

theorem removeUnproducible_starvedRows (j : Nat) (G : ObjectGroup) :
    ∀ (fuel i : Nat) (s : SimulationState), starvedRows j G s →
      starvedRows j G (removeUnproducible fuel i s) := by
  intro fuel
  induction fuel with
  | zero => intro i s h; exact h
  | succ fuel ih =>
    intro i s h
    unfold removeUnproducible
    cases hrow : s.sim_queue[i]? with
    | none => exact h
    | some sim_element =>
      simp only
      split_ifs
      · exact ih _ _ (eraseRow_starvedRows j G s i s.m_queue h)
      · exact ih _ _ h

/-- The completion loop keeps the rows of a starved entry as they are and stamps nothing into
the real entry `j`. -/
theorem completionLoop_starvedRows (j : Nat) (G : ObjectGroup) (sim_turn : Int) :
    ∀ (fuel i : Nat) (s : SimulationState), starvedRows j G s →
      starvedRows j G (completionLoop sim_turn fuel i s) ∧
      (completionLoop sim_turn fuel i s).m_queue[j]? = s.m_queue[j]? := by
  intro fuel
  induction fuel with
  | zero => intro i s h; exact ⟨h, rfl⟩
  | succ fuel ih =>
    intro i s h
    unfold completionLoop
    cases hrow : s.sim_queue[i]? with
    | none => exact ⟨h, rfl⟩
    | some sim_element =>
      simp only
      by_cases hflag : sim_element.turns_left_to_next_item ≠ 1
      · rw [if_pos hflag]
        exact ih _ _ h
      · rw [if_neg hflag]
        have hne : ∀ idx, s.sim_queue_original_indices[i]? = some idx → j ≠ idx := by
          intro idx hidx hj
          subst hj
          exact hflag ((h i hidx).2 sim_element hrow).2
        have hnext : (match s.sim_queue_original_indices[i]? with
            | some idx => modifyAt (stampNextItem sim_turn) idx s.m_queue
            | none => s.m_queue)[j]? = s.m_queue[j]? := by
          cases hidx : s.sim_queue_original_indices[i]? with
          | none => rfl
          | some idx =>
            simp only
            rw [modifyAt_getElem?, if_neg (hne idx hidx)]
        split_ifs with hrem
        · have hdone : (match s.sim_queue_original_indices[i]? with
              | some idx => modifyAt (stampCompletion sim_turn) idx
                  (match s.sim_queue_original_indices[i]? with
                    | some idx => modifyAt (stampNextItem sim_turn) idx s.m_queue
                    | none => s.m_queue)
              | none => (match s.sim_queue_original_indices[i]? with
                    | some idx => modifyAt (stampNextItem sim_turn) idx s.m_queue
                    | none => s.m_queue))[j]? = s.m_queue[j]? := by
            cases hidx : s.sim_queue_original_indices[i]? with
            | none => rfl
            | some idx =>
              simp only
              rw [modifyAt_getElem?, if_neg (hne idx hidx), modifyAt_getElem?,
                if_neg (hne idx hidx)]
          obtain ⟨h1, h2⟩ := ih i _ (eraseRow_starvedRows j G s i _ h)
          refine ⟨h1, h2.trans ?_⟩
          exact hdone
        · have hset : starvedRows j G
              { s with
                sim_queue := s.sim_queue.set i
                  { sim_element with
                    progress := max 0 (sim_element.progress - 1)
                    turns_left_to_next_item := -1
                    remaining := sim_element.remaining - 1 }
                m_queue := (match s.sim_queue_original_indices[i]? with
                  | some idx => modifyAt (stampNextItem sim_turn) idx s.m_queue
                  | none => s.m_queue) } := by
            intro k hk
            refine ⟨(h k hk).1, ?_⟩
            intro e he
            have hki : i ≠ k := by
              intro hik
              subst hik
              exact hflag ((h i hk).2 sim_element hrow).2
            simp only [List.getElem?_set, if_neg hki] at he
            exact (h k hk).2 e he
          obtain ⟨h1, h2⟩ := ih (i + 1) _ hset
          exact ⟨h1, h2.trans hnext⟩


theorem initial_groupPPAvailable (available_pp : GroupMap) (available_stockpile : ℚ)
    (G : ObjectGroup) (hG : ∀ v, mapFind available_pp G = some v → v ≤ 0) :
    groupPPAvailable (initialSpendingState available_pp available_stockpile) G ≤ 0 := by
  unfold groupPPAvailable initialSpendingState
  dsimp only
  cases h : mapFind available_pp G with
  | none => exact le_refl _
  | some v => exact hG v h

/-- A pass called on the simulated queue keeps the rows of a starved entry as they are. -/
theorem pass_starvedRows (j : Nat) (G : ObjectGroup) (sp : SimulationParams)
    (hG : ∀ v, mapFind sp.available_pp G = some v → v ≤ 0) (s : SimulationState)
    (h : starvedRows j G s) (dummy_int : Int) :
    starvedRows j G
      { s with
        sim_queue := (SetProdQueueElementSpending sp.rules sp.available_pp
          s.sim_available_stockpile sp.stockpile_limit s.queue_element_groups
          sp.queue_item_costs_and_times s.is_producible s.sim_queue [] [] s.dummy_int true
          sp.context.ContextUniverse).queue
        dummy_int := dummy_int } := by
  by_cases hlen : s.sim_queue.length = s.queue_element_groups.length
  · intro k hk
    refine ⟨(h k hk).1, ?_⟩
    intro e1 he1
    dsimp only at he1
    rw [SetProdQueueElementSpending_eq_loop
      { rules := sp.rules
        stockpile_limit := sp.stockpile_limit
        queue_element_resource_sharing_object_groups := s.queue_element_groups
        queue_item_costs_and_times := sp.queue_item_costs_and_times
        is_producible := s.is_producible
        simulating := true
        the_universe := sp.context.ContextUniverse } sp.available_pp s.sim_available_stockpile
      s.sim_queue [] [] s.dummy_int hlen] at he1
    dsimp only at he1
    cases hrow : s.sim_queue[k]? with
    | none =>
      have hk2 : s.sim_queue.length ≤ k := List.getElem?_eq_none_iff.mp hrow
      rw [List.getElem?_eq_none_iff.mpr (by rw [(spendingLoop_length _ _ _ _).1]; exact hk2)] at he1
      cases he1
    | some e =>
      obtain ⟨hallowed, hflag⟩ := (h k hk).2 e hrow
      rw [spendingLoop_starved _ G s.sim_queue 0 _
        (initial_groupPPAvailable sp.available_pp s.sim_available_stockpile G hG) k e hrow
        (by rw [Nat.zero_add]; exact (h k hk).1) hallowed] at he1
      simp only [Option.some.injEq] at he1
      subst he1
      exact ⟨hallowed, hflag⟩
  · have hq : (SetProdQueueElementSpending sp.rules sp.available_pp
          s.sim_available_stockpile sp.stockpile_limit s.queue_element_groups
          sp.queue_item_costs_and_times s.is_producible s.sim_queue [] [] s.dummy_int true
          sp.context.ContextUniverse).queue = s.sim_queue := by
      simp [SetProdQueueElementSpending, hlen]
    rw [hq]
    exact h

theorem simulateTurn_starvedRows (j : Nat) (G : ObjectGroup) (sp : SimulationParams)
    (hG : ∀ v, mapFind sp.available_pp G = some v → v ≤ 0) (sim_turn : Nat)
    (s : SimulationState) (h : starvedRows j G s) :
    starvedRows j G (simulateTurn sp sim_turn s) ∧
      (simulateTurn sp sim_turn s).m_queue[j]? = s.m_queue[j]? := by
  obtain ⟨h1, h2⟩ := completionLoop_starvedRows j G (sim_turn : Int) _ 0 _
    (pass_starvedRows j G sp hG s h (SetProdQueueElementSpending sp.rules sp.available_pp
          s.sim_available_stockpile sp.stockpile_limit s.queue_element_groups
          sp.queue_item_costs_and_times s.is_producible s.sim_queue [] [] s.dummy_int true
          sp.context.ContextUniverse).projects_in_progress)
  exact ⟨h1, h2⟩

/-- The forward simulation stamps nothing into the real entry of a starved row. -/
theorem simulateTurns_starvedRows (j : Nat) (G : ObjectGroup) (sp : SimulationParams)
    (hG : ∀ v, mapFind sp.available_pp G = some v → v ≤ 0) :
    ∀ (fuel sim_turn : Nat) (s : SimulationState), starvedRows j G s →
      (simulateTurns sp fuel sim_turn s).m_queue[j]? = s.m_queue[j]? := by
  intro fuel
  induction fuel with
  | zero => intro t s _; rfl
  | succ fuel ih =>
    intro t s h
    unfold simulateTurns
    split_ifs
    · rfl
    · rfl
    · obtain ⟨h1, h2⟩ := simulateTurn_starvedRows j G sp hG t s h
      rw [ih _ _ h1, h2]


theorem simulationStart_starvedRows (rules : GameRules) (q : ProductionQueue)
    (context : ScriptingContext) (empire : Empire) (j : Nat) (e : Element)
    (hj : q.m_queue[j]? = some e) (hreserve : e.allowed_imperial_stockpile_use = false) :
    starvedRows j (elementGroup empire.industry_output e.location)
      (simulationStart rules q context empire) := by
  intro k hk
  simp only [simulationStart] at hk ⊢
  have hkj : k = j := by
    rw [List.getElem?_eq_some_iff] at hk
    obtain ⟨hlt, hval⟩ := hk
    simpa using hval
  subst hkj
  constructor
  · simp [List.getD_eq_getElem?_getD, List.getElem?_map, hj]
  · intro e1 he1
    rw [List.getElem?_map, hj] at he1
    simp only [Option.map_some', Option.some.injEq] at he1
    subst he1
    exact ⟨hreserve, by simp [resetForecast]⟩

theorem authoritativePass_starved (rules : GameRules) (q : ProductionQueue)
    (context : ScriptingContext) (empire : Empire) (j : Nat) (e : Element)
    (hj : q.m_queue[j]? = some e)
    (hgroup : ∀ v, mapFind empire.industry_output
      (elementGroup empire.industry_output e.location) = some v → v ≤ 0)
    (hreserve : e.allowed_imperial_stockpile_use = false) :
    (authoritativePass rules q context empire).queue[j]? = some (clearUpdateFields e) := by
  rw [authoritativePass_eq_loop]
  dsimp only
  rw [spendingLoop_starved (updateSpendingParams rules q context empire)
    (elementGroup empire.industry_output e.location) _ 0 (updateStart q context empire)
    (initial_groupPPAvailable _ _ _ hgroup) j (resetForecast e)
    (by rw [List.getElem?_map, hj]; rfl)
    (by simp [updateSpendingParams, List.getD_eq_getElem?_getD, List.getElem?_map, hj,
      resetForecast])
    hreserve]
  rfl

/-- C13: when the owning empire resolves, an entry whose resource group has nothing (0 or
less) available, or whose location lies in no group, and that may not use the imperial
stockpile, comes out of `Update` with `allocated_pp = 0` and both forecasts at `-1`, and is
otherwise unchanged, whatever the other entries, the groups and the stockpile are. -/
theorem C13_starved_entry (rules : GameRules) (timed_out : Nat → Bool) (q : ProductionQueue)
    (context : ScriptingContext) (empire : Empire)
    (hempire : context.GetEmpire q.m_empire_id = some empire) (j : Nat) (e : Element)
    (hj : q.m_queue[j]? = some e)
    (hgroup : ∀ v, mapFind empire.industry_output
      (elementGroup empire.industry_output e.location) = some v → v ≤ 0)
    (hreserve : e.allowed_imperial_stockpile_use = false) :
    (q.Update rules timed_out context).m_queue[j]? =
      some { e with allocated_pp := 0, turns_left_to_next_item := -1
                    turns_left_to_completion := -1 } := by
  have hpass := authoritativePass_starved rules q context empire j e hj hgroup hreserve
  rw [Update_resolved rules timed_out q context empire hempire]
  split_ifs
  · dsimp only
    rw [simulateTurns_starvedRows j (elementGroup empire.industry_output e.location)
      (updateSimulationParams rules timed_out q context empire) hgroup _ _ _
      (removeUnproducible_starvedRows j _ _ _ _
        (simulationStart_starvedRows rules q context empire j e hj hreserve)),
      removeUnproducible_m_queue]
    exact hpass
  · exact hpass

/-- Witness of C13: the first entry of the queue of two groups, whose group `{1}` has nothing
available while the group `{2}` of the second entry has 10 and is simulated. -/
theorem C13_starved_entry_witness :
    (twoGroupQueue.Update {} noTimeout twoGroupContext).m_queue[0]? =
      some { scenarioElement with allocated_pp := 0, turns_left_to_next_item := -1
                                  turns_left_to_completion := -1 } :=
  C13_starved_entry {} noTimeout twoGroupQueue twoGroupContext twoGroupEmpire rfl 0
    scenarioElement rfl
    (by
      intro v hv
      have h0 : mapFind twoGroupEmpire.industry_output
          (elementGroup twoGroupEmpire.industry_output scenarioElement.location) = some 0 := by
        simp +decide [twoGroupEmpire, elementGroup, scenarioElement, mapFind]
      rw [h0] at hv
      cases hv
      exact le_refl _)
    rfl


/-! ### What `Update` reads of the queue -/

theorem map_eraseIdx {α β : Type} (f : α → β) :
    ∀ (l : List α) (i : Nat), (l.eraseIdx i).map f = (l.map f).eraseIdx i := by
  intro l
  induction l with
  | nil => intro i; rfl
  | cons a rest ih =>
    intro i
    cases i with
    | zero => rfl
    | succ i => simp [List.eraseIdx, ih]

theorem eraseRow_zeroAllocated (s : SimulationState) (i : Nat) :
    (s.eraseRow i).zeroAllocated = s.zeroAllocated.eraseRow i := by
  simp only [SimulationState.eraseRow, SimulationState.zeroAllocated, map_eraseIdx]

/-- The removal of paused and unproducible elements does not read `allocated_pp`. -/
theorem removeUnproducible_zeroAllocated :
    ∀ (fuel i : Nat) (s : SimulationState),
      (removeUnproducible fuel i s).zeroAllocated =
        removeUnproducible fuel i s.zeroAllocated := by
  intro fuel
  induction fuel with
  | zero => intro i s; rfl
  | succ fuel ih =>
    intro i s
    unfold removeUnproducible
    have hrow : s.zeroAllocated.sim_queue[i]? = s.sim_queue[i]?.map zeroAllocated := by
      simp [SimulationState.zeroAllocated]
    rw [hrow]
    cases s.sim_queue[i]? with
    | none => rfl
    | some sim_element =>
      simp only [Option.map_some']
      have hp : (zeroAllocated sim_element).paused = sim_element.paused := rfl
      have hi : s.zeroAllocated.is_producible = s.is_producible := rfl
      rw [hp, hi]
      split_ifs
      · rw [ih, eraseRow_zeroAllocated]
      · rw [ih]

/-- The completion loop does not read `allocated_pp`. -/
theorem completionLoop_zeroAllocated (sim_turn : Int) :
    ∀ (fuel i : Nat) (s : SimulationState),
      (completionLoop sim_turn fuel i s).zeroAllocated =
        completionLoop sim_turn fuel i s.zeroAllocated := by
  intro fuel
  induction fuel with
  | zero => intro i s; rfl
  | succ fuel ih =>
    intro i s
    unfold completionLoop
    have hrow : s.zeroAllocated.sim_queue[i]? = s.sim_queue[i]?.map zeroAllocated := by
      simp [SimulationState.zeroAllocated]
    rw [hrow]
    cases s.sim_queue[i]? with
    | none => rfl
    | some sim_element =>
      simp only [Option.map_some']
      have hf : (zeroAllocated sim_element).turns_left_to_next_item =
          sim_element.turns_left_to_next_item := rfl
      have hr : (zeroAllocated sim_element).remaining = sim_element.remaining := rfl
      have hi : s.zeroAllocated.sim_queue_original_indices = s.sim_queue_original_indices := rfl
      have hm : s.zeroAllocated.m_queue = s.m_queue := rfl
      rw [hf, hr, hi, hm]
      split_ifs
      · rw [ih]
      · rw [ih, eraseRow_zeroAllocated]
        rfl
      · rw [ih]
        simp only [SimulationState.zeroAllocated, List.map_set]
        rfl


/-- The loop of the pass overwrites `allocated_pp` before it reads it. -/
theorem spendingLoop_zeroAllocated (p : SpendingParams) (q : List Element) :
    ∀ (i : Nat) (st : SpendingState),
      spendingLoop p i (q.map zeroAllocated) st = spendingLoop p i q st := by
  induction q with
  | nil => intro i st; rfl
  | cons e rest ih =>
    intro i st
    have hstep : ∀ g b, elementStep p st (zeroAllocated e) g b = elementStep p st e g b :=
      fun _ _ => rfl
    simp only [List.map_cons, spendingLoop, hstep, ih]

theorem zeroAllocated_idem (l : List Element) :
    (l.map zeroAllocated).map zeroAllocated = l.map zeroAllocated := by
  rw [List.map_map]
  rfl

/-- A pass reads `allocated_pp` of the elements only when it aborts, and then it returns the
queue as it is. -/
theorem SetProdQueueElementSpending_zeroAllocated (rules : GameRules) (available_pp : GroupMap)
    (available_stockpile stockpile_limit : ℚ) (groups : List ObjectGroup)
    (costs : CostTimeMap) (is_producible : List Bool) (queue : List Element)
    (a0 as0 : GroupMap) (pip0 : Int) (simulating : Bool) (the_universe : Universe) :
    (SetProdQueueElementSpending rules available_pp available_stockpile stockpile_limit groups
        costs is_producible (queue.map zeroAllocated) a0 as0 pip0 simulating
        the_universe).queue.map zeroAllocated =
      (SetProdQueueElementSpending rules available_pp available_stockpile stockpile_limit groups
        costs is_producible queue a0 as0 pip0 simulating the_universe).queue.map zeroAllocated ∧
    (SetProdQueueElementSpending rules available_pp available_stockpile stockpile_limit groups
        costs is_producible (queue.map zeroAllocated) a0 as0 pip0 simulating
        the_universe).retval =
      (SetProdQueueElementSpending rules available_pp available_stockpile stockpile_limit groups
        costs is_producible queue a0 as0 pip0 simulating the_universe).retval ∧
    (SetProdQueueElementSpending rules available_pp available_stockpile stockpile_limit groups
        costs is_producible (queue.map zeroAllocated) a0 as0 pip0 simulating
        the_universe).allocated_pp =
      (SetProdQueueElementSpending rules available_pp available_stockpile stockpile_limit groups
        costs is_producible queue a0 as0 pip0 simulating the_universe).allocated_pp ∧
    (SetProdQueueElementSpending rules available_pp available_stockpile stockpile_limit groups
        costs is_producible (queue.map zeroAllocated) a0 as0 pip0 simulating
        the_universe).allocated_stockpile_pp =
      (SetProdQueueElementSpending rules available_pp available_stockpile stockpile_limit groups
        costs is_producible queue a0 as0 pip0 simulating the_universe).allocated_stockpile_pp ∧
    (SetProdQueueElementSpending rules available_pp available_stockpile stockpile_limit groups
        costs is_producible (queue.map zeroAllocated) a0 as0 pip0 simulating
        the_universe).projects_in_progress =
      (SetProdQueueElementSpending rules available_pp available_stockpile stockpile_limit groups
        costs is_producible queue a0 as0 pip0 simulating the_universe).projects_in_progress := by
  unfold SetProdQueueElementSpending
  by_cases hlen : queue.length = groups.length
  · have hlen2 : (queue.map zeroAllocated).length = groups.length := by
      rw [List.length_map]; exact hlen
    simp only [hlen, hlen2, ne_eq, not_true_eq_false, if_false, spendingLoop_zeroAllocated,
      and_self]
  · have hlen2 : ¬ (queue.map zeroAllocated).length = groups.length := by
      rw [List.length_map]; exact hlen
    simp only [hlen, hlen2, ne_eq, not_false_eq_true, if_true, zeroAllocated_idem, and_self]

theorem zeroAllocated_with (x y : SimulationState) (a b : ℚ)
    (h : x.zeroAllocated = y.zeroAllocated) :
    SimulationState.zeroAllocated
        { x with sim_pp_in_stockpile := a, sim_available_stockpile := b } =
      SimulationState.zeroAllocated
        { y with sim_pp_in_stockpile := a, sim_available_stockpile := b } := by
  cases x
  cases y
  simp only [SimulationState.zeroAllocated, SimulationState.mk.injEq] at h ⊢
  tauto

/-- One simulated turn reads `allocated_pp` of no simulated element. -/
theorem simulateTurn_zeroAllocated (sp : SimulationParams) (sim_turn : Nat)
    (s : SimulationState) :
    (simulateTurn sp sim_turn s.zeroAllocated).zeroAllocated =
      (simulateTurn sp sim_turn s).zeroAllocated := by
  have key : ∀ r1 r2 : SpendingResult,
      r2.queue.map zeroAllocated = r1.queue.map zeroAllocated → r2.retval = r1.retval →
      r2.allocated_pp = r1.allocated_pp → r2.allocated_stockpile_pp = r1.allocated_stockpile_pp →
      r2.projects_in_progress = r1.projects_in_progress →
      SimulationState.zeroAllocated
        { completionLoop (sim_turn : Int) r2.queue.length 0
            { s.zeroAllocated with sim_queue := r2.queue, dummy_int := r2.projects_in_progress }
          with
          sim_pp_in_stockpile :=
            CalculateNewStockpile sp.rules sp.m_empire_id s.sim_pp_in_stockpile r2.retval
              sp.available_pp r2.allocated_pp r2.allocated_stockpile_pp sp.context
          sim_available_stockpile :=
            min (CalculateNewStockpile sp.rules sp.m_empire_id s.sim_pp_in_stockpile r2.retval
              sp.available_pp r2.allocated_pp r2.allocated_stockpile_pp sp.context)
              sp.stockpile_limit } =
      SimulationState.zeroAllocated
        { completionLoop (sim_turn : Int) r1.queue.length 0
            { s with sim_queue := r1.queue, dummy_int := r1.projects_in_progress }
          with
          sim_pp_in_stockpile :=
            CalculateNewStockpile sp.rules sp.m_empire_id s.sim_pp_in_stockpile r1.retval
              sp.available_pp r1.allocated_pp r1.allocated_stockpile_pp sp.context
          sim_available_stockpile :=
            min (CalculateNewStockpile sp.rules sp.m_empire_id s.sim_pp_in_stockpile r1.retval
              sp.available_pp r1.allocated_pp r1.allocated_stockpile_pp sp.context)
              sp.stockpile_limit } := by
    intro r1 r2 hq hret ha has hpip
    have hlen : r2.queue.length = r1.queue.length := by
      have := congrArg List.length hq
      simpa using this
    have h2 : SimulationState.zeroAllocated
          { s.zeroAllocated with sim_queue := r2.queue, dummy_int := r2.projects_in_progress } =
        SimulationState.zeroAllocated
          { s with sim_queue := r1.queue, dummy_int := r1.projects_in_progress } := by
      simp only [SimulationState.zeroAllocated, hq, hpip]
    have h3 : (completionLoop (sim_turn : Int) r2.queue.length 0
          { s.zeroAllocated with
            sim_queue := r2.queue, dummy_int := r2.projects_in_progress }).zeroAllocated =
        (completionLoop (sim_turn : Int) r1.queue.length 0
          { s with sim_queue := r1.queue, dummy_int := r1.projects_in_progress }).zeroAllocated := by
      rw [completionLoop_zeroAllocated, completionLoop_zeroAllocated, h2, hlen]
    rw [hret, ha, has]
    exact zeroAllocated_with _ _ _ _ h3
  obtain ⟨hq, hret, ha, has, hpip⟩ := SetProdQueueElementSpending_zeroAllocated sp.rules
    sp.available_pp s.sim_available_stockpile sp.stockpile_limit s.queue_element_groups
    sp.queue_item_costs_and_times s.is_producible s.sim_queue [] [] s.dummy_int true
    sp.context.ContextUniverse
  exact key _ _ hq hret ha has hpip

/-- The forward simulation reads `allocated_pp` of no simulated element. -/
theorem simulateTurns_zeroAllocated (sp : SimulationParams) :
    ∀ (fuel sim_turn : Nat) (s : SimulationState),
      (simulateTurns sp fuel sim_turn s.zeroAllocated).zeroAllocated =
        (simulateTurns sp fuel sim_turn s).zeroAllocated := by
  intro fuel
  induction fuel with
  | zero =>
    intro t s
    simp only [simulateTurns, SimulationState.zeroAllocated, zeroAllocated_idem]
  | succ fuel ih =>
    intro t s
    unfold simulateTurns
    have hempty : s.zeroAllocated.sim_queue.isEmpty = s.sim_queue.isEmpty := by
      simp only [SimulationState.zeroAllocated]
      cases s.sim_queue <;> rfl
    rw [hempty]
    split_ifs
    · simp only [SimulationState.zeroAllocated, zeroAllocated_idem]
    · simp only [SimulationState.zeroAllocated, zeroAllocated_idem]
    · rw [← ih, simulateTurn_zeroAllocated, ih]


theorem cacheCosts_clearUpdateFields (context : ScriptingContext) (l : List Element) :
    ∀ acc : CostTimeMap,
      cacheCosts context (l.map clearUpdateFields) acc = cacheCosts context l acc := by
  induction l with
  | nil => intro acc; rfl
  | cons e rest ih =>
    intro acc
    have h : ∀ rest2 : List Element,
        cacheCosts context (clearUpdateFields e :: rest2) acc =
          match costFind acc (e.item,
            if e.item.CostIsProductionLocationInvariant context.ContextUniverse then
              INVALID_OBJECT_ID
            else e.location) with
          | some _ => cacheCosts context rest2 acc
          | none => cacheCosts context rest2
              (acc ++ [((e.item,
                if e.item.CostIsProductionLocationInvariant context.ContextUniverse then
                  INVALID_OBJECT_ID
                else e.location), e.ProductionCostAndTime context)]) := fun _ => rfl
    have h2 : ∀ rest2 : List Element,
        cacheCosts context (e :: rest2) acc =
          match costFind acc (e.item,
            if e.item.CostIsProductionLocationInvariant context.ContextUniverse then
              INVALID_OBJECT_ID
            else e.location) with
          | some _ => cacheCosts context rest2 acc
          | none => cacheCosts context rest2
              (acc ++ [((e.item,
                if e.item.CostIsProductionLocationInvariant context.ContextUniverse then
                  INVALID_OBJECT_ID
                else e.location), e.ProductionCostAndTime context)]) := fun _ => rfl
    rw [List.map_cons, h, h2]
    cases costFind acc (e.item,
        if e.item.CostIsProductionLocationInvariant context.ContextUniverse then
          INVALID_OBJECT_ID
        else e.location) with
    | none => exact ih _
    | some v => exact ih _

theorem map_congr_clearUpdateFields {β : Type} (f : Element → β)
    (hf : ∀ e, f (clearUpdateFields e) = f e) (l1 l2 : List Element)
    (h : l1.map clearUpdateFields = l2.map clearUpdateFields) : l1.map f = l2.map f := by
  have h1 : ∀ l : List Element, (l.map clearUpdateFields).map f = l.map f := by
    intro l
    rw [List.map_map]
    exact List.map_congr_left (fun e _ => hf e)
  rw [← h1 l1, h, h1 l2]

theorem Update_empire_id (rules : GameRules) (timed_out : Nat → Bool) (q : ProductionQueue)
    (context : ScriptingContext) :
    (q.Update rules timed_out context).m_empire_id = q.m_empire_id := by
  cases hempire : context.GetEmpire q.m_empire_id with
  | none => rw [Update_unresolved rules timed_out q context hempire]
  | some empire =>
    rw [Update_resolved rules timed_out q context empire hempire]
    split_ifs <;> rfl

/-- For a resolved empire, `Update` reads of the queue object only the empire identifier and,
of each entry, the fields other than `allocated_pp` and the two forecasts. -/
theorem Update_congr (rules : GameRules) (timed_out : Nat → Bool) (q1 q2 : ProductionQueue)
    (context : ScriptingContext) (empire : Empire) (hid : q1.m_empire_id = q2.m_empire_id)
    (hmap : q1.m_queue.map clearUpdateFields = q2.m_queue.map clearUpdateFields)
    (hempire : context.GetEmpire q1.m_empire_id = some empire) :
    q1.Update rules timed_out context = q2.Update rules timed_out context := by
  have hempire2 : context.GetEmpire q2.m_empire_id = some empire := by rw [← hid]; exact hempire
  have hcost : cacheCosts context q1.m_queue [] = cacheCosts context q2.m_queue [] := by
    rw [← cacheCosts_clearUpdateFields, hmap, cacheCosts_clearUpdateFields]
  have hgroups :
      q1.m_queue.map (fun element => elementGroup empire.industry_output element.location) =
      q2.m_queue.map (fun element => elementGroup empire.industry_output element.location) :=
    map_congr_clearUpdateFields
      (fun element => elementGroup empire.industry_output element.location) (fun _ => rfl)
      _ _ hmap
  have hprod :
      q1.m_queue.map (fun elem => empire.ProducibleItem elem.item elem.location) =
      q2.m_queue.map (fun elem => empire.ProducibleItem elem.item elem.location) :=
    map_congr_clearUpdateFields (fun elem => empire.ProducibleItem elem.item elem.location)
      (fun _ => rfl) _ _ hmap
  have hlen : q1.m_queue.length = q2.m_queue.length := by
    have := congrArg List.length hmap
    simpa using this
  have hreset : (q1.m_queue.map resetForecast).map zeroAllocated =
      (q2.m_queue.map resetForecast).map zeroAllocated := by
    have h : ∀ l : List Element,
        (l.map resetForecast).map zeroAllocated = l.map clearUpdateFields := by
      intro l
      rw [List.map_map]
      rfl
    rw [h, h, hmap]
  have hP : updateSpendingParams rules q1 context empire =
      updateSpendingParams rules q2 context empire := by
    simp only [updateSpendingParams, hid, hcost, hgroups, hprod]
  have hStart : updateStart q1 context empire = updateStart q2 context empire := by
    simp only [updateStart, hid]
  have hA : authoritativePass rules q1 context empire =
      authoritativePass rules q2 context empire := by
    rw [authoritativePass_eq_loop, authoritativePass_eq_loop, hP, hStart,
      ← spendingLoop_zeroAllocated _ (q1.m_queue.map resetForecast), hreset,
      spendingLoop_zeroAllocated]
  have hAfter : afterAuthoritativePass rules q1 context empire =
      afterAuthoritativePass rules q2 context empire := by
    simp only [afterAuthoritativePass, hA, hid]
  have hS : updateSimulationParams rules timed_out q1 context empire =
      updateSimulationParams rules timed_out q2 context empire := by
    simp only [updateSimulationParams, hid, hcost]
  have hZ : (simulationStart rules q1 context empire).zeroAllocated =
      (simulationStart rules q2 context empire).zeroAllocated := by
    simp only [simulationStart, SimulationState.zeroAllocated, hA, hid, hgroups, hprod, hreset,
      List.length_map, hlen]
  have norm : ∀ q : ProductionQueue,
      (simulateTurns (updateSimulationParams rules timed_out q context empire) TOO_MANY_TURNS 1
        (removeUnproducible (q.m_queue.map resetForecast).length 0
          (simulationStart rules q context empire))).m_queue =
      (simulateTurns (updateSimulationParams rules timed_out q context empire) TOO_MANY_TURNS 1
        (removeUnproducible q.m_queue.length 0
          (simulationStart rules q context empire).zeroAllocated)).zeroAllocated.m_queue := by
    intro q
    rw [← removeUnproducible_zeroAllocated, simulateTurns_zeroAllocated, List.length_map]
    rfl
  rw [Update_resolved rules timed_out q1 context empire hempire,
    Update_resolved rules timed_out q2 context empire hempire2, hAfter, norm q1, norm q2, hS, hZ,
    hlen]

/-- C17: `Update` is idempotent on an unchanged world. A second `Update` with the same rules
and context (group availabilities, stockpile and capacity, costs, build times, producibility),
run on the queue that the first one left, with a clock that answers as in the first run (in
particular when neither run times out), leaves the queue object as the first run left it: the
same allocated amounts and forecasts in every entry, the same per-group consumption maps, the
same projects-in-progress count and the same expected stockpile. -/
theorem C17_update_idempotent (rules : GameRules) (t1 t2 : Nat → Bool) (q : ProductionQueue)
    (context : ScriptingContext) (hclock : ∀ n, t2 n = t1 n) :
    (q.Update rules t1 context).Update rules t2 context = q.Update rules t1 context := by
  have ht : t2 = t1 := funext hclock
  subst ht
  cases hempire : context.GetEmpire q.m_empire_id with
  | none =>
    rw [Update_unresolved rules t2 q context hempire]
    exact Update_unresolved rules t2 _ context hempire
  | some empire =>
    exact Update_congr rules t2 (q.Update rules t2 context) q context empire
      (Update_empire_id rules t2 q context) (Update_clearUpdateFields rules t2 q context)
      (by rw [Update_empire_id]; exact hempire)

/-- Witness of C17: the scenario queue, updated twice with a clock that never times out. -/
theorem C17_update_idempotent_witness :
    (scenarioQueue.Update {} noTimeout scenarioContext).Update {} noTimeout scenarioContext =
      scenarioQueue.Update {} noTimeout scenarioContext :=
  C17_update_idempotent {} noTimeout noTimeout scenarioQueue scenarioContext (fun _ => rfl)


/-! ### Resetting the aggregate state -/

set_option maxHeartbeats 1000000 in
theorem lateQueue_update :
    lateQueue.Update {} noTimeout reserveContext = fundedFromReserve := by
  norm_num +decide [ProductionQueue.Update, lateQueue, lateElement, reserveContext,
      reserveEmpire, resetForecast, fundedFromReserve,
      cacheCosts, elementGroup, Element.ProductionCostAndTime,
      ProductionItem.ProductionCostAndTime, scenarioUniverse, scenarioElement, sampleItem,
      StockpileCapacity, CalculateNewStockpile, addGroupExcess, mapSum,
      SetProdQueueElementSpending, spendingLoop, elementStep, skipsElement,
      groupPPAvailable, mapFind, mapSet, mapAdd, setGroupPPAvailable, initialSpendingState,
      spendOnElement, lookupCostTime, costFind, costKeyEquiv, costKeyLt, ProductionItem.lt,
      ProductionItem.CostIsProductionLocationInvariant, INVALID_OBJECT_ID,
      CalculateProductionPerTurnLimit, EPSILON, fundElement, completesThisTurn,
      recordSpending, BuildType.toInt, ALL_EMPIRES]

/-- What `clear` resets and what it leaves: the queue, the projects-in-progress count and the
allocation map are reset; the stockpile allocation map, the two expected stockpile amounts and
the empire id are left as they were. -/
theorem clear_fields (q : ProductionQueue) :
    q.clear.m_queue = [] ∧ q.clear.ProjectsInProgress = 0 ∧ q.clear.AllocatedPP = [] ∧
    q.clear.TotalPPsSpent = 0 ∧
    q.clear.AllocatedStockpilePP = q.AllocatedStockpilePP ∧
    q.clear.m_expected_new_stockpile_amount = q.m_expected_new_stockpile_amount ∧
    q.clear.m_expected_project_transfer_to_stockpile =
      q.m_expected_project_transfer_to_stockpile ∧
    q.clear.m_empire_id = q.m_empire_id :=
  ⟨rfl, rfl, rfl, rfl, rfl, rfl, rfl, rfl⟩

/-- C21 at the failing input: the queue of the late entry is updated for an empire whose
stockpile funds the entry with 10, and then cleared. `clear` empties the queue and resets the
projects-in-progress count and the allocation map, but the stockpile allocation map still
records 10 for the group `{1}` and the expected stockpile amount is still 40, not back at its
initial value 0. -/
theorem C21_clear_leaves_reserve_state :
    (lateQueue.Update {} noTimeout reserveContext).clear.m_queue = [] ∧
    (lateQueue.Update {} noTimeout reserveContext).clear.ProjectsInProgress = 0 ∧
    (lateQueue.Update {} noTimeout reserveContext).clear.AllocatedPP = [] ∧
    (lateQueue.Update {} noTimeout reserveContext).clear.TotalPPsSpent = 0 ∧
    (lateQueue.Update {} noTimeout reserveContext).clear.AllocatedStockpilePP = [({1}, 10)] ∧
    (lateQueue.Update {} noTimeout reserveContext).clear.m_expected_new_stockpile_amount = 40 ∧
    ({} : ProductionQueue).AllocatedStockpilePP = [] ∧
    ({} : ProductionQueue).m_expected_new_stockpile_amount = 0 := by
  rw [lateQueue_update]
  exact ⟨rfl, rfl, rfl, rfl, rfl, rfl, rfl, rfl⟩

/-- C25 at the failing input: the queue of the late entry is updated for an empire whose
stockpile funds the entry with 10, and then updated again in a context in which the empire does
not resolve. The second `Update` sets the projects-in-progress count to 0, clears the allocation
map and leaves the entries alone, but the stockpile allocation map still records 10 for the
group `{1}`; `CalculateNewStockpile` returns 0 for an empire that does not resolve. -/
theorem C25_null_empire_leaves_reserve_map :
    ((lateQueue.Update {} noTimeout reserveContext).Update {} noTimeout
        noEmpireContext).m_projects_in_progress = 0 ∧
    ((lateQueue.Update {} noTimeout reserveContext).Update {} noTimeout
        noEmpireContext).m_object_group_allocated_pp = [] ∧
    ((lateQueue.Update {} noTimeout reserveContext).Update {} noTimeout
        noEmpireContext).m_queue = (lateQueue.Update {} noTimeout reserveContext).m_queue ∧
    ((lateQueue.Update {} noTimeout reserveContext).Update {} noTimeout
        noEmpireContext).m_object_group_allocated_stockpile_pp = [({1}, 10)] ∧
    CalculateNewStockpile {} 0 50 0 [({1}, 0)] [] [] noEmpireContext = 0 := by
  rw [lateQueue_update]
  exact ⟨rfl, rfl, rfl, rfl, rfl⟩

/-- What `Update` and `CalculateNewStockpile` do when the empire does not resolve, for every
queue: the projects-in-progress count is 0 and the allocation map is empty, every other field
of the queue object, the entries and the stockpile allocation map among them, is as before,
and `CalculateNewStockpile` returns 0. -/
theorem null_empire_update (rules : GameRules) (timed_out : Nat → Bool) (q : ProductionQueue)
    (context : ScriptingContext) (hempire : context.GetEmpire q.m_empire_id = none) :
    q.Update rules timed_out context =
      { q with m_projects_in_progress := 0, m_object_group_allocated_pp := [] } ∧
    ∀ (starting_stockpile transfer : ℚ) (available_pp allocated_pp stockpile_pp : GroupMap),
      CalculateNewStockpile rules q.m_empire_id starting_stockpile transfer available_pp
        allocated_pp stockpile_pp context = 0 := by
  refine ⟨Update_unresolved rules timed_out q context hempire, ?_⟩
  intro a b c d e
  simp only [CalculateNewStockpile, hempire]


/-! ### Groups with wasted PP -/

theorem foldl_addWastedGroup (allocated_pp : GroupMap) (output : GroupMap) :
    ∀ (acc : Finset ObjectGroup) (g : ObjectGroup),
      g ∈ output.foldl (addWastedGroup allocated_pp) acc ↔
        g ∈ acc ∨ ∃ kv ∈ output, kv.1 = g ∧ 0 < kv.2 ∧ (mapFind allocated_pp g).getD 0 < kv.2 := by
  induction output with
  | nil => intro acc g; simp
  | cons entry rest ih =>
    intro acc g
    rw [List.foldl_cons, ih]
    have hstep : g ∈ addWastedGroup allocated_pp acc entry ↔
        g ∈ acc ∨ (entry.1 = g ∧ 0 < entry.2 ∧ (mapFind allocated_pp g).getD 0 < entry.2) := by
      unfold addWastedGroup
      by_cases hpos : entry.2 ≤ 0
      · rw [if_pos hpos]
        constructor
        · exact Or.inl
        · rintro (h | ⟨-, h, -⟩)
          · exact h
          · exact absurd h (not_lt.mpr hpos)
      · rw [if_neg hpos]
        have hpos2 : 0 < entry.2 := not_le.mp hpos
        cases hfind : mapFind allocated_pp entry.1 with
        | none =>
          simp only [Finset.mem_insert]
          constructor
          · rintro (h | h)
            · subst h
              right
              exact ⟨rfl, hpos2, by rw [hfind]; exact hpos2⟩
            · exact Or.inl h
          · rintro (h | ⟨h, -, -⟩)
            · exact Or.inr h
            · exact Or.inl h.symm
        | some allocated =>
          simp only
          by_cases hlt : allocated < entry.2
          · rw [if_pos hlt]
            simp only [Finset.mem_insert]
            constructor
            · rintro (h | h)
              · subst h
                right
                exact ⟨rfl, hpos2, by rw [hfind]; exact hlt⟩
              · exact Or.inl h
            · rintro (h | ⟨h, -, -⟩)
              · exact Or.inr h
              · exact Or.inl h.symm
          · rw [if_neg hlt]
            constructor
            · exact Or.inl
            · rintro (h | ⟨h1, -, h3⟩)
              · exact h
              · subst h1
                rw [hfind] at h3
                exact absurd h3 hlt
    rw [hstep]
    simp only [List.mem_cons, exists_eq_or_imp]
    tauto

/-- Counterexample to C22 as stated: the group `{1}` has 10 available and a recorded
consumption of 19999/2000, which is within `ε` of its availability, and `ObjectsWithWastedPP`
reports it as wasted. -/
theorem C22_counterexample :
    ({1} : ObjectGroup) ∈ nearlySpentQueue.ObjectsWithWastedPP (some [({1}, 10)]) ∧
    mapFind nearlySpentQueue.m_object_group_allocated_pp {1} = some (19999 / 2000) ∧
    (10 : ℚ) - 19999 / 2000 ≤ EPSILON := by
  refine ⟨?_, ?_, ?_⟩
  · norm_num +decide [ProductionQueue.ObjectsWithWastedPP, nearlySpentQueue, addWastedGroup,
      mapFind]
  · norm_num +decide [nearlySpentQueue, mapFind]
  · norm_num [EPSILON]

/-- C22 (amended): `ObjectsWithWastedPP` returns exactly the set of groups of the resource pool
whose availability is positive and whose recorded consumption is below their availability,
by however little, a group with no recorded consumption counting as consumption 0; no `ε`
tolerance is applied, and a null pool gives the empty set. -/
theorem C22_wasted_groups (q : ProductionQueue) (output : GroupMap) (g : ObjectGroup) :
    (g ∈ q.ObjectsWithWastedPP (some output) ↔
      ∃ kv ∈ output, kv.1 = g ∧ 0 < kv.2 ∧
        (mapFind q.m_object_group_allocated_pp g).getD 0 < kv.2) ∧
    q.ObjectsWithWastedPP none = ∅ := by
  refine ⟨?_, rfl⟩
  unfold ProductionQueue.ObjectsWithWastedPP
  simp only
  rw [foldl_addWastedGroup]
  simp


/-! ### The order of production items -/

/-- The source operator `<` on items, spelled out: the smaller kind, or the same kind and the
smaller name (buildings) or design id (ships). -/
theorem lt_iff (a b : ProductionItem) :
    a.lt b = true ↔
      (a.build_type.toInt < b.build_type.toInt ∨
        (a.build_type = b.build_type ∧
          ((a.build_type = BuildType.BT_BUILDING ∧ a.name < b.name) ∨
            (a.build_type = BuildType.BT_SHIP ∧ a.design_id < b.design_id)))) := by
  have hinj : a.build_type.toInt = b.build_type.toInt → a.build_type = b.build_type := by
    cases a.build_type <;> cases b.build_type <;> simp [BuildType.toInt]
  unfold ProductionItem.lt
  by_cases h1 : a.build_type.toInt < b.build_type.toInt
  · simp [h1]
  · by_cases h2 : a.build_type.toInt > b.build_type.toInt
    · have hne : a.build_type ≠ b.build_type := by
        intro h
        rw [h] at h2
        exact lt_irrefl _ h2
      simp [h1, h2, hne]
    · have heq : a.build_type = b.build_type := hinj (by omega)
      rw [if_neg h1, if_neg h2]
      by_cases hb : a.build_type = BuildType.BT_BUILDING
      · rw [if_pos hb, decide_eq_true_iff]
        constructor
        · intro h
          exact Or.inr ⟨heq, Or.inl ⟨hb, h⟩⟩
        · rintro (h | ⟨-, ⟨-, h⟩ | ⟨hs, -⟩⟩)
          · exact absurd h h1
          · exact h
          · rw [hb] at hs
            exact absurd hs (by decide)
      · rw [if_neg hb]
        by_cases hs : a.build_type = BuildType.BT_SHIP
        · rw [if_pos hs, decide_eq_true_iff]
          constructor
          · intro h
            exact Or.inr ⟨heq, Or.inr ⟨hs, h⟩⟩
          · rintro (h | ⟨-, ⟨hb2, -⟩ | ⟨-, h⟩⟩)
            · exact absurd h h1
            · exact absurd hb2 hb
            · exact h
        · rw [if_neg hs]
          constructor
          · intro h
            exact absurd h (by decide)
          · rintro (h | ⟨-, ⟨hb2, -⟩ | ⟨hs2, -⟩⟩)
            · exact absurd h h1
            · exact absurd hb2 hb
            · exact absurd hs2 hs

theorem toInt_injective (x y : BuildType) (h : x.toInt = y.toInt) : x = y := by
  cases x <;> cases y <;> simp [BuildType.toInt] at h ⊢

/-- C23: `ProductionItem::operator<` is a total order by kind, then by kind-specific identity.
It is irreflexive and transitive; `a < b` holds exactly when the build type of `a` is smaller,
or the build types are equal and (for buildings) the name of `a` is smaller or (for ships) the
design id of `a` is smaller; and for any two items exactly one of `a < b`, `b < a` and "same
kind and same kind-specific identity" holds, items of a kind other than building and ship
being equivalent whenever they have the same kind. -/
theorem C23_item_order :
    (∀ a : ProductionItem, a.lt a = false) ∧
    (∀ a b c : ProductionItem, a.lt b = true → b.lt c = true → a.lt c = true) ∧
    (∀ a b : ProductionItem, a.lt b = true ↔
      (a.build_type.toInt < b.build_type.toInt ∨
        (a.build_type = b.build_type ∧
          ((a.build_type = BuildType.BT_BUILDING ∧ a.name < b.name) ∨
            (a.build_type = BuildType.BT_SHIP ∧ a.design_id < b.design_id))))) ∧
    (∀ a b : ProductionItem,
      (a.lt b = true ∨ b.lt a = true ∨ sameIdentity a b) ∧
      ¬ (a.lt b = true ∧ b.lt a = true) ∧
      ¬ (a.lt b = true ∧ sameIdentity a b) ∧
      ¬ (b.lt a = true ∧ sameIdentity a b)) ∧
    (∀ a b : ProductionItem, a.build_type = b.build_type →
      a.build_type ≠ BuildType.BT_BUILDING → a.build_type ≠ BuildType.BT_SHIP →
      sameIdentity a b) := by
  refine ⟨?_, ?_, lt_iff, ?_, ?_⟩
  · intro a
    rw [Bool.eq_false_iff]
    intro h
    rw [lt_iff] at h
    rcases h with h | ⟨-, ⟨-, h⟩ | ⟨-, h⟩⟩
    · exact lt_irrefl _ h
    · exact lt_irrefl _ h
    · exact lt_irrefl _ h
  · intro a b c hab hbc
    rw [lt_iff] at hab hbc ⊢
    rcases hab with hab | ⟨hab, hab2⟩
    · rcases hbc with hbc | ⟨hbc, -⟩
      · exact Or.inl (lt_trans hab hbc)
      · left; rw [← hbc]; exact hab
    · rcases hbc with hbc | ⟨hbc, hbc2⟩
      · left; rw [hab]; exact hbc
      · right
        refine ⟨hab.trans hbc, ?_⟩
        rcases hab2 with ⟨hk, h1⟩ | ⟨hk, h1⟩
        · rcases hbc2 with ⟨-, h2⟩ | ⟨hk2, -⟩
          · exact Or.inl ⟨hk, lt_trans h1 h2⟩
          · rw [← hab, hk] at hk2
            exact absurd hk2 (by decide)
        · rcases hbc2 with ⟨hk2, -⟩ | ⟨-, h2⟩
          · rw [← hab, hk] at hk2
            exact absurd hk2 (by decide)
          · exact Or.inr ⟨hk, lt_trans h1 h2⟩
  · intro a b
    simp only [lt_iff, sameIdentity]
    rcases lt_trichotomy a.build_type.toInt b.build_type.toInt with hk | hk | hk
    · have hne : a.build_type ≠ b.build_type := by
        intro h; rw [h] at hk; exact lt_irrefl _ hk
      have hne2 : b.build_type ≠ a.build_type := fun h => hne h.symm
      have hn : ¬ b.build_type.toInt < a.build_type.toInt := not_lt.mpr hk.le
      simp [hk, hne, hne2, hn]
    · have heq : a.build_type = b.build_type := toInt_injective _ _ hk
      have hn : ¬ b.build_type.toInt < b.build_type.toInt := lt_irrefl _
      by_cases hb : b.build_type = BuildType.BT_BUILDING
      · have hs : ¬ BuildType.BT_BUILDING = BuildType.BT_SHIP := by decide
        rcases lt_trichotomy a.name b.name with h | h | h
        · have h2 : ¬ b.name < a.name := not_lt.mpr h.le
          have h3 : a.name ≠ b.name := ne_of_lt h
          simp [heq, hb, hs, h, h2, h3]
        · simp [heq, hb, hs, h]
        · have h2 : ¬ a.name < b.name := not_lt.mpr h.le
          have h3 : a.name ≠ b.name := (ne_of_lt h).symm
          simp [heq, hb, hs, h, h2, h3]
      · by_cases hs : b.build_type = BuildType.BT_SHIP
        · have hsb : ¬ BuildType.BT_SHIP = BuildType.BT_BUILDING := by decide
          rcases lt_trichotomy a.design_id b.design_id with h | h | h
          · have h2 : ¬ b.design_id < a.design_id := not_lt.mpr h.le
            have h3 : a.design_id ≠ b.design_id := ne_of_lt h
            simp [heq, hs, hsb, h, h2, h3]
          · simp [heq, hs, hsb, h]
          · have h2 : ¬ a.design_id < b.design_id := not_lt.mpr h.le
            have h3 : a.design_id ≠ b.design_id := (ne_of_lt h).symm
            simp [heq, hs, hsb, h, h2, h3]
        · simp [heq, hb, hs]
    · have hne : a.build_type ≠ b.build_type := by
        intro h; rw [h] at hk; exact lt_irrefl _ hk
      have hne2 : b.build_type ≠ a.build_type := fun h => hne h.symm
      have hn : ¬ a.build_type.toInt < b.build_type.toInt := not_lt.mpr hk.le
      simp [hk, hne, hne2, hn]
  · intro a b hk hb hs
    exact ⟨hk, fun h => absurd h hb, fun h => absurd h hs⟩


/-- Two items of which neither is smaller than the other have the same kind and the same
kind-specific identity. -/
theorem sameIdentity_of_not_lt (a b : ProductionItem) (hab : a.lt b = false)
    (hba : b.lt a = false) : sameIdentity a b := by
  have hab2 : ¬ a.lt b = true := by rw [hab]; decide
  have hba2 : ¬ b.lt a = true := by rw [hba]; decide
  rw [lt_iff] at hab2 hba2
  have hk : a.build_type = b.build_type := by
    apply toInt_injective
    have h1 : ¬ a.build_type.toInt < b.build_type.toInt := fun h => hab2 (Or.inl h)
    have h2 : ¬ b.build_type.toInt < a.build_type.toInt := fun h => hba2 (Or.inl h)
    omega
  refine ⟨hk, ?_, ?_⟩
  · intro hb
    have h1 : ¬ a.name < b.name := fun h => hab2 (Or.inr ⟨hk, Or.inl ⟨hb, h⟩⟩)
    have h2 : ¬ b.name < a.name :=
      fun h => hba2 (Or.inr ⟨hk.symm, Or.inl ⟨hk ▸ hb, h⟩⟩)
    exact le_antisymm (not_lt.mp h2) (not_lt.mp h1)
  · intro hs
    have h1 : ¬ a.design_id < b.design_id := fun h => hab2 (Or.inr ⟨hk, Or.inr ⟨hs, h⟩⟩)
    have h2 : ¬ b.design_id < a.design_id :=
      fun h => hba2 (Or.inr ⟨hk.symm, Or.inr ⟨hk ▸ hs, h⟩⟩)
    omega

/-- C24: cache-key soundness. Two items that compare equal under the order (neither is smaller
than the other) get the same cost and time from `ProductionCostAndTime` and the same answer
from `CostIsProductionLocationInvariant`, for every empire, location, context and universe. -/
theorem C24_cache_key_sound (a b : ProductionItem) (hab : a.lt b = false)
    (hba : b.lt a = false) :
    (∀ (empire_id location_id : Int) (context : ScriptingContext),
      a.ProductionCostAndTime empire_id location_id context =
        b.ProductionCostAndTime empire_id location_id context) ∧
    (∀ the_universe : Universe,
      a.CostIsProductionLocationInvariant the_universe =
        b.CostIsProductionLocationInvariant the_universe) := by
  obtain ⟨hk, hname, hdesign⟩ := sameIdentity_of_not_lt a b hab hba
  constructor
  · intro empire_id location_id context
    unfold ProductionItem.ProductionCostAndTime
    rw [← hk]
    by_cases hb : a.build_type = BuildType.BT_BUILDING
    · rw [if_pos hb, if_pos hb, hname hb]
    · rw [if_neg hb, if_neg hb]
      by_cases hs : a.build_type = BuildType.BT_SHIP
      · rw [if_pos hs, if_pos hs, hdesign hs]
      · rw [if_neg hs, if_neg hs]
  · intro the_universe
    unfold ProductionItem.CostIsProductionLocationInvariant
    rw [← hk]
    by_cases hb : a.build_type = BuildType.BT_BUILDING
    · rw [if_pos hb, if_pos hb, hname hb]
    · rw [if_neg hb, if_neg hb]
      by_cases hs : a.build_type = BuildType.BT_SHIP
      · rw [if_pos hs, if_pos hs, hdesign hs]
      · rw [if_neg hs, if_neg hs]

theorem buildingWithDesign_not_lt (x y : Int) :
    (buildingWithDesign x).lt (buildingWithDesign y) = false := by
  rw [Bool.eq_false_iff]
  intro h
  rw [lt_iff] at h
  rcases h with h | ⟨-, ⟨-, h⟩ | ⟨h, -⟩⟩
  · exact lt_irrefl _ h
  · exact lt_irrefl _ h
  · have hk : (buildingWithDesign x).build_type = BuildType.BT_BUILDING := rfl
    rw [hk] at h
    exact absurd h (by decide)

/-- Witness of C24: two building items of the same name and different design ids compare
equal, and get the same cost, time and location invariance. -/
theorem C24_cache_key_sound_witness :
    (buildingWithDesign 5).lt (buildingWithDesign 7) = false ∧
    (buildingWithDesign 7).lt (buildingWithDesign 5) = false ∧
    buildingWithDesign 5 ≠ buildingWithDesign 7 ∧
    (∀ (empire_id location_id : Int) (context : ScriptingContext),
      (buildingWithDesign 5).ProductionCostAndTime empire_id location_id context =
        (buildingWithDesign 7).ProductionCostAndTime empire_id location_id context) ∧
    (∀ the_universe : Universe,
      (buildingWithDesign 5).CostIsProductionLocationInvariant the_universe =
        (buildingWithDesign 7).CostIsProductionLocationInvariant the_universe) :=
  ⟨buildingWithDesign_not_lt 5 7, buildingWithDesign_not_lt 7 5, by decide,
    (C24_cache_key_sound (buildingWithDesign 5) (buildingWithDesign 7)
      (buildingWithDesign_not_lt 5 7) (buildingWithDesign_not_lt 7 5)).1,
    (C24_cache_key_sound (buildingWithDesign 5) (buildingWithDesign 7)
      (buildingWithDesign_not_lt 5 7) (buildingWithDesign_not_lt 7 5)).2⟩

/-! ### The base term of the rate limiter -/

/-- The rate limiter is the smaller of the PP needed to complete the element and the largest
of the base term, the frontload term and the topping-up term. -/
theorem limit_eq_basic (rules : GameRules) (e : Element) (item_cost : ℚ) (build_turns : Int) :
    CalculateProductionPerTurnLimit rules e item_cost build_turns =
      min (item_cost * (e.blocksize : ℚ) * (e.remaining : ℚ) -
          e.progress * (item_cost * (e.blocksize : ℚ)))
        (max (basic_element_per_turn_limit e item_cost build_turns)
          (max
            ((1 + rules.RULE_PRODUCTION_QUEUE_FRONTLOAD_FACTOR * (1 / 100) /
                ((max (max build_turns 1 - 1) 1 : Int) : ℚ)) *
              basic_element_per_turn_limit e item_cost build_turns - 2 * EPSILON)
            (if item_cost * (e.blocksize : ℚ) - e.progress * (item_cost * (e.blocksize : ℚ)) <
                basic_element_per_turn_limit e item_cost build_turns +
                  min (max 0 (rules.RULE_PRODUCTION_QUEUE_TOPPING_UP_FACTOR * (1 / 100) -
                      rules.RULE_PRODUCTION_QUEUE_FRONTLOAD_FACTOR * (1 / 100)) *
                    (item_cost * (e.blocksize : ℚ)))
                    (basic_element_per_turn_limit e item_cost build_turns - 2 * EPSILON) then
              item_cost * (e.blocksize : ℚ) - e.progress * (item_cost * (e.blocksize : ℚ))
            else basic_element_per_turn_limit e item_cost build_turns))) := rfl

/-- C28: monotonicity of the base term. For a non-negative unit cost and a non-negative
blocksize, a longer minimum build time never increases the base per-turn limit
`cost * blocksize / max(build_turns, 1)`: `T1 ≤ T2` implies `base(T2) ≤ base(T1)`. -/
theorem C28_base_term_antitone (e : Element) (item_cost : ℚ) (T1 T2 : Int)
    (hcost : 0 ≤ item_cost) (hblock : 0 ≤ e.blocksize) (hT : T1 ≤ T2) :
    basic_element_per_turn_limit e item_cost T2 ≤ basic_element_per_turn_limit e item_cost T1 := by
  unfold basic_element_per_turn_limit
  have h1 : (0 : ℚ) < ((max T1 1 : Int) : ℚ) := by
    have : (0 : Int) < max T1 1 := lt_of_lt_of_le (by decide) (le_max_right _ _)
    exact_mod_cast this
  have h2 : ((max T1 1 : Int) : ℚ) ≤ ((max T2 1 : Int) : ℚ) := by
    have : max T1 1 ≤ max T2 1 := max_le_max hT (le_refl _)
    exact_mod_cast this
  have hnum : (0 : ℚ) ≤ item_cost * (e.blocksize : ℚ) :=
    mul_nonneg hcost (by exact_mod_cast hblock)
  exact div_le_div_of_nonneg_left hnum h1 h2

/-- Witness of C28: unit cost 40, blocksize 1, build times 2 and 4. -/
theorem C28_base_term_antitone_witness :
    basic_element_per_turn_limit sampleElement 40 4 ≤
      basic_element_per_turn_limit sampleElement 40 2 :=
  C28_base_term_antitone sampleElement 40 2 4 (by norm_num) (by decide) (by decide)


/-! ### A key that is missing from the cost and time map -/

theorem lt_self (a : ProductionItem) : a.lt a = false := by
  rw [Bool.eq_false_iff]
  intro h
  rw [lt_iff] at h
  rcases h with h | ⟨-, ⟨-, h⟩ | ⟨-, h⟩⟩
  · exact lt_irrefl _ h
  · exact lt_irrefl _ h
  · exact lt_irrefl _ h

theorem costKeyEquiv_self (key : ProductionItem × Int) : costKeyEquiv key key = true := by
  simp [costKeyEquiv, costKeyLt, lt_self]

theorem lookupCostTime_eq (p : SpendingParams) (e : Element) :
    lookupCostTime p e =
      match costFind p.queue_item_costs_and_times (costKey p.the_universe e) with
      | some v => v
      | none => (1000000, 1) := rfl

/-- One iteration of the pass reads the cost and time map only through the lookup for the
element. -/
theorem elementStep_congr_costs (p1 p2 : SpendingParams) (st : SpendingState) (e : Element)
    (g : ObjectGroup) (b : Bool) (hrules : p1.rules = p2.rules)
    (hlimit : p1.stockpile_limit = p2.stockpile_limit) (hsim : p1.simulating = p2.simulating)
    (hlookup : lookupCostTime p1 e = lookupCostTime p2 e) :
    elementStep p1 st e g b = elementStep p2 st e g b := by
  have h0 : lookupCostTime p1 { e with allocated_pp := 0 } =
      lookupCostTime p2 { e with allocated_pp := 0 } := hlookup
  simp only [elementStep, spendOnElement, h0, hrules, hlimit, hsim]

/-- C26: when the key (item, location or invariant sentinel) of an entry is absent from the
cost and time map, one iteration of the allocation pass is a total function that computes the
state, the entry (allocation, completion flag, progress) and the amounts (limit, allocation,
drawdowns) exactly as it does with a map in which the lookup returns unit cost 1,000,000 and
a build time of 1; an entry whose key is present is computed from its own looked-up values. -/
theorem C26_missing_cost_entry (p : SpendingParams) (st : SpendingState) (e : Element)
    (g : ObjectGroup) (b : Bool) :
    (costFind p.queue_item_costs_and_times (costKey p.the_universe e) = none →
      lookupCostTime p e = (1000000, 1) ∧
      elementStep p st e g b =
        elementStep
          { p with queue_item_costs_and_times := [(costKey p.the_universe e, (1000000, 1))] }
          st e g b ∧
      (spendOnElement p st e g).element_this_turn_limit =
        CalculateProductionPerTurnLimit p.rules e 1000000 1) ∧
    (∀ v : ℚ × Int, costFind p.queue_item_costs_and_times (costKey p.the_universe e) = some v →
      lookupCostTime p e = v ∧
      (spendOnElement p st e g).item_cost = v.1 ∧
      (spendOnElement p st e g).build_turns = v.2 ∧
      (spendOnElement p st e g).element_this_turn_limit =
        CalculateProductionPerTurnLimit p.rules e v.1 v.2) := by
  constructor
  · intro hmissing
    have h1 : lookupCostTime p e = (1000000, 1) := by
      rw [lookupCostTime_eq, hmissing]
    have h2 : lookupCostTime
        { p with queue_item_costs_and_times := [(costKey p.the_universe e, (1000000, 1))] } e =
        (1000000, 1) := by
      rw [lookupCostTime_eq]
      simp only [costFind, costKeyEquiv_self, if_true]
    refine ⟨h1, elementStep_congr_costs _ _ st e g b rfl rfl rfl (h1.trans h2.symm), ?_⟩
    simp only [spendOnElement, h1]
  · intro v hv
    have h1 : lookupCostTime p e = v := by
      rw [lookupCostTime_eq, hv]
    refine ⟨h1, ?_, ?_, ?_⟩ <;> simp only [spendOnElement, h1]

/-- Witness of C26: the sample entry in a pass whose cost and time map is empty, with 10
available in its group; the limit is that of unit cost 1,000,000 and build time 1. -/
theorem C26_missing_cost_entry_witness :
    lookupCostTime missingCostParams sampleElement = (1000000, 1) ∧
    elementStep missingCostParams (initialSpendingState [({1}, 10)] 0) sampleElement {1} true =
      elementStep
        { missingCostParams with
          queue_item_costs_and_times :=
            [(costKey missingCostParams.the_universe sampleElement, (1000000, 1))] }
        (initialSpendingState [({1}, 10)] 0) sampleElement {1} true ∧
    (spendOnElement missingCostParams (initialSpendingState [({1}, 10)] 0) sampleElement
        {1}).element_this_turn_limit =
      CalculateProductionPerTurnLimit missingCostParams.rules sampleElement 1000000 1 :=
  (C26_missing_cost_entry missingCostParams (initialSpendingState [({1}, 10)] 0) sampleElement
    {1} true).1 rfl


/-! ### Skipped and funded entries -/

theorem skipsElement_iff (st : SpendingState) (e : Element) (g : ObjectGroup) (b : Bool) :
    skipsElement st e g b = true ↔
      (e.paused = true ∨
        (groupPPAvailable st g ≤ 0 ∧
          (st.available_stockpile ≤ 0 ∨ e.allowed_imperial_stockpile_use = false)) ∨
        b = false) := by
  simp only [skipsElement, Bool.or_eq_true, Bool.and_eq_true, decide_eq_true_eq,
    Bool.not_eq_true']
  tauto

/-- What one iteration records as `allocated_pp`: 0 for a skipped element, and the allocation
floored at `ε` for a funded one. -/
theorem elementStep_allocated (p : SpendingParams) (st : SpendingState) (e : Element)
    (g : ObjectGroup) (b : Bool) :
    (skipsElement st e g b = true →
      (elementStep p st e g b).2.1.allocated_pp = 0 ∧ (elementStep p st e g b).2.2 = none) ∧
    (skipsElement st e g b = false →
      (elementStep p st e g b).2.2 = some (spendOnElement p st e g) ∧
      (elementStep p st e g b).2.1.allocated_pp =
        max (spendOnElement p st e g).allocation EPSILON) := by
  constructor
  · intro h
    rw [elementStep_skip p st e g b h]
    exact ⟨rfl, rfl⟩
  · intro h
    rw [elementStep_fund p st e g b h]
    exact ⟨rfl, (fundElement_fields p.simulating _ _).2.2.2⟩

/-- C29: in an allocation pass on a structurally consistent input, the recorded allocated
amount of an entry is 0 exactly when the entry was skipped (it is paused, or its group has at
most 0 available and the reserve is unusable for it, or it is not producible); every entry
that was not skipped has `allocated_pp = max(allocation, ε)`, hence `allocated_pp ≥ ε > 0`,
also when its computed allocation is 0. -/
theorem C29_zero_iff_skipped (p : SpendingParams) (available_pp : GroupMap)
    (available_stockpile : ℚ) (queue : List Element) (a0 as0 : GroupMap) (pip0 : Int)
    (k : Nat) (e : Element)
    (hlen : queue.length = p.queue_element_resource_sharing_object_groups.length)
    (hk : queue[k]? = some e) :
    ∃ (e2 : Element) (amounts : Option ElementSpending),
      (SetProdQueueElementSpending p.rules available_pp available_stockpile p.stockpile_limit
        p.queue_element_resource_sharing_object_groups p.queue_item_costs_and_times
        p.is_producible queue a0 as0 pip0 p.simulating p.the_universe).queue[k]? = some e2 ∧
      (spendingLoop p 0 queue
        (initialSpendingState available_pp available_stockpile)).2.2[k]? = some amounts ∧
      (e2.allocated_pp = 0 ↔ amounts = none) ∧
      (amounts = none ↔
        (e.paused = true ∨
          (groupPPAvailable
              (stateBeforeEntry p queue (initialSpendingState available_pp available_stockpile)
                k)
              (p.queue_element_resource_sharing_object_groups.getD k ∅) ≤ 0 ∧
            ((stateBeforeEntry p queue (initialSpendingState available_pp available_stockpile)
                k).available_stockpile ≤ 0 ∨
              e.allowed_imperial_stockpile_use = false)) ∨
          p.is_producible.getD k false = false)) ∧
      (∀ s : ElementSpending, amounts = some s →
        e2.allocated_pp = max s.allocation EPSILON ∧ EPSILON ≤ e2.allocated_pp ∧
          0 < e2.allocated_pp) := by
  obtain ⟨h1, h2, -⟩ := spendingLoop_entry p queue
    (initialSpendingState available_pp available_stockpile) k e hk
  rw [SetProdQueueElementSpending_eq_loop p available_pp available_stockpile queue a0 as0 pip0
    hlen]
  refine ⟨_, _, h1, h2, ?_⟩
  have hε := EPSILON_pos
  obtain ⟨hskipped, hfunded⟩ := elementStep_allocated p
    (stateBeforeEntry p queue (initialSpendingState available_pp available_stockpile) k) e
    (p.queue_element_resource_sharing_object_groups.getD k ∅) (p.is_producible.getD k false)
  rw [← skipsElement_iff]
  cases hskip : skipsElement
      (stateBeforeEntry p queue (initialSpendingState available_pp available_stockpile) k) e
      (p.queue_element_resource_sharing_object_groups.getD k ∅) (p.is_producible.getD k false)
  · obtain ⟨ha, hb⟩ := hfunded hskip
    have hpos : 0 < max (spendOnElement p
        (stateBeforeEntry p queue (initialSpendingState available_pp available_stockpile) k) e
        (p.queue_element_resource_sharing_object_groups.getD k ∅)).allocation EPSILON :=
      lt_of_lt_of_le hε (le_max_right _ _)
    rw [ha, hb]
    refine ⟨?_, ?_, ?_⟩
    · constructor
      · intro h
        rw [h] at hpos
        exact absurd hpos (lt_irrefl _)
      · intro h
        cases h
    · constructor
      · intro h
        cases h
      · intro h
        cases h
    · intro s hs
      cases hs
      exact ⟨rfl, le_max_right _ _, hpos⟩
  · obtain ⟨ha, hb⟩ := hskipped hskip
    rw [ha, hb]
    refine ⟨⟨fun _ => rfl, fun _ => rfl⟩, ⟨fun _ => rfl, fun _ => rfl⟩, ?_⟩
    intro s hs
    cases hs

/-- Witness of C29: the one-element sample queue with 10 available in its group; its entry is
funded. -/
theorem C29_zero_iff_skipped_witness :
    ∃ (e2 : Element) (amounts : Option ElementSpending),
      (SetProdQueueElementSpending sampleParams.rules [({1}, 10)] 0 sampleParams.stockpile_limit
        sampleParams.queue_element_resource_sharing_object_groups
        sampleParams.queue_item_costs_and_times sampleParams.is_producible [sampleElement] [] []
        0 sampleParams.simulating sampleParams.the_universe).queue[0]? = some e2 ∧
      (spendingLoop sampleParams 0 [sampleElement]
        (initialSpendingState [({1}, 10)] 0)).2.2[0]? = some amounts ∧
      (e2.allocated_pp = 0 ↔ amounts = none) ∧
      (amounts = none ↔
        (sampleElement.paused = true ∨
          (groupPPAvailable
              (stateBeforeEntry sampleParams [sampleElement]
                (initialSpendingState [({1}, 10)] 0) 0)
              (sampleParams.queue_element_resource_sharing_object_groups.getD 0 ∅) ≤ 0 ∧
            ((stateBeforeEntry sampleParams [sampleElement]
                (initialSpendingState [({1}, 10)] 0) 0).available_stockpile ≤ 0 ∨
              sampleElement.allowed_imperial_stockpile_use = false)) ∨
          sampleParams.is_producible.getD 0 false = false)) ∧
      (∀ s : ElementSpending, amounts = some s →
        e2.allocated_pp = max s.allocation EPSILON ∧ EPSILON ≤ e2.allocated_pp ∧
          0 < e2.allocated_pp) :=
  C29_zero_iff_skipped sampleParams [({1}, 10)] 0 [sampleElement] [] [] 0 0 sampleElement rfl rfl


/-! ### Drawdown conservation -/

/-- The amount read for the group `G` after a write of `x` through the reference of the group
`g`: the written value when both groups read the same cell, the old amount otherwise. -/
theorem groupPPAvailable_set_eq (st : SpendingState) (g : ObjectGroup) (x : ℚ)
    (G : ObjectGroup) :
    groupPPAvailable (setGroupPPAvailable st g x) G =
      if g = G ∨ (mapFind st.available_pp g = none ∧ mapFind st.available_pp G = none) then x
      else groupPPAvailable st G := by
  unfold setGroupPPAvailable
  cases hg : mapFind st.available_pp g with
  | some v =>
    by_cases h : g = G
    · subst h
      simp [groupPPAvailable, mapFind_mapSet, hg]
    · simp [groupPPAvailable, mapFind_mapSet, h]
  | none =>
    cases hG : mapFind st.available_pp G with
    | some w =>
      have hne : g ≠ G := by
        intro h
        rw [h, hG] at hg
        cases hg
      simp [groupPPAvailable, hG, hne]
    | none => simp [groupPPAvailable, hG]

theorem setGroupPPAvailable_dummy (st : SpendingState) (g : ObjectGroup) (x : ℚ) :
    (setGroupPPAvailable st g x).dummy_pp_source =
      if mapFind st.available_pp g = none then x else st.dummy_pp_source := by
  unfold setGroupPPAvailable
  cases mapFind st.available_pp g <;> simp

theorem recordSpending_dummy (st : SpendingState) (e : Element) (g : ObjectGroup)
    (s : ElementSpending) :
    (recordSpending st e g s).dummy_pp_source =
      if mapFind st.available_pp g = none then s.group_pp_available - s.group_drawdown
      else st.dummy_pp_source := by
  rw [← setGroupPPAvailable_dummy]
  unfold recordSpending setGroupPPAvailable
  split_ifs <;> dsimp only <;> cases mapFind st.available_pp g <;> rfl

/-- With non-negative availabilities the allocation of a funded element is what it draws
from its group plus what it draws from the reserve, and neither drawdown is negative or
exceeds what is available. -/
theorem spendOnElement_drawdowns (p : SpendingParams) (st : SpendingState) (e : Element)
    (g : ObjectGroup) (hg : 0 ≤ groupPPAvailable st g) (hres : 0 ≤ st.available_stockpile) :
    (spendOnElement p st e g).group_pp_available = groupPPAvailable st g ∧
    (spendOnElement p st e g).group_drawdown =
      min (spendOnElement p st e g).allocation (groupPPAvailable st g) ∧
    (spendOnElement p st e g).allocation =
      (spendOnElement p st e g).group_drawdown + (spendOnElement p st e g).stockpile_drawdown ∧
    0 ≤ (spendOnElement p st e g).group_drawdown ∧
    0 ≤ (spendOnElement p st e g).stockpile_drawdown ∧
    (spendOnElement p st e g).stockpile_drawdown ≤ st.available_stockpile := by
  obtain ⟨h0, hup⟩ := spendOnElement_allocation_bounds p st e g
  have hshare : reserveShare st e ≤ st.available_stockpile ∧ 0 ≤ reserveShare st e := by
    unfold reserveShare
    split_ifs
    · exact ⟨le_refl _, hres⟩
    · exact ⟨hres, le_refl _⟩
  have hup2 : (spendOnElement p st e g).allocation ≤
      groupPPAvailable st g + st.available_stockpile := by
    apply le_trans hup
    apply max_le
    · linarith
    · exact le_trans (min_le_right _ _) (by linarith [hshare.1])
  have hgd : (spendOnElement p st e g).group_drawdown =
      min (spendOnElement p st e g).allocation (groupPPAvailable st g) := rfl
  have hsd : (spendOnElement p st e g).stockpile_drawdown =
      min (if (spendOnElement p st e g).allocation ≤ (spendOnElement p st e g).group_drawdown
        then 0
        else (spendOnElement p st e g).allocation - (spendOnElement p st e g).group_drawdown)
        st.available_stockpile := rfl
  refine ⟨rfl, hgd, ?_, ?_, ?_, ?_⟩
  · rw [hsd, hgd]
    by_cases hle : (spendOnElement p st e g).allocation ≤ groupPPAvailable st g
    · rw [min_eq_left hle, if_pos (le_refl _), min_eq_left hres, add_zero]
    · have hlt : groupPPAvailable st g < (spendOnElement p st e g).allocation := not_le.mp hle
      rw [min_eq_right hlt.le, if_neg hle, min_eq_left (by linarith)]
      ring
  · rw [hgd]
    exact le_min h0 hg
  · rw [hsd]
    apply le_min _ hres
    split_ifs with h
    · exact le_refl _
    · linarith [not_le.mp h]
  · rw [hsd]
    exact min_le_right _ _


theorem groupPPAvailable_of_none (st : SpendingState) (g : ObjectGroup)
    (h : mapFind st.available_pp g = none) : groupPPAvailable st g = st.dummy_pp_source := by
  unfold groupPPAvailable
  rw [h]

/-- One iteration of the pass keeps the accounting invariant. -/
theorem elementStep_conservation (p : SpendingParams) (available_pp : GroupMap)
    (available_stockpile : ℚ) (st : SpendingState) (e : Element) (g : ObjectGroup) (b : Bool)
    (hc : conservation available_pp available_stockpile st) :
    conservation available_pp available_stockpile (elementStep p st e g b).1 := by
  cases hskip : skipsElement st e g b
  · rw [elementStep_fund p st e g b hskip]
    obtain ⟨hd, hres, hgpa, hal, hsum, hsp, hspsum⟩ := hc
    obtain ⟨h1, h2, h3, h4, h5, h6⟩ := spendOnElement_drawdowns p st e g (hgpa g) hres
    have h0 := (spendOnElement_allocation_bounds p st e g).1
    have hgd_le : (spendOnElement p st e g).group_drawdown ≤ groupPPAvailable st g := by
      rw [h2]; exact min_le_right _ _
    have hnone : mapFind st.available_pp g = none →
        groupPPAvailable st g = 0 ∧ (spendOnElement p st e g).group_drawdown = 0 := by
      intro hn
      have hz : groupPPAvailable st g = 0 := by rw [groupPPAvailable_of_none st g hn, hd]
      exact ⟨hz, le_antisymm (by rw [← hz]; exact hgd_le) h4⟩
    refine ⟨?_, ?_, ?_, ?_, ?_, ?_, ?_⟩
    · dsimp only
      rw [recordSpending_dummy]
      split_ifs with hn
      · rw [h1, (hnone hn).1, (hnone hn).2, sub_zero]
      · exact hd
    · dsimp only
      rw [recordSpending_available_stockpile]
      split_ifs
      · linarith
      · exact hres
    · intro G
      dsimp only
      rw [recordSpending_groupPPAvailable, groupPPAvailable_set_eq]
      split_ifs
      · rw [h1]; linarith
      · exact hgpa G
    · intro G
      dsimp only
      rw [recordSpending_allocated_pp, mapFind_mapAdd]
      split_ifs
      · linarith [hal G]
      · linarith [hal G]
    · intro G
      dsimp only
      rw [recordSpending_allocated_pp, mapFind_mapAdd, recordSpending_groupPPAvailable,
        groupPPAvailable_set_eq, h1, ← hsum G]
      by_cases hG : G = g
      · subst hG
        rw [if_pos rfl, if_pos (Or.inl rfl)]
        ring
      · rw [if_neg hG]
        by_cases hcond : g = G ∨
            (mapFind st.available_pp g = none ∧ mapFind st.available_pp G = none)
        · rw [if_pos hcond]
          rcases hcond with hcond | ⟨hn, hn2⟩
          · exact absurd hcond.symm hG
          · rw [(hnone hn).1, (hnone hn).2, groupPPAvailable_of_none st G hn2, hd]
            ring
        · rw [if_neg hcond, add_zero]
    · dsimp only
      rw [recordSpending_allocated_stockpile_pp]
      split_ifs
      · rw [mapSum_mapAdd]; linarith
      · exact hsp
    · dsimp only
      rw [recordSpending_allocated_stockpile_pp, recordSpending_available_stockpile, ← hspsum]
      split_ifs
      · rw [mapSum_mapAdd]; ring
      · rfl
  · rw [elementStep_skip p st e g b hskip]
    exact hc

theorem spendingLoop_conservation (p : SpendingParams) (available_pp : GroupMap)
    (available_stockpile : ℚ) (q : List Element) :
    ∀ (i : Nat) (st : SpendingState), conservation available_pp available_stockpile st →
      conservation available_pp available_stockpile (spendingLoop p i q st).1 := by
  induction q with
  | nil => intro i st h; exact h
  | cons e rest ih =>
    intro i st h
    simp only [spendingLoop]
    exact ih _ _ (elementStep_conservation p available_pp available_stockpile st e _ _ h)

/-- The accounting invariant holds when a pass starts with non-negative availabilities. -/
theorem initial_conservation (available_pp : GroupMap) (available_stockpile : ℚ)
    (hpp : ∀ kv ∈ available_pp, 0 ≤ kv.2) (hres : 0 ≤ available_stockpile) :
    conservation available_pp available_stockpile
      (initialSpendingState available_pp available_stockpile) := by
  have hgpa : ∀ g, groupPPAvailable (initialSpendingState available_pp available_stockpile) g =
      (mapFind available_pp g).getD 0 := by
    intro g
    unfold groupPPAvailable initialSpendingState
    dsimp only
    cases mapFind available_pp g <;> rfl
  refine ⟨rfl, hres, ?_, ?_, ?_, ?_, ?_⟩
  · intro g
    rw [hgpa]
    cases hfind : mapFind available_pp g with
    | none => exact le_refl _
    | some v =>
      obtain ⟨kv, hkv, hv⟩ := mapFind_mem _ _ _ hfind
      rw [← hv]
      exact hpp kv hkv
  · intro g
    exact le_refl _
  · intro g
    rw [hgpa]
    simp [initialSpendingState, mapFind]
  · simp [initialSpendingState, mapSum]
  · simp [initialSpendingState, mapSum]


/-- Drawdown conservation over exact numbers, without rounding. In a pass on a structurally
consistent input that starts with non-negative group availabilities and a non-negative reserve
availability, the allocation of every funded entry is its group drawdown plus its reserve
drawdown, the group drawdown being `min(allocation, groupAvailable)` at the moment the entry is
processed; after the pass the recorded consumption of each group lies between 0 and the initial
availability of the group (0 for a group without availability), and the total recorded reserve
consumption lies between 0 and the initial reserve availability. -/
theorem exact_drawdown_conservation (p : SpendingParams) (available_pp : GroupMap)
    (available_stockpile : ℚ) (queue : List Element) (a0 as0 : GroupMap) (pip0 : Int)
    (hlen : queue.length = p.queue_element_resource_sharing_object_groups.length)
    (hpp : ∀ kv ∈ available_pp, 0 ≤ kv.2) (hres : 0 ≤ available_stockpile) :
    (∀ (k : Nat) (s : ElementSpending),
      (spendingLoop p 0 queue
        (initialSpendingState available_pp available_stockpile)).2.2[k]? = some (some s) →
      s.allocation = s.group_drawdown + s.stockpile_drawdown ∧
      s.group_drawdown = min s.allocation
        (groupPPAvailable
          (stateBeforeEntry p queue (initialSpendingState available_pp available_stockpile) k)
          (p.queue_element_resource_sharing_object_groups.getD k ∅)) ∧
      0 ≤ s.group_drawdown ∧ 0 ≤ s.stockpile_drawdown) ∧
    (∀ g : ObjectGroup,
      0 ≤ (mapFind (SetProdQueueElementSpending p.rules available_pp available_stockpile
        p.stockpile_limit p.queue_element_resource_sharing_object_groups
        p.queue_item_costs_and_times p.is_producible queue a0 as0 pip0 p.simulating
        p.the_universe).allocated_pp g).getD 0 ∧
      (mapFind (SetProdQueueElementSpending p.rules available_pp available_stockpile
        p.stockpile_limit p.queue_element_resource_sharing_object_groups
        p.queue_item_costs_and_times p.is_producible queue a0 as0 pip0 p.simulating
        p.the_universe).allocated_pp g).getD 0 ≤ (mapFind available_pp g).getD 0) ∧
    0 ≤ mapSum (SetProdQueueElementSpending p.rules available_pp available_stockpile
        p.stockpile_limit p.queue_element_resource_sharing_object_groups
        p.queue_item_costs_and_times p.is_producible queue a0 as0 pip0 p.simulating
        p.the_universe).allocated_stockpile_pp ∧
    mapSum (SetProdQueueElementSpending p.rules available_pp available_stockpile
        p.stockpile_limit p.queue_element_resource_sharing_object_groups
        p.queue_item_costs_and_times p.is_producible queue a0 as0 pip0 p.simulating
        p.the_universe).allocated_stockpile_pp ≤ available_stockpile := by
  have hinit := initial_conservation available_pp available_stockpile hpp hres
  have hfinal := spendingLoop_conservation p available_pp available_stockpile queue 0 _ hinit
  rw [SetProdQueueElementSpending_eq_loop p available_pp available_stockpile queue a0 as0 pip0
    hlen]
  dsimp only
  obtain ⟨-, hres2, hgpa, hal, hsum, hsp, hspsum⟩ := hfinal
  refine ⟨?_, ?_, hsp, by linarith⟩
  · intro k s hs
    have hbefore : conservation available_pp available_stockpile
        (stateBeforeEntry p queue (initialSpendingState available_pp available_stockpile) k) :=
      spendingLoop_conservation p available_pp available_stockpile (queue.take k) 0 _ hinit
    cases hrow : queue[k]? with
    | none =>
      have hk : queue.length ≤ k := List.getElem?_eq_none_iff.mp hrow
      rw [List.getElem?_eq_none_iff.mpr (by rw [(spendingLoop_length _ _ _ _).2]; exact hk)]
        at hs
      cases hs
    | some e =>
      obtain ⟨-, h2, -⟩ := spendingLoop_entry p queue
        (initialSpendingState available_pp available_stockpile) k e hrow
      rw [h2] at hs
      simp only [Option.some.injEq] at hs
      cases hskip : skipsElement
          (stateBeforeEntry p queue (initialSpendingState available_pp available_stockpile) k) e
          (p.queue_element_resource_sharing_object_groups.getD k ∅)
          (p.is_producible.getD k false)
      · rw [elementStep_fund p _ e _ _ hskip] at hs
        simp only [Option.some.injEq] at hs
        subst hs
        obtain ⟨-, h2, h3, h4, h5, -⟩ := spendOnElement_drawdowns p
          (stateBeforeEntry p queue (initialSpendingState available_pp available_stockpile) k) e
          (p.queue_element_resource_sharing_object_groups.getD k ∅)
          (hbefore.2.2.1 _) hbefore.2.1
        exact ⟨h3, h2, h4, h5⟩
      · rw [elementStep_skip p _ e _ _ hskip] at hs
        cases hs
  · intro g
    exact ⟨hal g, by linarith [hsum g, hgpa g]⟩

/-- Sample of the exact drawdown conservation: the reserve-eligible sample entry with nothing in
its group and 5 in the reserve. -/
theorem exact_drawdown_conservation_sample :
    (∀ (k : Nat) (s : ElementSpending),
      (spendingLoop sampleParams 0 reserveQueue
        (initialSpendingState [({1}, 0)] 5)).2.2[k]? = some (some s) →
      s.allocation = s.group_drawdown + s.stockpile_drawdown ∧
      s.group_drawdown = min s.allocation
        (groupPPAvailable
          (stateBeforeEntry sampleParams reserveQueue (initialSpendingState [({1}, 0)] 5) k)
          (sampleParams.queue_element_resource_sharing_object_groups.getD k ∅)) ∧
      0 ≤ s.group_drawdown ∧ 0 ≤ s.stockpile_drawdown) ∧
    (∀ g : ObjectGroup,
      0 ≤ (mapFind (SetProdQueueElementSpending sampleParams.rules [({1}, 0)] 5
        sampleParams.stockpile_limit sampleParams.queue_element_resource_sharing_object_groups
        sampleParams.queue_item_costs_and_times sampleParams.is_producible reserveQueue [] [] 0
        sampleParams.simulating sampleParams.the_universe).allocated_pp g).getD 0 ∧
      (mapFind (SetProdQueueElementSpending sampleParams.rules [({1}, 0)] 5
        sampleParams.stockpile_limit sampleParams.queue_element_resource_sharing_object_groups
        sampleParams.queue_item_costs_and_times sampleParams.is_producible reserveQueue [] [] 0
        sampleParams.simulating sampleParams.the_universe).allocated_pp g).getD 0 ≤
        (mapFind [({1}, 0)] g).getD 0) ∧
    0 ≤ mapSum (SetProdQueueElementSpending sampleParams.rules [({1}, 0)] 5
        sampleParams.stockpile_limit sampleParams.queue_element_resource_sharing_object_groups
        sampleParams.queue_item_costs_and_times sampleParams.is_producible reserveQueue [] [] 0
        sampleParams.simulating sampleParams.the_universe).allocated_stockpile_pp ∧
    mapSum (SetProdQueueElementSpending sampleParams.rules [({1}, 0)] 5
        sampleParams.stockpile_limit sampleParams.queue_element_resource_sharing_object_groups
        sampleParams.queue_item_costs_and_times sampleParams.is_producible reserveQueue [] [] 0
        sampleParams.simulating sampleParams.the_universe).allocated_stockpile_pp ≤ 5 :=
  exact_drawdown_conservation sampleParams [({1}, 0)] 5 reserveQueue [] [] 0 rfl
    (by
      intro kv hkv
      rw [List.mem_singleton] at hkv
      rw [hkv])
    (by norm_num)


/-! ### Simulated progress -/

set_option maxHeartbeats 1000000 in
theorem overshoot_turn :
    (simulateTurn overshootSimulation 1 overshootState).sim_queue =
      [{ batchElement with
          allocated_pp := 25999 / 500, progress := 21999 / 20000, remaining := 2 }] := by
  norm_num +decide [simulateTurn, overshootSimulation, overshootState, batchElement,
    frontloadRules, scenarioContext,
    scenarioEmpire, scenarioUniverse, scenarioElement, sampleItem,
    completionLoop, SimulationState.eraseRow, modifyAt, stampNextItem,
    stampCompletion, StockpileCapacity, CalculateNewStockpile,
    addGroupExcess, mapSum,
    SetProdQueueElementSpending, spendingLoop, elementStep, skipsElement,
    groupPPAvailable, mapFind, mapSet, mapAdd, setGroupPPAvailable, initialSpendingState,
    spendOnElement, lookupCostTime, costFind, costKeyEquiv, costKeyLt, ProductionItem.lt,
    ProductionItem.CostIsProductionLocationInvariant, INVALID_OBJECT_ID,
    CalculateProductionPerTurnLimit, EPSILON, fundElement, completesThisTurn,
    recordSpending, BuildType.toInt, ALL_EMPIRES]

/-- C27 at the failing input: frontload factor 0.3, no topping up, one entry of unit cost 40,
minimum build time 1, blocksize 1, three batches remaining and progress 4/5, in a group with
100 available. The entry satisfies the hypotheses of the claim before the simulated turn. The
limit of the turn is `1.3 * 40 - 2ε = 51.998`, more than the cost of one batch; the pass raises
the progress to `41999/20000`, the roll-back subtracts 1, and the entry stays in the simulated
queue with two batches remaining and progress `21999/20000`, which is above 1. -/
theorem C27_progress_exceeds_one :
    (∀ e ∈ overshootState.sim_queue,
      0 ≤ e.progress ∧ e.progress ≤ 1 ∧ 1 ≤ e.remaining ∧ 1 ≤ e.blocksize) ∧
    overshootSimulation.queue_item_costs_and_times = [((sampleItem, INVALID_OBJECT_ID), (40, 1))] ∧
    overshootSimulation.rules.RULE_PRODUCTION_QUEUE_FRONTLOAD_FACTOR * (1 / 100) = 3 / 10 ∧
    overshootSimulation.rules.RULE_PRODUCTION_QUEUE_TOPPING_UP_FACTOR = 0 ∧
    CalculateProductionPerTurnLimit frontloadRules batchElement 40 1 = 25999 / 500 ∧
    (simulateTurn overshootSimulation 1 overshootState).sim_queue =
      [{ batchElement with
          allocated_pp := 25999 / 500, progress := 21999 / 20000, remaining := 2 }] ∧
    ∃ e ∈ (simulateTurn overshootSimulation 1 overshootState).sim_queue, 1 < e.progress := by
  refine ⟨?_, rfl, ?_, rfl, ?_, overshoot_turn, ?_⟩
  · intro e he
    simp only [overshootState, List.mem_singleton] at he
    subst he
    norm_num [batchElement, scenarioElement]
  · norm_num [overshootSimulation, frontloadRules]
  · norm_num [CalculateProductionPerTurnLimit, frontloadRules, batchElement, scenarioElement,
      EPSILON]
  · rw [overshoot_turn]
    refine ⟨_, List.mem_singleton.mpr rfl, ?_⟩
    norm_num


/-! ### When the limit stays within the cost of one batch -/

/-- With a frontload factor of at most 30 percent, the rate limiter never exceeds the cost of
one batch when the frontload factor is 0 or the minimum build time is at least 2 turns. -/
theorem limit_le_block_cost (rules : GameRules) (e : Element) (item_cost : ℚ)
    (build_turns : Int) (hC : 0 < item_cost * (e.blocksize : ℚ)) (hp0 : 0 ≤ e.progress)
    (hf1 : rules.RULE_PRODUCTION_QUEUE_FRONTLOAD_FACTOR ≤ 30)
    (hsafe : rules.RULE_PRODUCTION_QUEUE_FRONTLOAD_FACTOR = 0 ∨ 2 ≤ build_turns) :
    CalculateProductionPerTurnLimit rules e item_cost build_turns ≤
      item_cost * (e.blocksize : ℚ) := by
  have hε := EPSILON_pos
  have hT1 : (1 : ℚ) ≤ ((max build_turns 1 : Int) : ℚ) := by
    have : (1 : Int) ≤ max build_turns 1 := le_max_right _ _
    exact_mod_cast this
  have hbasic : basic_element_per_turn_limit e item_cost build_turns ≤
      item_cost * (e.blocksize : ℚ) := by
    unfold basic_element_per_turn_limit
    exact div_le_self hC.le hT1
  have hbasic0 : 0 ≤ basic_element_per_turn_limit e item_cost build_turns := by
    unfold basic_element_per_turn_limit
    exact div_nonneg hC.le (by linarith)
  rw [limit_eq_basic]
  apply le_trans (min_le_right _ _)
  apply max_le hbasic
  apply max_le
  · rcases hsafe with hz | hT
    · rw [hz]
      simp only [zero_mul, zero_div, add_zero, one_mul]
      linarith
    · have hmax : max build_turns 1 = build_turns := max_eq_left (by omega)
      have hmax2 : max (build_turns - 1) 1 = build_turns - 1 := max_eq_left (by omega)
      unfold basic_element_per_turn_limit
      rw [hmax, hmax2]
      have hn : (2 : ℚ) ≤ (build_turns : ℚ) := by exact_mod_cast hT
      have hcast : ((build_turns - 1 : Int) : ℚ) = (build_turns : ℚ) - 1 := by push_cast; ring
      rw [hcast]
      have hn1 : (0 : ℚ) < (build_turns : ℚ) - 1 := by linarith
      have hn0 : (0 : ℚ) < (build_turns : ℚ) := by linarith
      have hfrac : rules.RULE_PRODUCTION_QUEUE_FRONTLOAD_FACTOR * (1 / 100) /
          ((build_turns : ℚ) - 1) ≤ (build_turns : ℚ) - 1 := by
        rw [div_le_iff₀ hn1]
        nlinarith
      have hprod : (1 + rules.RULE_PRODUCTION_QUEUE_FRONTLOAD_FACTOR * (1 / 100) /
          ((build_turns : ℚ) - 1)) * (item_cost * (e.blocksize : ℚ) / (build_turns : ℚ)) ≤
          item_cost * (e.blocksize : ℚ) := by
        have h1 : 1 + rules.RULE_PRODUCTION_QUEUE_FRONTLOAD_FACTOR * (1 / 100) /
            ((build_turns : ℚ) - 1) ≤ (build_turns : ℚ) := by linarith
        have h2 : 0 ≤ item_cost * (e.blocksize : ℚ) / (build_turns : ℚ) :=
          div_nonneg hC.le hn0.le
        calc (1 + rules.RULE_PRODUCTION_QUEUE_FRONTLOAD_FACTOR * (1 / 100) /
              ((build_turns : ℚ) - 1)) * (item_cost * (e.blocksize : ℚ) / (build_turns : ℚ))
            ≤ (build_turns : ℚ) * (item_cost * (e.blocksize : ℚ) / (build_turns : ℚ)) :=
              mul_le_mul_of_nonneg_right h1 h2
          _ = item_cost * (e.blocksize : ℚ) := by field_simp
      linarith
  · have hpc : 0 ≤ e.progress * (item_cost * (e.blocksize : ℚ)) := mul_nonneg hp0 hC.le
    split_ifs
    · linarith
    · exact hbasic

/-- What a simulating pass does to the progress of one element whose limit stays within the
cost of a batch: the progress stays between 0 and 2, and it stays at most 1 unless the element
comes out flagged as completing a batch. -/
theorem elementStep_progress (p : SpendingParams) (hsim : p.simulating = true)
    (st : SpendingState) (e : Element) (g : ObjectGroup) (b : Bool)
    (hp0 : 0 ≤ e.progress) (hp1 : e.progress ≤ 1)
    (hC : 0 < (lookupCostTime p e).1 * (e.blocksize : ℚ))
    (hlimit : elementLimit p e ≤ (lookupCostTime p e).1 * (e.blocksize : ℚ)) :
    0 ≤ (elementStep p st e g b).2.1.progress ∧
    (elementStep p st e g b).2.1.progress ≤ 2 ∧
    ((elementStep p st e g b).2.1.turns_left_to_next_item ≠ 1 →
      (elementStep p st e g b).2.1.progress ≤ 1) := by
  have hε := EPSILON_pos
  cases hskip : skipsElement st e g b
  · rw [elementStep_fund p st e g b hskip]
    obtain ⟨h0, hup⟩ := spendOnElement_allocation_bounds p st e g
    have hcost : (spendOnElement p st e g).item_cost = (lookupCostTime p e).1 := rfl
    have halloc : (spendOnElement p st e g).allocation ≤
        (lookupCostTime p e).1 * (e.blocksize : ℚ) := by
      apply le_trans hup
      apply max_le hC.le
      exact le_trans (min_le_left _ _) hlimit
    have hmax : 0 < max EPSILON ((lookupCostTime p e).1 * (e.blocksize : ℚ)) :=
      lt_of_lt_of_le hε (le_max_left _ _)
    have hfrac0 : 0 ≤ (spendOnElement p st e g).allocation /
        max EPSILON ((lookupCostTime p e).1 * (e.blocksize : ℚ)) := div_nonneg h0 hmax.le
    have hfrac1 : (spendOnElement p st e g).allocation /
        max EPSILON ((lookupCostTime p e).1 * (e.blocksize : ℚ)) ≤ 1 := by
      rw [div_le_one hmax]
      exact le_trans halloc (le_max_right _ _)
    simp only [fundElement, hsim, if_true, hcost]
    by_cases hdone : completesThisTurn ((lookupCostTime p e).1 * (e.blocksize : ℚ)) e.progress
        (max (spendOnElement p st e g).allocation EPSILON) = true
    · rw [if_pos hdone]
      dsimp only
      exact ⟨by linarith, by linarith, fun h => absurd rfl h⟩
    · rw [if_neg hdone]
      dsimp only
      have hnot : ¬ ((lookupCostTime p e).1 * (e.blocksize : ℚ) * (1 - e.progress) -
          max (spendOnElement p st e g).allocation EPSILON < EPSILON) := by
        intro h
        exact hdone (by simp only [completesThisTurn, decide_eq_true_eq]; exact h)
      have hge := not_lt.mp hnot
      have hle_alloc : (spendOnElement p st e g).allocation ≤
          max (spendOnElement p st e g).allocation EPSILON := le_max_left _ _
      have hC1 : (lookupCostTime p e).1 * (e.blocksize : ℚ) * (1 - e.progress) ≤
          (lookupCostTime p e).1 * (e.blocksize : ℚ) := by
        nlinarith
      have hCε : EPSILON ≤ (lookupCostTime p e).1 * (e.blocksize : ℚ) := by
        have : EPSILON ≤ max (spendOnElement p st e g).allocation EPSILON := le_max_right _ _
        linarith
      rw [max_eq_right hCε]
      have hle1 : e.progress + (spendOnElement p st e g).allocation /
          ((lookupCostTime p e).1 * (e.blocksize : ℚ)) ≤ 1 := by
        have h3 : (spendOnElement p st e g).allocation ≤
            (lookupCostTime p e).1 * (e.blocksize : ℚ) * (1 - e.progress) := by linarith
        have h4 : (spendOnElement p st e g).allocation /
            ((lookupCostTime p e).1 * (e.blocksize : ℚ)) ≤ 1 - e.progress := by
          rw [div_le_iff₀ hC]
          linarith
        linarith
      have hfrac0b : 0 ≤ (spendOnElement p st e g).allocation /
          ((lookupCostTime p e).1 * (e.blocksize : ℚ)) := div_nonneg h0 hC.le
      exact ⟨by linarith, by linarith, fun _ => hle1⟩
  · rw [elementStep_skip p st e g b hskip]
    exact ⟨hp0, by linarith, fun _ => hp1⟩

/-- A property that one iteration gives every element with the property `P` holds of every
element that a pass returns for a queue of elements with the property `P`. -/
theorem spendingLoop_forall (p : SpendingParams) (P Q : Element → Prop)
    (hstep : ∀ st e g b, P e → Q (elementStep p st e g b).2.1) (q : List Element) :
    ∀ (i : Nat) (st : SpendingState), (∀ e ∈ q, P e) →
      ∀ e ∈ (spendingLoop p i q st).2.1, Q e := by
  induction q with
  | nil => intro i st _ e he; simp [spendingLoop] at he
  | cons e0 rest ih =>
    intro i st h e he
    simp only [spendingLoop, List.mem_cons] at he
    rcases he with he | he
    · rw [he]
      exact hstep _ _ _ _ (h e0 (List.mem_cons_self _ _))
    · exact ih _ _ (fun x hx => h x (List.mem_cons_of_mem _ hx)) e he


/-- The completion loop, given enough fuel for the rows from `i` on, leaves every row of the
simulated queue with a progress between 0 and 1, when the rows before `i` have such a progress
and the rows from `i` on have a progress between 0 and 2 that is at most 1 unless the row is
flagged as completing a batch. -/
theorem completionLoop_progress (sim_turn : Int) :
    ∀ (fuel i : Nat) (s : SimulationState), s.sim_queue.length ≤ i + fuel →
      (∀ (k : Nat) (e : Element), s.sim_queue[k]? = some e →
        (k < i → 0 ≤ e.progress ∧ e.progress ≤ 1) ∧
        (i ≤ k → 0 ≤ e.progress ∧ e.progress ≤ 2 ∧
          (e.turns_left_to_next_item ≠ 1 → e.progress ≤ 1))) →
      ∀ e ∈ (completionLoop sim_turn fuel i s).sim_queue, 0 ≤ e.progress ∧ e.progress ≤ 1 := by
  have hdone : ∀ (i : Nat) (s : SimulationState), s.sim_queue.length ≤ i →
      (∀ (k : Nat) (e : Element), s.sim_queue[k]? = some e →
        (k < i → 0 ≤ e.progress ∧ e.progress ≤ 1) ∧
        (i ≤ k → 0 ≤ e.progress ∧ e.progress ≤ 2 ∧
          (e.turns_left_to_next_item ≠ 1 → e.progress ≤ 1))) →
      ∀ e ∈ s.sim_queue, 0 ≤ e.progress ∧ e.progress ≤ 1 := by
    intro i s hlen hrows e he
    obtain ⟨k, hk⟩ := List.mem_iff_getElem?.mp he
    have hlt : k < s.sim_queue.length := by
      by_contra hge
      rw [List.getElem?_eq_none_iff.mpr (not_lt.mp hge)] at hk
      cases hk
    exact (hrows k e hk).1 (by omega)
  intro fuel
  induction fuel with
  | zero => intro i s hlen hrows; exact hdone i s (by omega) hrows
  | succ fuel ih =>
    intro i s hlen hrows
    unfold completionLoop
    cases hrow : s.sim_queue[i]? with
    | none => exact hdone i s (List.getElem?_eq_none_iff.mp hrow) hrows
    | some el =>
      have hi : i < s.sim_queue.length := by
        by_contra hge
        rw [List.getElem?_eq_none_iff.mpr (not_lt.mp hge)] at hrow
        cases hrow
      obtain ⟨h0, h2, h1⟩ := (hrows i el hrow).2 (le_refl _)
      dsimp only
      by_cases hflag : el.turns_left_to_next_item ≠ 1
      · rw [if_pos hflag]
        apply ih (i + 1) s (by omega)
        intro k e hk
        refine ⟨fun hlt => ?_, fun hle => (hrows k e hk).2 (by omega)⟩
        by_cases hki : k = i
        · subst hki
          rw [hrow] at hk
          cases hk
          exact ⟨h0, h1 hflag⟩
        · exact (hrows k e hk).1 (by omega)
      · rw [if_neg hflag]
        split_ifs with hrem
        · apply ih i _ _
          · intro k e hk
            simp only [SimulationState.eraseRow, List.getElem?_eraseIdx] at hk
            by_cases hlt : k < i
            · rw [if_pos hlt] at hk
              exact ⟨fun _ => (hrows k e hk).1 hlt, fun hle => absurd hlt (not_lt.mpr hle)⟩
            · rw [if_neg hlt] at hk
              exact ⟨fun h => absurd h hlt, fun _ => (hrows (k + 1) e hk).2 (by omega)⟩
          · simp only [SimulationState.eraseRow, List.length_eraseIdx, hi, if_true]
            omega
        · apply ih (i + 1) _ _
          · intro k e hk
            simp only [List.getElem?_set] at hk
            by_cases hki : i = k
            · subst hki
              rw [if_pos rfl, if_pos hi] at hk
              simp only [Option.some.injEq] at hk
              subst hk
              dsimp only
              refine ⟨fun _ => ⟨le_max_left _ _, max_le (by norm_num) (by linarith)⟩,
                fun hle => absurd hle (by omega)⟩
            · rw [if_neg hki] at hk
              refine ⟨fun hlt => (hrows k e hk).1 (by omega),
                fun hle => (hrows k e hk).2 (by omega)⟩
          · simp only [List.length_set]
            omega


/-- The progress invariant of a simulated turn where it holds: if every entry of the simulated
queue has a progress between 0 and 1, a blocksize of at least 1 and a positive unit cost in the
cost and time map, and the frontload factor is at most 30 percent and is 0 unless every
minimum build time is at least 2 turns, then after the simulating pass and the completion loop
every entry still in the simulated queue has a progress between 0 and 1. -/
theorem simulateTurn_progress (sp : SimulationParams) (sim_turn : Nat) (s : SimulationState)
    (hf1 : sp.rules.RULE_PRODUCTION_QUEUE_FRONTLOAD_FACTOR ≤ 30)
    (hrows : ∀ e ∈ s.sim_queue, 0 ≤ e.progress ∧ e.progress ≤ 1 ∧ 1 ≤ e.blocksize ∧
      ∃ (c : ℚ) (T : Int),
        costFind sp.queue_item_costs_and_times (costKey sp.context.ContextUniverse e) =
          some (c, T) ∧
        0 < c ∧ (sp.rules.RULE_PRODUCTION_QUEUE_FRONTLOAD_FACTOR = 0 ∨ 2 ≤ T)) :
    ∀ e ∈ (simulateTurn sp sim_turn s).sim_queue, 0 ≤ e.progress ∧ e.progress ≤ 1 := by
  have hpass : ∀ e ∈ (SetProdQueueElementSpending sp.rules sp.available_pp
      s.sim_available_stockpile sp.stockpile_limit s.queue_element_groups
      sp.queue_item_costs_and_times s.is_producible s.sim_queue [] [] s.dummy_int true
      sp.context.ContextUniverse).queue,
      0 ≤ e.progress ∧ e.progress ≤ 2 ∧ (e.turns_left_to_next_item ≠ 1 → e.progress ≤ 1) := by
    by_cases hlen : s.sim_queue.length = s.queue_element_groups.length
    · rw [SetProdQueueElementSpending_eq_loop
        { rules := sp.rules
          stockpile_limit := sp.stockpile_limit
          queue_element_resource_sharing_object_groups := s.queue_element_groups
          queue_item_costs_and_times := sp.queue_item_costs_and_times
          is_producible := s.is_producible
          simulating := true
          the_universe := sp.context.ContextUniverse } sp.available_pp
        s.sim_available_stockpile s.sim_queue [] [] s.dummy_int hlen]
      dsimp only
      refine spendingLoop_forall _
        (fun e => 0 ≤ e.progress ∧ e.progress ≤ 1 ∧ 1 ≤ e.blocksize ∧
          ∃ (c : ℚ) (T : Int),
            costFind sp.queue_item_costs_and_times (costKey sp.context.ContextUniverse e) =
              some (c, T) ∧
            0 < c ∧ (sp.rules.RULE_PRODUCTION_QUEUE_FRONTLOAD_FACTOR = 0 ∨ 2 ≤ T))
        (fun e => 0 ≤ e.progress ∧ e.progress ≤ 2 ∧
          (e.turns_left_to_next_item ≠ 1 → e.progress ≤ 1)) ?_ s.sim_queue 0 _ hrows
      intro st e g b ⟨hp0, hp1, hb, c, T, hfind, hc, hsafe⟩
      have hlookup : lookupCostTime
          { rules := sp.rules
            stockpile_limit := sp.stockpile_limit
            queue_element_resource_sharing_object_groups := s.queue_element_groups
            queue_item_costs_and_times := sp.queue_item_costs_and_times
            is_producible := s.is_producible
            simulating := true
            the_universe := sp.context.ContextUniverse } e = (c, T) := by
        rw [lookupCostTime_eq]
        dsimp only
        rw [hfind]
      have hC : 0 < c * (e.blocksize : ℚ) := by
        have : (1 : ℚ) ≤ (e.blocksize : ℚ) := by exact_mod_cast hb
        exact mul_pos hc (by linarith)
      apply elementStep_progress _ rfl st e g b hp0 hp1
      · rw [hlookup]; exact hC
      · unfold elementLimit
        rw [hlookup]
        exact limit_le_block_cost sp.rules e c T hC hp0 hf1 hsafe
    · have hq : (SetProdQueueElementSpending sp.rules sp.available_pp
          s.sim_available_stockpile sp.stockpile_limit s.queue_element_groups
          sp.queue_item_costs_and_times s.is_producible s.sim_queue [] [] s.dummy_int true
          sp.context.ContextUniverse).queue = s.sim_queue := by
        simp [SetProdQueueElementSpending, hlen]
      rw [hq]
      intro e he
      obtain ⟨hp0, hp1, -⟩ := hrows e he
      exact ⟨hp0, by linarith, fun _ => hp1⟩
  unfold simulateTurn
  dsimp only
  apply completionLoop_progress (sim_turn : Int) _ 0 _ (by dsimp only; omega)
  intro k e hk
  refine ⟨fun h => absurd h (by omega), fun _ => ?_⟩
  exact hpass e (List.mem_iff_getElem?.mpr ⟨k, hk⟩)

/-- The scenario simulation has no frontloading, so the invariant holds for its first turn. -/
theorem simulateTurn_progress_scenario :
    ∀ e ∈ (simulateTurn scenarioSimulation 1 (scenarioState 0 0)).sim_queue,
      0 ≤ e.progress ∧ e.progress ≤ 1 :=
  simulateTurn_progress scenarioSimulation 1 (scenarioState 0 0)
    (by norm_num [scenarioSimulation])
    (by
      intro e he
      simp only [scenarioState, List.mem_singleton] at he
      subst he
      refine ⟨le_refl _, by norm_num, by decide, 40, 4, ?_, by norm_num, Or.inl rfl⟩
      simp +decide [scenarioSimulation, sampleCosts, costFind, costKey, costKeyEquiv, costKeyLt,
        scenarioElement, sampleItem, scenarioContext, scenarioUniverse,
        ProductionItem.CostIsProductionLocationInvariant, ProductionItem.lt, BuildType.toInt,
        INVALID_OBJECT_ID])


/-! ### The index of an identifier -/

/-- When the search for an identifier stops before the end, it stops at the first element
that carries the identifier. -/
theorem uuidPosition_spec (uuid : Nat) (l : List Element)
    (h : uuidPosition uuid l < l.length) :
    (∃ e, l[uuidPosition uuid l]? = some e ∧ e.uuid = uuid) ∧
    ∀ (j : Nat) (e : Element), j < uuidPosition uuid l → l[j]? = some e → e.uuid ≠ uuid := by
  induction l with
  | nil => simp at h
  | cons e0 rest ih =>
    by_cases h0 : e0.uuid = uuid
    · have hpos : uuidPosition uuid (e0 :: rest) = 0 := by simp [uuidPosition, h0]
      rw [hpos]
      exact ⟨⟨e0, List.getElem?_cons_zero, h0⟩, fun j e hj => absurd hj (Nat.not_lt_zero _)⟩
    · have hpos : uuidPosition uuid (e0 :: rest) = uuidPosition uuid rest + 1 := by
        simp [uuidPosition, h0]
      rw [hpos] at h ⊢
      obtain ⟨h1, h2⟩ := ih (by simpa using h)
      refine ⟨by simpa using h1, ?_⟩
      intro j e hj hje
      cases j with
      | zero =>
        simp only [List.getElem?_cons_zero, Option.some.injEq] at hje
        rw [← hje]
        exact h0
      | succ j =>
        simp only [List.getElem?_cons_succ] at hje
        exact h2 j e (by omega) hje

/-- C39: `IndexOfUUID(u)` returns `-1` when `u` is the nil identifier or no entry has the
identifier `u`; otherwise it returns the smallest index `i` with `0 ≤ i < size()` whose entry
has the identifier `u`, and `operator[]` at that index returns that entry. -/
theorem C39_index_of_uuid (q : ProductionQueue) (uuid : Nat) :
    ((uuid = 0 ∨ ∀ e ∈ q.m_queue, e.uuid ≠ uuid) → q.IndexOfUUID uuid = -1) ∧
    (uuid ≠ 0 → (∃ e ∈ q.m_queue, e.uuid = uuid) →
      ∃ (i : Nat) (e : Element), q.IndexOfUUID uuid = (i : Int) ∧ i < q.size ∧
        q.m_queue[i]? = some e ∧ e.uuid = uuid ∧
        q.subscript (q.IndexOfUUID uuid) = Except.ok e ∧
        ∀ (j : Nat) (e2 : Element), j < i → q.m_queue[j]? = some e2 → e2.uuid ≠ uuid) := by
  constructor
  · intro h
    have hend : q.findUUID uuid = q.size := by
      by_contra hne
      obtain ⟨h0, e, he, hu⟩ := (findUUID_ne_size q uuid).mp hne
      rcases h with h | h
      · exact h0 h
      · exact h e he hu
    unfold ProductionQueue.IndexOfUUID
    rw [if_pos hend]
  · intro h0 hex
    have hne : q.findUUID uuid ≠ q.size := (findUUID_ne_size q uuid).mpr ⟨h0, hex⟩
    have hfind : q.findUUID uuid = uuidPosition uuid q.m_queue := by
      unfold ProductionQueue.findUUID
      rw [if_neg h0]
    have hlt : uuidPosition uuid q.m_queue < q.m_queue.length := by
      rw [hfind] at hne
      exact lt_of_le_of_ne (uuidPosition_le uuid q.m_queue) hne
    obtain ⟨⟨e, he, hu⟩, hmin⟩ := uuidPosition_spec uuid q.m_queue hlt
    have hidx : q.IndexOfUUID uuid = (uuidPosition uuid q.m_queue : Int) := by
      unfold ProductionQueue.IndexOfUUID
      rw [if_neg hne, hfind]
    refine ⟨uuidPosition uuid q.m_queue, e, hidx, hlt, he, hu, ?_, hmin⟩
    rw [hidx]
    unfold ProductionQueue.subscript
    have hn : ¬ (((uuidPosition uuid q.m_queue : Nat) : Int) < 0 ∨
        ((uuidPosition uuid q.m_queue : Nat) : Int) ≥ (q.m_queue.length : Int)) := by omega
    rw [dif_neg hn]
    congr 1
    have hget : q.m_queue[uuidPosition uuid q.m_queue]? =
        some (q.m_queue.get ⟨uuidPosition uuid q.m_queue, hlt⟩) :=
      List.getElem?_eq_getElem hlt
    rw [he] at hget
    simp only [Int.toNat_ofNat]
    exact (Option.some.inj hget).symm

/-- Witness of C39: the second entry of the two-element sample queue has identifier 2 and
index 1. -/
theorem C39_index_of_uuid_witness :
    ∃ (i : Nat) (e : Element), sampleProductionQueue.IndexOfUUID 2 = (i : Int) ∧
      i < sampleProductionQueue.size ∧
      sampleProductionQueue.m_queue[i]? = some e ∧ e.uuid = 2 ∧
      sampleProductionQueue.subscript (sampleProductionQueue.IndexOfUUID 2) = Except.ok e ∧
      ∀ (j : Nat) (e2 : Element), j < i → sampleProductionQueue.m_queue[j]? = some e2 →
        e2.uuid ≠ 2 :=
  (C39_index_of_uuid sampleProductionQueue 2).2 (by decide)
    ⟨sampleElementTwo, by simp [sampleProductionQueue, sampleQueueTwo], rfl⟩


/-! ### The group of an entry -/

/-- The search for the group of a location returns the first group of the availability map
that contains the location, and the empty group when no group contains it. -/
theorem elementGroup_spec (available_pp : GroupMap) (location_id : Int) :
    ((∀ kv ∈ available_pp, location_id ∉ kv.1) → elementGroup available_pp location_id = ∅) ∧
    ((∃ kv ∈ available_pp, location_id ∈ kv.1) →
      ∃ (k : Nat) (g : ObjectGroup) (v : ℚ), available_pp[k]? = some (g, v) ∧
        location_id ∈ g ∧ elementGroup available_pp location_id = g ∧
        ∀ (j : Nat) (kv : ObjectGroup × ℚ), j < k → available_pp[j]? = some kv →
          location_id ∉ kv.1) := by
  induction available_pp with
  | nil =>
    exact ⟨fun _ => rfl, fun ⟨kv, hkv, _⟩ => absurd hkv (List.not_mem_nil _)⟩
  | cons kv0 rest ih =>
    obtain ⟨g0, v0⟩ := kv0
    by_cases h0 : location_id ∈ g0
    · constructor
      · intro h
        exact absurd h0 (h (g0, v0) (List.mem_cons_self _ _))
      · intro _
        refine ⟨0, g0, v0, List.getElem?_cons_zero, h0, by simp [elementGroup, h0], ?_⟩
        intro j kv hj
        exact absurd hj (Nat.not_lt_zero _)
    · have hstep : elementGroup ((g0, v0) :: rest) location_id =
          elementGroup rest location_id := by simp [elementGroup, h0]
      rw [hstep]
      constructor
      · intro h
        exact ih.1 (fun kv hkv => h kv (List.mem_cons_of_mem _ hkv))
      · rintro ⟨kv, hkv, hin⟩
        rw [List.mem_cons] at hkv
        rcases hkv with hkv | hkv
        · rw [hkv] at hin
          exact absurd hin h0
        · obtain ⟨k, g, v, hk, hg, heq, hmin⟩ := ih.2 ⟨kv, hkv, hin⟩
          refine ⟨k + 1, g, v, by simpa using hk, hg, heq, ?_⟩
          intro j kv2 hj hkv2
          cases j with
          | zero =>
            simp only [List.getElem?_cons_zero, Option.some.injEq] at hkv2
            rw [← hkv2]
            exact h0
          | succ j =>
            simp only [List.getElem?_cons_succ] at hkv2
            exact hmin j kv2 (by omega) hkv2

/-- C40: in `Update` each entry is assigned the first group, in the order of the availability
map, that contains the location of the entry, or the empty group if no group contains it; the
list of groups has exactly one group per queue entry, so the authoritative pass that `Update`
calls does not take the length-mismatch branch: its results are those of the loop over the
queue. -/
theorem C40_group_assignment (rules : GameRules) (q : ProductionQueue)
    (context : ScriptingContext) (empire : Empire) :
    (updateSpendingParams rules q context empire).queue_element_resource_sharing_object_groups =
      q.m_queue.map (fun element => elementGroup empire.industry_output element.location) ∧
    (∀ (k : Nat) (e : Element), q.m_queue[k]? = some e →
      (updateSpendingParams rules q context
          empire).queue_element_resource_sharing_object_groups[k]? =
        some (elementGroup empire.industry_output e.location) ∧
      ((∀ kv ∈ empire.industry_output, e.location ∉ kv.1) →
        elementGroup empire.industry_output e.location = ∅) ∧
      ((∃ kv ∈ empire.industry_output, e.location ∈ kv.1) →
        ∃ (i : Nat) (g : ObjectGroup) (v : ℚ), empire.industry_output[i]? = some (g, v) ∧
          e.location ∈ g ∧ elementGroup empire.industry_output e.location = g ∧
          ∀ (j : Nat) (kv : ObjectGroup × ℚ), j < i → empire.industry_output[j]? = some kv →
            e.location ∉ kv.1)) ∧
    (updateSpendingParams rules q context
        empire).queue_element_resource_sharing_object_groups.length = q.m_queue.length ∧
    (q.m_queue.map resetForecast).length =
      (updateSpendingParams rules q context
        empire).queue_element_resource_sharing_object_groups.length ∧
    (authoritativePass rules q context empire).queue =
      (spendingLoop (updateSpendingParams rules q context empire) 0
        (q.m_queue.map resetForecast) (updateStart q context empire)).2.1 ∧
    (authoritativePass rules q context empire).projects_in_progress =
      (spendingLoop (updateSpendingParams rules q context empire) 0
        (q.m_queue.map resetForecast) (updateStart q context empire)).1.projects_in_progress := by
  refine ⟨rfl, ?_, by simp [updateSpendingParams], by simp [updateSpendingParams], ?_, ?_⟩
  · intro k e hk
    refine ⟨?_, (elementGroup_spec _ _).1, (elementGroup_spec _ _).2⟩
    simp [updateSpendingParams, List.getElem?_map, hk]
  · rw [authoritativePass_eq_loop]
  · rw [authoritativePass_eq_loop]


/-! ### Entries that may not use the reserve -/

/-- One iteration for an element that may not use the imperial stockpile leaves the reserve
availability and the stockpile allocation map alone, and computes no positive reserve
drawdown. -/
theorem elementStep_no_reserve (p : SpendingParams) (st : SpendingState) (e : Element)
    (g : ObjectGroup) (b : Bool) (hflag : e.allowed_imperial_stockpile_use = false) :
    (elementStep p st e g b).1.available_stockpile = st.available_stockpile ∧
    (elementStep p st e g b).1.allocated_stockpile_pp = st.allocated_stockpile_pp ∧
    ∀ s : ElementSpending, (elementStep p st e g b).2.2 = some s →
      s.stockpile_available_for_this = 0 ∧ s.stockpile_drawdown ≤ 0 := by
  cases hskip : skipsElement st e g b
  · rw [elementStep_fund p st e g b hskip]
    have hgpa : 0 < groupPPAvailable st g := by
      by_contra hle
      have : skipsElement st e g b = true := by
        rw [skipsElement_iff]
        exact Or.inr (Or.inl ⟨not_lt.mp hle, Or.inr hflag⟩)
      rw [hskip] at this
      cases this
    obtain ⟨h0, hup⟩ := spendOnElement_allocation_bounds p st e g
    have hshare : reserveShare st e = 0 := by
      unfold reserveShare
      rw [hflag]
      rfl
    have halloc : (spendOnElement p st e g).allocation ≤ groupPPAvailable st g := by
      apply le_trans hup
      rw [hshare, add_zero]
      exact max_le hgpa.le (min_le_right _ _)
    have hgd : (spendOnElement p st e g).group_drawdown =
        min (spendOnElement p st e g).allocation (groupPPAvailable st g) := rfl
    have hsd : (spendOnElement p st e g).stockpile_drawdown =
        min (if (spendOnElement p st e g).allocation ≤ (spendOnElement p st e g).group_drawdown
          then 0
          else (spendOnElement p st e g).allocation - (spendOnElement p st e g).group_drawdown)
          st.available_stockpile := rfl
    have hsd0 : (spendOnElement p st e g).stockpile_drawdown ≤ 0 := by
      rw [hsd, hgd, min_eq_left halloc, if_pos (le_refl _)]
      exact min_le_left _ _
    have hnot : ¬ (spendOnElement p st e g).stockpile_drawdown > 0 := not_lt.mpr hsd0
    have hfor : (spendOnElement p st e g).stockpile_available_for_this = 0 := by
      have : (spendOnElement p st e g).stockpile_available_for_this =
          if e.allowed_imperial_stockpile_use then st.available_stockpile else 0 := rfl
      rw [this, hflag]
      rfl
    refine ⟨?_, ?_, ?_⟩
    · dsimp only
      rw [recordSpending_available_stockpile, if_neg hnot]
    · dsimp only
      rw [recordSpending_allocated_stockpile_pp, if_neg hnot]
    · intro s hs
      cases hs
      exact ⟨hfor, hsd0⟩
  · rw [elementStep_skip p st e g b hskip]
    exact ⟨rfl, rfl, fun s hs => by cases hs⟩

/-- C31: an entry that is not flagged reserve-eligible never draws from the reserve. In an
allocation pass, the reserve availability and the per-group reserve-consumption map are the
same after the entry is processed as before, and the reserve drawdown computed for it, if it
is funded, is not positive, for every group availability and reserve level. -/
theorem C31_no_reserve_use (p : SpendingParams) (available_pp : GroupMap)
    (available_stockpile : ℚ) (queue : List Element) (k : Nat) (e : Element)
    (hk : queue[k]? = some e) (hflag : e.allowed_imperial_stockpile_use = false) :
    (stateBeforeEntry p queue (initialSpendingState available_pp available_stockpile)
        (k + 1)).available_stockpile =
      (stateBeforeEntry p queue (initialSpendingState available_pp available_stockpile)
        k).available_stockpile ∧
    (stateBeforeEntry p queue (initialSpendingState available_pp available_stockpile)
        (k + 1)).allocated_stockpile_pp =
      (stateBeforeEntry p queue (initialSpendingState available_pp available_stockpile)
        k).allocated_stockpile_pp ∧
    ∀ s : ElementSpending,
      (spendingLoop p 0 queue
        (initialSpendingState available_pp available_stockpile)).2.2[k]? = some (some s) →
      s.stockpile_available_for_this = 0 ∧ s.stockpile_drawdown ≤ 0 := by
  obtain ⟨-, h2, h3⟩ := spendingLoop_entry p queue
    (initialSpendingState available_pp available_stockpile) k e hk
  obtain ⟨ha, hb, hc⟩ := elementStep_no_reserve p
    (stateBeforeEntry p queue (initialSpendingState available_pp available_stockpile) k) e
    (p.queue_element_resource_sharing_object_groups.getD k ∅) (p.is_producible.getD k false)
    hflag
  rw [h3]
  refine ⟨ha, hb, ?_⟩
  intro s hs
  rw [h2] at hs
  exact hc s (Option.some.inj hs)

/-- Witness of C31: the sample entry, which is not reserve-eligible, with 10 in its group and
5 in the reserve. -/
theorem C31_no_reserve_use_witness :
    (stateBeforeEntry sampleParams [sampleElement] (initialSpendingState [({1}, 10)] 5)
        (0 + 1)).available_stockpile =
      (stateBeforeEntry sampleParams [sampleElement] (initialSpendingState [({1}, 10)] 5)
        0).available_stockpile ∧
    (stateBeforeEntry sampleParams [sampleElement] (initialSpendingState [({1}, 10)] 5)
        (0 + 1)).allocated_stockpile_pp =
      (stateBeforeEntry sampleParams [sampleElement] (initialSpendingState [({1}, 10)] 5)
        0).allocated_stockpile_pp ∧
    ∀ s : ElementSpending,
      (spendingLoop sampleParams 0 [sampleElement]
        (initialSpendingState [({1}, 10)] 5)).2.2[0]? = some (some s) →
      s.stockpile_available_for_this = 0 ∧ s.stockpile_drawdown ≤ 0 :=
  C31_no_reserve_use sampleParams [({1}, 10)] 5 [sampleElement] 0 sampleElement rfl rfl


/-! ### What funding writes into an entry -/

/-- The element that a funding iteration returns: the recorded amount is the allocation
floored at `ε`, the next-batch forecast is 1 when the completion test holds for the progress
before the iteration and is otherwise as before, the completion forecast is as before, and the
progress advances by `allocation / max(ε, block cost)` when simulating and not otherwise. -/
theorem fundElement_spec (simulating : Bool) (e : Element) (s : ElementSpending) :
    (fundElement simulating e s).allocated_pp = max s.allocation EPSILON ∧
    (fundElement simulating e s).turns_left_to_next_item =
      (if s.item_cost * (e.blocksize : ℚ) * (1 - e.progress) - max s.allocation EPSILON <
          EPSILON then 1
        else e.turns_left_to_next_item) ∧
    (fundElement simulating e s).turns_left_to_completion = e.turns_left_to_completion ∧
    (fundElement simulating e s).progress =
      (if simulating = true then
        e.progress + s.allocation / max EPSILON (s.item_cost * (e.blocksize : ℚ))
      else e.progress) := by
  simp only [fundElement, completesThisTurn, decide_eq_true_eq]
  refine ⟨?_, ?_, ?_, ?_⟩ <;> split_ifs <;> rfl

/-- C32: for every entry funded in an allocation pass on a structurally consistent input, the
recorded amount is the allocation floored at `ε`; the pass sets the next-batch forecast of the
entry to 1 if `cost × blocksize × (1 − progress) − allocated < ε`, with the progress before
the pass and the recorded amount, and leaves it as it was otherwise (so that an entry whose
forecast was not 1 has forecast 1 afterwards exactly when the test holds); the completion
forecast is as it was. -/
theorem C32_next_batch_flag (p : SpendingParams) (available_pp : GroupMap)
    (available_stockpile : ℚ) (queue : List Element) (a0 as0 : GroupMap) (pip0 : Int)
    (k : Nat) (e : Element) (s : ElementSpending)
    (hlen : queue.length = p.queue_element_resource_sharing_object_groups.length)
    (hk : queue[k]? = some e)
    (hs : (spendingLoop p 0 queue
      (initialSpendingState available_pp available_stockpile)).2.2[k]? = some (some s)) :
    ∃ e2 : Element,
      (SetProdQueueElementSpending p.rules available_pp available_stockpile p.stockpile_limit
        p.queue_element_resource_sharing_object_groups p.queue_item_costs_and_times
        p.is_producible queue a0 as0 pip0 p.simulating p.the_universe).queue[k]? = some e2 ∧
      s.item_cost = (lookupCostTime p e).1 ∧
      e2.allocated_pp = max s.allocation EPSILON ∧
      (s.item_cost * (e.blocksize : ℚ) * (1 - e.progress) - e2.allocated_pp < EPSILON →
        e2.turns_left_to_next_item = 1) ∧
      (¬ s.item_cost * (e.blocksize : ℚ) * (1 - e.progress) - e2.allocated_pp < EPSILON →
        e2.turns_left_to_next_item = e.turns_left_to_next_item) ∧
      (e.turns_left_to_next_item ≠ 1 →
        (e2.turns_left_to_next_item = 1 ↔
          s.item_cost * (e.blocksize : ℚ) * (1 - e.progress) - e2.allocated_pp < EPSILON)) ∧
      e2.turns_left_to_completion = e.turns_left_to_completion := by
  obtain ⟨h1, h2, -⟩ := spendingLoop_entry p queue
    (initialSpendingState available_pp available_stockpile) k e hk
  rw [SetProdQueueElementSpending_eq_loop p available_pp available_stockpile queue a0 as0 pip0
    hlen]
  refine ⟨_, h1, ?_⟩
  rw [h2] at hs
  have hs2 := Option.some.inj hs
  cases hskip : skipsElement
      (stateBeforeEntry p queue (initialSpendingState available_pp available_stockpile) k) e
      (p.queue_element_resource_sharing_object_groups.getD k ∅) (p.is_producible.getD k false)
  · rw [elementStep_fund p _ e _ _ hskip] at hs2 ⊢
    have hs3 : spendOnElement p
        (stateBeforeEntry p queue (initialSpendingState available_pp available_stockpile) k) e
        (p.queue_element_resource_sharing_object_groups.getD k ∅) = s := Option.some.inj hs2
    rw [hs3]
    obtain ⟨ha, hb, hc, -⟩ := fundElement_spec p.simulating { e with allocated_pp := 0 } s
    dsimp only at ha hb hc ⊢
    rw [ha, hb, hc]
    refine ⟨by rw [← hs3]; rfl, rfl, ?_, ?_, ?_, rfl⟩
    · intro h
      rw [if_pos h]
    · intro h
      rw [if_neg h]
    · intro hne
      by_cases h : s.item_cost * (e.blocksize : ℚ) * (1 - e.progress) -
          max s.allocation EPSILON < EPSILON
      · rw [if_pos h]
        exact ⟨fun _ => h, fun _ => rfl⟩
      · rw [if_neg h]
        exact ⟨fun h1 => absurd h1 hne, fun h1 => absurd h1 h⟩
  · rw [elementStep_skip p _ e _ _ hskip] at hs2
    cases hs2

/-- Witness of C32: the one-element sample queue with 10 available in its group. -/
theorem C32_next_batch_flag_witness :
    ∃ e2 : Element,
      (SetProdQueueElementSpending sampleParams.rules [({1}, 10)] 0 sampleParams.stockpile_limit
        sampleParams.queue_element_resource_sharing_object_groups
        sampleParams.queue_item_costs_and_times sampleParams.is_producible [sampleElement] [] []
        0 sampleParams.simulating sampleParams.the_universe).queue[0]? = some e2 ∧
      (spendOnElement sampleParams (initialSpendingState [({1}, 10)] 0) sampleElement
        {1}).item_cost = (lookupCostTime sampleParams sampleElement).1 ∧
      e2.allocated_pp = max (spendOnElement sampleParams (initialSpendingState [({1}, 10)] 0)
        sampleElement {1}).allocation EPSILON ∧
      ((spendOnElement sampleParams (initialSpendingState [({1}, 10)] 0) sampleElement
          {1}).item_cost * (sampleElement.blocksize : ℚ) * (1 - sampleElement.progress) -
          e2.allocated_pp < EPSILON →
        e2.turns_left_to_next_item = 1) ∧
      (¬ (spendOnElement sampleParams (initialSpendingState [({1}, 10)] 0) sampleElement
          {1}).item_cost * (sampleElement.blocksize : ℚ) * (1 - sampleElement.progress) -
          e2.allocated_pp < EPSILON →
        e2.turns_left_to_next_item = sampleElement.turns_left_to_next_item) ∧
      (sampleElement.turns_left_to_next_item ≠ 1 →
        (e2.turns_left_to_next_item = 1 ↔
          (spendOnElement sampleParams (initialSpendingState [({1}, 10)] 0) sampleElement
            {1}).item_cost * (sampleElement.blocksize : ℚ) * (1 - sampleElement.progress) -
            e2.allocated_pp < EPSILON)) ∧
      e2.turns_left_to_completion = sampleElement.turns_left_to_completion :=
  C32_next_batch_flag sampleParams [({1}, 10)] 0 [sampleElement] [] [] 0 0 sampleElement
    (spendOnElement sampleParams (initialSpendingState [({1}, 10)] 0) sampleElement {1})
    rfl rfl
    (by
      norm_num +decide [spendingLoop, elementStep, skipsElement, groupPPAvailable, mapFind,
        initialSpendingState, sampleParams, sampleElement])


/-- The progress of the element that one iteration returns. -/
theorem elementStep_progress_eq (p : SpendingParams) (st : SpendingState) (e : Element)
    (g : ObjectGroup) (b : Bool) :
    (p.simulating = false → (elementStep p st e g b).2.1.progress = e.progress) ∧
    ((elementStep p st e g b).2.2 = none → (elementStep p st e g b).2.1.progress = e.progress) ∧
    (p.simulating = true → ∀ s : ElementSpending, (elementStep p st e g b).2.2 = some s →
      (elementStep p st e g b).2.1.progress =
        e.progress + s.allocation / max EPSILON (s.item_cost * (e.blocksize : ℚ)) ∧
      (elementStep p st e g b).2.1.allocated_pp = max s.allocation EPSILON) := by
  cases hskip : skipsElement st e g b
  · rw [elementStep_fund p st e g b hskip]
    obtain ⟨ha, -, -, hd⟩ := fundElement_spec p.simulating { e with allocated_pp := 0 }
      (spendOnElement p st e g)
    dsimp only at ha hd ⊢
    refine ⟨?_, ?_, ?_⟩
    · intro hsim
      rw [hd, hsim]
      rfl
    · intro h
      cases h
    · intro hsim s hs
      cases hs
      refine ⟨?_, ha⟩
      rw [hd, hsim]
      rfl
  · rw [elementStep_skip p st e g b hskip]
    exact ⟨fun _ => rfl, fun _ => rfl, fun _ s hs => by cases hs⟩

/-- C33: in an allocation pass on a structurally consistent input, in simulating mode the
progress of every funded entry increases by exactly `allocation / max(ε, cost × blocksize)`,
with the allocation as computed and not the recorded amount floored at `ε`; in non-simulating
mode the progress of no entry changes, and the progress of a skipped entry changes in neither
mode. -/
theorem C33_progress_update (p : SpendingParams) (available_pp : GroupMap)
    (available_stockpile : ℚ) (queue : List Element) (a0 as0 : GroupMap) (pip0 : Int)
    (k : Nat) (e : Element)
    (hlen : queue.length = p.queue_element_resource_sharing_object_groups.length)
    (hk : queue[k]? = some e) :
    ∃ (e2 : Element) (amounts : Option ElementSpending),
      (SetProdQueueElementSpending p.rules available_pp available_stockpile p.stockpile_limit
        p.queue_element_resource_sharing_object_groups p.queue_item_costs_and_times
        p.is_producible queue a0 as0 pip0 p.simulating p.the_universe).queue[k]? = some e2 ∧
      (spendingLoop p 0 queue
        (initialSpendingState available_pp available_stockpile)).2.2[k]? = some amounts ∧
      (p.simulating = false → e2.progress = e.progress) ∧
      (amounts = none → e2.progress = e.progress) ∧
      (p.simulating = true → ∀ s : ElementSpending, amounts = some s →
        s.item_cost = (lookupCostTime p e).1 ∧
        e2.progress =
          e.progress + s.allocation / max EPSILON (s.item_cost * (e.blocksize : ℚ)) ∧
        e2.allocated_pp = max s.allocation EPSILON) := by
  obtain ⟨h1, h2, -⟩ := spendingLoop_entry p queue
    (initialSpendingState available_pp available_stockpile) k e hk
  rw [SetProdQueueElementSpending_eq_loop p available_pp available_stockpile queue a0 as0 pip0
    hlen]
  obtain ⟨ha, hb, hc⟩ := elementStep_progress_eq p
    (stateBeforeEntry p queue (initialSpendingState available_pp available_stockpile) k) e
    (p.queue_element_resource_sharing_object_groups.getD k ∅) (p.is_producible.getD k false)
  refine ⟨_, _, h1, h2, ha, hb, ?_⟩
  intro hsim s hs
  refine ⟨?_, hc hsim s hs⟩
  cases hskip : skipsElement
      (stateBeforeEntry p queue (initialSpendingState available_pp available_stockpile) k) e
      (p.queue_element_resource_sharing_object_groups.getD k ∅) (p.is_producible.getD k false)
  · rw [elementStep_fund p _ e _ _ hskip] at hs
    cases hs
    rfl
  · rw [elementStep_skip p _ e _ _ hskip] at hs
    cases hs

/-- Witness of C33: the one-element sample queue with 10 available in its group, in
non-simulating mode. -/
theorem C33_progress_update_witness :
    ∃ (e2 : Element) (amounts : Option ElementSpending),
      (SetProdQueueElementSpending sampleParams.rules [({1}, 10)] 0 sampleParams.stockpile_limit
        sampleParams.queue_element_resource_sharing_object_groups
        sampleParams.queue_item_costs_and_times sampleParams.is_producible [sampleElement] [] []
        0 sampleParams.simulating sampleParams.the_universe).queue[0]? = some e2 ∧
      (spendingLoop sampleParams 0 [sampleElement]
        (initialSpendingState [({1}, 10)] 0)).2.2[0]? = some amounts ∧
      (sampleParams.simulating = false → e2.progress = sampleElement.progress) ∧
      (amounts = none → e2.progress = sampleElement.progress) ∧
      (sampleParams.simulating = true → ∀ s : ElementSpending, amounts = some s →
        s.item_cost = (lookupCostTime sampleParams sampleElement).1 ∧
        e2.progress =
          sampleElement.progress +
            s.allocation / max EPSILON (s.item_cost * (sampleElement.blocksize : ℚ)) ∧
        e2.allocated_pp = max s.allocation EPSILON) :=
  C33_progress_update sampleParams [({1}, 10)] 0 [sampleElement] [] [] 0 0 sampleElement rfl rfl

/-! ### The projects-in-progress count -/

/-- The test that counts an iteration as a project in progress: amounts were computed and the
allocation is positive. -/
theorem recordSpending_projects (st : SpendingState) (e : Element) (g : ObjectGroup)
    (s : ElementSpending) :
    (recordSpending st e g s).projects_in_progress =
      st.projects_in_progress + (if s.allocation > 0 then 1 else 0) := by
  simp only [recordSpending]
  split_ifs <;> simp [(setGroupPPAvailable_fields _ _ _).2.2.2.2]


theorem elementStep_projects (p : SpendingParams) (st : SpendingState) (e : Element)
    (g : ObjectGroup) (b : Bool) :
    (elementStep p st e g b).1.projects_in_progress =
      st.projects_in_progress +
        (if countsAsInProgress (elementStep p st e g b).2.2 = true then 1 else 0) := by
  cases hskip : skipsElement st e g b
  · rw [elementStep_fund p st e g b hskip]
    dsimp only
    rw [recordSpending_projects]
    simp only [countsAsInProgress, decide_eq_true_eq]
  · rw [elementStep_skip p st e g b hskip]
    simp [countsAsInProgress]

theorem spendingLoop_projects (p : SpendingParams) (q : List Element) :
    ∀ (i : Nat) (st : SpendingState),
      (spendingLoop p i q st).1.projects_in_progress =
        st.projects_in_progress +
          (((spendingLoop p i q st).2.2.countP countsAsInProgress : Nat) : Int) := by
  induction q with
  | nil => intro i st; simp [spendingLoop]
  | cons e rest ih =>
    intro i st
    simp only [spendingLoop]
    rw [ih, elementStep_projects, List.countP_cons]
    split_ifs <;> push_cast <;> ring

/-- C34: after an allocation pass on a structurally consistent input, the projects-in-progress
count equals the number of queue entries whose computed allocation is strictly greater than
0, whatever the count was before the pass; skipped entries and funded entries with allocation
0 (recorded as `ε`) are not counted. -/
theorem C34_projects_in_progress (p : SpendingParams) (available_pp : GroupMap)
    (available_stockpile : ℚ) (queue : List Element) (a0 as0 : GroupMap) (pip0 : Int)
    (hlen : queue.length = p.queue_element_resource_sharing_object_groups.length) :
    (SetProdQueueElementSpending p.rules available_pp available_stockpile p.stockpile_limit
        p.queue_element_resource_sharing_object_groups p.queue_item_costs_and_times
        p.is_producible queue a0 as0 pip0 p.simulating p.the_universe).projects_in_progress =
      (((spendingLoop p 0 queue
        (initialSpendingState available_pp available_stockpile)).2.2.countP
          countsAsInProgress : Nat) : Int) ∧
    countsAsInProgress none = false ∧
    (∀ s : ElementSpending, countsAsInProgress (some s) = true ↔ s.allocation > 0) ∧
    (∀ s : ElementSpending, s.allocation = 0 → countsAsInProgress (some s) = false) := by
  refine ⟨?_, rfl, ?_, ?_⟩
  · rw [SetProdQueueElementSpending_eq_loop p available_pp available_stockpile queue a0 as0 pip0
      hlen]
    dsimp only
    rw [spendingLoop_projects]
    simp [initialSpendingState]
  · intro s
    simp [countsAsInProgress]
  · intro s hs
    simp [countsAsInProgress, hs]

/-- Witness of C34: the one-element sample queue with 10 available in its group. -/
theorem C34_projects_in_progress_witness :
    (SetProdQueueElementSpending sampleParams.rules [({1}, 10)] 0 sampleParams.stockpile_limit
        sampleParams.queue_element_resource_sharing_object_groups
        sampleParams.queue_item_costs_and_times sampleParams.is_producible [sampleElement] [] []
        7 sampleParams.simulating sampleParams.the_universe).projects_in_progress =
      (((spendingLoop sampleParams 0 [sampleElement]
        (initialSpendingState [({1}, 10)] 0)).2.2.countP countsAsInProgress : Nat) : Int) ∧
    countsAsInProgress none = false ∧
    (∀ s : ElementSpending, countsAsInProgress (some s) = true ↔ s.allocation > 0) ∧
    (∀ s : ElementSpending, s.allocation = 0 → countsAsInProgress (some s) = false) :=
  C34_projects_in_progress sampleParams [({1}, 10)] 0 [sampleElement] [] [] 7 rfl


/-! ### What the simulation changes in a simulated element -/

/-- One iteration of a pass changes no field of an element other than `allocated_pp`, the
next-batch forecast and the progress. -/
theorem elementStep_static (p : SpendingParams) (st : SpendingState) (e : Element)
    (g : ObjectGroup) (b : Bool) :
    ∃ (a : ℚ) (f : Int) (pr : ℚ),
      (elementStep p st e g b).2.1 =
        { e with allocated_pp := a, turns_left_to_next_item := f, progress := pr } := by
  cases hskip : skipsElement st e g b
  · rw [elementStep_fund p st e g b hskip]
    simp only [fundElement]
    split_ifs <;> exact ⟨_, _, _, rfl⟩
  · rw [elementStep_skip p st e g b hskip]
    exact ⟨0, e.turns_left_to_next_item, e.progress, rfl⟩

/-- A property of elements that does not depend on the fields that the simulation writes
holds of every element that a pass returns, if it holds of every element of the queue. -/
theorem pass_sim_forall (P : Element → Prop)
    (hP : ∀ (e : Element) (a : ℚ) (f : Int) (pr : ℚ) (r : Int), P e →
      P { e with allocated_pp := a, turns_left_to_next_item := f, progress := pr
                 remaining := r })
    (rules : GameRules) (available_pp : GroupMap) (available_stockpile stockpile_limit : ℚ)
    (groups : List ObjectGroup) (costs : CostTimeMap) (is_producible : List Bool)
    (queue : List Element) (a0 as0 : GroupMap) (pip0 : Int) (simulating : Bool)
    (the_universe : Universe) (h : ∀ e ∈ queue, P e) :
    ∀ e ∈ (SetProdQueueElementSpending rules available_pp available_stockpile stockpile_limit
      groups costs is_producible queue a0 as0 pip0 simulating the_universe).queue, P e := by
  unfold SetProdQueueElementSpending
  split_ifs with hlen
  · exact h
  · dsimp only
    refine spendingLoop_forall _ P P ?_ queue 0 _ h
    intro st e g b he
    obtain ⟨a, f, pr, heq⟩ := elementStep_static
      { rules := rules
        stockpile_limit := stockpile_limit
        queue_element_resource_sharing_object_groups := groups
        queue_item_costs_and_times := costs
        is_producible := is_producible
        simulating := simulating
        the_universe := the_universe } st e g b
    rw [heq]
    exact hP e a f pr e.remaining he

theorem removeUnproducible_sim_subset :
    ∀ (fuel i : Nat) (s : SimulationState),
      ∀ e ∈ (removeUnproducible fuel i s).sim_queue, e ∈ s.sim_queue := by
  intro fuel
  induction fuel with
  | zero => intro i s e he; exact he
  | succ fuel ih =>
    intro i s e he
    unfold removeUnproducible at he
    cases hrow : s.sim_queue[i]? with
    | none => rw [hrow] at he; exact he
    | some sim_element =>
      rw [hrow] at he
      dsimp only at he
      split_ifs at he
      · exact List.mem_of_mem_eraseIdx (ih _ _ e he)
      · exact ih _ _ e he

theorem completionLoop_sim_forall (P : Element → Prop)
    (hP : ∀ (e : Element) (a : ℚ) (f : Int) (pr : ℚ) (r : Int), P e →
      P { e with allocated_pp := a, turns_left_to_next_item := f, progress := pr
                 remaining := r })
    (sim_turn : Int) :
    ∀ (fuel i : Nat) (s : SimulationState), (∀ e ∈ s.sim_queue, P e) →
      ∀ e ∈ (completionLoop sim_turn fuel i s).sim_queue, P e := by
  intro fuel
  induction fuel with
  | zero => intro i s h; exact h
  | succ fuel ih =>
    intro i s h
    unfold completionLoop
    cases hrow : s.sim_queue[i]? with
    | none => exact h
    | some el =>
      have hel : P el := h el (List.mem_iff_getElem?.mpr ⟨i, hrow⟩)
      dsimp only
      split_ifs
      · exact ih _ _ h
      · apply ih
        intro e he
        exact h e (List.mem_of_mem_eraseIdx he)
      · apply ih
        intro e he
        rcases List.mem_or_eq_of_mem_set he with he | he
        · exact h e he
        · rw [he]
          exact hP el el.allocated_pp (-1) (max 0 (el.progress - 1)) (el.remaining - 1) hel

theorem simulateTurn_sim_forall (P : Element → Prop)
    (hP : ∀ (e : Element) (a : ℚ) (f : Int) (pr : ℚ) (r : Int), P e →
      P { e with allocated_pp := a, turns_left_to_next_item := f, progress := pr
                 remaining := r })
    (sp : SimulationParams) (sim_turn : Nat) (s : SimulationState)
    (h : ∀ e ∈ s.sim_queue, P e) :
    ∀ e ∈ (simulateTurn sp sim_turn s).sim_queue, P e := by
  unfold simulateTurn
  dsimp only
  apply completionLoop_sim_forall P hP
  exact pass_sim_forall P hP _ _ _ _ _ _ _ _ _ _ _ _ _ h

/-- A property of elements that does not depend on the fields that the simulation writes
holds of every simulated element after any number of simulated turns, if it holds of every
simulated element at the start. -/
theorem simulateTurns_sim_forall (P : Element → Prop)
    (hP : ∀ (e : Element) (a : ℚ) (f : Int) (pr : ℚ) (r : Int), P e →
      P { e with allocated_pp := a, turns_left_to_next_item := f, progress := pr
                 remaining := r })
    (sp : SimulationParams) :
    ∀ (fuel sim_turn : Nat) (s : SimulationState), (∀ e ∈ s.sim_queue, P e) →
      ∀ e ∈ (simulateTurns sp fuel sim_turn s).sim_queue, P e := by
  intro fuel
  induction fuel with
  | zero => intro t s h; exact h
  | succ fuel ih =>
    intro t s h
    unfold simulateTurns
    split_ifs
    · exact h
    · exact h
    · exact ih _ _ (simulateTurn_sim_forall P hP sp t s h)


/-! ### The cost and time cache of `Update` -/

theorem costFind_append (m m2 : CostTimeMap) (key : ProductionItem × Int)
    (h : costFind m key ≠ none) : costFind (m ++ m2) key ≠ none := by
  induction m with
  | nil => exact absurd rfl h
  | cons kv rest ih =>
    obtain ⟨k, v⟩ := kv
    simp only [List.cons_append, costFind] at h ⊢
    split_ifs with hk
    · simp
    · rw [if_neg hk] at h
      exact ih h

theorem costFind_append_self (m : CostTimeMap) (key : ProductionItem × Int) (v : ℚ × Int) :
    costFind (m ++ [(key, v)]) key ≠ none := by
  induction m with
  | nil => simp [costFind, costKeyEquiv_self]
  | cons kv rest ih =>
    obtain ⟨k, w⟩ := kv
    simp only [List.cons_append, costFind]
    split_ifs
    · simp
    · exact ih

theorem cacheCosts_cons (context : ScriptingContext) (e : Element) (rest : List Element)
    (acc : CostTimeMap) :
    cacheCosts context (e :: rest) acc =
      match costFind acc (costKey context.ContextUniverse e) with
      | some _ => cacheCosts context rest acc
      | none => cacheCosts context rest
          (acc ++ [(costKey context.ContextUniverse e, e.ProductionCostAndTime context)]) := rfl

/-- The cache keeps every key that it holds, and after the loop over the queue it holds the
key of every element of the queue. -/
theorem cacheCosts_present (context : ScriptingContext) (l : List Element) :
    ∀ acc : CostTimeMap,
      (∀ key, costFind acc key ≠ none → costFind (cacheCosts context l acc) key ≠ none) ∧
      ∀ e ∈ l, costFind (cacheCosts context l acc) (costKey context.ContextUniverse e) ≠ none := by
  induction l with
  | nil =>
    intro acc
    exact ⟨fun key h => h, fun e he => absurd he (List.not_mem_nil _)⟩
  | cons e0 rest ih =>
    intro acc
    rw [cacheCosts_cons]
    cases hfind : costFind acc (costKey context.ContextUniverse e0) with
    | some v =>
      dsimp only
      refine ⟨(ih acc).1, ?_⟩
      intro e he
      rw [List.mem_cons] at he
      rcases he with he | he
      · rw [he]
        apply (ih acc).1
        rw [hfind]
        simp
      · exact (ih acc).2 e he
    | none =>
      dsimp only
      refine ⟨fun key h => (ih _).1 key (costFind_append acc _ key h), ?_⟩
      intro e he
      rw [List.mem_cons] at he
      rcases he with he | he
      · rw [he]
        exact (ih _).1 _ (costFind_append_self acc _ _)
      · exact (ih _).2 e he

/-- C35: within `Update` the missing-cost fallback is unreachable. The key (item, location or
invariant sentinel) of every entry on which the authoritative pass runs, and of every entry of
the simulated queue after the removal of paused and unproducible entries and after any number
of simulated turns, is present in the cost and time cache that `Update` builds, and the lookup
of the pass returns the cached pair, not the dummy cost and time. -/
theorem C35_cost_cache_complete (rules : GameRules) (timed_out : Nat → Bool)
    (q : ProductionQueue) (context : ScriptingContext) (empire : Empire) :
    (∀ e ∈ q.m_queue.map resetForecast,
      ∃ v : ℚ × Int,
        costFind (cacheCosts context q.m_queue []) (costKey context.ContextUniverse e) =
          some v ∧
        lookupCostTime (updateSpendingParams rules q context empire) e = v) ∧
    (∀ (turns : Nat),
      ∀ e ∈ (simulateTurns (updateSimulationParams rules timed_out q context empire) turns 1
        (removeUnproducible (q.m_queue.map resetForecast).length 0
          (simulationStart rules q context empire))).sim_queue,
      ∃ v : ℚ × Int,
        costFind (updateSimulationParams rules timed_out q context
            empire).queue_item_costs_and_times
          (costKey (updateSimulationParams rules timed_out q context
            empire).context.ContextUniverse e) = some v ∧
        lookupCostTime { updateSpendingParams rules q context empire with simulating := true }
          e = v) := by
  have hpresent : ∀ e ∈ q.m_queue.map resetForecast,
      costFind (cacheCosts context q.m_queue []) (costKey context.ContextUniverse e) ≠ none := by
    intro e he
    rw [List.mem_map] at he
    obtain ⟨e0, he0, rfl⟩ := he
    exact (cacheCosts_present context q.m_queue []).2 e0 he0
  have hlookup : ∀ (sim : Bool) (e : Element),
      costFind (cacheCosts context q.m_queue []) (costKey context.ContextUniverse e) ≠ none →
      ∃ v : ℚ × Int,
        costFind (cacheCosts context q.m_queue []) (costKey context.ContextUniverse e) =
          some v ∧
        lookupCostTime { updateSpendingParams rules q context empire with simulating := sim }
          e = v := by
    intro sim e h
    cases hfind : costFind (cacheCosts context q.m_queue [])
        (costKey context.ContextUniverse e) with
    | none => exact absurd hfind h
    | some v =>
      refine ⟨v, rfl, ?_⟩
      rw [lookupCostTime_eq]
      simp only [updateSpendingParams]
      rw [hfind]
  constructor
  · intro e he
    exact hlookup false e (hpresent e he)
  · intro turns e he
    apply hlookup true e
    refine simulateTurns_sim_forall
      (fun e => costFind (cacheCosts context q.m_queue [])
        (costKey context.ContextUniverse e) ≠ none)
      (fun e a f pr r h => h) _ turns 1 _ ?_ e he
    intro e2 he2
    exact hpresent e2 (removeUnproducible_sim_subset _ _ _ e2 he2)


/-! ### The expected stockpile -/

theorem foldl_addGroupExcess_nonneg (allocated_pp : GroupMap) (available_pp : GroupMap) :
    ∀ acc : ℚ, 0 ≤ acc → 0 ≤ available_pp.foldl (addGroupExcess allocated_pp) acc := by
  induction available_pp with
  | nil => intro acc h; exact h
  | cons kv rest ih =>
    intro acc h
    rw [List.foldl_cons]
    apply ih
    unfold addGroupExcess
    dsimp only
    split_ifs with hlt
    · exact h
    · have := EPSILON_pos
      linarith [not_lt.mp hlt]

theorem elementStep_transfer_nonneg (p : SpendingParams) (available_pp : GroupMap)
    (available_stockpile : ℚ) (st : SpendingState) (e : Element) (g : ObjectGroup) (b : Bool)
    (hc : conservation available_pp available_stockpile st) (h : 0 ≤ st.stockpile_transfer) :
    0 ≤ (elementStep p st e g b).1.stockpile_transfer := by
  cases hskip : skipsElement st e g b
  · rw [elementStep_fund p st e g b hskip]
    dsimp only
    rw [recordSpending_stockpile_transfer]
    obtain ⟨-, -, -, h4, -, -⟩ := spendOnElement_drawdowns p st e g (hc.2.2.1 g) hc.2.1
    split_ifs
    · linarith
    · exact h
  · rw [elementStep_skip p st e g b hskip]
    exact h

theorem spendingLoop_transfer_nonneg (p : SpendingParams) (available_pp : GroupMap)
    (available_stockpile : ℚ) (q : List Element) :
    ∀ (i : Nat) (st : SpendingState), conservation available_pp available_stockpile st →
      0 ≤ st.stockpile_transfer → 0 ≤ (spendingLoop p i q st).1.stockpile_transfer := by
  induction q with
  | nil => intro i st _ h; exact h
  | cons e rest ih =>
    intro i st hc h
    simp only [spendingLoop]
    exact ih _ _ (elementStep_conservation p available_pp available_stockpile st e _ _ hc)
      (elementStep_transfer_nonneg p available_pp available_stockpile st e _ _ hc h)

/-- Over exact numbers, without rounding: for a resolved empire with non-negative group outputs, a
non-negative stockpile and a non-negative stockpile capacity, the expected new stockpile amount
that `Update` computes (the authoritative pass followed by `CalculateNewStockpile`) is
non-negative, whether the import limit rule is enabled or not, for every queue. -/
theorem exact_expected_stockpile_nonneg (rules : GameRules) (timed_out : Nat → Bool)
    (q : ProductionQueue) (context : ScriptingContext) (empire : Empire)
    (hempire : context.GetEmpire q.m_empire_id = some empire)
    (houtput : ∀ kv ∈ empire.industry_output, 0 ≤ kv.2)
    (hstock : 0 ≤ empire.industry_stockpile)
    (hcap : 0 ≤ StockpileCapacity q.m_empire_id context.planets)
    (hcap2 : 0 ≤ StockpileCapacity empire.production_queue_empire_id context.planets) :
    0 ≤ (q.Update rules timed_out context).m_expected_new_stockpile_amount := by
  have hfield : (q.Update rules timed_out context).m_expected_new_stockpile_amount =
      (afterAuthoritativePass rules q context empire).m_expected_new_stockpile_amount := by
    rw [Update_resolved rules timed_out q context empire hempire]
    split_ifs <;> rfl
  rw [hfield]
  have havail : 0 ≤ min empire.industry_stockpile
      (StockpileCapacity q.m_empire_id context.planets) := le_min hstock hcap
  have hinit := initial_conservation empire.industry_output _ houtput havail
  have hfinal := spendingLoop_conservation (updateSpendingParams rules q context empire)
    empire.industry_output _ (q.m_queue.map resetForecast) 0 _ hinit
  have htransfer := spendingLoop_transfer_nonneg (updateSpendingParams rules q context empire)
    empire.industry_output _ (q.m_queue.map resetForecast) 0 _ hinit (le_refl _)
  obtain ⟨-, hres2, -, -, -, hsp, hspsum⟩ := hfinal
  have hused : mapSum (spendingLoop (updateSpendingParams rules q context empire) 0
      (q.m_queue.map resetForecast)
      (initialSpendingState empire.industry_output
        (min empire.industry_stockpile
          (StockpileCapacity q.m_empire_id context.planets)))).1.allocated_stockpile_pp ≤
      empire.industry_stockpile := by
    have : min empire.industry_stockpile (StockpileCapacity q.m_empire_id context.planets) ≤
        empire.industry_stockpile := min_le_left _ _
    linarith
  simp only [afterAuthoritativePass]
  rw [authoritativePass_eq_loop]
  simp only [CalculateNewStockpile, hempire]
  have hnc := foldl_addGroupExcess_nonneg
    (spendingLoop (updateSpendingParams rules q context empire) 0
      (q.m_queue.map resetForecast) (updateStart q context empire)).1.allocated_pp
    empire.industry_output 0 (le_refl _)
  have hused2 : mapSum (spendingLoop (updateSpendingParams rules q context empire) 0
      (q.m_queue.map resetForecast) (updateStart q context empire)).1.allocated_stockpile_pp ≤
      empire.industry_stockpile := hused
  have htransfer2 : 0 ≤ (spendingLoop (updateSpendingParams rules q context empire) 0
      (q.m_queue.map resetForecast) (updateStart q context empire)).1.stockpile_transfer :=
    htransfer
  split_ifs
  · linarith
  · linarith

/-- Sample of the exact non-negativity: the queue of the late entry, whose empire has a stockpile
of 50 and a capacity of 50. -/
theorem exact_expected_stockpile_nonneg_sample :
    0 ≤ (lateQueue.Update {} noTimeout reserveContext).m_expected_new_stockpile_amount :=
  exact_expected_stockpile_nonneg {} noTimeout lateQueue reserveContext reserveEmpire rfl
    (by
      intro kv hkv
      simp only [reserveEmpire, List.mem_singleton] at hkv
      rw [hkv])
    (by norm_num [reserveEmpire])
    (by norm_num +decide [StockpileCapacity, lateQueue, reserveContext, ALL_EMPIRES])
    (by norm_num +decide [StockpileCapacity, reserveEmpire, reserveContext, ALL_EMPIRES])


/-! ### The simulated queue and its parallel vectors -/

theorem corresponding_eraseRow (s : SimulationState) (i : Nat) (h : corresponding s) :
    corresponding (s.eraseRow i) := by
  obtain ⟨h1, h2, h3, h4, h5, h6⟩ := h
  refine ⟨?_, ?_, ?_, ?_, ?_, ?_⟩
  · simp only [SimulationState.eraseRow, List.length_eraseIdx, h1]
  · simp only [SimulationState.eraseRow, List.length_eraseIdx, h2]
  · simp only [SimulationState.eraseRow, List.length_eraseIdx, h3]
  · exact List.Pairwise.sublist (List.eraseIdx_sublist _ _) h4
  · intro idx hidx
    exact h5 idx (List.mem_of_mem_eraseIdx hidx)
  · intro k e idx hk hidx
    simp only [SimulationState.eraseRow, List.getElem?_eraseIdx] at hk hidx ⊢
    by_cases hlt : k < i
    · rw [if_pos hlt] at hk hidx
      exact h6 k e idx hk hidx
    · rw [if_neg hlt] at hk hidx
      exact h6 (k + 1) e idx hk hidx

theorem noneUnproducible_eraseRow (s : SimulationState) (i : Nat) (h : noneUnproducible s) :
    noneUnproducible (s.eraseRow i) := by
  intro k e hk
  simp only [SimulationState.eraseRow, List.getElem?_eraseIdx, List.getD_eq_getElem?_getD]
    at hk ⊢
  by_cases hlt : k < i
  · rw [if_pos hlt] at hk ⊢
    simpa [List.getD_eq_getElem?_getD] using h k e hk
  · rw [if_neg hlt] at hk ⊢
    simpa [List.getD_eq_getElem?_getD] using h (k + 1) e hk

/-- The correspondence survives a change of the real queue that keeps its identifiers. -/
theorem corresponding_m_queue (s : SimulationState) (m_queue : List Element)
    (hm : m_queue.map (fun o => o.uuid) = s.m_queue.map (fun o => o.uuid))
    (h : corresponding s) : corresponding { s with m_queue := m_queue } := by
  obtain ⟨h1, h2, h3, h4, h5, h6⟩ := h
  have hlen : m_queue.length = s.m_queue.length := by
    have := congrArg List.length hm
    simpa using this
  refine ⟨h1, h2, h3, h4, ?_, ?_⟩
  · intro idx hidx
    dsimp only
    rw [hlen]
    exact h5 idx hidx
  · intro k e idx hk hidx
    obtain ⟨orig, horig, hu⟩ := h6 k e idx hk hidx
    have h7 : (m_queue.map (fun o => o.uuid))[idx]? =
        (s.m_queue.map (fun o => o.uuid))[idx]? := by rw [hm]
    rw [List.getElem?_map, List.getElem?_map, horig] at h7
    dsimp only
    cases hnew : m_queue[idx]? with
    | none => rw [hnew] at h7; simp at h7
    | some orig2 =>
      rw [hnew] at h7
      simp only [Option.map_some', Option.some.injEq] at h7
      exact ⟨orig2, rfl, hu.trans h7.symm⟩

/-- The correspondence survives a change of the simulated queue that keeps, row by row, the
identifiers of the simulated elements. -/
theorem corresponding_sim_queue (s : SimulationState) (sim_queue : List Element)
    (dummy_int : Int)
    (hq : sim_queue.map (fun o => o.uuid) = s.sim_queue.map (fun o => o.uuid))
    (h : corresponding s) :
    corresponding { s with sim_queue := sim_queue, dummy_int := dummy_int } := by
  obtain ⟨h1, h2, h3, h4, h5, h6⟩ := h
  have hlen : sim_queue.length = s.sim_queue.length := by
    have := congrArg List.length hq
    simpa using this
  refine ⟨by dsimp only; rw [hlen]; exact h1, by dsimp only; rw [hlen]; exact h2,
    by dsimp only; rw [hlen]; exact h3, h4, h5, ?_⟩
  intro k e idx hk hidx
  dsimp only at hk hidx ⊢
  have h7 : (sim_queue.map (fun o => o.uuid))[k]? =
      (s.sim_queue.map (fun o => o.uuid))[k]? := by rw [hq]
  rw [List.getElem?_map, List.getElem?_map, hk] at h7
  cases hold : s.sim_queue[k]? with
  | none => rw [hold] at h7; simp at h7
  | some e0 =>
    rw [hold] at h7
    simp only [Option.map_some', Option.some.injEq] at h7
    obtain ⟨orig, horig, hu⟩ := h6 k e0 idx hold hidx
    exact ⟨orig, horig, h7.trans hu⟩

/-- No simulated element becomes paused or unproducible when the simulated queue changes in a
way that keeps, row by row, the pause flags. -/
theorem noneUnproducible_sim_queue (s : SimulationState) (sim_queue : List Element)
    (m_queue : List Element) (dummy_int : Int)
    (hq : sim_queue.map (fun o => o.paused) = s.sim_queue.map (fun o => o.paused))
    (h : noneUnproducible s) :
    noneUnproducible
      { s with sim_queue := sim_queue, m_queue := m_queue, dummy_int := dummy_int } := by
  intro k e hk
  dsimp only at hk ⊢
  have h7 : (sim_queue.map (fun o => o.paused))[k]? =
      (s.sim_queue.map (fun o => o.paused))[k]? := by rw [hq]
  rw [List.getElem?_map, List.getElem?_map, hk] at h7
  cases hold : s.sim_queue[k]? with
  | none => rw [hold] at h7; simp at h7
  | some e0 =>
    rw [hold] at h7
    simp only [Option.map_some', Option.some.injEq] at h7
    obtain ⟨hp, hprod⟩ := h k e0 hold
    exact ⟨h7.trans hp, hprod⟩


theorem spendingLoop_map_static {β : Type} (g : Element → β)
    (hg : ∀ (e : Element) (a : ℚ) (f : Int) (pr : ℚ),
      g { e with allocated_pp := a, turns_left_to_next_item := f, progress := pr } = g e)
    (p : SpendingParams) (q : List Element) :
    ∀ (i : Nat) (st : SpendingState), (spendingLoop p i q st).2.1.map g = q.map g := by
  induction q with
  | nil => intro i st; rfl
  | cons e rest ih =>
    intro i st
    simp only [spendingLoop, List.map_cons, ih]
    obtain ⟨a, f, pr, heq⟩ := elementStep_static p st e
      (p.queue_element_resource_sharing_object_groups.getD i ∅) (p.is_producible.getD i false)
    rw [heq, hg]

/-- A pass keeps, row by row, every field of the elements other than `allocated_pp`, the
next-batch forecast and the progress. -/
theorem pass_map_static {β : Type} (g : Element → β)
    (hg : ∀ (e : Element) (a : ℚ) (f : Int) (pr : ℚ),
      g { e with allocated_pp := a, turns_left_to_next_item := f, progress := pr } = g e)
    (rules : GameRules) (available_pp : GroupMap) (available_stockpile stockpile_limit : ℚ)
    (groups : List ObjectGroup) (costs : CostTimeMap) (is_producible : List Bool)
    (queue : List Element) (a0 as0 : GroupMap) (pip0 : Int) (simulating : Bool)
    (the_universe : Universe) :
    (SetProdQueueElementSpending rules available_pp available_stockpile stockpile_limit
      groups costs is_producible queue a0 as0 pip0 simulating the_universe).queue.map g =
      queue.map g := by
  unfold SetProdQueueElementSpending
  split_ifs with hlen
  · rfl
  · exact spendingLoop_map_static g hg _ queue 0 _

theorem stamps_uuid (sim_turn : Int) (e : Element) :
    (stampNextItem sim_turn e).uuid = e.uuid ∧ (stampCompletion sim_turn e).uuid = e.uuid := by
  refine ⟨?_, rfl⟩
  unfold stampNextItem
  split_ifs <;> rfl

theorem map_set_of_eq {β : Type} (g : Element → β) (l : List Element) (i : Nat)
    (x y : Element) (hx : l[i]? = some x) (hxy : g y = g x) :
    (l.set i y).map g = l.map g := by
  apply List.ext_getElem?
  intro k
  rw [List.getElem?_map, List.getElem?_map, List.getElem?_set]
  by_cases hik : i = k
  · subst hik
    have hi : i < l.length := by
      by_contra hge
      rw [List.getElem?_eq_none_iff.mpr (not_lt.mp hge)] at hx
      cases hx
    rw [if_pos rfl, if_pos hi, hx]
    simp [hxy]
  · rw [if_neg hik]

/-- The completion loop keeps the correspondence of the simulated queue with its parallel
vectors and with the real queue, and makes no simulated element paused or unproducible. -/
theorem completionLoop_corresponding (sim_turn : Int) :
    ∀ (fuel i : Nat) (s : SimulationState), corresponding s → noneUnproducible s →
      corresponding (completionLoop sim_turn fuel i s) ∧
      noneUnproducible (completionLoop sim_turn fuel i s) := by
  intro fuel
  induction fuel with
  | zero => intro i s h1 h2; exact ⟨h1, h2⟩
  | succ fuel ih =>
    intro i s h1 h2
    unfold completionLoop
    cases hrow : s.sim_queue[i]? with
    | none => exact ⟨h1, h2⟩
    | some el =>
      dsimp only
      split_ifs with hflag hrem
      · exact ih _ _ h1 h2
      · apply ih
        · apply corresponding_eraseRow
          apply corresponding_m_queue s _ _ h1
          cases hidx : s.sim_queue_original_indices[i]? with
          | none => rfl
          | some idx =>
            dsimp only
            rw [modifyAt_map (stampCompletion sim_turn) (fun o => o.uuid)
                (fun e => (stamps_uuid sim_turn e).2),
              modifyAt_map (stampNextItem sim_turn) (fun o => o.uuid)
                (fun e => (stamps_uuid sim_turn e).1)]
        · apply noneUnproducible_eraseRow
          exact noneUnproducible_sim_queue s s.sim_queue _ s.dummy_int rfl h2
      · apply ih
        · have hm : corresponding
              { s with m_queue := (match s.sim_queue_original_indices[i]? with
                  | some idx => modifyAt (stampNextItem sim_turn) idx s.m_queue
                  | none => s.m_queue) } := by
            apply corresponding_m_queue s _ _ h1
            cases hidx : s.sim_queue_original_indices[i]? with
            | none => rfl
            | some idx =>
              dsimp only
              rw [modifyAt_map (stampNextItem sim_turn) (fun o => o.uuid)
                (fun e => (stamps_uuid sim_turn e).1)]
          exact corresponding_sim_queue
            { s with m_queue := (match s.sim_queue_original_indices[i]? with
                | some idx => modifyAt (stampNextItem sim_turn) idx s.m_queue
                | none => s.m_queue) } _ s.dummy_int
            (map_set_of_eq (fun o => o.uuid) s.sim_queue i el _ hrow rfl) hm
        · exact noneUnproducible_sim_queue s _ _ s.dummy_int
            (map_set_of_eq (fun o => o.paused) s.sim_queue i el _ hrow rfl) h2


theorem removeUnproducible_corresponding :
    ∀ (fuel i : Nat) (s : SimulationState), corresponding s →
      corresponding (removeUnproducible fuel i s) := by
  intro fuel
  induction fuel with
  | zero => intro i s h; exact h
  | succ fuel ih =>
    intro i s h
    unfold removeUnproducible
    cases hrow : s.sim_queue[i]? with
    | none => exact h
    | some el =>
      dsimp only
      split_ifs
      · exact ih _ _ (corresponding_eraseRow s i h)
      · exact ih _ _ h

/-- The removal loop, given enough fuel for the rows from `i` on, leaves no paused or
unproducible element in the simulated queue, when the rows before `i` hold none. -/
theorem removeUnproducible_noneUnproducible :
    ∀ (fuel i : Nat) (s : SimulationState), s.sim_queue.length ≤ i + fuel →
      (∀ (k : Nat) (e : Element), k < i → s.sim_queue[k]? = some e →
        e.paused = false ∧ s.is_producible.getD k false = true) →
      noneUnproducible (removeUnproducible fuel i s) := by
  have hdone : ∀ (i : Nat) (s : SimulationState), s.sim_queue.length ≤ i →
      (∀ (k : Nat) (e : Element), k < i → s.sim_queue[k]? = some e →
        e.paused = false ∧ s.is_producible.getD k false = true) → noneUnproducible s := by
    intro i s hlen hrows k e hk
    have hlt : k < s.sim_queue.length := by
      by_contra hge
      rw [List.getElem?_eq_none_iff.mpr (not_lt.mp hge)] at hk
      cases hk
    exact hrows k e (by omega) hk
  intro fuel
  induction fuel with
  | zero => intro i s hlen hrows; exact hdone i s (by omega) hrows
  | succ fuel ih =>
    intro i s hlen hrows
    unfold removeUnproducible
    cases hrow : s.sim_queue[i]? with
    | none => exact hdone i s (List.getElem?_eq_none_iff.mp hrow) hrows
    | some el =>
      have hi : i < s.sim_queue.length := by
        by_contra hge
        rw [List.getElem?_eq_none_iff.mpr (not_lt.mp hge)] at hrow
        cases hrow
      dsimp only
      split_ifs with hcond
      · apply ih
        · simp only [SimulationState.eraseRow, List.length_eraseIdx, hi, if_true]
          omega
        · intro k e hk hke
          simp only [SimulationState.eraseRow, List.getElem?_eraseIdx,
            List.getD_eq_getElem?_getD, if_pos hk] at hke ⊢
          simpa [List.getD_eq_getElem?_getD] using hrows k e hk hke
      · apply ih _ _ (by omega)
        intro k e hk hke
        by_cases hki : k = i
        · subst hki
          rw [hrow] at hke
          cases hke
          simp only [Bool.or_eq_true, Bool.not_eq_true', not_or, Bool.not_eq_true,
            Bool.not_eq_false] at hcond
          exact hcond
        · exact hrows k e (by omega) hke

theorem simulationStart_corresponding (rules : GameRules) (q : ProductionQueue)
    (context : ScriptingContext) (empire : Empire) :
    corresponding (simulationStart rules q context empire) := by
  have huuid : (authoritativePass rules q context empire).queue.map (fun o => o.uuid) =
      q.m_queue.map (fun o => o.uuid) := by
    unfold authoritativePass
    rw [pass_map_static (fun o => o.uuid) (fun _ _ _ _ => rfl), List.map_map]
    rfl
  have hlen : (authoritativePass rules q context empire).queue.length = q.m_queue.length := by
    have := congrArg List.length huuid
    simpa using this
  refine ⟨?_, ?_, ?_, ?_, ?_, ?_⟩
  · simp [simulationStart]
  · simp [simulationStart]
  · simp [simulationStart]
  · simp only [simulationStart]
    exact List.pairwise_lt_range _
  · intro idx hidx
    simp only [simulationStart, List.mem_range, List.length_map] at hidx ⊢
    rw [hlen]
    exact hidx
  · intro i e idx hi hidx
    simp only [simulationStart] at hi hidx ⊢
    have hidx2 : idx = i := by
      rw [List.getElem?_eq_some_iff] at hidx
      obtain ⟨_, hval⟩ := hidx
      simpa using hval.symm
    subst hidx2
    rw [List.getElem?_map] at hi
    cases hq : q.m_queue[idx]? with
    | none => rw [hq] at hi; cases hi
    | some e0 =>
      rw [hq] at hi
      simp only [Option.map_some', Option.some.injEq] at hi
      have h7 : ((authoritativePass rules q context empire).queue.map (fun o => o.uuid))[idx]? =
          (q.m_queue.map (fun o => o.uuid))[idx]? := by rw [huuid]
      rw [List.getElem?_map, List.getElem?_map, hq] at h7
      cases hnew : (authoritativePass rules q context empire).queue[idx]? with
      | none => rw [hnew] at h7; simp at h7
      | some orig =>
        rw [hnew] at h7
        simp only [Option.map_some', Option.some.injEq] at h7
        refine ⟨orig, rfl, ?_⟩
        rw [h7, ← hi]
        rfl

theorem simulateTurn_corresponding (sp : SimulationParams) (sim_turn : Nat)
    (s : SimulationState) (h1 : corresponding s) (h2 : noneUnproducible s) :
    corresponding (simulateTurn sp sim_turn s) ∧ noneUnproducible (simulateTurn sp sim_turn s) := by
  have h := completionLoop_corresponding (sim_turn : Int)
    (SetProdQueueElementSpending sp.rules sp.available_pp s.sim_available_stockpile
      sp.stockpile_limit s.queue_element_groups sp.queue_item_costs_and_times s.is_producible
      s.sim_queue [] [] s.dummy_int true sp.context.ContextUniverse).queue.length 0
    { s with
      sim_queue := (SetProdQueueElementSpending sp.rules sp.available_pp
        s.sim_available_stockpile sp.stockpile_limit s.queue_element_groups
        sp.queue_item_costs_and_times s.is_producible s.sim_queue [] [] s.dummy_int true
        sp.context.ContextUniverse).queue
      dummy_int := (SetProdQueueElementSpending sp.rules sp.available_pp
        s.sim_available_stockpile sp.stockpile_limit s.queue_element_groups
        sp.queue_item_costs_and_times s.is_producible s.sim_queue [] [] s.dummy_int true
        sp.context.ContextUniverse).projects_in_progress }
    (corresponding_sim_queue s _ _
      (pass_map_static (fun o => o.uuid) (fun _ _ _ _ => rfl) _ _ _ _ _ _ _ _ _ _ _ _ _) h1)
    (noneUnproducible_sim_queue s _ s.m_queue _
      (pass_map_static (fun o => o.paused) (fun _ _ _ _ => rfl) _ _ _ _ _ _ _ _ _ _ _ _ _) h2)
  exact h

theorem simulateTurns_corresponding (sp : SimulationParams) :
    ∀ (fuel sim_turn : Nat) (s : SimulationState), corresponding s → noneUnproducible s →
      corresponding (simulateTurns sp fuel sim_turn s) ∧
      noneUnproducible (simulateTurns sp fuel sim_turn s) := by
  intro fuel
  induction fuel with
  | zero => intro t s h1 h2; exact ⟨h1, h2⟩
  | succ fuel ih =>
    intro t s h1 h2
    unfold simulateTurns
    split_ifs
    · exact ⟨h1, h2⟩
    · exact ⟨h1, h2⟩
    · obtain ⟨h3, h4⟩ := simulateTurn_corresponding sp t s h1 h2
      exact ih _ _ h3 h4


/-- C36: the simulated queue of `Update` and its parallel vectors stay in correspondence. In
the state left by the removal of paused and unproducible elements, and in the state after any
number of simulated turns from there, the simulated queue, the producibility vector, the group
vector and the vector of original indices have the same length, the original indices are
strictly increasing and within the real queue, simulated element `i` has the uuid of the real
element at its original index, and no simulated element is paused or unproducible. -/
theorem C36_simulated_queue_correspondence (rules : GameRules) (timed_out : Nat → Bool)
    (q : ProductionQueue) (context : ScriptingContext) (empire : Empire) :
    corresponding (removeUnproducible (q.m_queue.map resetForecast).length 0
        (simulationStart rules q context empire)) ∧
      noneUnproducible (removeUnproducible (q.m_queue.map resetForecast).length 0
        (simulationStart rules q context empire)) ∧
      ∀ turns : Nat,
        corresponding (simulateTurns (updateSimulationParams rules timed_out q context empire)
          turns 1 (removeUnproducible (q.m_queue.map resetForecast).length 0
            (simulationStart rules q context empire))) ∧
        noneUnproducible (simulateTurns (updateSimulationParams rules timed_out q context empire)
          turns 1 (removeUnproducible (q.m_queue.map resetForecast).length 0
            (simulationStart rules q context empire))) := by
  have h1 := removeUnproducible_corresponding (q.m_queue.map resetForecast).length 0 _
    (simulationStart_corresponding rules q context empire)
  have h2 : noneUnproducible (removeUnproducible (q.m_queue.map resetForecast).length 0
      (simulationStart rules q context empire)) := by
    apply removeUnproducible_noneUnproducible
    · simp [simulationStart]
    · intro k e hk
      omega
  exact ⟨h1, h2, fun turns => simulateTurns_corresponding _ turns 1 _ h1 h2⟩


theorem forecastsOrdered_mono (b1 b2 : Int) (h : b1 ≤ b2) (e : Element)
    (he : forecastsOrdered b1 e) : forecastsOrdered b2 e := by
  refine ⟨fun hn => ?_, he.2⟩
  have := he.1 hn
  exact ⟨this.1, this.2.trans h⟩

theorem stampNextItem_ordered (t : Int) (ht : 1 ≤ t) (e : Element)
    (he : forecastsOrdered t e) : forecastsOrdered t (stampNextItem t e) := by
  unfold stampNextItem
  split_ifs with hn
  · refine ⟨fun _ => ⟨ht, le_refl _⟩, fun hc => ?_⟩
    exact absurd hn (he.2 hc).1
  · exact he

theorem stampCompletion_ordered (t : Int) (ht : 1 ≤ t) (e : Element)
    (he : forecastsOrdered t e) (hrem : e.remaining ≤ t) :
    forecastsOrdered t (stampCompletion t (stampNextItem t e)) := by
  unfold stampCompletion stampNextItem
  split_ifs with hn
  · refine ⟨fun _ => ⟨ht, le_refl _⟩, fun _ => ⟨?_, ht, le_refl _, hrem⟩⟩
    show t ≠ -1
    omega
  · have h1 := he.1 hn
    exact ⟨fun _ => h1, fun _ => ⟨hn, h1.1, h1.2, hrem⟩⟩

theorem mem_modifyAt (f : Element → Element) (idx : Nat) (l : List Element) (e : Element)
    (he : e ∈ modifyAt f idx l) : e ∈ l ∨ ∃ e0, l[idx]? = some e0 ∧ e = f e0 := by
  rw [List.mem_iff_getElem?] at he
  obtain ⟨k, hk⟩ := he
  rw [modifyAt_getElem?] at hk
  split_ifs at hk with hki
  · subst hki
    cases hl : l[k]? with
    | none => rw [hl] at hk; cases hk
    | some e0 =>
      rw [hl] at hk
      simp only [Option.map_some', Option.some.injEq] at hk
      exact Or.inr ⟨e0, rfl, hk.symm⟩
  · exact Or.inl (List.mem_iff_getElem?.mpr ⟨k, hk⟩)

theorem stamps_remaining (t : Int) (e : Element) :
    (stampNextItem t e).remaining = e.remaining ∧
      (stampCompletion t e).remaining = e.remaining := by
  refine ⟨?_, rfl⟩
  unfold stampNextItem
  split_ifs <;> rfl

theorem remainingWithin_eraseRow (k : Int) (R : List Int) (s : SimulationState) (i : Nat)
    (m : List Element) (j : Nat)
    (h : remainingWithin k R s (if j < i then j else j + 1)) :
    remainingWithin k R ({ s with m_queue := m }.eraseRow i) j := by
  intro idx es r h1 h2 h3
  simp only [SimulationState.eraseRow, List.getElem?_eraseIdx] at h1 h2
  by_cases hji : j < i
  · rw [if_pos hji] at h h1 h2
    exact h idx es r h1 h2 h3
  · rw [if_neg hji] at h h1 h2
    exact h idx es r h1 h2 h3

theorem remainingWithin_weaken (k1 k2 : Int) (hk : k1 ≤ k2) (R : List Int)
    (s : SimulationState) (j : Nat) (h : remainingWithin k1 R s j) :
    remainingWithin k2 R s j := by
  intro idx es r h1 h2 h3
  have := h idx es r h1 h2 h3
  omega


theorem getElem?_map_remaining (l : List Element) (R : List Int)
    (hR : l.map (fun o => o.remaining) = R) (idx : Nat) (e : Element)
    (he : l[idx]? = some e) : R[idx]? = some e.remaining := by
  rw [← hR, List.getElem?_map, he]
  rfl

/-- The completion loop of simulated turn `t` keeps the forecasts of the real queue ordered:
rows before `i` have lost at most `t` batches, rows from `i` on at most `t - 1`. -/
theorem completionLoop_ordered (t : Int) (ht : 1 ≤ t) (R : List Int) :
    ∀ (fuel i : Nat) (s : SimulationState),
      s.m_queue.map (fun o => o.remaining) = R →
      (∀ e ∈ s.m_queue, forecastsOrdered t e) →
      (∀ j, j < i → remainingWithin t R s j) →
      (∀ j, i ≤ j → remainingWithin (t - 1) R s j) →
      (completionLoop t fuel i s).m_queue.map (fun o => o.remaining) = R ∧
      (∀ e ∈ (completionLoop t fuel i s).m_queue, forecastsOrdered t e) ∧
      ∀ j, remainingWithin t R (completionLoop t fuel i s) j := by
  have hstop : ∀ (i : Nat) (s : SimulationState),
      (∀ j, j < i → remainingWithin t R s j) →
      (∀ j, i ≤ j → remainingWithin (t - 1) R s j) → ∀ j, remainingWithin t R s j := by
    intro i s h3 h4 j
    by_cases hj : j < i
    · exact h3 j hj
    · exact remainingWithin_weaken (t - 1) t (by omega) R s j (h4 j (not_lt.mp hj))
  intro fuel
  induction fuel with
  | zero => intro i s h1 h2 h3 h4; exact ⟨h1, h2, hstop i s h3 h4⟩
  | succ fuel ih =>
    intro i s h1 h2 h3 h4
    unfold completionLoop
    cases hrow : s.sim_queue[i]? with
    | none => exact ⟨h1, h2, hstop i s h3 h4⟩
    | some el =>
      dsimp only
      split_ifs with hflag hrem
      · apply ih _ _ h1 h2
        · intro j hj
          by_cases hji : j < i
          · exact h3 j hji
          · exact remainingWithin_weaken (t - 1) t (by omega) R s j (h4 j (not_lt.mp hji))
        · intro j hj
          exact h4 j (by omega)
      · apply ih
        · show (match s.sim_queue_original_indices[i]? with
            | some idx => modifyAt (stampCompletion t) idx
                (match s.sim_queue_original_indices[i]? with
                | some idx => modifyAt (stampNextItem t) idx s.m_queue
                | none => s.m_queue)
            | none => (match s.sim_queue_original_indices[i]? with
                | some idx => modifyAt (stampNextItem t) idx s.m_queue
                | none => s.m_queue)).map (fun o : Element => o.remaining) = R
          cases hidx : s.sim_queue_original_indices[i]? with
          | none => exact h1
          | some idx =>
            dsimp only
            rw [modifyAt_map (stampCompletion t) (fun o => o.remaining)
                (fun e => (stamps_remaining t e).2),
              modifyAt_map (stampNextItem t) (fun o => o.remaining)
                (fun e => (stamps_remaining t e).1)]
            exact h1
        · show ∀ e ∈ (match s.sim_queue_original_indices[i]? with
            | some idx => modifyAt (stampCompletion t) idx
                (match s.sim_queue_original_indices[i]? with
                | some idx => modifyAt (stampNextItem t) idx s.m_queue
                | none => s.m_queue)
            | none => (match s.sim_queue_original_indices[i]? with
                | some idx => modifyAt (stampNextItem t) idx s.m_queue
                | none => s.m_queue)), forecastsOrdered t e
          cases hidx : s.sim_queue_original_indices[i]? with
          | none => exact h2
          | some idx =>
            dsimp only
            intro e he
            rcases mem_modifyAt _ _ _ _ he with hmem | ⟨e1, he1, rfl⟩
            · rcases mem_modifyAt _ _ _ _ hmem with hmem0 | ⟨e0, he0, rfl⟩
              · exact h2 e hmem0
              · exact stampNextItem_ordered t ht e0 (h2 e0 (List.mem_iff_getElem?.mpr ⟨idx, he0⟩))
            · rw [modifyAt_getElem?, if_pos rfl] at he1
              cases he0 : s.m_queue[idx]? with
              | none => rw [he0] at he1; cases he1
              | some e0 =>
                rw [he0] at he1
                simp only [Option.map_some', Option.some.injEq] at he1
                subst he1
                apply stampCompletion_ordered t ht e0 (h2 e0 (List.mem_iff_getElem?.mpr ⟨idx, he0⟩))
                have hw := h4 i (le_refl _) idx el e0.remaining hidx hrow
                  (getElem?_map_remaining _ R h1 idx e0 he0)
                have hrem2 : el.remaining - 1 = 0 := hrem
                omega
        · intro j hj
          apply remainingWithin_eraseRow
          rw [if_pos hj]
          exact h3 j hj
        · intro j hj
          apply remainingWithin_eraseRow
          rw [if_neg (by omega)]
          exact h4 (j + 1) (by omega)
      · apply ih
        · show (match s.sim_queue_original_indices[i]? with
                | some idx => modifyAt (stampNextItem t) idx s.m_queue
                | none => s.m_queue).map (fun o : Element => o.remaining) = R
          cases hidx : s.sim_queue_original_indices[i]? with
          | none => exact h1
          | some idx =>
            dsimp only
            rw [modifyAt_map (stampNextItem t) (fun o => o.remaining)
                (fun e => (stamps_remaining t e).1)]
            exact h1
        · show ∀ e ∈ (match s.sim_queue_original_indices[i]? with
                | some idx => modifyAt (stampNextItem t) idx s.m_queue
                | none => s.m_queue), forecastsOrdered t e
          cases hidx : s.sim_queue_original_indices[i]? with
          | none => exact h2
          | some idx =>
            dsimp only
            intro e he
            rcases mem_modifyAt _ _ _ _ he with hmem0 | ⟨e0, he0, rfl⟩
            · exact h2 e hmem0
            · exact stampNextItem_ordered t ht e0 (h2 e0 (List.mem_iff_getElem?.mpr ⟨idx, he0⟩))
        · intro j hj idx es r hj1 hj2 hj3
          dsimp only at hj1 hj2
          by_cases hji : j = i
          · subst hji
            rw [List.getElem?_set_self (by
              by_contra hge
              rw [List.getElem?_eq_none_iff.mpr (not_lt.mp hge)] at hrow
              cases hrow)] at hj2
            cases hj2
            have hw := h4 j (le_refl _) idx el r hj1 hrow hj3
            show r ≤ el.remaining - 1 + t
            omega
          · rw [List.getElem?_set_ne (fun h => hji h.symm)] at hj2
            exact h3 j (by omega) idx es r hj1 hj2 hj3
        · intro j hj idx es r hj1 hj2 hj3
          dsimp only at hj1 hj2
          rw [List.getElem?_set_ne (by omega)] at hj2
          exact h4 j (by omega) idx es r hj1 hj2 hj3


theorem remainingWithin_sim_queue (k : Int) (R : List Int) (s : SimulationState)
    (sq : List Element) (d : Int)
    (hsq : sq.map (fun o => o.remaining) = s.sim_queue.map (fun o => o.remaining))
    (h : ∀ j, remainingWithin k R s j) :
    ∀ j, remainingWithin k R { s with sim_queue := sq, dummy_int := d } j := by
  intro j idx es r h1 h2 h3
  dsimp only at h1 h2
  have h4 : (sq.map (fun o => o.remaining))[j]? =
      (s.sim_queue.map (fun o => o.remaining))[j]? := by rw [hsq]
  rw [List.getElem?_map, List.getElem?_map, h2] at h4
  cases hold : s.sim_queue[j]? with
  | none => rw [hold] at h4; cases h4
  | some e0 =>
    rw [hold] at h4
    simp only [Option.map_some', Option.some.injEq] at h4
    have := h j idx e0 r h1 hold h3
    omega

/-- One simulated turn keeps the forecasts of the real queue ordered. -/
theorem simulateTurn_ordered (sp : SimulationParams) (t : Nat) (ht : 1 ≤ t) (R : List Int)
    (s : SimulationState) (h1 : s.m_queue.map (fun o => o.remaining) = R)
    (h2 : ∀ e ∈ s.m_queue, forecastsOrdered (t : Int) e)
    (h3 : ∀ j, remainingWithin ((t : Int) - 1) R s j) :
    (simulateTurn sp t s).m_queue.map (fun o => o.remaining) = R ∧
      (∀ e ∈ (simulateTurn sp t s).m_queue, forecastsOrdered (t : Int) e) ∧
      ∀ j, remainingWithin (t : Int) R (simulateTurn sp t s) j := by
  have h := completionLoop_ordered (t : Int) (by exact_mod_cast ht) R
    (SetProdQueueElementSpending sp.rules sp.available_pp s.sim_available_stockpile
      sp.stockpile_limit s.queue_element_groups sp.queue_item_costs_and_times s.is_producible
      s.sim_queue [] [] s.dummy_int true sp.context.ContextUniverse).queue.length 0
    { s with
      sim_queue := (SetProdQueueElementSpending sp.rules sp.available_pp
        s.sim_available_stockpile sp.stockpile_limit s.queue_element_groups
        sp.queue_item_costs_and_times s.is_producible s.sim_queue [] [] s.dummy_int true
        sp.context.ContextUniverse).queue
      dummy_int := (SetProdQueueElementSpending sp.rules sp.available_pp
        s.sim_available_stockpile sp.stockpile_limit s.queue_element_groups
        sp.queue_item_costs_and_times s.is_producible s.sim_queue [] [] s.dummy_int true
        sp.context.ContextUniverse).projects_in_progress }
    h1 h2 (fun j hj => absurd hj (Nat.not_lt_zero j))
    (fun j _ => remainingWithin_sim_queue _ R s _ _
      (pass_map_static (fun o => o.remaining) (fun _ _ _ _ => rfl) _ _ _ _ _ _ _ _ _ _ _ _ _)
      h3 j)
  exact h

theorem simulateTurns_ordered (sp : SimulationParams) (R : List Int) :
    ∀ (fuel t : Nat) (s : SimulationState), 1 ≤ t →
      s.m_queue.map (fun o => o.remaining) = R →
      (∀ e ∈ s.m_queue, forecastsOrdered (t : Int) e) →
      (∀ j, remainingWithin ((t : Int) - 1) R s j) →
      ∃ bound : Int, ∀ e ∈ (simulateTurns sp fuel t s).m_queue, forecastsOrdered bound e := by
  intro fuel
  induction fuel with
  | zero => intro t s _ _ h2 _; exact ⟨t, h2⟩
  | succ fuel ih =>
    intro t s ht h1 h2 h3
    unfold simulateTurns
    split_ifs
    · exact ⟨t, h2⟩
    · exact ⟨t, h2⟩
    · obtain ⟨h4, h5, h6⟩ := simulateTurn_ordered sp t ht R s h1 h2 h3
      apply ih (t + 1) _ (by omega) h4
      · intro e he
        exact forecastsOrdered_mono (t : Int) _ (by push_cast; omega) e (h5 e he)
      · intro j
        have : ((t + 1 : Nat) : Int) - 1 = (t : Int) := by push_cast; omega
        rw [this]
        exact h6 j

theorem removeUnproducible_within (k : Int) (R : List Int) :
    ∀ (fuel i : Nat) (s : SimulationState), (∀ j, remainingWithin k R s j) →
      ∀ j, remainingWithin k R (removeUnproducible fuel i s) j := by
  intro fuel
  induction fuel with
  | zero => intro i s h; exact h
  | succ fuel ih =>
    intro i s h
    unfold removeUnproducible
    cases hrow : s.sim_queue[i]? with
    | none => exact h
    | some el =>
      dsimp only
      split_ifs
      · exact ih _ _ (fun j => remainingWithin_eraseRow k R s i s.m_queue j (h _))
      · exact ih _ _ h

theorem simulationStart_within (rules : GameRules) (q : ProductionQueue)
    (context : ScriptingContext) (empire : Empire) :
    ∀ j, remainingWithin 0 (q.m_queue.map (fun o => o.remaining))
      (simulationStart rules q context empire) j := by
  intro j idx es r h1 h2 h3
  simp only [simulationStart] at h1 h2
  have hidx : idx = j := by
    rw [List.getElem?_eq_some_iff] at h1
    obtain ⟨_, hval⟩ := h1
    simpa using hval.symm
  subst hidx
  rw [List.getElem?_map] at h2 h3
  cases hq : q.m_queue[idx]? with
  | none => rw [hq] at h2; cases h2
  | some e0 =>
    rw [hq] at h2 h3
    simp only [Option.map_some', Option.some.injEq] at h2 h3
    rw [← h2, ← h3]
    show e0.remaining ≤ e0.remaining + 0
    omega

theorem authoritativePass_remaining (rules : GameRules) (q : ProductionQueue)
    (context : ScriptingContext) (empire : Empire) :
    (authoritativePass rules q context empire).queue.map (fun o => o.remaining) =
      q.m_queue.map (fun o => o.remaining) := by
  unfold authoritativePass
  rw [pass_map_static (fun o => o.remaining) (fun _ _ _ _ => rfl), List.map_map]
  rfl

/-- After `Update` for a resolved empire the forecasts of every entry are ordered. -/
theorem Update_ordered (rules : GameRules) (timed_out : Nat → Bool) (q : ProductionQueue)
    (context : ScriptingContext) (empire : Empire)
    (hempire : context.GetEmpire q.m_empire_id = some empire) :
    ∃ bound : Int, ∀ e ∈ (q.Update rules timed_out context).m_queue,
      forecastsOrdered bound e := by
  have hauth : ∀ e ∈ (authoritativePass rules q context empire).queue,
      forecastsOrdered 1 e := by
    intro e he
    obtain ⟨hn, hc⟩ := authoritativePass_forecasts rules q context empire e he
    refine ⟨fun hne => ?_, fun hne => absurd hc hne⟩
    rcases hn with hn | hn
    · exact absurd hn hne
    · rw [hn]
      exact ⟨le_refl _, le_refl _⟩
  rw [Update_resolved rules timed_out q context empire hempire]
  split_ifs
  · apply simulateTurns_ordered _ (q.m_queue.map (fun o => o.remaining)) TOO_MANY_TURNS 1 _
      (le_refl _)
    · rw [removeUnproducible_m_queue]
      exact authoritativePass_remaining rules q context empire
    · rw [removeUnproducible_m_queue]
      exact hauth
    · exact removeUnproducible_within _ _ _ _ _
        (simulationStart_within rules q context empire)
  · exact ⟨1, hauth⟩


/-- C37: after `Update`, every entry whose completion forecast is not `-1` has a next-batch
forecast other than `-1`, between 1 and the completion forecast, and a completion forecast of
at least its remaining count, provided the owning empire resolves or the entries were so
ordered before the call (an `Update` without empire leaves the entries alone). -/
theorem C37_forecast_order (rules : GameRules) (timed_out : Nat → Bool)
    (q : ProductionQueue) (context : ScriptingContext)
    (hprior : context.GetEmpire q.m_empire_id = none →
      ∀ e ∈ q.m_queue, e.turns_left_to_completion ≠ -1 →
        e.turns_left_to_next_item ≠ -1 ∧ 1 ≤ e.turns_left_to_next_item ∧
          e.turns_left_to_next_item ≤ e.turns_left_to_completion ∧
          e.remaining ≤ e.turns_left_to_completion) :
    ∀ e ∈ (q.Update rules timed_out context).m_queue, e.turns_left_to_completion ≠ -1 →
      e.turns_left_to_next_item ≠ -1 ∧ 1 ≤ e.turns_left_to_next_item ∧
        e.turns_left_to_next_item ≤ e.turns_left_to_completion ∧
        e.remaining ≤ e.turns_left_to_completion := by
  cases hempire : context.GetEmpire q.m_empire_id with
  | none =>
    rw [Update_unresolved rules timed_out q context hempire]
    exact hprior hempire
  | some empire =>
    obtain ⟨bound, h⟩ := Update_ordered rules timed_out q context empire hempire
    intro e he hc
    exact (h e he).2 hc

/-- Witness of C37: the entry of the scenario queue, whose empire resolves, is forecast to
complete in turn 4 with one batch remaining. -/
theorem C37_forecast_order_witness :
    scenarioResult.turns_left_to_completion ≠ -1 ∧
      scenarioResult.turns_left_to_next_item ≠ -1 ∧ 1 ≤ scenarioResult.turns_left_to_next_item ∧
      scenarioResult.turns_left_to_next_item ≤ scenarioResult.turns_left_to_completion ∧
      scenarioResult.remaining ≤ scenarioResult.turns_left_to_completion :=
  ⟨by decide,
    C37_forecast_order {} noTimeout scenarioQueue scenarioContext
      (fun h => by simp [scenarioContext, scenarioQueue] at h) scenarioResult
      (by rw [scenario_update_queue]; exact List.mem_singleton.mpr rfl) (by decide)⟩


/-! ## Binary rounding -/

theorem roundHalfEven_of_near (q : ℚ) (n : ℤ) (h : |q - (n : ℚ)| < 1 / 2) :
    roundHalfEven q = n := by
  rw [abs_lt] at h
  obtain ⟨h1, h2⟩ := h
  by_cases hq : (n : ℚ) ≤ q
  · have hf : ⌊q⌋ = n := Int.floor_eq_iff.mpr ⟨hq, by linarith⟩
    unfold roundHalfEven
    rw [hf, if_pos (by linarith)]
  · have hf : ⌊q⌋ = n - 1 := Int.floor_eq_iff.mpr ⟨by push_cast; linarith, by push_cast; linarith⟩
    unfold roundHalfEven
    rw [hf, if_neg (by push_cast; linarith), if_pos (by push_cast; linarith)]
    omega

theorem roundHalfEven_of_tie (q : ℚ) (m : ℤ) (h : q = (m : ℚ) + 1 / 2) :
    roundHalfEven q = if m % 2 = 0 then m else m + 1 := by
  have hf : ⌊q⌋ = m := Int.floor_eq_iff.mpr ⟨by linarith, by linarith⟩
  unfold roundHalfEven
  rw [hf, if_neg (by linarith), if_neg (by linarith)]

theorem roundHalfEven_intCast (n : ℤ) : roundHalfEven (n : ℚ) = n :=
  roundHalfEven_of_near _ n (by simp)

theorem roundHalfEven_bounds (q : ℚ) :
    (roundHalfEven q = ⌊q⌋ ∨ roundHalfEven q = ⌊q⌋ + 1) ∧
      |(roundHalfEven q : ℚ) - q| ≤ 1 / 2 := by
  have h1 := Int.floor_le q
  have h2 := Int.lt_floor_add_one q
  unfold roundHalfEven
  split_ifs with ha hb hc
  · exact ⟨Or.inl rfl, by rw [abs_le]; constructor <;> linarith⟩
  · exact ⟨Or.inr rfl, by rw [abs_le]; push_cast; constructor <;> linarith⟩
  · exact ⟨Or.inl rfl, by rw [abs_le]; constructor <;> linarith⟩
  · exact ⟨Or.inr rfl, by rw [abs_le]; push_cast; constructor <;> linarith⟩

theorem roundHalfEven_mono (q1 q2 : ℚ) (h : q1 ≤ q2) : roundHalfEven q1 ≤ roundHalfEven q2 := by
  have hf : ⌊q1⌋ ≤ ⌊q2⌋ := Int.floor_mono h
  rcases lt_or_eq_of_le hf with hlt | heq
  · rcases (roundHalfEven_bounds q1).1 with h1 | h1 <;>
      rcases (roundHalfEven_bounds q2).1 with h2 | h2 <;> omega
  · unfold roundHalfEven
    rw [heq]
    split_ifs <;> first | omega | (exfalso; linarith)

theorem roundHalfEven_neg (q : ℚ) : roundHalfEven (-q) = -roundHalfEven q := by
  have h1 := Int.floor_le q
  have h2 := Int.lt_floor_add_one q
  by_cases ha : q - (⌊q⌋ : ℚ) < 1 / 2
  · have hq : roundHalfEven q = ⌊q⌋ := by unfold roundHalfEven; rw [if_pos ha]
    rw [hq]
    apply roundHalfEven_of_near
    rw [abs_lt]
    push_cast
    constructor <;> linarith
  · by_cases hb : 1 / 2 < q - (⌊q⌋ : ℚ)
    · have hq : roundHalfEven q = ⌊q⌋ + 1 := by
        unfold roundHalfEven; rw [if_neg ha, if_pos hb]
      rw [hq]
      apply roundHalfEven_of_near
      rw [abs_lt]
      push_cast
      constructor <;> linarith
    · have htie : q = (⌊q⌋ : ℚ) + 1 / 2 := by linarith
      rw [roundHalfEven_of_tie q ⌊q⌋ htie,
        roundHalfEven_of_tie (-q) (-⌊q⌋ - 1) (by push_cast; linarith)]
      split_ifs <;> omega

theorem ulpBinary_pos (prec : ℕ) (emin : ℤ) (x : ℚ) : 0 < ulpBinary prec emin x := by
  unfold ulpBinary
  positivity

theorem ulpBinary_neg (prec : ℕ) (emin : ℤ) (x : ℚ) :
    ulpBinary prec emin (-x) = ulpBinary prec emin x := by
  unfold ulpBinary
  rw [abs_neg]

theorem roundBinary_neg (prec : ℕ) (emin : ℤ) (x : ℚ) :
    roundBinary prec emin (-x) = -roundBinary prec emin x := by
  unfold roundBinary
  rw [ulpBinary_neg, neg_div, roundHalfEven_neg]
  push_cast
  ring

theorem roundBinary_zero (prec : ℕ) (emin : ℤ) : roundBinary prec emin 0 = 0 := by
  unfold roundBinary
  rw [zero_div]
  have : roundHalfEven 0 = 0 := by exact_mod_cast roundHalfEven_intCast 0
  rw [this]
  simp

theorem roundBinary_nonneg (prec : ℕ) (emin : ℤ) (x : ℚ) (hx : 0 ≤ x) :
    0 ≤ roundBinary prec emin x := by
  unfold roundBinary
  have h0 : roundHalfEven 0 = 0 := by exact_mod_cast roundHalfEven_intCast 0
  have h := roundHalfEven_mono 0 (x / ulpBinary prec emin x)
    (div_nonneg hx (ulpBinary_pos prec emin x).le)
  rw [h0] at h
  exact mul_nonneg (by exact_mod_cast h) (ulpBinary_pos prec emin x).le

theorem roundBinary_nonpos (prec : ℕ) (emin : ℤ) (x : ℚ) (hx : x ≤ 0) :
    roundBinary prec emin x ≤ 0 := by
  have h := roundBinary_nonneg prec emin (-x) (by linarith)
  rw [roundBinary_neg] at h
  linarith

/-- The exponent that fixes the spacing around `x`, given the binade of `x`. -/
theorem ulpBinary_of_binade (prec : ℕ) (emin : ℤ) (x : ℚ) (e : ℤ)
    (he1 : (2 : ℚ) ^ e ≤ |x|) (he2 : |x| < (2 : ℚ) ^ (e + 1)) :
    ulpBinary prec emin x = (2 : ℚ) ^ (max e emin - ((prec : ℤ) - 1)) := by
  have hpos : 0 < |x| := lt_of_lt_of_le (by positivity) he1
  have h1 : e ≤ Int.log 2 |x| := by
    rw [← Int.zpow_le_iff_le_log (by norm_num) hpos]
    exact_mod_cast he1
  have h2 : Int.log 2 |x| < e + 1 := by
    rw [← Int.lt_zpow_iff_log_lt (by norm_num) hpos]
    exact_mod_cast he2
  have h3 : Int.log 2 |x| = e := by omega
  unfold ulpBinary
  rw [h3]

theorem roundBinary_of_near (prec : ℕ) (emin : ℤ) (x : ℚ) (e n : ℤ)
    (he1 : (2 : ℚ) ^ e ≤ |x|) (he2 : |x| < (2 : ℚ) ^ (e + 1))
    (hn : |x / (2 : ℚ) ^ (max e emin - ((prec : ℤ) - 1)) - (n : ℚ)| < 1 / 2) :
    roundBinary prec emin x = (n : ℚ) * (2 : ℚ) ^ (max e emin - ((prec : ℤ) - 1)) := by
  unfold roundBinary
  rw [ulpBinary_of_binade prec emin x e he1 he2, roundHalfEven_of_near _ n hn]

theorem roundBinary_of_tie (prec : ℕ) (emin : ℤ) (x : ℚ) (e m : ℤ)
    (he1 : (2 : ℚ) ^ e ≤ |x|) (he2 : |x| < (2 : ℚ) ^ (e + 1))
    (hm : x / (2 : ℚ) ^ (max e emin - ((prec : ℤ) - 1)) = (m : ℚ) + 1 / 2) :
    roundBinary prec emin x =
      ((if m % 2 = 0 then m else m + 1 : ℤ) : ℚ) *
        (2 : ℚ) ^ (max e emin - ((prec : ℤ) - 1)) := by
  unfold roundBinary
  rw [ulpBinary_of_binade prec emin x e he1 he2, roundHalfEven_of_tie _ m hm]

theorem two_zpow_split (a b : ℤ) : (2 : ℚ) ^ (a + b) = (2 : ℚ) ^ a * (2 : ℚ) ^ b :=
  zpow_add₀ (by norm_num) a b

/-- The spacing around `x` is fixed by the larger of the binade of `x` and `emin`. -/
theorem ulpBinary_eq (prec : ℕ) (emin : ℤ) (x : ℚ) :
    ulpBinary prec emin x = (2 : ℚ) ^ (max (Int.log 2 |x|) emin - ((prec : ℤ) - 1)) := rfl

theorem abs_lt_zpow_succ (emin : ℤ) (x : ℚ) :
    |x| < (2 : ℚ) ^ (max (Int.log 2 |x|) emin + 1) := by
  have h := Int.lt_zpow_succ_log_self (R := ℚ) (b := 2) (by norm_num) |x|
  have h2 : ((2 : ℕ) : ℚ) ^ (Int.log 2 |x| + 1) ≤ (2 : ℚ) ^ (max (Int.log 2 |x|) emin + 1) := by
    push_cast
    exact zpow_le_zpow_right₀ (by norm_num) (by omega)
  exact lt_of_lt_of_le h h2

/-- A point of the grid of exponent `E` with a significand below `2 ^ prec` is its own
rounding. -/
theorem roundBinary_of_grid (prec : ℕ) (emin : ℤ) (E k : ℤ) (hE : emin ≤ E)
    (hk : |(k : ℚ)| < (2 : ℚ) ^ prec) :
    roundBinary prec emin ((k : ℚ) * (2 : ℚ) ^ (E - ((prec : ℤ) - 1))) =
      (k : ℚ) * (2 : ℚ) ^ (E - ((prec : ℤ) - 1)) := by
  by_cases hk0 : k = 0
  · subst hk0
    simp [roundBinary_zero]
  have hg : (0 : ℚ) < (2 : ℚ) ^ (E - ((prec : ℤ) - 1)) := by positivity
  have hxpos : 0 < |(k : ℚ) * (2 : ℚ) ^ (E - ((prec : ℤ) - 1))| := by
    rw [abs_pos]
    exact mul_ne_zero (by exact_mod_cast hk0) hg.ne'
  have hlt : |(k : ℚ) * (2 : ℚ) ^ (E - ((prec : ℤ) - 1))| < (2 : ℚ) ^ (E + 1) := by
    rw [abs_mul, abs_of_pos hg]
    have : (2 : ℚ) ^ (E + 1) = (2 : ℚ) ^ prec * (2 : ℚ) ^ (E - ((prec : ℤ) - 1)) := by
      rw [← zpow_natCast, ← two_zpow_split]
      congr 1
      ring
    rw [this]
    exact mul_lt_mul_of_pos_right hk hg
  have hlog : Int.log 2 |(k : ℚ) * (2 : ℚ) ^ (E - ((prec : ℤ) - 1))| < E + 1 := by
    rw [← Int.lt_zpow_iff_log_lt (by norm_num) hxpos]
    exact_mod_cast hlt
  have hmax : max (Int.log 2 |(k : ℚ) * (2 : ℚ) ^ (E - ((prec : ℤ) - 1))|) emin ≤ E := by
    omega
  obtain ⟨d, hd⟩ := Int.eq_ofNat_of_zero_le (sub_nonneg.mpr hmax)
  have hsplit : (2 : ℚ) ^ (E - ((prec : ℤ) - 1)) =
      (2 : ℚ) ^ d * ulpBinary prec emin ((k : ℚ) * (2 : ℚ) ^ (E - ((prec : ℤ) - 1))) := by
    rw [ulpBinary_eq, ← zpow_natCast, ← two_zpow_split]
    congr 1
    omega
  have hq : (k : ℚ) * (2 : ℚ) ^ (E - ((prec : ℤ) - 1)) /
      ulpBinary prec emin ((k : ℚ) * (2 : ℚ) ^ (E - ((prec : ℤ) - 1))) =
      ((k * 2 ^ d : ℤ) : ℚ) := by
    rw [div_eq_iff (ulpBinary_pos _ _ _).ne']
    nth_rewrite 1 [hsplit]
    push_cast
    ring
  unfold roundBinary
  rw [hq, roundHalfEven_intCast]
  nth_rewrite 2 [hsplit]
  push_cast
  ring

/-- Every rounding is a point of a grid of exponent at least `emin`, with a significand of at
most `2 ^ prec` in absolute value. -/
theorem roundBinary_form (prec : ℕ) (emin : ℤ) (x : ℚ) :
    ∃ (n E : ℤ), emin ≤ E ∧ |(n : ℚ)| ≤ (2 : ℚ) ^ prec ∧
      roundBinary prec emin x = (n : ℚ) * (2 : ℚ) ^ (E - ((prec : ℤ) - 1)) := by
  refine ⟨roundHalfEven (x / ulpBinary prec emin x), max (Int.log 2 |x|) emin, le_max_right _ _,
    ?_, rfl⟩
  have hu := ulpBinary_pos prec emin x
  have hq : |x / ulpBinary prec emin x| < (2 : ℚ) ^ prec := by
    rw [abs_div, abs_of_pos hu, div_lt_iff₀ hu]
    have : (2 : ℚ) ^ prec * ulpBinary prec emin x =
        (2 : ℚ) ^ (max (Int.log 2 |x|) emin + 1) := by
      rw [ulpBinary_eq, ← zpow_natCast, ← two_zpow_split]
      congr 1
      ring
    rw [this]
    exact abs_lt_zpow_succ emin x
  rw [abs_lt] at hq
  have h1 := roundHalfEven_mono _ _ hq.2.le
  have h2 := roundHalfEven_mono _ _ hq.1.le
  have e1 : ((2 : ℚ) ^ prec) = (((2 : ℤ) ^ prec : ℤ) : ℚ) := by push_cast; rfl
  have e2 : (-(2 : ℚ) ^ prec) = ((-(2 : ℤ) ^ prec : ℤ) : ℚ) := by push_cast; rfl
  rw [e1, roundHalfEven_intCast] at h1
  rw [e2, roundHalfEven_intCast] at h2
  rw [abs_le]
  constructor
  · have : ((-(2 : ℤ) ^ prec : ℤ) : ℚ) ≤ (roundHalfEven (x / ulpBinary prec emin x) : ℚ) := by
      exact_mod_cast h2
    simpa using this
  · have : (roundHalfEven (x / ulpBinary prec emin x) : ℚ) ≤ (((2 : ℤ) ^ prec : ℤ) : ℚ) := by
      exact_mod_cast h1
    simpa using this

theorem roundBinary_idem (prec : ℕ) (emin : ℤ) (hp : 1 ≤ prec) (x : ℚ) :
    roundBinary prec emin (roundBinary prec emin x) = roundBinary prec emin x := by
  obtain ⟨n, E, hE, hn, hx⟩ := roundBinary_form prec emin x
  rw [hx]
  rcases lt_or_eq_of_le hn with hlt | heq
  · exact roundBinary_of_grid prec emin E n hE hlt
  · obtain ⟨m, rfl⟩ : ∃ m, prec = m + 1 := ⟨prec - 1, by omega⟩
    have hhalf : |((n / 2 : ℤ) : ℚ)| < (2 : ℚ) ^ (m + 1) ∧ (n : ℚ) = 2 * ((n / 2 : ℤ) : ℚ) := by
      have hn2 : |n| = 2 ^ (m + 1) := by
        have : ((|n| : ℤ) : ℚ) = (((2 : ℤ) ^ (m + 1) : ℤ) : ℚ) := by
          push_cast
          exact heq
        exact_mod_cast this
      have hdiv : n = 2 * (n / 2) := by
        have h2 : (2 : ℤ) ∣ n := by
          rw [← Int.dvd_natAbs, Int.natCast_natAbs, hn2, pow_succ]
          exact dvd_mul_left _ _
        omega
      refine ⟨?_, by exact_mod_cast hdiv⟩
      have h3 : |n / 2| < 2 ^ (m + 1) := by
        have hpos : (0 : ℤ) < 2 ^ (m + 1) := by positivity
        rw [abs_lt] at *
        have hle := abs_le.mp (le_of_eq hn2)
        omega
      exact_mod_cast h3
    have hre : (n : ℚ) * (2 : ℚ) ^ (E - (((m + 1 : ℕ) : ℤ) - 1)) =
        ((n / 2 : ℤ) : ℚ) * (2 : ℚ) ^ (E + 1 - (((m + 1 : ℕ) : ℤ) - 1)) := by
      rw [hhalf.2]
      have : (2 : ℚ) ^ (E + 1 - (((m + 1 : ℕ) : ℤ) - 1)) =
          (2 : ℚ) ^ (1 : ℤ) * (2 : ℚ) ^ (E - (((m + 1 : ℕ) : ℤ) - 1)) := by
        rw [← two_zpow_split]
        congr 1
        ring
      rw [this]
      norm_num
      ring
    rw [hre]
    exact roundBinary_of_grid (m + 1) emin (E + 1) (n / 2) (by omega) hhalf.1

theorem roundBinary_mono_pos (prec : ℕ) (emin : ℤ) (hp : 1 ≤ prec) (x y : ℚ) (hx : 0 < x)
    (hxy : x ≤ y) : roundBinary prec emin x ≤ roundBinary prec emin y := by
  have hy : 0 < y := lt_of_lt_of_le hx hxy
  have hlog : Int.log 2 |x| ≤ Int.log 2 |y| := by
    rw [abs_of_pos hx, abs_of_pos hy]
    exact Int.log_mono_right hx hxy
  have hux := ulpBinary_pos prec emin x
  have huy := ulpBinary_pos prec emin y
  rcases eq_or_lt_of_le (max_le_max hlog (le_refl emin)) with heq | hlt
  · have hu : ulpBinary prec emin x = ulpBinary prec emin y := by
      rw [ulpBinary_eq, ulpBinary_eq, heq]
    unfold roundBinary
    rw [hu]
    apply mul_le_mul_of_nonneg_right _ huy.le
    exact_mod_cast roundHalfEven_mono _ _ (div_le_div_of_nonneg_right hxy huy.le)
  · -- different spacings: a power of two lies between the two roundings
    have hEy : max (Int.log 2 |y|) emin = Int.log 2 |y| := by omega
    have h1 : roundBinary prec emin x ≤ (2 : ℚ) ^ (max (Int.log 2 |x|) emin + 1) := by
      have hq : x / ulpBinary prec emin x ≤ (((2 : ℤ) ^ prec : ℤ) : ℚ) := by
        rw [div_le_iff₀ hux]
        have : (((2 : ℤ) ^ prec : ℤ) : ℚ) * ulpBinary prec emin x =
            (2 : ℚ) ^ (max (Int.log 2 |x|) emin + 1) := by
          push_cast
          rw [ulpBinary_eq, ← zpow_natCast, ← two_zpow_split]
          congr 1
          ring
        rw [this]
        have := abs_lt_zpow_succ emin x
        exact (lt_of_le_of_lt (le_abs_self x) this).le
      have hr := roundHalfEven_mono _ _ hq
      rw [roundHalfEven_intCast] at hr
      have hr2 : (roundHalfEven (x / ulpBinary prec emin x) : ℚ) ≤ (2 : ℚ) ^ prec := by
        exact_mod_cast hr
      unfold roundBinary
      calc (roundHalfEven (x / ulpBinary prec emin x) : ℚ) * ulpBinary prec emin x
          ≤ (2 : ℚ) ^ prec * ulpBinary prec emin x := mul_le_mul_of_nonneg_right hr2 hux.le
        _ = (2 : ℚ) ^ (max (Int.log 2 |x|) emin + 1) := by
          rw [ulpBinary_eq, ← zpow_natCast, ← two_zpow_split]
          congr 1
          ring
    have h2 : (2 : ℚ) ^ (Int.log 2 |y|) ≤ roundBinary prec emin y := by
      obtain ⟨m, rfl⟩ : ∃ m, prec = m + 1 := ⟨prec - 1, by omega⟩
      have huyeq : ulpBinary (m + 1) emin y = (2 : ℚ) ^ (Int.log 2 |y| - (m : ℤ)) := by
        rw [ulpBinary_eq, hEy]
        congr 1
        push_cast
        ring
      have hq : (((2 : ℤ) ^ m : ℤ) : ℚ) ≤ y / ulpBinary (m + 1) emin y := by
        rw [le_div_iff₀ huy, huyeq]
        push_cast
        rw [← zpow_natCast, ← two_zpow_split]
        have h := Int.zpow_log_le_self (R := ℚ) (b := 2) (by norm_num) (abs_pos.mpr hy.ne')
        rw [abs_of_pos hy] at h ⊢
        have e : (m : ℤ) + (Int.log 2 y - (m : ℤ)) = Int.log 2 y := by ring
        rw [e]
        exact_mod_cast h
      have hr := roundHalfEven_mono _ _ hq
      rw [roundHalfEven_intCast] at hr
      have hr2 : (2 : ℚ) ^ m ≤ (roundHalfEven (y / ulpBinary (m + 1) emin y) : ℚ) := by
        exact_mod_cast hr
      unfold roundBinary
      calc (2 : ℚ) ^ (Int.log 2 |y|) = (2 : ℚ) ^ m * ulpBinary (m + 1) emin y := by
            rw [huyeq, ← zpow_natCast, ← two_zpow_split]
            congr 1
            ring
        _ ≤ _ := mul_le_mul_of_nonneg_right hr2 huy.le
    have h3 : (2 : ℚ) ^ (max (Int.log 2 |x|) emin + 1) ≤ (2 : ℚ) ^ (Int.log 2 |y|) :=
      zpow_le_zpow_right₀ (by norm_num) (by omega)
    linarith

theorem roundBinary_mono (prec : ℕ) (emin : ℤ) (hp : 1 ≤ prec) (x y : ℚ) (hxy : x ≤ y) :
    roundBinary prec emin x ≤ roundBinary prec emin y := by
  rcases lt_trichotomy 0 x with hx | hx | hx
  · exact roundBinary_mono_pos prec emin hp x y hx hxy
  · subst hx
    rw [roundBinary_zero]
    exact roundBinary_nonneg prec emin y hxy
  · rcases le_or_lt 0 y with hy | hy
    · exact le_trans (roundBinary_nonpos prec emin x hx.le) (roundBinary_nonneg prec emin y hy)
    · have h := roundBinary_mono_pos prec emin hp (-y) (-x) (by linarith) (by linarith)
      rw [roundBinary_neg, roundBinary_neg] at h
      linarith

/-- The rounding error is at most half a spacing. -/
theorem roundBinary_err_ulp (prec : ℕ) (emin : ℤ) (x : ℚ) :
    |roundBinary prec emin x - x| ≤ ulpBinary prec emin x / 2 := by
  have hu := ulpBinary_pos prec emin x
  have h := (roundHalfEven_bounds (x / ulpBinary prec emin x)).2
  have e : roundBinary prec emin x - x =
      ((roundHalfEven (x / ulpBinary prec emin x) : ℚ) - x / ulpBinary prec emin x) *
        ulpBinary prec emin x := by
    unfold roundBinary
    field_simp
  rw [e, abs_mul, abs_of_pos hu]
  calc _ ≤ 1 / 2 * ulpBinary prec emin x := mul_le_mul_of_nonneg_right h hu.le
    _ = _ := by ring

/-- In the normal range the rounding error is at most `2 ^ (-prec)` relative to the value. -/
theorem roundBinary_err_normal (prec : ℕ) (emin : ℤ) (x : ℚ)
    (hx : (2 : ℚ) ^ emin ≤ |x|) :
    |roundBinary prec emin x - x| ≤ |x| / (2 : ℚ) ^ prec := by
  have hpos : 0 < |x| := lt_of_lt_of_le (by positivity) hx
  have hlog : emin ≤ Int.log 2 |x| := by
    rw [← Int.zpow_le_iff_le_log (by norm_num) hpos]
    exact_mod_cast hx
  have hE : max (Int.log 2 |x|) emin = Int.log 2 |x| := max_eq_left hlog
  have h := roundBinary_err_ulp prec emin x
  have hz := Int.zpow_log_le_self (R := ℚ) (b := 2) (by norm_num) hpos
  have hu : ulpBinary prec emin x / 2 = (2 : ℚ) ^ (Int.log 2 |x|) / (2 : ℚ) ^ prec := by
    rw [ulpBinary_eq, hE]
    have : Int.log 2 |x| - ((prec : ℤ) - 1) = Int.log 2 |x| + (-(prec : ℤ)) + 1 := by ring
    rw [this, two_zpow_split, two_zpow_split, zpow_neg, zpow_natCast]
    norm_num
    ring
  rw [hu] at h
  refine le_trans h ?_
  apply div_le_div_of_nonneg_right _ (by positivity)
  exact_mod_cast hz

theorem onGridBinary_add (prec : ℕ) (emin : ℤ) (a b : ℚ) (ha : onGridBinary prec emin a)
    (hb : onGridBinary prec emin b) : onGridBinary prec emin (a + b) := by
  obtain ⟨k, rfl⟩ := ha
  obtain ⟨l, rfl⟩ := hb
  exact ⟨k + l, by push_cast; ring⟩

theorem onGridBinary_sub (prec : ℕ) (emin : ℤ) (a b : ℚ) (ha : onGridBinary prec emin a)
    (hb : onGridBinary prec emin b) : onGridBinary prec emin (a - b) := by
  obtain ⟨k, rfl⟩ := ha
  obtain ⟨l, rfl⟩ := hb
  exact ⟨k - l, by push_cast; ring⟩

theorem onGridBinary_round (prec : ℕ) (emin : ℤ) (x : ℚ) :
    onGridBinary prec emin (roundBinary prec emin x) := by
  obtain ⟨n, E, hE, -, hx⟩ := roundBinary_form prec emin x
  obtain ⟨d, hd⟩ := Int.eq_ofNat_of_zero_le (sub_nonneg.mpr hE)
  refine ⟨n * 2 ^ d, ?_⟩
  rw [hx]
  have : (2 : ℚ) ^ (E - ((prec : ℤ) - 1)) =
      (2 : ℚ) ^ d * (2 : ℚ) ^ (emin - ((prec : ℤ) - 1)) := by
    rw [← zpow_natCast, ← two_zpow_split]
    congr 1
    omega
  rw [this]
  push_cast
  ring

theorem onGridBinary_of_fixed (prec : ℕ) (emin : ℤ) (x : ℚ)
    (hx : roundBinary prec emin x = x) : onGridBinary prec emin x := by
  rw [← hx]
  exact onGridBinary_round prec emin x

/-- A multiple of the least spacing below the normal range is its own rounding. -/
theorem roundBinary_of_small (prec : ℕ) (emin : ℤ) (x : ℚ)
    (hg : onGridBinary prec emin x) (hx : |x| < (2 : ℚ) ^ emin) :
    roundBinary prec emin x = x := by
  obtain ⟨k, rfl⟩ := hg
  apply roundBinary_of_grid prec emin emin k (le_refl _)
  have hg : (0 : ℚ) < (2 : ℚ) ^ (emin - ((prec : ℤ) - 1)) := by positivity
  rw [abs_mul, abs_of_pos hg] at hx
  have h2 : (2 : ℚ) ^ emin = (2 : ℚ) ^ (((prec : ℤ) - 1)) * (2 : ℚ) ^ (emin - ((prec : ℤ) - 1)) := by
    rw [← two_zpow_split]
    congr 1
    ring
  rw [h2] at hx
  have h3 := lt_of_mul_lt_mul_right hx hg.le
  refine lt_of_lt_of_le h3 ?_
  rw [← zpow_natCast]
  exact zpow_le_zpow_right₀ (by norm_num) (by omega)

/-- On the grid the rounding error is at most `2 ^ (-prec)` relative to the value: this is the
case of a sum or difference of two floating point numbers. -/
theorem roundBinary_err_grid (prec : ℕ) (emin : ℤ) (x : ℚ)
    (hg : onGridBinary prec emin x) :
    |roundBinary prec emin x - x| ≤ |x| / (2 : ℚ) ^ prec := by
  rcases le_or_lt ((2 : ℚ) ^ emin) |x| with h | h
  · exact roundBinary_err_normal prec emin x h
  · rw [roundBinary_of_small prec emin x hg h, sub_self, abs_zero]
    positivity


/-! ## Binary32 rounding -/

theorem roundF32_zero : roundF32 0 = 0 := roundBinary_zero 24 (-126)

theorem roundF32_mono (x y : ℚ) (h : x ≤ y) : roundF32 x ≤ roundF32 y :=
  roundBinary_mono 24 (-126) (by norm_num) x y h

theorem roundF32_idem (x : ℚ) : roundF32 (roundF32 x) = roundF32 x :=
  roundBinary_idem 24 (-126) (by norm_num) x

theorem roundF32_neg (x : ℚ) : roundF32 (-x) = -roundF32 x := roundBinary_neg 24 (-126) x

theorem roundF32_nonneg (x : ℚ) (h : 0 ≤ x) : 0 ≤ roundF32 x := roundBinary_nonneg 24 (-126) x h

theorem roundF32_nonpos (x : ℚ) (h : x ≤ 0) : roundF32 x ≤ 0 := roundBinary_nonpos 24 (-126) x h

theorem isF32_zero : isF32 0 := roundF32_zero

theorem isF32_round (x : ℚ) : isF32 (roundF32 x) := roundF32_idem x

theorem isF32_neg (x : ℚ) (h : isF32 x) : isF32 (-x) := by
  unfold isF32 at *
  rw [roundF32_neg, h]

theorem isF32_min (a b : ℚ) (ha : isF32 a) (hb : isF32 b) : isF32 (min a b) := by
  rcases min_choice a b with h | h <;> rw [h] <;> assumption

theorem isF32_max (a b : ℚ) (ha : isF32 a) (hb : isF32 b) : isF32 (max a b) := by
  rcases max_choice a b with h | h <;> rw [h] <;> assumption

theorem isF32_ite (c : Prop) [Decidable c] (a b : ℚ) (ha : isF32 a) (hb : isF32 b) :
    isF32 (if c then a else b) := by
  split_ifs <;> assumption

/-- A rounding does not pass a `float` that bounds the rounded number from above. -/
theorem roundF32_le_of_le (x f : ℚ) (hf : isF32 f) (h : x ≤ f) : roundF32 x ≤ f := by
  have := roundF32_mono x f h
  rwa [hf] at this

/-- A rounding does not pass a `float` that bounds the rounded number from below. -/
theorem le_roundF32_of_le (x f : ℚ) (hf : isF32 f) (h : f ≤ x) : f ≤ roundF32 x := by
  have := roundF32_mono f x h
  rwa [hf] at this

theorem onGrid_of_isF32 (x : ℚ) (h : isF32 x) : onGridBinary 24 (-126) x :=
  onGridBinary_of_fixed 24 (-126) x h

/-- The rounding error of a sum of two `float`s is at most `2 ^ (-24)` relative to the sum. -/
theorem roundF32_add_err (a b : ℚ) (ha : isF32 a) (hb : isF32 b) :
    |roundF32 (a + b) - (a + b)| ≤ |a + b| / 2 ^ 24 :=
  roundBinary_err_grid 24 (-126) (a + b)
    (onGridBinary_add 24 (-126) a b (onGrid_of_isF32 a ha) (onGrid_of_isF32 b hb))

/-- The rounding error of a difference of two `float`s is at most `2 ^ (-24)` relative to the
difference. -/
theorem roundF32_sub_err (a b : ℚ) (ha : isF32 a) (hb : isF32 b) :
    |roundF32 (a - b) - (a - b)| ≤ |a - b| / 2 ^ 24 :=
  roundBinary_err_grid 24 (-126) (a - b)
    (onGridBinary_sub 24 (-126) a b (onGrid_of_isF32 a ha) (onGrid_of_isF32 b hb))

theorem roundingFactor_pos : 0 < roundingFactor := by
  unfold roundingFactor
  positivity

theorem one_le_roundingFactor : 1 ≤ roundingFactor := by
  unfold roundingFactor
  have : (0 : ℚ) ≤ 1 / 2 ^ 24 := by positivity
  linarith

theorem roundF32_add_le (a b : ℚ) (ha : isF32 a) (hb : isF32 b) (h : 0 ≤ a + b) :
    roundF32 (a + b) ≤ (a + b) * roundingFactor := by
  have := roundF32_add_err a b ha hb
  rw [abs_of_nonneg h, abs_le] at this
  unfold roundingFactor
  linarith [this.2]

theorem roundF32_sub_le (a b : ℚ) (ha : isF32 a) (hb : isF32 b) (h : 0 ≤ a - b) :
    roundF32 (a - b) ≤ (a - b) * roundingFactor := by
  have := roundF32_sub_err a b ha hb
  rw [abs_of_nonneg h, abs_le] at this
  unfold roundingFactor
  linarith [this.2]

theorem b32_spendingLoop_length (p : SpendingParams) (q : List Element) :
    ∀ (i : Nat) (st : SpendingState),
      (Binary32.spendingLoop p i q st).2.1.length = q.length ∧
      (Binary32.spendingLoop p i q st).2.2.length = q.length := by
  induction q with
  | nil => intro i st; simp [Binary32.spendingLoop]
  | cons e rest ih =>
    intro i st
    simp only [Binary32.spendingLoop, List.length_cons]
    exact ⟨by rw [(ih _ _).1], by rw [(ih _ _).2]⟩

theorem b32_spendingLoop_append (p : SpendingParams) (xs ys : List Element) :
    ∀ (i : Nat) (st : SpendingState),
      Binary32.spendingLoop p i (xs ++ ys) st =
        ((Binary32.spendingLoop p (i + xs.length) ys (Binary32.spendingLoop p i xs st).1).1,
         (Binary32.spendingLoop p i xs st).2.1 ++
           (Binary32.spendingLoop p (i + xs.length) ys (Binary32.spendingLoop p i xs st).1).2.1,
         (Binary32.spendingLoop p i xs st).2.2 ++
           (Binary32.spendingLoop p (i + xs.length) ys (Binary32.spendingLoop p i xs st).1).2.2) := by
  induction xs with
  | nil => intro i st; simp [Binary32.spendingLoop]
  | cons e rest ih =>
    intro i st
    rw [List.cons_append]
    simp only [Binary32.spendingLoop, ih, List.length_cons]
    simp [Nat.add_assoc, Nat.add_comm 1]

/-- The element at index `k` is processed by one `Binary32.elementStep` from the state reached
after the first `k` elements. -/
theorem b32_spendingLoop_entry (p : SpendingParams) (q : List Element) (st0 : SpendingState)
    (k : Nat) (e : Element) (hk : q[k]? = some e) :
    (Binary32.spendingLoop p 0 q st0).2.1[k]? =
        some (Binary32.elementStep p (Binary32.stateBeforeEntry p q st0 k) e
          (p.queue_element_resource_sharing_object_groups.getD k ∅)
          (p.is_producible.getD k false)).2.1 ∧
      (Binary32.spendingLoop p 0 q st0).2.2[k]? =
        some (Binary32.elementStep p (Binary32.stateBeforeEntry p q st0 k) e
          (p.queue_element_resource_sharing_object_groups.getD k ∅)
          (p.is_producible.getD k false)).2.2 ∧
      Binary32.stateBeforeEntry p q st0 (k + 1) =
        (Binary32.elementStep p (Binary32.stateBeforeEntry p q st0 k) e
          (p.queue_element_resource_sharing_object_groups.getD k ∅)
          (p.is_producible.getD k false)).1 := by
  have hlt : k < q.length := by
    rcases Nat.lt_or_ge k q.length with h | h
    · exact h
    · rw [List.getElem?_eq_none h] at hk; cases hk
  have he : q[k] = e := by
    rw [List.getElem?_eq_getElem hlt] at hk
    exact Option.some.inj hk
  have hsplit : q = q.take k ++ e :: q.drop (k + 1) := by
    rw [← he, List.getElem_cons_drop q k hlt, List.take_append_drop]
  have hlen : (q.take k).length = k := by
    rw [List.length_take]; omega
  have hlen1 := (b32_spendingLoop_length p (q.take k) 0 st0).1
  have hlen2 := (b32_spendingLoop_length p (q.take k) 0 st0).2
  have htake : q.take (k + 1) = q.take k ++ [e] := by
    rw [← he, List.take_succ, List.getElem?_eq_getElem hlt]; rfl
  refine ⟨?_, ?_, ?_⟩
  · rw [hsplit, b32_spendingLoop_append]
    simp only [hlen, Nat.zero_add, Binary32.spendingLoop]
    rw [← hsplit, List.getElem?_append_right (by omega)]
    simp [hlen1, hlen, Binary32.stateBeforeEntry]
  · rw [hsplit, b32_spendingLoop_append]
    simp only [hlen, Nat.zero_add, Binary32.spendingLoop]
    rw [← hsplit, List.getElem?_append_right (by omega)]
    simp [hlen2, hlen, Binary32.stateBeforeEntry]
  · simp only [Binary32.stateBeforeEntry]
    rw [htake, b32_spendingLoop_append]
    simp [hlen, Binary32.spendingLoop]

theorem b32_elementStep_skip (p : SpendingParams) (st : SpendingState) (e : Element)
    (g : ObjectGroup) (b : Bool) (h : skipsElement st e g b = true) :
    Binary32.elementStep p st e g b = (st, { e with allocated_pp := 0 }, none) := by
  have h2 : skipsElement st { e with allocated_pp := 0 } g b = true := h
  simp [Binary32.elementStep, h2]

theorem b32_elementStep_fund (p : SpendingParams) (st : SpendingState) (e : Element)
    (g : ObjectGroup) (b : Bool) (h : skipsElement st e g b = false) :
    Binary32.elementStep p st e g b =
      (Binary32.recordSpending st e g (Binary32.spendOnElement p st e g),
       Binary32.fundElement p.simulating { e with allocated_pp := 0 } (Binary32.spendOnElement p st e g),
       some (Binary32.spendOnElement p st e g)) := by
  have h2 : skipsElement st { e with allocated_pp := 0 } g b = false := h
  have h3 : Binary32.spendOnElement p st { e with allocated_pp := 0 } g = Binary32.spendOnElement p st e g := rfl
  have h4 : ∀ s, Binary32.recordSpending st { e with allocated_pp := 0 } g s = Binary32.recordSpending st e g s :=
    fun _ => rfl
  simp [Binary32.elementStep, h2, h3, h4]

theorem b32_SetProdQueueElementSpending_eq_loop (p : SpendingParams) (available_pp : GroupMap)
    (available_stockpile : ℚ) (queue : List Element) (a0 as0 : GroupMap) (pip0 : Int)
    (hlen : queue.length = p.queue_element_resource_sharing_object_groups.length) :
    Binary32.SetProdQueueElementSpending p.rules available_pp available_stockpile p.stockpile_limit
        p.queue_element_resource_sharing_object_groups p.queue_item_costs_and_times
        p.is_producible queue a0 as0 pip0 p.simulating p.the_universe =
      { retval :=
          (Binary32.spendingLoop p 0 queue
            (initialSpendingState available_pp available_stockpile)).1.stockpile_transfer
        queue :=
          (Binary32.spendingLoop p 0 queue (initialSpendingState available_pp available_stockpile)).2.1
        allocated_pp :=
          (Binary32.spendingLoop p 0 queue
            (initialSpendingState available_pp available_stockpile)).1.allocated_pp
        allocated_stockpile_pp :=
          (Binary32.spendingLoop p 0 queue
            (initialSpendingState available_pp available_stockpile)).1.allocated_stockpile_pp
        projects_in_progress :=
          (Binary32.spendingLoop p 0 queue
            (initialSpendingState available_pp available_stockpile)).1.projects_in_progress } := by
  simp [Binary32.SetProdQueueElementSpending, hlen]

theorem b32_recordSpending_allocated_pp (st : SpendingState) (e : Element) (g : ObjectGroup)
    (s : ElementSpending) :
    (Binary32.recordSpending st e g s).allocated_pp = Binary32.mapAdd st.allocated_pp g s.group_drawdown := by
  simp only [Binary32.recordSpending]
  split_ifs <;> simp [(setGroupPPAvailable_fields _ _ _).2.1]

/-- The test that counts an iteration as a project in progress: amounts were computed and the
allocation is positive. -/
theorem b32_recordSpending_projects (st : SpendingState) (e : Element) (g : ObjectGroup)
    (s : ElementSpending) :
    (Binary32.recordSpending st e g s).projects_in_progress =
      st.projects_in_progress + (if s.allocation > 0 then 1 else 0) := by
  simp only [Binary32.recordSpending]
  split_ifs <;> simp [(setGroupPPAvailable_fields _ _ _).2.2.2.2]

theorem b32_recordSpending_stockpile_transfer (st : SpendingState) (e : Element)
    (g : ObjectGroup) (s : ElementSpending) :
    (Binary32.recordSpending st e g s).stockpile_transfer =
      if e.item.build_type = BuildType.BT_STOCKPILE then
        roundF32 (st.stockpile_transfer + s.group_drawdown)
      else st.stockpile_transfer := by
  simp only [Binary32.recordSpending]
  split_ifs <;> simp [(setGroupPPAvailable_fields _ _ _).1]

theorem b32_recordSpending_allocated_stockpile_pp (st : SpendingState) (e : Element)
    (g : ObjectGroup) (s : ElementSpending) :
    (Binary32.recordSpending st e g s).allocated_stockpile_pp =
      if s.stockpile_drawdown > 0 then
        Binary32.mapAdd st.allocated_stockpile_pp g s.stockpile_drawdown
      else st.allocated_stockpile_pp := by
  simp only [Binary32.recordSpending]
  split_ifs <;> simp [(setGroupPPAvailable_fields _ _ _).2.2.1]

theorem b32_recordSpending_available_stockpile (st : SpendingState) (e : Element)
    (g : ObjectGroup) (s : ElementSpending) :
    (Binary32.recordSpending st e g s).available_stockpile =
      if s.stockpile_drawdown > 0 then roundF32 (st.available_stockpile - s.stockpile_drawdown)
      else st.available_stockpile := by
  simp only [Binary32.recordSpending]
  split_ifs <;> simp [(setGroupPPAvailable_fields _ _ _).2.2.2.1]

theorem b32_recordSpending_groupPPAvailable (st : SpendingState) (e : Element)
    (g : ObjectGroup) (s : ElementSpending) (G : ObjectGroup) :
    groupPPAvailable (Binary32.recordSpending st e g s) G =
      groupPPAvailable
        (setGroupPPAvailable st g (roundF32 (s.group_pp_available - s.group_drawdown))) G := by
  unfold Binary32.recordSpending setGroupPPAvailable groupPPAvailable
  split_ifs <;> dsimp only <;> cases mapFind st.available_pp g <;> rfl

/-- The amounts of a funded element in binary32, field by field. -/
theorem b32_spendOnElement_fields (p : SpendingParams) (st : SpendingState) (e : Element)
    (g : ObjectGroup) :
    (Binary32.spendOnElement p st e g).group_pp_available = groupPPAvailable st g ∧
    (Binary32.spendOnElement p st e g).allocation =
      (if e.item.build_type = BuildType.BT_STOCKPILE ∧
          p.rules.RULE_STOCKPILE_IMPORT_LIMITED = true then
        min (max 0 (min (Binary32.spendOnElement p st e g).element_this_turn_limit
            (roundF32 (groupPPAvailable st g + reserveShare st e))))
          (max 0 (roundF32 (p.stockpile_limit - st.stockpile_transfer)))
      else max 0 (min (Binary32.spendOnElement p st e g).element_this_turn_limit
        (roundF32 (groupPPAvailable st g + reserveShare st e)))) ∧
    (Binary32.spendOnElement p st e g).group_drawdown =
      min (Binary32.spendOnElement p st e g).allocation (groupPPAvailable st g) ∧
    (Binary32.spendOnElement p st e g).stockpile_drawdown =
      min (if (Binary32.spendOnElement p st e g).allocation ≤
            (Binary32.spendOnElement p st e g).group_drawdown then 0
          else roundF32 ((Binary32.spendOnElement p st e g).allocation -
            (Binary32.spendOnElement p st e g).group_drawdown))
        st.available_stockpile ∧
    (Binary32.spendOnElement p st e g).element_this_turn_limit =
      Binary32.CalculateProductionPerTurnLimit p.rules e (lookupCostTime p e).1
        (lookupCostTime p e).2 :=
  ⟨rfl, rfl, rfl, rfl, rfl⟩

theorem b32_limit_isF32 (rules : GameRules) (e : Element) (item_cost : ℚ) (build_turns : Int) :
    isF32 (Binary32.CalculateProductionPerTurnLimit rules e item_cost build_turns) := by
  unfold Binary32.CalculateProductionPerTurnLimit
  dsimp only
  exact isF32_min _ _ (isF32_round _)
    (isF32_max _ _ (isF32_round _)
      (isF32_max _ _ (isF32_round _) (isF32_ite _ _ _ (isF32_round _) (isF32_round _))))

/-- A property of the state that every iteration keeps holds when the loop ends. -/
theorem b32_spendingLoop_state (p : SpendingParams) (P : SpendingState → Prop)
    (hstep : ∀ st e g b, P st → P (Binary32.elementStep p st e g b).1) (q : List Element) :
    ∀ (i : Nat) (st : SpendingState), P st → P (Binary32.spendingLoop p i q st).1 := by
  induction q with
  | nil => intro i st h; exact h
  | cons e rest ih =>
    intro i st h
    simp only [Binary32.spendingLoop]
    exact ih _ _ (hstep _ _ _ _ h)

/-- A property of the state, indexed by the number of iterations done, that every iteration
carries to the next index holds at the final index when the loop ends. -/
theorem b32_spendingLoop_indexed (p : SpendingParams) (P : Nat → SpendingState → Prop)
    (hstep : ∀ k st e g b, P k st → P (k + 1) (Binary32.elementStep p st e g b).1)
    (q : List Element) :
    ∀ (i k : Nat) (st : SpendingState), P k st →
      P (k + q.length) (Binary32.spendingLoop p i q st).1 := by
  induction q with
  | nil => intro i k st h; exact h
  | cons e rest ih =>
    intro i k st h
    simp only [Binary32.spendingLoop, List.length_cons]
    rw [show k + (rest.length + 1) = k + 1 + rest.length by omega]
    exact ih (i + 1) (k + 1) _ (hstep k st e _ _ h)


/-! ## Evaluation of roundings -/


/-- Evaluation of a binary32 rounding away from a tie: `x` lies in the binade of exponent `e`
and is nearer to the multiple `n` of the spacing than to any other. -/
theorem roundF32_of_near (x y : ℚ) (e n : ℤ) (he1 : (2 : ℚ) ^ e ≤ |x|)
    (he2 : |x| < (2 : ℚ) ^ (e + 1))
    (hn : |x / (2 : ℚ) ^ (max e (-126) - 23) - (n : ℚ)| < 1 / 2)
    (hy : y = (n : ℚ) * (2 : ℚ) ^ (max e (-126) - 23)) : roundF32 x = y := by
  rw [hy]
  exact roundBinary_of_near 24 (-126) x e n he1 he2 hn

/-- Evaluation of a binary32 rounding at a tie: `x` lies half way between the multiples `m` and
`m + 1` of the spacing, and the even one is taken. -/
theorem roundF32_of_tie (x y : ℚ) (e m : ℤ) (he1 : (2 : ℚ) ^ e ≤ |x|)
    (he2 : |x| < (2 : ℚ) ^ (e + 1))
    (hm : x / (2 : ℚ) ^ (max e (-126) - 23) = (m : ℚ) + 1 / 2)
    (hy : y = ((if m % 2 = 0 then m else m + 1 : ℤ) : ℚ) * (2 : ℚ) ^ (max e (-126) - 23)) :
    roundF32 x = y := by
  rw [hy]
  exact roundBinary_of_tie 24 (-126) x e m he1 he2 hm

theorem roundF64_of_near (x y : ℚ) (e n : ℤ) (he1 : (2 : ℚ) ^ e ≤ |x|)
    (he2 : |x| < (2 : ℚ) ^ (e + 1))
    (hn : |x / (2 : ℚ) ^ (max e (-1022) - 52) - (n : ℚ)| < 1 / 2)
    (hy : y = (n : ℚ) * (2 : ℚ) ^ (max e (-1022) - 52)) : roundF64 x = y := by
  rw [hy]
  exact roundBinary_of_near 53 (-1022) x e n he1 he2 hn

theorem roundF64_zero : roundF64 0 = 0 := roundBinary_zero 53 (-1022)



theorem b32_allocation_props (p : SpendingParams) (st : SpendingState) (e : Element)
    (g : ObjectGroup) :
    0 ≤ (Binary32.spendOnElement p st e g).allocation ∧
    isF32 (Binary32.spendOnElement p st e g).allocation ∧
    (e.item.build_type = BuildType.BT_STOCKPILE →
      p.rules.RULE_STOCKPILE_IMPORT_LIMITED = true →
      (Binary32.spendOnElement p st e g).allocation ≤
        max 0 (roundF32 (p.stockpile_limit - st.stockpile_transfer))) := by
  obtain ⟨-, ha, -, -, hl⟩ := b32_spendOnElement_fields p st e g
  have hlimF : isF32 (Binary32.spendOnElement p st e g).element_this_turn_limit := by
    rw [hl]
    exact b32_limit_isF32 _ _ _ _
  have h1 : 0 ≤ max 0 (min (Binary32.spendOnElement p st e g).element_this_turn_limit
      (roundF32 (groupPPAvailable st g + reserveShare st e))) := le_max_left _ _
  have h1F : isF32 (max 0 (min (Binary32.spendOnElement p st e g).element_this_turn_limit
      (roundF32 (groupPPAvailable st g + reserveShare st e)))) :=
    isF32_max _ _ isF32_zero (isF32_min _ _ hlimF (isF32_round _))
  have h2 : 0 ≤ max 0 (roundF32 (p.stockpile_limit - st.stockpile_transfer)) := le_max_left _ _
  have h2F : isF32 (max 0 (roundF32 (p.stockpile_limit - st.stockpile_transfer))) :=
    isF32_max _ _ isF32_zero (isF32_round _)
  rw [ha]
  split_ifs with hc
  · exact ⟨le_min h1 h2, isF32_min _ _ h1F h2F, fun _ _ => min_le_right _ _⟩
  · exact ⟨h1, h1F, fun hs hr => absurd ⟨hs, hr⟩ hc⟩

/-- One iteration of the binary32 pass keeps the transfer within two roundings of the import
limit. -/
theorem b32_elementStep_transferWithin (p : SpendingParams) (L : ℚ)
    (hL : p.stockpile_limit = L) (hLF : isF32 L)
    (hrule : p.rules.RULE_STOCKPILE_IMPORT_LIMITED = true)
    (st : SpendingState) (e : Element) (g : ObjectGroup) (b : Bool)
    (h : Binary32.transferWithin L st) :
    Binary32.transferWithin L (Binary32.elementStep p st e g b).1 := by
  cases hskip : skipsElement st e g b
  swap
  · rw [b32_elementStep_skip p st e g b hskip]
    exact h
  rw [b32_elementStep_fund p st e g b hskip]
  obtain ⟨htF, ht0, htL, hg⟩ := h
  obtain ⟨hgpa, -, hgd, -, -⟩ := b32_spendOnElement_fields p st e g
  obtain ⟨ha0, haF, hacap⟩ := b32_allocation_props p st e g
  have hgd0 : 0 ≤ (Binary32.spendOnElement p st e g).group_drawdown := by
    rw [hgd]
    exact le_min ha0 (hg g).2
  have hgdF : isF32 (Binary32.spendOnElement p st e g).group_drawdown := by
    rw [hgd]
    exact isF32_min _ _ haF (hg g).1
  have hgdle : (Binary32.spendOnElement p st e g).group_drawdown ≤ groupPPAvailable st g := by
    rw [hgd]
    exact min_le_right _ _
  have hgda : (Binary32.spendOnElement p st e g).group_drawdown ≤
      (Binary32.spendOnElement p st e g).allocation := by
    rw [hgd]
    exact min_le_left _ _
  have htransfer : isF32 (Binary32.recordSpending st e g
        (Binary32.spendOnElement p st e g)).stockpile_transfer ∧
      0 ≤ (Binary32.recordSpending st e g
        (Binary32.spendOnElement p st e g)).stockpile_transfer ∧
      (Binary32.recordSpending st e g
        (Binary32.spendOnElement p st e g)).stockpile_transfer ≤ L * roundingFactor ^ 2 := by
    rw [b32_recordSpending_stockpile_transfer]
    split_ifs with hs
    · refine ⟨isF32_round _, roundF32_nonneg _ (by linarith), ?_⟩
      have hcap := hacap hs hrule
      rw [hL] at hcap
      rcases le_or_lt st.stockpile_transfer L with hle | hlt
      · have h1 : roundF32 (L - st.stockpile_transfer) ≤
            (L - st.stockpile_transfer) * roundingFactor :=
          roundF32_sub_le L _ hLF htF (by linarith)
        have h2 : max 0 (roundF32 (L - st.stockpile_transfer)) =
            roundF32 (L - st.stockpile_transfer) :=
          max_eq_right (roundF32_nonneg _ (by linarith))
        rw [h2] at hcap
        have h3 := roundF32_add_le st.stockpile_transfer _ htF hgdF (by linarith)
        have hrf := one_le_roundingFactor
        have h4 : st.stockpile_transfer +
            (Binary32.spendOnElement p st e g).group_drawdown ≤ L * roundingFactor := by
          nlinarith
        calc roundF32 (st.stockpile_transfer +
              (Binary32.spendOnElement p st e g).group_drawdown)
            ≤ (st.stockpile_transfer +
              (Binary32.spendOnElement p st e g).group_drawdown) * roundingFactor := h3
          _ ≤ L * roundingFactor * roundingFactor :=
            mul_le_mul_of_nonneg_right h4 roundingFactor_pos.le
          _ = L * roundingFactor ^ 2 := by ring
      · have h1 : roundF32 (L - st.stockpile_transfer) ≤ 0 :=
          roundF32_nonpos _ (by linarith)
        rw [max_eq_left h1] at hcap
        have hz : (Binary32.spendOnElement p st e g).group_drawdown = 0 := by linarith
        rw [hz, add_zero, htF]
        exact htL
    · exact ⟨htF, ht0, htL⟩
  refine ⟨htransfer.1, htransfer.2.1, htransfer.2.2, ?_⟩
  intro G
  rw [b32_recordSpending_groupPPAvailable, groupPPAvailable_set_eq]
  split_ifs
  · rw [hgpa]
    exact ⟨isF32_round _, roundF32_nonneg _ (by linarith)⟩
  · exact hg G

theorem b32_initial_groups (available_pp : GroupMap) (available_stockpile : ℚ)
    (havail : ∀ kv ∈ available_pp, isF32 kv.2 ∧ 0 ≤ kv.2) (g : ObjectGroup) :
    isF32 (groupPPAvailable (initialSpendingState available_pp available_stockpile) g) ∧
      0 ≤ groupPPAvailable (initialSpendingState available_pp available_stockpile) g := by
  unfold groupPPAvailable initialSpendingState
  dsimp only
  cases h : mapFind available_pp g with
  | none => exact ⟨isF32_zero, le_refl _⟩
  | some v =>
    obtain ⟨kv, hkv, rfl⟩ := mapFind_mem available_pp g v h
    exact havail kv hkv

/-- C9 (amended): when the stockpile import limit rule is enabled, the reserve capacity is a
non-negative `float` and the group availabilities are non-negative `float`s, the amount
transferred to the reserve by stockpile-transfer items in one allocation pass computed in
binary32 (the return value of the pass) exceeds the reserve capacity by at most two roundings:
it is at most `capacity × (1 + 2⁻²⁴)²`, for every queue. -/
theorem C9_transfer_within_rounding (rules : GameRules) (available_pp : GroupMap)
    (available_stockpile stockpile_limit : ℚ)
    (queue_element_resource_sharing_object_groups : List ObjectGroup)
    (queue_item_costs_and_times : CostTimeMap) (is_producible : List Bool)
    (queue : List Element) (allocated_pp allocated_stockpile_pp : GroupMap)
    (projects_in_progress : Int) (simulating : Bool) (the_universe : Universe)
    (hlim : rules.RULE_STOCKPILE_IMPORT_LIMITED = true) (hcap : 0 ≤ stockpile_limit)
    (hcapF : isF32 stockpile_limit)
    (havail : ∀ kv ∈ available_pp, isF32 kv.2 ∧ 0 ≤ kv.2) :
    (Binary32.SetProdQueueElementSpending rules available_pp available_stockpile stockpile_limit
        queue_element_resource_sharing_object_groups queue_item_costs_and_times is_producible
        queue allocated_pp allocated_stockpile_pp projects_in_progress simulating
        the_universe).retval ≤ stockpile_limit * roundingFactor ^ 2 := by
  have hbound : 0 ≤ stockpile_limit * roundingFactor ^ 2 :=
    mul_nonneg hcap (pow_nonneg roundingFactor_pos.le 2)
  unfold Binary32.SetProdQueueElementSpending
  split_ifs with hlen
  · exact hbound
  · dsimp only
    refine (b32_spendingLoop_state _ (Binary32.transferWithin stockpile_limit)
      (fun st e g b h => b32_elementStep_transferWithin _ stockpile_limit rfl hcapF hlim
        st e g b h) queue 0 _ ?_).2.2.1
    exact ⟨isF32_zero, le_refl _, hbound, b32_initial_groups available_pp available_stockpile havail⟩

theorem isF32_four : isF32 4 :=
  roundF32_of_near _ _ 2 8388608 (by norm_num [le_abs]) (by norm_num [abs_lt])
    (by norm_num [abs_lt]) (by norm_num)

theorem isF32_five : isF32 5 :=
  roundF32_of_near _ _ 2 10485760 (by norm_num [le_abs]) (by norm_num [abs_lt])
    (by norm_num [abs_lt]) (by norm_num)

/-- Witness of C9: the stockpile-transfer queue with import limiting enabled, a capacity of 5
and the availabilities 4 and 0. -/
theorem C9_transfer_within_rounding_witness :
    stockpileParams.rules.RULE_STOCKPILE_IMPORT_LIMITED = true ∧ (0 : ℚ) ≤ 5 ∧ isF32 5 ∧
      (∀ kv ∈ ([({1}, 4), ({2}, 0)] : GroupMap), isF32 kv.2 ∧ 0 ≤ kv.2) ∧
      (Binary32.SetProdQueueElementSpending stockpileParams.rules [({1}, 4), ({2}, 0)] 5 5
        [{1}, {2}] stockpileCosts [true, true] stockpileQueue [] [] 0 false
        sampleUniverse).retval ≤ 5 * roundingFactor ^ 2 :=
  have havail : ∀ kv ∈ ([({1}, 4), ({2}, 0)] : GroupMap), isF32 kv.2 ∧ 0 ≤ kv.2 := by
    intro kv hkv
    simp only [List.mem_cons, List.mem_singleton, List.not_mem_nil, or_false] at hkv
    rcases hkv with rfl | rfl
    · exact ⟨isF32_four, by norm_num⟩
    · exact ⟨isF32_zero, le_refl _⟩
  ⟨rfl, by norm_num, isF32_five, havail,
    C9_transfer_within_rounding stockpileParams.rules [({1}, 4), ({2}, 0)] 5 5 [{1}, {2}]
      stockpileCosts [true, true] stockpileQueue [] [] 0 false sampleUniverse rfl
      (by norm_num) isF32_five havail⟩



/-- The state after an element was funded in binary32, read off from the numbers that enter:
the group availability `gpa`, the reserve share `sa`, the running transfer `t`, the per-turn
limit `lim`, and from them the allocation `a`, the group drawdown `gd` and the reserve drawdown
`sd`. -/
theorem b32_funded_step (p : SpendingParams) (st : SpendingState) (e : Element)
    (g : ObjectGroup) (b : Bool) (gpa sa t lim a gd sd : ℚ)
    (hskip : skipsElement st e g b = false)
    (hgpa : groupPPAvailable st g = gpa) (hsa : reserveShare st e = sa)
    (ht : st.stockpile_transfer = t) (hlim : Binary32.elementLimit p e = lim)
    (ha : a = if e.item.build_type = BuildType.BT_STOCKPILE ∧
          p.rules.RULE_STOCKPILE_IMPORT_LIMITED = true then
        min (max 0 (min lim (roundF32 (gpa + sa)))) (max 0 (roundF32 (p.stockpile_limit - t)))
      else max 0 (min lim (roundF32 (gpa + sa))))
    (hgd : gd = min a gpa)
    (hsd : sd = min (if a ≤ gd then 0 else roundF32 (a - gd)) st.available_stockpile) :
    (Binary32.elementStep p st e g b).2.2 = some (Binary32.spendOnElement p st e g) ∧
    (Binary32.spendOnElement p st e g).allocation = a ∧
    (Binary32.spendOnElement p st e g).group_drawdown = gd ∧
    (Binary32.spendOnElement p st e g).stockpile_drawdown = sd ∧
    (Binary32.elementStep p st e g b).1.stockpile_transfer =
      (if e.item.build_type = BuildType.BT_STOCKPILE then roundF32 (t + gd) else t) ∧
    groupPPAvailable (Binary32.elementStep p st e g b).1 g = roundF32 (gpa - gd) ∧
    (Binary32.elementStep p st e g b).1.available_stockpile =
      (if sd > 0 then roundF32 (st.available_stockpile - sd) else st.available_stockpile) ∧
    (Binary32.elementStep p st e g b).1.allocated_pp = Binary32.mapAdd st.allocated_pp g gd ∧
    (Binary32.elementStep p st e g b).1.allocated_stockpile_pp =
      (if sd > 0 then Binary32.mapAdd st.allocated_stockpile_pp g sd
        else st.allocated_stockpile_pp) := by
  obtain ⟨h1, h2, h3, h4, h5⟩ := b32_spendOnElement_fields p st e g
  have hl : (Binary32.spendOnElement p st e g).element_this_turn_limit = lim := by
    rw [h5]
    exact hlim
  have ha2 : (Binary32.spendOnElement p st e g).allocation = a := by
    rw [h2, hl, hgpa, hsa, ht, ha]
  have hgd2 : (Binary32.spendOnElement p st e g).group_drawdown = gd := by
    rw [h3, ha2, hgpa, hgd]
  have hsd2 : (Binary32.spendOnElement p st e g).stockpile_drawdown = sd := by
    rw [h4, ha2, hgd2, hsd]
  rw [b32_elementStep_fund p st e g b hskip]
  refine ⟨rfl, ha2, hgd2, hsd2, ?_, ?_, ?_, ?_, ?_⟩
  · rw [b32_recordSpending_stockpile_transfer, hgd2, ht]
  · rw [b32_recordSpending_groupPPAvailable, groupPPAvailable_set_eq, if_pos (Or.inl rfl), h1,
      hgd2, hgpa]
  · rw [b32_recordSpending_available_stockpile, hsd2]
  · rw [b32_recordSpending_allocated_pp, hgd2]
  · rw [b32_recordSpending_allocated_stockpile_pp, hsd2]

theorem b32_stateBeforeEntry_length (p : SpendingParams) (q : List Element)
    (st0 : SpendingState) :
    Binary32.stateBeforeEntry p q st0 q.length = (Binary32.spendingLoop p 0 q st0).1 := by
  unfold Binary32.stateBeforeEntry
  rw [List.take_length]


theorem b32_mapFind_mapAdd (m : GroupMap) (g : ObjectGroup) (x : ℚ) (g2 : ObjectGroup) :
    (mapFind (Binary32.mapAdd m g x) g2).getD 0 =
      if g2 = g then roundF32 ((mapFind m g).getD 0 + x) else (mapFind m g2).getD 0 := by
  induction m with
  | nil =>
    by_cases h : g2 = g
    · simp [Binary32.mapAdd, mapFind, h]
    · simp [Binary32.mapAdd, mapFind, h, Ne.symm h]
  | cons kv rest ih =>
    obtain ⟨k, v⟩ := kv
    by_cases hk : k = g
    · subst hk
      by_cases h : g2 = k
      · simp [Binary32.mapAdd, mapFind, h]
      · simp [Binary32.mapAdd, mapFind, h, Ne.symm h]
    · by_cases h : g2 = g
      · subst h
        simp [Binary32.mapAdd, mapFind, hk, ih]
      · by_cases hk2 : k = g2
        · simp [Binary32.mapAdd, mapFind, hk, hk2, h]
        · simp [Binary32.mapAdd, mapFind, hk, hk2, h, ih]

theorem b32_sum_mapAdd (m : GroupMap) (g : ObjectGroup) (x : ℚ) :
    ((Binary32.mapAdd m g x).map Prod.snd).sum =
      (m.map Prod.snd).sum - (mapFind m g).getD 0 + roundF32 ((mapFind m g).getD 0 + x) := by
  induction m with
  | nil => simp [Binary32.mapAdd, mapFind]
  | cons kv rest ih =>
    obtain ⟨k, v⟩ := kv
    by_cases hk : k = g
    · simp [Binary32.mapAdd, mapFind, hk]
      ring
    · simp [Binary32.mapAdd, mapFind, hk, ih]
      ring

theorem b32_mapAdd_mem (m : GroupMap) (g : ObjectGroup) (x : ℚ) :
    ∀ kv ∈ Binary32.mapAdd m g x,
      kv ∈ m ∨ kv.2 = roundF32 ((mapFind m g).getD 0 + x) := by
  induction m with
  | nil =>
    intro kv hkv
    simp [Binary32.mapAdd] at hkv
    subst hkv
    simp [mapFind]
  | cons kv0 rest ih =>
    obtain ⟨k, v⟩ := kv0
    intro kv hkv
    by_cases hk : k = g
    · simp only [Binary32.mapAdd, hk, if_true, List.mem_cons] at hkv
      rcases hkv with rfl | hmem
      · right
        simp [mapFind, hk]
      · left
        exact List.mem_cons_of_mem _ hmem
    · simp only [Binary32.mapAdd, hk, if_false, List.mem_cons] at hkv
      rcases hkv with rfl | hmem
      · left
        exact List.mem_cons_self _ _
      · rcases ih kv hmem with h | h
        · left
          exact List.mem_cons_of_mem _ h
        · right
          simp [mapFind, hk, h]

/-- A property of all mapped values and of 0 holds of the value read for any key. -/
theorem mapFind_getD_of_forall (P : ℚ → Prop) (m : GroupMap) (g : ObjectGroup)
    (hm : ∀ kv ∈ m, P kv.2) (h0 : P 0) : P ((mapFind m g).getD 0) := by
  cases h : mapFind m g with
  | none => exact h0
  | some v =>
    obtain ⟨kv, hkv, rfl⟩ := mapFind_mem m g v h
    exact hm kv hkv

theorem mapFind_le_sum (m : GroupMap) (g : ObjectGroup) (hm : ∀ kv ∈ m, 0 ≤ kv.2) :
    (mapFind m g).getD 0 ≤ (m.map Prod.snd).sum := by
  induction m with
  | nil => simp [mapFind]
  | cons kv rest ih =>
    obtain ⟨k, v⟩ := kv
    have hv : 0 ≤ v := hm (k, v) (List.mem_cons_self _ _)
    have hrest : ∀ kv ∈ rest, 0 ≤ kv.2 := fun kv h => hm kv (List.mem_cons_of_mem _ h)
    have hsum : 0 ≤ (rest.map Prod.snd).sum :=
      List.sum_nonneg (by
        intro x hx
        rw [List.mem_map] at hx
        obtain ⟨kv, hkv, rfl⟩ := hx
        exact hrest kv hkv)
    by_cases hk : k = g
    · simp only [mapFind, hk, if_true, Option.getD_some, List.map_cons, List.sum_cons]
      linarith
    · simp only [mapFind, hk, if_false, List.map_cons, List.sum_cons]
      linarith [ih hrest]


theorem roundingFactor_pow_mono (k : Nat) (x : ℚ) (hx : 0 ≤ x) :
    x * roundingFactor ^ k ≤ x * roundingFactor ^ (k + 1) := by
  have h1 := one_le_roundingFactor
  have h2 : (0 : ℚ) ≤ roundingFactor ^ k := pow_nonneg roundingFactor_pos.le k
  rw [pow_succ]
  nlinarith [mul_nonneg hx h2]

theorem b32_drawdown_props (p : SpendingParams) (st : SpendingState) (e : Element)
    (g : ObjectGroup) (hg : isF32 (groupPPAvailable st g) ∧ 0 ≤ groupPPAvailable st g)
    (hres : isF32 st.available_stockpile ∧ 0 ≤ st.available_stockpile) :
    (isF32 (Binary32.spendOnElement p st e g).group_drawdown ∧
      0 ≤ (Binary32.spendOnElement p st e g).group_drawdown ∧
      (Binary32.spendOnElement p st e g).group_drawdown ≤ groupPPAvailable st g) ∧
    (isF32 (Binary32.spendOnElement p st e g).stockpile_drawdown ∧
      0 ≤ (Binary32.spendOnElement p st e g).stockpile_drawdown ∧
      (Binary32.spendOnElement p st e g).stockpile_drawdown ≤ st.available_stockpile) := by
  obtain ⟨-, -, hgd, hsd, -⟩ := b32_spendOnElement_fields p st e g
  obtain ⟨ha0, haF, -⟩ := b32_allocation_props p st e g
  have hgdF : isF32 (Binary32.spendOnElement p st e g).group_drawdown := by
    rw [hgd]
    exact isF32_min _ _ haF hg.1
  have hgda : (Binary32.spendOnElement p st e g).group_drawdown ≤
      (Binary32.spendOnElement p st e g).allocation := by
    rw [hgd]
    exact min_le_left _ _
  refine ⟨⟨hgdF, by rw [hgd]; exact le_min ha0 hg.2, by rw [hgd]; exact min_le_right _ _⟩, ?_⟩
  rw [hsd]
  refine ⟨isF32_min _ _ (isF32_ite _ _ _ isF32_zero (isF32_round _)) hres.1, le_min ?_ hres.2,
    min_le_right _ _⟩
  split_ifs with hle
  · exact le_refl _
  · exact roundF32_nonneg _ (by linarith)

/-- One iteration of the binary32 pass keeps the rounded conservation, with one more
rounding. -/
theorem b32_elementStep_conservation (p : SpendingParams) (available_pp : GroupMap)
    (available_stockpile : ℚ) (havail : ∀ kv ∈ available_pp, 0 ≤ kv.2)
    (hres0 : 0 ≤ available_stockpile) (k : Nat) (st : SpendingState) (e : Element)
    (g : ObjectGroup) (b : Bool)
    (h : Binary32.roundedConservation available_pp available_stockpile k st) :
    Binary32.roundedConservation available_pp available_stockpile (k + 1)
      (Binary32.elementStep p st e g b).1 := by
  obtain ⟨hres, hg, ha, hsum, has, hssum⟩ := h
  have hG0 : ∀ G, 0 ≤ (mapFind available_pp G).getD 0 := fun G =>
    mapFind_getD_of_forall (fun x => 0 ≤ x) available_pp G havail (le_refl _)
  have hweak : ∀ G, (mapFind st.allocated_pp G).getD 0 + groupPPAvailable st G ≤
      (mapFind available_pp G).getD 0 * roundingFactor ^ (k + 1) := fun G =>
    le_trans (hsum G) (roundingFactor_pow_mono k _ (hG0 G))
  have hsweak : (st.allocated_stockpile_pp.map Prod.snd).sum + st.available_stockpile ≤
      available_stockpile * roundingFactor ^ (k + 1) :=
    le_trans hssum (roundingFactor_pow_mono k _ hres0)
  cases hskip : skipsElement st e g b
  swap
  · rw [b32_elementStep_skip p st e g b hskip]
    exact ⟨hres, hg, ha, hweak, has, hsweak⟩
  rw [b32_elementStep_fund p st e g b hskip]
  obtain ⟨hgpa, -, -, -, -⟩ := b32_spendOnElement_fields p st e g
  obtain ⟨⟨hgdF, hgd0, hgdle⟩, hsdF, hsd0, hsdle⟩ := b32_drawdown_props p st e g (hg g) hres
  have hrf := one_le_roundingFactor
  have hold : isF32 ((mapFind st.allocated_stockpile_pp g).getD 0) ∧
      0 ≤ (mapFind st.allocated_stockpile_pp g).getD 0 :=
    mapFind_getD_of_forall (fun x => isF32 x ∧ 0 ≤ x) _ g has ⟨isF32_zero, le_refl _⟩
  refine ⟨?_, ?_, ?_, ?_, ?_, ?_⟩
  · rw [b32_recordSpending_available_stockpile]
    split_ifs
    · exact ⟨isF32_round _, roundF32_nonneg _ (by linarith)⟩
    · exact hres
  · intro G
    rw [b32_recordSpending_groupPPAvailable, groupPPAvailable_set_eq]
    split_ifs
    · rw [hgpa]
      exact ⟨isF32_round _, roundF32_nonneg _ (by linarith)⟩
    · exact hg G
  · intro G
    rw [b32_recordSpending_allocated_pp, b32_mapFind_mapAdd]
    split_ifs
    · exact ⟨isF32_round _, roundF32_nonneg _ (by linarith [(ha g).2])⟩
    · exact ha G
  · intro G
    rw [b32_recordSpending_allocated_pp, b32_mapFind_mapAdd, b32_recordSpending_groupPPAvailable,
      groupPPAvailable_set_eq, hgpa]
    by_cases hGg : G = g
    · subst hGg
      rw [if_pos rfl, if_pos (Or.inl rfl)]
      have h1 := roundF32_add_le _ _ (ha G).1 hgdF (by linarith [(ha G).2])
      have h2 := roundF32_sub_le _ _ (hg G).1 hgdF (by linarith)
      have h3 := hsum G
      have h4 : (0 : ℚ) ≤ roundingFactor ^ k := pow_nonneg roundingFactor_pos.le k
      calc roundF32 ((mapFind st.allocated_pp G).getD 0 +
              (Binary32.spendOnElement p st e G).group_drawdown) +
            roundF32 (groupPPAvailable st G -
              (Binary32.spendOnElement p st e G).group_drawdown)
          ≤ ((mapFind st.allocated_pp G).getD 0 + groupPPAvailable st G) * roundingFactor := by
            linarith
        _ ≤ (mapFind available_pp G).getD 0 * roundingFactor ^ k * roundingFactor :=
            mul_le_mul_of_nonneg_right h3 roundingFactor_pos.le
        _ = (mapFind available_pp G).getD 0 * roundingFactor ^ (k + 1) := by ring
    · rw [if_neg hGg]
      split_ifs with hc
      · rcases hc with hc | hc
        · exact absurd hc.symm hGg
        · have hsame : groupPPAvailable st g = groupPPAvailable st G := by
            unfold groupPPAvailable
            rw [hc.1, hc.2]
          have h1 : roundF32 (groupPPAvailable st g -
              (Binary32.spendOnElement p st e g).group_drawdown) ≤ groupPPAvailable st g :=
            roundF32_le_of_le _ _ (hg g).1 (by linarith)
          linarith [hweak G]
      · exact hweak G
  · rw [b32_recordSpending_allocated_stockpile_pp]
    split_ifs
    · intro kv hkv
      rcases b32_mapAdd_mem _ _ _ kv hkv with hmem | hval
      · exact has kv hmem
      · rw [hval]
        exact ⟨isF32_round _, roundF32_nonneg _ (by linarith [hold.2])⟩
    · exact has
  · rw [b32_recordSpending_allocated_stockpile_pp, b32_recordSpending_available_stockpile]
    split_ifs
    · rw [b32_sum_mapAdd]
      have h1 := roundF32_add_le _ _ hold.1 hsdF (by linarith [hold.2])
      have h2 := roundF32_sub_le _ _ hres.1 hsdF (by linarith)
      have h3 := mapFind_le_sum st.allocated_stockpile_pp g (fun kv hkv => (has kv hkv).2)
      have h4 : (st.allocated_stockpile_pp.map Prod.snd).sum -
            (mapFind st.allocated_stockpile_pp g).getD 0 +
            roundF32 ((mapFind st.allocated_stockpile_pp g).getD 0 +
              (Binary32.spendOnElement p st e g).stockpile_drawdown) +
          roundF32 (st.available_stockpile -
            (Binary32.spendOnElement p st e g).stockpile_drawdown) ≤
          ((st.allocated_stockpile_pp.map Prod.snd).sum + st.available_stockpile) *
            roundingFactor := by
        nlinarith [hres.2, hold.2]
      calc _ ≤ ((st.allocated_stockpile_pp.map Prod.snd).sum + st.available_stockpile) *
            roundingFactor := h4
        _ ≤ available_stockpile * roundingFactor ^ k * roundingFactor :=
            mul_le_mul_of_nonneg_right hssum roundingFactor_pos.le
        _ = available_stockpile * roundingFactor ^ (k + 1) := by ring
    · exact hsweak


/-- In binary32 the allocation of a funded element is its group drawdown plus its reserve
drawdown up to a relative error of `2 ^ (-23)`. -/
theorem b32_allocation_split (p : SpendingParams) (st : SpendingState) (e : Element)
    (g : ObjectGroup) (hg : isF32 (groupPPAvailable st g) ∧ 0 ≤ groupPPAvailable st g)
    (hres : isF32 st.available_stockpile ∧ 0 ≤ st.available_stockpile) :
    |(Binary32.spendOnElement p st e g).allocation -
        ((Binary32.spendOnElement p st e g).group_drawdown +
          (Binary32.spendOnElement p st e g).stockpile_drawdown)| ≤
      (Binary32.spendOnElement p st e g).allocation / 2 ^ 23 := by
  obtain ⟨-, haeq, hgd, hsd, -⟩ := b32_spendOnElement_fields p st e g
  obtain ⟨ha0, haF, -⟩ := b32_allocation_props p st e g
  have hale : 0 < (Binary32.spendOnElement p st e g).allocation →
      (Binary32.spendOnElement p st e g).allocation ≤
        roundF32 (groupPPAvailable st g + reserveShare st e) := by
    intro hpos
    have h1 : (Binary32.spendOnElement p st e g).allocation ≤
        max 0 (min (Binary32.spendOnElement p st e g).element_this_turn_limit
          (roundF32 (groupPPAvailable st g + reserveShare st e))) := by
      nth_rewrite 1 [haeq]
      split_ifs
      · exact min_le_left _ _
      · exact le_refl _
    rcases le_or_lt (min (Binary32.spendOnElement p st e g).element_this_turn_limit
        (roundF32 (groupPPAvailable st g + reserveShare st e))) 0 with hle | hlt
    · rw [max_eq_left hle] at h1
      linarith
    · rw [max_eq_right hlt.le] at h1
      exact le_trans h1 (min_le_right _ _)
  rw [hsd]
  rcases le_or_lt (Binary32.spendOnElement p st e g).allocation
      (Binary32.spendOnElement p st e g).group_drawdown with hle | hlt
  · rw [if_pos hle, min_eq_left hres.2]
    have hge : (Binary32.spendOnElement p st e g).group_drawdown ≤
        (Binary32.spendOnElement p st e g).allocation := by
      rw [hgd]
      exact min_le_left _ _
    have heq : (Binary32.spendOnElement p st e g).group_drawdown =
        (Binary32.spendOnElement p st e g).allocation := le_antisymm hge hle
    rw [heq, add_zero, sub_self, abs_zero]
    positivity
  · rw [if_neg (not_le.mpr hlt)]
    have hgdeq : (Binary32.spendOnElement p st e g).group_drawdown = groupPPAvailable st g := by
      rw [hgd] at hlt ⊢
      rcases le_total (Binary32.spendOnElement p st e g).allocation (groupPPAvailable st g)
        with h | h
      · rw [min_eq_left h] at hlt
        exact absurd hlt (lt_irrefl _)
      · exact min_eq_right h
    rw [hgdeq] at hlt ⊢
    have herr := roundF32_sub_err _ _ haF hg.1
    rw [abs_of_pos (by linarith : 0 <
      (Binary32.spendOnElement p st e g).allocation - groupPPAvailable st g), abs_le] at herr
    rcases le_or_lt (roundF32 ((Binary32.spendOnElement p st e g).allocation -
        groupPPAvailable st g)) st.available_stockpile with hfit | hclamp
    · rw [min_eq_left hfit, abs_le]
      constructor <;> linarith [herr.1, herr.2, hg.2]
    · rw [min_eq_right hclamp.le]
      have hpos : 0 < (Binary32.spendOnElement p st e g).allocation := by linarith [hg.2]
      have hle2 := hale hpos
      have hshare : reserveShare st e = st.available_stockpile := by
        unfold reserveShare
        split_ifs with helig
        · rfl
        · exfalso
          unfold reserveShare at hle2
          rw [if_neg helig, add_zero, hg.1] at hle2
          linarith
      rw [hshare] at hle2
      have hadd := roundF32_add_le _ _ hg.1 hres.1 (by linarith [hg.2, hres.2])
      unfold roundingFactor at hadd
      rw [abs_le]
      constructor <;> linarith [herr.1, herr.2, hg.2, hres.2]


theorem b32_initial_conservation (available_pp : GroupMap) (available_stockpile : ℚ)
    (hpp : ∀ kv ∈ available_pp, isF32 kv.2 ∧ 0 ≤ kv.2)
    (hres : isF32 available_stockpile ∧ 0 ≤ available_stockpile) :
    Binary32.roundedConservation available_pp available_stockpile 0
      (initialSpendingState available_pp available_stockpile) := by
  refine ⟨hres, b32_initial_groups available_pp available_stockpile hpp, ?_, ?_, ?_, ?_⟩
  · intro g
    exact ⟨isF32_zero, le_refl _⟩
  · intro g
    have : groupPPAvailable (initialSpendingState available_pp available_stockpile) g =
        (mapFind available_pp g).getD 0 := by
      unfold groupPPAvailable initialSpendingState
      dsimp only
      cases mapFind available_pp g <;> rfl
    rw [this]
    simp [initialSpendingState, mapFind]
  · intro kv hkv
    simp [initialSpendingState] at hkv
  · simp [initialSpendingState]

theorem b32_stateBeforeEntry_conservation (p : SpendingParams) (available_pp : GroupMap)
    (available_stockpile : ℚ) (queue : List Element)
    (hpp : ∀ kv ∈ available_pp, isF32 kv.2 ∧ 0 ≤ kv.2)
    (hres : isF32 available_stockpile ∧ 0 ≤ available_stockpile) (k : Nat) :
    Binary32.roundedConservation available_pp available_stockpile (queue.take k).length
      (Binary32.stateBeforeEntry p queue
        (initialSpendingState available_pp available_stockpile) k) := by
  have h := b32_spendingLoop_indexed p
    (Binary32.roundedConservation available_pp available_stockpile)
    (fun k st e g b hk => b32_elementStep_conservation p available_pp available_stockpile
      (fun kv hkv => (hpp kv hkv).2) hres.2 k st e g b hk)
    (queue.take k) 0 0 _ (b32_initial_conservation available_pp available_stockpile hpp hres)
  rw [Nat.zero_add] at h
  exact h

/-- C30 (amended): drawdown conservation in binary32. In a pass on a structurally consistent
input that starts with group availabilities and a reserve availability that are non-negative
`float`s, the group drawdown of every funded entry is `min(allocation, groupAvailable)` at the
moment the entry is processed, both drawdowns are non-negative, and the allocation is their sum
up to a relative error of `2⁻²³`; after the pass the recorded consumption of each group lies
between 0 and the initial availability of the group (0 for a group without availability) times
`(1 + 2⁻²⁴)ⁿ`, and the total recorded reserve consumption lies between 0 and the initial
reserve availability times `(1 + 2⁻²⁴)ⁿ`, `n` being the number of queue entries. -/
theorem C30_drawdown_conservation_rounded (p : SpendingParams) (available_pp : GroupMap)
    (available_stockpile : ℚ) (queue : List Element) (a0 as0 : GroupMap) (pip0 : Int)
    (hlen : queue.length = p.queue_element_resource_sharing_object_groups.length)
    (hpp : ∀ kv ∈ available_pp, isF32 kv.2 ∧ 0 ≤ kv.2)
    (hres : isF32 available_stockpile ∧ 0 ≤ available_stockpile) :
    (∀ (k : Nat) (s : ElementSpending),
      (Binary32.spendingLoop p 0 queue
        (initialSpendingState available_pp available_stockpile)).2.2[k]? = some (some s) →
      s.group_drawdown = min s.allocation
        (groupPPAvailable
          (Binary32.stateBeforeEntry p queue
            (initialSpendingState available_pp available_stockpile) k)
          (p.queue_element_resource_sharing_object_groups.getD k ∅)) ∧
      0 ≤ s.group_drawdown ∧ 0 ≤ s.stockpile_drawdown ∧
      |s.allocation - (s.group_drawdown + s.stockpile_drawdown)| ≤ s.allocation / 2 ^ 23) ∧
    (∀ g : ObjectGroup,
      0 ≤ (mapFind (Binary32.SetProdQueueElementSpending p.rules available_pp
        available_stockpile p.stockpile_limit p.queue_element_resource_sharing_object_groups
        p.queue_item_costs_and_times p.is_producible queue a0 as0 pip0 p.simulating
        p.the_universe).allocated_pp g).getD 0 ∧
      (mapFind (Binary32.SetProdQueueElementSpending p.rules available_pp
        available_stockpile p.stockpile_limit p.queue_element_resource_sharing_object_groups
        p.queue_item_costs_and_times p.is_producible queue a0 as0 pip0 p.simulating
        p.the_universe).allocated_pp g).getD 0 ≤
          (mapFind available_pp g).getD 0 * roundingFactor ^ queue.length) ∧
    0 ≤ ((Binary32.SetProdQueueElementSpending p.rules available_pp
        available_stockpile p.stockpile_limit p.queue_element_resource_sharing_object_groups
        p.queue_item_costs_and_times p.is_producible queue a0 as0 pip0 p.simulating
        p.the_universe).allocated_stockpile_pp.map Prod.snd).sum ∧
    ((Binary32.SetProdQueueElementSpending p.rules available_pp
        available_stockpile p.stockpile_limit p.queue_element_resource_sharing_object_groups
        p.queue_item_costs_and_times p.is_producible queue a0 as0 pip0 p.simulating
        p.the_universe).allocated_stockpile_pp.map Prod.snd).sum ≤
      available_stockpile * roundingFactor ^ queue.length := by
  have hfinal := b32_stateBeforeEntry_conservation p available_pp available_stockpile queue
    hpp hres queue.length
  rw [List.take_length, b32_stateBeforeEntry_length] at hfinal
  obtain ⟨hfres, hfg, hfa, hfsum, hfas, hfssum⟩ := hfinal
  rw [b32_SetProdQueueElementSpending_eq_loop p available_pp available_stockpile queue a0 as0
    pip0 hlen]
  dsimp only
  refine ⟨?_, ?_, ?_, ?_⟩
  · intro k s hs
    have hk : k < queue.length := by
      by_contra hge
      rw [List.getElem?_eq_none_iff.mpr (by
        rw [(b32_spendingLoop_length p queue 0 _).2]
        exact not_lt.mp hge)] at hs
      cases hs
    obtain ⟨-, hamounts, -⟩ := b32_spendingLoop_entry p queue
      (initialSpendingState available_pp available_stockpile) k queue[k]
      (List.getElem?_eq_getElem hk)
    rw [hamounts] at hs
    have hinv := b32_stateBeforeEntry_conservation p available_pp available_stockpile queue
      hpp hres k
    obtain ⟨hkres, hkg, -, -, -, -⟩ := hinv
    cases hskip : skipsElement (Binary32.stateBeforeEntry p queue
        (initialSpendingState available_pp available_stockpile) k) queue[k]
        (p.queue_element_resource_sharing_object_groups.getD k ∅)
        (p.is_producible.getD k false)
    · rw [b32_elementStep_fund _ _ _ _ _ hskip] at hs
      simp only [Option.some.injEq] at hs
      subst hs
      obtain ⟨-, -, hgd, -, -⟩ := b32_spendOnElement_fields p
        (Binary32.stateBeforeEntry p queue
          (initialSpendingState available_pp available_stockpile) k) queue[k]
        (p.queue_element_resource_sharing_object_groups.getD k ∅)
      obtain ⟨⟨-, hgd0, -⟩, -, hsd0, -⟩ := b32_drawdown_props p _ queue[k] _ (hkg _) hkres
      exact ⟨hgd, hgd0, hsd0, b32_allocation_split p _ queue[k] _ (hkg _) hkres⟩
    · rw [b32_elementStep_skip _ _ _ _ _ hskip] at hs
      simp at hs
  · intro g
    refine ⟨(hfa g).2, ?_⟩
    have := hfsum g
    linarith [(hfg g).2]
  · exact List.sum_nonneg (by
      intro x hx
      rw [List.mem_map] at hx
      obtain ⟨kv, hkv, rfl⟩ := hx
      exact (hfas kv hkv).2)
  · linarith [hfres.2]


theorem b32_StockpileCapacity_isF32 (m_empire_id : Int) (planets : List Planet) :
    isF32 (Binary32.StockpileCapacity m_empire_id planets) := by
  unfold Binary32.StockpileCapacity
  split_ifs
  · exact isF32_zero
  · generalize (planets.filter (fun p => decide (p.owner = m_empire_id))) = l
    have : ∀ acc : ℚ, isF32 acc → isF32 (l.foldl
        (fun retval obj =>
          match obj.stockpile_meter with
          | some current => roundF32 (retval + current)
          | none => retval) acc) := by
      induction l with
      | nil => intro acc h; exact h
      | cons pl rest ih =>
        intro acc h
        simp only [List.foldl_cons]
        apply ih
        cases pl.stockpile_meter with
        | none => exact h
        | some c => exact isF32_round _
    exact this 0 isF32_zero


theorem one_le_roundingFactor_pow (a : Nat) : 1 ≤ roundingFactor ^ a :=
  one_le_pow₀ one_le_roundingFactor

/-- The state after a pass over two entries. -/
theorem b32_spendingLoop_two (p : SpendingParams) (e1 e2 : Element) (st : SpendingState) :
    (Binary32.spendingLoop p 0 [e1, e2] st).1 =
      (Binary32.elementStep p
        (Binary32.elementStep p st e1 (p.queue_element_resource_sharing_object_groups.getD 0 ∅)
          (p.is_producible.getD 0 false)).1
        e2 (p.queue_element_resource_sharing_object_groups.getD 1 ∅)
        (p.is_producible.getD 1 false)).1 := rfl

/-- The transfer that the binary32 pass returns for the two stockpile-transfer entries with a
capacity of 1.4: one unit in the last place above the capacity. -/
theorem b32_transfer_value :
    (Binary32.spendingLoop roundingParams 0 [partTransferElement, pairTransferElement]
      (initialSpendingState [({1}, 1000)] 0)).1.stockpile_transfer = 2936013 / 2097152 := by
  have h1 : roundF32 (7 / 5) = 11744051 / 8388608 :=
    roundF32_of_near _ _ (0) (11744051) (by norm_num [le_abs]) (by norm_num [abs_lt])
      (by norm_num [abs_lt]) (by norm_num)
  have h2 : roundF32 (4 / 5) = 13421773 / 16777216 :=
    roundF32_of_near _ _ (-1) (13421773) (by norm_num [le_abs]) (by norm_num [abs_lt])
      (by norm_num [abs_lt]) (by norm_num)
  have h3 : roundF64 (1 / 100) = 5764607523034235 / 576460752303423488 :=
    roundF64_of_near _ _ (-7) (5764607523034235) (by norm_num [le_abs]) (by norm_num [abs_lt])
      (by norm_num [abs_lt]) (by norm_num)
  have h4 : roundF32 (1) = 1 :=
    roundF32_of_near _ _ (0) (8388608) (by norm_num [le_abs]) (by norm_num [abs_lt])
      (by norm_num [abs_lt]) (by norm_num)
  have h5 : roundF32 (13421773 / 16777216) = 13421773 / 16777216 :=
    roundF32_of_near _ _ (-1) (13421773) (by norm_num [le_abs]) (by norm_num [abs_lt])
      (by norm_num [abs_lt]) (by norm_num)
  have h6 : roundF32 (3355443 / 16777216) = 3355443 / 16777216 :=
    roundF32_of_near _ _ (-3) (13421772) (by norm_num [le_abs]) (by norm_num [abs_lt])
      (by norm_num [abs_lt]) (by norm_num)
  have h7 : roundF32 (1 / 1000) = 8589935 / 8589934592 :=
    roundF32_of_near _ _ (-10) (8589935) (by norm_num [le_abs]) (by norm_num [abs_lt])
      (by norm_num [abs_lt]) (by norm_num)
  have h8 : roundF32 (8589935 / 4294967296) = 8589935 / 4294967296 :=
    roundF32_of_near _ _ (-9) (8589935) (by norm_num [le_abs]) (by norm_num [abs_lt])
      (by norm_num [abs_lt]) (by norm_num)
  have h9 : roundF32 (4286377361 / 4294967296) = 8371831 / 8388608 :=
    roundF32_of_near _ _ (-1) (16743662) (by norm_num [le_abs]) (by norm_num [abs_lt])
      (by norm_num [abs_lt]) (by norm_num)
  have h10 : roundF32 (1000) = 1000 :=
    roundF32_of_near _ _ (9) (16384000) (by norm_num [le_abs]) (by norm_num [abs_lt])
      (by norm_num [abs_lt]) (by norm_num)
  have h11 : roundF32 (11744051 / 8388608) = 11744051 / 8388608 :=
    roundF32_of_near _ _ (0) (11744051) (by norm_num [le_abs]) (by norm_num [abs_lt])
      (by norm_num [abs_lt]) (by norm_num)
  have h12 : roundF32 (16773860557 / 16777216) = 16380723 / 16384 :=
    roundF32_of_near _ _ (9) (16380723) (by norm_num [le_abs]) (by norm_num [abs_lt])
      (by norm_num [abs_lt]) (by norm_num)
  have h13 : roundF32 (2) = 2 :=
    roundF32_of_near _ _ (1) (8388608) (by norm_num [le_abs]) (by norm_num [abs_lt])
      (by norm_num [abs_lt]) (by norm_num)
  have h14 : roundF32 (8581344657 / 4294967296) = 16760439 / 8388608 :=
    roundF32_of_near _ _ (0) (16760439) (by norm_num [le_abs]) (by norm_num [abs_lt])
      (by norm_num [abs_lt]) (by norm_num)
  have h15 : roundF32 (16380723 / 16384) = 16380723 / 16384 :=
    roundF32_of_near _ _ (9) (16380723) (by norm_num [le_abs]) (by norm_num [abs_lt])
      (by norm_num [abs_lt]) (by norm_num)
  have h16 : roundF32 (20132659 / 16777216) = 5033165 / 4194304 :=
    roundF32_of_tie _ _ (0) (10066329) (by norm_num [le_abs]) (by norm_num [abs_lt])
      (by norm_num) (by norm_num)
  have h17 : roundF32 (23488103 / 16777216) = 2936013 / 2097152 :=
    roundF32_of_tie _ _ (0) (11744051) (by norm_num [le_abs]) (by norm_num [abs_lt])
      (by norm_num) (by norm_num)
  have h18 : roundF32 (4188431923 / 4194304) = 8180531 / 8192 :=
    roundF32_of_near _ _ (9) (16361062) (by norm_num [le_abs]) (by norm_num [abs_lt])
      (by norm_num [abs_lt]) (by norm_num)
  have h19 : roundF32 (3355443 / 4194304) = 3355443 / 4194304 :=
    roundF32_of_near _ _ (-1) (13421772) (by norm_num [le_abs]) (by norm_num [abs_lt])
      (by norm_num [abs_lt]) (by norm_num)
  have h20 : roundF32 (5033165 / 8388608) = 5033165 / 8388608 :=
    roundF32_of_near _ _ (-1) (10066330) (by norm_num [le_abs]) (by norm_num [abs_lt])
      (by norm_num [abs_lt]) (by norm_num)

  have hc1 : lookupCostTime roundingParams partTransferElement = (1, 1) := by
    simp [lookupCostTime, costFind, costKeyEquiv, costKeyLt, ProductionItem.lt,
      ProductionItem.CostIsProductionLocationInvariant, BuildType.toInt, INVALID_OBJECT_ID,
      stockpileCosts, stockpileItem, sampleUniverse, partTransferElement, roundingParams]
  have hc2 : lookupCostTime roundingParams pairTransferElement = (1, 1) := by
    simp [lookupCostTime, costFind, costKeyEquiv, costKeyLt, ProductionItem.lt,
      ProductionItem.CostIsProductionLocationInvariant, BuildType.toInt, INVALID_OBJECT_ID,
      stockpileCosts, stockpileItem, sampleUniverse, pairTransferElement, roundingParams]
  have hl1 : Binary32.elementLimit roundingParams partTransferElement = 3355443 / 16777216 := by
    rw [Binary32.elementLimit, hc1]
    norm_num [Binary32.CalculateProductionPerTurnLimit, Binary32.EPSILON, partTransferElement,
      roundingParams, roundF32_zero, roundF64_zero, h1, h2, h3, h4, h5, h6, h7, h8, h9, h10, h11,
        h12, h13, h14, h15, h16, h17, h18, h19, h20]
  have hl2 : Binary32.elementLimit roundingParams pairTransferElement = 2 := by
    rw [Binary32.elementLimit, hc2]
    norm_num [Binary32.CalculateProductionPerTurnLimit, Binary32.EPSILON, pairTransferElement,
      roundingParams, roundF32_zero, roundF64_zero, h1, h2, h3, h4, h5, h6, h7, h8, h9, h10, h11,
        h12, h13, h14, h15, h16, h17, h18, h19, h20]
  have hs1 := b32_funded_step roundingParams (initialSpendingState [({1}, 1000)] 0)
    partTransferElement {1} true 1000 0 0 (3355443 / 16777216) (3355443 / 16777216)
    (3355443 / 16777216) 0
    (by norm_num [skipsElement, groupPPAvailable, mapFind, initialSpendingState,
      partTransferElement])
    (by simp [groupPPAvailable, mapFind, initialSpendingState])
    (by simp [reserveShare, partTransferElement]) rfl hl1
    (by norm_num [partTransferElement, stockpileItem, roundingParams, roundF32_zero, h1, h2, h3,
      h4, h5, h6, h7, h8, h9, h10, h11, h12, h13, h14, h15, h16, h17, h18, h19, h20])
    (by norm_num) (by norm_num [initialSpendingState])
  obtain ⟨-, -, -, -, ht1, hgr1, hav1, -, -⟩ := hs1
  have hs2 := b32_funded_step roundingParams
    (Binary32.elementStep roundingParams (initialSpendingState [({1}, 1000)] 0)
      partTransferElement {1} true).1
    pairTransferElement {1} true (16380723 / 16384) 0 (3355443 / 16777216) 2
    (5033165 / 4194304) (5033165 / 4194304) 0
    (by
      simp only [skipsElement, hgr1]
      norm_num [pairTransferElement, h1, h2, h3, h4, h5, h6, h7, h8, h9, h10, h11, h12, h13, h14,
        h15, h16, h17, h18, h19, h20])
    (by rw [hgr1]; norm_num [h1, h2, h3, h4, h5, h6, h7, h8, h9, h10, h11, h12, h13, h14, h15,
      h16, h17, h18, h19, h20])
    (by simp [reserveShare, pairTransferElement])
    (by rw [ht1]; norm_num [partTransferElement, stockpileItem, h1, h2, h3, h4, h5, h6, h7, h8,
      h9, h10, h11, h12, h13, h14, h15, h16, h17, h18, h19, h20]) hl2
    (by norm_num [pairTransferElement, stockpileItem, roundingParams, roundF32_zero, h1, h2, h3,
      h4, h5, h6, h7, h8, h9, h10, h11, h12, h13, h14, h15, h16, h17, h18, h19, h20])
    (by norm_num)
    (by rw [hav1]; norm_num [initialSpendingState])
  obtain ⟨-, -, -, -, ht2, -, -, -, -⟩ := hs2
  rw [b32_spendingLoop_two]
  have hg0 : roundingParams.queue_element_resource_sharing_object_groups.getD 0 ∅ = {1} := rfl
  have hg1 : roundingParams.queue_element_resource_sharing_object_groups.getD 1 ∅ = {1} := rfl
  have hp0 : roundingParams.is_producible.getD 0 false = true := rfl
  have hp1 : roundingParams.is_producible.getD 1 false = true := rfl
  rw [hg0, hg1, hp0, hp1]
  rw [ht2]
  norm_num [pairTransferElement, stockpileItem, h1, h2, h3, h4, h5, h6, h7, h8, h9, h10, h11, h12,
    h13, h14, h15, h16, h17, h18, h19, h20]

/-- The fields of the result of a binary32 pass on structurally consistent input, read off the
final state of the loop. -/
theorem b32_SetProdQueueElementSpending_fields (p : SpendingParams) (available_pp : GroupMap)
    (available_stockpile : ℚ) (queue : List Element) (a0 as0 : GroupMap) (pip0 : Int)
    (hlen : queue.length = p.queue_element_resource_sharing_object_groups.length) :
    (Binary32.SetProdQueueElementSpending p.rules available_pp available_stockpile
        p.stockpile_limit p.queue_element_resource_sharing_object_groups
        p.queue_item_costs_and_times p.is_producible queue a0 as0 pip0 p.simulating
        p.the_universe).retval =
      (Binary32.spendingLoop p 0 queue
        (initialSpendingState available_pp available_stockpile)).1.stockpile_transfer ∧
    (Binary32.SetProdQueueElementSpending p.rules available_pp available_stockpile
        p.stockpile_limit p.queue_element_resource_sharing_object_groups
        p.queue_item_costs_and_times p.is_producible queue a0 as0 pip0 p.simulating
        p.the_universe).allocated_pp =
      (Binary32.spendingLoop p 0 queue
        (initialSpendingState available_pp available_stockpile)).1.allocated_pp ∧
    (Binary32.SetProdQueueElementSpending p.rules available_pp available_stockpile
        p.stockpile_limit p.queue_element_resource_sharing_object_groups
        p.queue_item_costs_and_times p.is_producible queue a0 as0 pip0 p.simulating
        p.the_universe).allocated_stockpile_pp =
      (Binary32.spendingLoop p 0 queue
        (initialSpendingState available_pp available_stockpile)).1.allocated_stockpile_pp := by
  rw [b32_SetProdQueueElementSpending_eq_loop p available_pp available_stockpile queue a0 as0
    pip0 hlen]
  exact ⟨rfl, rfl, rfl⟩

/-- C9 fails in binary32: with import limiting enabled, the capacity the `float` nearest to 1.4
and 1000 available in the group, the pass over the two stockpile-transfer entries returns
`2936013 / 2097152`, one unit in the last place above the capacity `11744051 / 8388608`. -/
theorem C9_transfer_exceeds_capacity :
    roundingParams.rules.RULE_STOCKPILE_IMPORT_LIMITED = true ∧
      0 ≤ roundingParams.stockpile_limit ∧
      (∀ kv ∈ ([({1}, 1000)] : GroupMap), 0 ≤ kv.2) ∧
      ¬ (Binary32.SetProdQueueElementSpending roundingParams.rules [({1}, 1000)] 0
          roundingParams.stockpile_limit
          roundingParams.queue_element_resource_sharing_object_groups
          roundingParams.queue_item_costs_and_times roundingParams.is_producible
          [partTransferElement, pairTransferElement] [] [] 0 roundingParams.simulating
          roundingParams.the_universe).retval ≤ roundingParams.stockpile_limit := by
  have hcap : roundingParams.stockpile_limit = 11744051 / 8388608 := by
    simp only [roundingParams]
    exact roundF32_of_near _ _ 0 11744051 (by norm_num [le_abs]) (by norm_num [abs_lt])
      (by norm_num [abs_lt]) (by norm_num)
  have hpass := (b32_SetProdQueueElementSpending_fields roundingParams [({1}, 1000)] 0
    [partTransferElement, pairTransferElement] [] [] 0 (by simp [roundingParams])).1
  refine ⟨by simp only [roundingParams], ?_, ?_, ?_⟩
  · rw [hcap]
    norm_num
  · intro kv hkv
    simp only [List.mem_singleton] at hkv
    rw [hkv]
    norm_num
  · rw [hpass, b32_transfer_value, hcap]
    norm_num


/-- The state after a pass over three entries. -/
theorem b32_spendingLoop_three (p : SpendingParams) (e1 e2 e3 : Element) (st : SpendingState) :
    (Binary32.spendingLoop p 0 [e1, e2, e3] st).1 =
      (Binary32.elementStep p
        (Binary32.elementStep p
          (Binary32.elementStep p st e1
            (p.queue_element_resource_sharing_object_groups.getD 0 ∅)
            (p.is_producible.getD 0 false)).1
          e2 (p.queue_element_resource_sharing_object_groups.getD 1 ∅)
          (p.is_producible.getD 1 false)).1
        e3 (p.queue_element_resource_sharing_object_groups.getD 2 ∅)
        (p.is_producible.getD 2 false)).1 := rfl

/-- The binary32 per-turn limit of a fresh single-unit entry of cost 0.1 (the `float` nearest to
it) or of cost 1000, minimum build time 1, without smoothing allowances: its cost. -/
theorem b32_limit_fresh (rules : GameRules) (e : Element)
    (hf : rules.RULE_PRODUCTION_QUEUE_FRONTLOAD_FACTOR = 0)
    (ht : rules.RULE_PRODUCTION_QUEUE_TOPPING_UP_FACTOR = 0)
    (hb : e.blocksize = 1) (hr : e.remaining = 1) (hp : e.progress = 0) :
    Binary32.CalculateProductionPerTurnLimit rules e (13421773 / 134217728) 1 =
        13421773 / 134217728 ∧
      Binary32.CalculateProductionPerTurnLimit rules e 1000 1 = 1000 := by
  have h1 : roundF32 (2 / 5) = 13421773 / 33554432 :=
    roundF32_of_near _ _ (-2) (13421773) (by norm_num [le_abs]) (by norm_num [abs_lt])
      (by norm_num [abs_lt]) (by norm_num)
  have h2 : roundF32 (50) = 50 :=
    roundF32_of_near _ _ (5) (13107200) (by norm_num [le_abs]) (by norm_num [abs_lt])
      (by norm_num [abs_lt]) (by norm_num)
  have h3 : roundF32 (1 / 10) = 13421773 / 134217728 :=
    roundF32_of_near _ _ (-4) (13421773) (by norm_num [le_abs]) (by norm_num [abs_lt])
      (by norm_num [abs_lt]) (by norm_num)
  have h4 : roundF64 (1 / 100) = 5764607523034235 / 576460752303423488 :=
    roundF64_of_near _ _ (-7) (5764607523034235) (by norm_num [le_abs]) (by norm_num [abs_lt])
      (by norm_num [abs_lt]) (by norm_num)
  have h5 : roundF32 (1) = 1 :=
    roundF32_of_near _ _ (0) (8388608) (by norm_num [le_abs]) (by norm_num [abs_lt])
      (by norm_num [abs_lt]) (by norm_num)
  have h6 : roundF32 (13421773 / 134217728) = 13421773 / 134217728 :=
    roundF32_of_near _ _ (-4) (13421773) (by norm_num [le_abs]) (by norm_num [abs_lt])
      (by norm_num [abs_lt]) (by norm_num)
  have h7 : roundF32 (1 / 1000) = 8589935 / 8589934592 :=
    roundF32_of_near _ _ (-10) (8589935) (by norm_num [le_abs]) (by norm_num [abs_lt])
      (by norm_num [abs_lt]) (by norm_num)
  have h8 : roundF32 (8589935 / 4294967296) = 8589935 / 4294967296 :=
    roundF32_of_near _ _ (-9) (8589935) (by norm_num [le_abs]) (by norm_num [abs_lt])
      (by norm_num [abs_lt]) (by norm_num)
  have h9 : roundF32 (420906801 / 4294967296) = 6576669 / 67108864 :=
    roundF32_of_near _ _ (-4) (13153338) (by norm_num [le_abs]) (by norm_num [abs_lt])
      (by norm_num [abs_lt]) (by norm_num)
  have h10 : roundF32 (13421773 / 33554432) = 13421773 / 33554432 :=
    roundF32_of_near _ _ (-2) (13421773) (by norm_num [le_abs]) (by norm_num [abs_lt])
      (by norm_num [abs_lt]) (by norm_num)
  have h11 : roundF32 (40265319 / 134217728) = 5033165 / 16777216 :=
    roundF32_of_near _ _ (-2) (10066330) (by norm_num [le_abs]) (by norm_num [abs_lt])
      (by norm_num [abs_lt]) (by norm_num)
  have h12 : roundF32 (5033165 / 16777216) = 5033165 / 16777216 :=
    roundF32_of_near _ _ (-2) (10066330) (by norm_num [le_abs]) (by norm_num [abs_lt])
      (by norm_num [abs_lt]) (by norm_num)
  have h13 : roundF32 (13421773 / 67108864) = 13421773 / 67108864 :=
    roundF32_of_near _ _ (-3) (13421773) (by norm_num [le_abs]) (by norm_num [abs_lt])
      (by norm_num [abs_lt]) (by norm_num)
  have h14 : roundF32 (26843547 / 134217728) = 6710887 / 33554432 :=
    roundF32_of_tie _ _ (-3) (13421773) (by norm_num [le_abs]) (by norm_num [abs_lt])
      (by norm_num) (by norm_num)
  have h15 : roundF32 (1000) = 1000 :=
    roundF32_of_near _ _ (9) (16384000) (by norm_num [le_abs]) (by norm_num [abs_lt])
      (by norm_num [abs_lt]) (by norm_num)
  have h16 : roundF32 (4294958706065 / 4294967296) = 16383967 / 16384 :=
    roundF32_of_near _ _ (9) (16383967) (by norm_num [le_abs]) (by norm_num [abs_lt])
      (by norm_num [abs_lt]) (by norm_num)
  have h17 : roundF32 (6710887 / 33554432) = 6710887 / 33554432 :=
    roundF32_of_near _ _ (-3) (13421774) (by norm_num [le_abs]) (by norm_num [abs_lt])
      (by norm_num [abs_lt]) (by norm_num)
  have h18 : roundF32 (26843547 / 67108864) = 6710887 / 16777216 :=
    roundF32_of_tie _ _ (-2) (13421773) (by norm_num [le_abs]) (by norm_num [abs_lt])
      (by norm_num) (by norm_num)
  have h19 : roundF32 (33547721113 / 33554432) = 16380723 / 16384 :=
    roundF32_of_near _ _ (9) (16380723) (by norm_num [le_abs]) (by norm_num [abs_lt])
      (by norm_num [abs_lt]) (by norm_num)
  have h20 : roundF32 (6710887 / 33554432000) = 13743897 / 68719476736 :=
    roundF32_of_near _ _ (-13) (13743897) (by norm_num [le_abs]) (by norm_num [abs_lt])
      (by norm_num [abs_lt]) (by norm_num)
  have h21 : roundF32 (13743897 / 68719476736) = 13743897 / 68719476736 :=
    roundF32_of_near _ _ (-13) (13743897) (by norm_num [le_abs]) (by norm_num [abs_lt])
      (by norm_num [abs_lt]) (by norm_num)
  have h22 : roundF32 (6710887 / 16777216) = 6710887 / 16777216 :=
    roundF32_of_near _ _ (-2) (13421774) (by norm_num [le_abs]) (by norm_num [abs_lt])
      (by norm_num [abs_lt]) (by norm_num)
  have h23 : roundF32 (-(1 / 33554432)) = -(1 / 33554432) :=
    roundF32_of_near _ _ (-25) (-8388608) (by norm_num [le_abs]) (by norm_num [abs_lt])
      (by norm_num [abs_lt]) (by norm_num)
  constructor
  · norm_num [Binary32.CalculateProductionPerTurnLimit, Binary32.EPSILON, hf, ht, hb, hr, hp,
      roundF32_zero, roundF64_zero, h1, h2, h3, h4, h5, h6, h7, h8, h9, h10, h11, h12, h13, h14,
        h15, h16, h17, h18, h19, h20, h21, h22, h23]
  · norm_num [Binary32.CalculateProductionPerTurnLimit, Binary32.EPSILON, hf, ht, hb, hr, hp,
      roundF32_zero, roundF64_zero, h1, h2, h3, h4, h5, h6, h7, h8, h9, h10, h11, h12, h13, h14,
        h15, h16, h17, h18, h19, h20, h21, h22, h23]


/-- The binary32 pass over three reserve-eligible entries with per-turn limits 0.1, 0.1 (the
`float` nearest to it) and 1000, in a group with nothing available and with a reserve of 0.4
(the `float` nearest to it): nothing is transferred, nothing is drawn from the group, and the
reserve consumption recorded for the group is `6710887 / 16777216`. -/
theorem b32_reserve_pass (p : SpendingParams) (e1 e2 e3 : Element)
    (hg0 : p.queue_element_resource_sharing_object_groups.getD 0 ∅ = {1})
    (hg1 : p.queue_element_resource_sharing_object_groups.getD 1 ∅ = {1})
    (hg2 : p.queue_element_resource_sharing_object_groups.getD 2 ∅ = {1})
    (hp0 : p.is_producible.getD 0 false = true) (hp1 : p.is_producible.getD 1 false = true)
    (hp2 : p.is_producible.getD 2 false = true)
    (he1 : e1.paused = false ∧ e1.allowed_imperial_stockpile_use = true ∧
      e1.item.build_type ≠ BuildType.BT_STOCKPILE)
    (he2 : e2.paused = false ∧ e2.allowed_imperial_stockpile_use = true ∧
      e2.item.build_type ≠ BuildType.BT_STOCKPILE)
    (he3 : e3.paused = false ∧ e3.allowed_imperial_stockpile_use = true ∧
      e3.item.build_type ≠ BuildType.BT_STOCKPILE)
    (hl1 : Binary32.elementLimit p e1 = 13421773 / 134217728)
    (hl2 : Binary32.elementLimit p e2 = 13421773 / 134217728)
    (hl3 : Binary32.elementLimit p e3 = 1000) :
    (Binary32.spendingLoop p 0 [e1, e2, e3]
        (initialSpendingState [({1}, 0)] (13421773 / 33554432))).1.stockpile_transfer = 0 ∧
      (Binary32.spendingLoop p 0 [e1, e2, e3]
        (initialSpendingState [({1}, 0)] (13421773 / 33554432))).1.allocated_pp = [({1}, 0)] ∧
      (Binary32.spendingLoop p 0 [e1, e2, e3]
        (initialSpendingState [({1}, 0)] (13421773 / 33554432))).1.allocated_stockpile_pp =
        [({1}, 6710887 / 16777216)] := by
  have h1 : roundF32 (2 / 5) = 13421773 / 33554432 :=
    roundF32_of_near _ _ (-2) (13421773) (by norm_num [le_abs]) (by norm_num [abs_lt])
      (by norm_num [abs_lt]) (by norm_num)
  have h2 : roundF32 (50) = 50 :=
    roundF32_of_near _ _ (5) (13107200) (by norm_num [le_abs]) (by norm_num [abs_lt])
      (by norm_num [abs_lt]) (by norm_num)
  have h3 : roundF32 (1 / 10) = 13421773 / 134217728 :=
    roundF32_of_near _ _ (-4) (13421773) (by norm_num [le_abs]) (by norm_num [abs_lt])
      (by norm_num [abs_lt]) (by norm_num)
  have h4 : roundF64 (1 / 100) = 5764607523034235 / 576460752303423488 :=
    roundF64_of_near _ _ (-7) (5764607523034235) (by norm_num [le_abs]) (by norm_num [abs_lt])
      (by norm_num [abs_lt]) (by norm_num)
  have h5 : roundF32 (1) = 1 :=
    roundF32_of_near _ _ (0) (8388608) (by norm_num [le_abs]) (by norm_num [abs_lt])
      (by norm_num [abs_lt]) (by norm_num)
  have h6 : roundF32 (13421773 / 134217728) = 13421773 / 134217728 :=
    roundF32_of_near _ _ (-4) (13421773) (by norm_num [le_abs]) (by norm_num [abs_lt])
      (by norm_num [abs_lt]) (by norm_num)
  have h7 : roundF32 (1 / 1000) = 8589935 / 8589934592 :=
    roundF32_of_near _ _ (-10) (8589935) (by norm_num [le_abs]) (by norm_num [abs_lt])
      (by norm_num [abs_lt]) (by norm_num)
  have h8 : roundF32 (8589935 / 4294967296) = 8589935 / 4294967296 :=
    roundF32_of_near _ _ (-9) (8589935) (by norm_num [le_abs]) (by norm_num [abs_lt])
      (by norm_num [abs_lt]) (by norm_num)
  have h9 : roundF32 (420906801 / 4294967296) = 6576669 / 67108864 :=
    roundF32_of_near _ _ (-4) (13153338) (by norm_num [le_abs]) (by norm_num [abs_lt])
      (by norm_num [abs_lt]) (by norm_num)
  have h10 : roundF32 (13421773 / 33554432) = 13421773 / 33554432 :=
    roundF32_of_near _ _ (-2) (13421773) (by norm_num [le_abs]) (by norm_num [abs_lt])
      (by norm_num [abs_lt]) (by norm_num)
  have h11 : roundF32 (40265319 / 134217728) = 5033165 / 16777216 :=
    roundF32_of_near _ _ (-2) (10066330) (by norm_num [le_abs]) (by norm_num [abs_lt])
      (by norm_num [abs_lt]) (by norm_num)
  have h12 : roundF32 (5033165 / 16777216) = 5033165 / 16777216 :=
    roundF32_of_near _ _ (-2) (10066330) (by norm_num [le_abs]) (by norm_num [abs_lt])
      (by norm_num [abs_lt]) (by norm_num)
  have h13 : roundF32 (13421773 / 67108864) = 13421773 / 67108864 :=
    roundF32_of_near _ _ (-3) (13421773) (by norm_num [le_abs]) (by norm_num [abs_lt])
      (by norm_num [abs_lt]) (by norm_num)
  have h14 : roundF32 (26843547 / 134217728) = 6710887 / 33554432 :=
    roundF32_of_tie _ _ (-3) (13421773) (by norm_num [le_abs]) (by norm_num [abs_lt])
      (by norm_num) (by norm_num)
  have h15 : roundF32 (1000) = 1000 :=
    roundF32_of_near _ _ (9) (16384000) (by norm_num [le_abs]) (by norm_num [abs_lt])
      (by norm_num [abs_lt]) (by norm_num)
  have h16 : roundF32 (4294958706065 / 4294967296) = 16383967 / 16384 :=
    roundF32_of_near _ _ (9) (16383967) (by norm_num [le_abs]) (by norm_num [abs_lt])
      (by norm_num [abs_lt]) (by norm_num)
  have h17 : roundF32 (6710887 / 33554432) = 6710887 / 33554432 :=
    roundF32_of_near _ _ (-3) (13421774) (by norm_num [le_abs]) (by norm_num [abs_lt])
      (by norm_num [abs_lt]) (by norm_num)
  have h18 : roundF32 (26843547 / 67108864) = 6710887 / 16777216 :=
    roundF32_of_tie _ _ (-2) (13421773) (by norm_num [le_abs]) (by norm_num [abs_lt])
      (by norm_num) (by norm_num)
  have h19 : roundF32 (33547721113 / 33554432) = 16380723 / 16384 :=
    roundF32_of_near _ _ (9) (16380723) (by norm_num [le_abs]) (by norm_num [abs_lt])
      (by norm_num [abs_lt]) (by norm_num)
  have h20 : roundF32 (6710887 / 33554432000) = 13743897 / 68719476736 :=
    roundF32_of_near _ _ (-13) (13743897) (by norm_num [le_abs]) (by norm_num [abs_lt])
      (by norm_num [abs_lt]) (by norm_num)
  have h21 : roundF32 (13743897 / 68719476736) = 13743897 / 68719476736 :=
    roundF32_of_near _ _ (-13) (13743897) (by norm_num [le_abs]) (by norm_num [abs_lt])
      (by norm_num [abs_lt]) (by norm_num)
  have h22 : roundF32 (6710887 / 16777216) = 6710887 / 16777216 :=
    roundF32_of_near _ _ (-2) (13421774) (by norm_num [le_abs]) (by norm_num [abs_lt])
      (by norm_num [abs_lt]) (by norm_num)
  have h23 : roundF32 (-(1 / 33554432)) = -(1 / 33554432) :=
    roundF32_of_near _ _ (-25) (-8388608) (by norm_num [le_abs]) (by norm_num [abs_lt])
      (by norm_num [abs_lt]) (by norm_num)
  rw [b32_spendingLoop_three, hg0, hg1, hg2, hp0, hp1, hp2]
  have hs1 := b32_funded_step p (initialSpendingState [({1}, 0)] (13421773 / 33554432))
    e1 {1} true 0 (13421773 / 33554432) 0 (13421773 / 134217728) (13421773 / 134217728) 0
    (13421773 / 134217728)
    (by norm_num [skipsElement, groupPPAvailable, mapFind, initialSpendingState, he1.1, he1.2.1])
    (by simp [groupPPAvailable, mapFind, initialSpendingState])
    (by simp [reserveShare, he1.2.1, initialSpendingState]) rfl hl1
    (by
      rw [if_neg (fun h => he1.2.2 h.1)]
      norm_num [h1, h2, h3, h4, h5, h6, h7, h8, h9, h10, h11, h12, h13, h14, h15, h16, h17, h18,
        h19, h20, h21, h22, h23])
    (by norm_num)
    (by norm_num [initialSpendingState, h1, h2, h3, h4, h5, h6, h7, h8, h9, h10, h11, h12, h13,
      h14, h15, h16, h17, h18, h19, h20, h21, h22, h23])
  obtain ⟨-, -, -, -, ht1, hgr1, hav1, hal1, hsp1⟩ := hs1
  rw [if_neg he1.2.2] at ht1
  have hgr1b : groupPPAvailable (Binary32.elementStep p
      (initialSpendingState [({1}, 0)] (13421773 / 33554432)) e1 {1} true).1 {1} = 0 := by
    rw [hgr1]
    norm_num [roundF32_zero]
  have hav1b : (Binary32.elementStep p
      (initialSpendingState [({1}, 0)] (13421773 / 33554432)) e1 {1} true).1.available_stockpile
      = 5033165 / 16777216 := by
    rw [hav1]
    norm_num [initialSpendingState, h1, h2, h3, h4, h5, h6, h7, h8, h9, h10, h11, h12, h13, h14,
      h15, h16, h17, h18, h19, h20, h21, h22, h23]
  have hal1b : (Binary32.elementStep p
      (initialSpendingState [({1}, 0)] (13421773 / 33554432)) e1 {1} true).1.allocated_pp
      = [({1}, 0)] := by
    rw [hal1]
    norm_num [initialSpendingState, Binary32.mapAdd, roundF32_zero]
  have hsp1b : (Binary32.elementStep p
      (initialSpendingState [({1}, 0)] (13421773 / 33554432)) e1 {1}
        true).1.allocated_stockpile_pp = [({1}, 13421773 / 134217728)] := by
    rw [hsp1]
    norm_num [initialSpendingState, Binary32.mapAdd, h1, h2, h3, h4, h5, h6, h7, h8, h9, h10, h11,
      h12, h13, h14, h15, h16, h17, h18, h19, h20, h21, h22, h23]
  have hs2 := b32_funded_step p
    (Binary32.elementStep p (initialSpendingState [({1}, 0)] (13421773 / 33554432)) e1 {1}
      true).1
    e2 {1} true 0 (5033165 / 16777216) 0 (13421773 / 134217728) (13421773 / 134217728) 0
    (13421773 / 134217728)
    (by
      simp only [skipsElement, hgr1b, hav1b, he2.1, he2.2.1]
      norm_num)
    hgr1b
    (by simp [reserveShare, he2.2.1, hav1b]) ht1 hl2
    (by
      rw [if_neg (fun h => he2.2.2 h.1)]
      norm_num [h1, h2, h3, h4, h5, h6, h7, h8, h9, h10, h11, h12, h13, h14, h15, h16, h17, h18,
        h19, h20, h21, h22, h23])
    (by norm_num)
    (by rw [hav1b]; norm_num [h1, h2, h3, h4, h5, h6, h7, h8, h9, h10, h11, h12, h13, h14, h15,
      h16, h17, h18, h19, h20, h21, h22, h23])
  obtain ⟨-, -, -, -, ht2, hgr2, hav2, hal2, hsp2⟩ := hs2
  rw [if_neg he2.2.2] at ht2
  have hgr2b : groupPPAvailable (Binary32.elementStep p (Binary32.elementStep p
      (initialSpendingState [({1}, 0)] (13421773 / 33554432)) e1 {1} true).1 e2 {1} true).1
      {1} = 0 := by
    rw [hgr2]
    norm_num [roundF32_zero]
  have hav2b : (Binary32.elementStep p (Binary32.elementStep p
      (initialSpendingState [({1}, 0)] (13421773 / 33554432)) e1 {1} true).1 e2 {1}
        true).1.available_stockpile = 6710887 / 33554432 := by
    rw [hav2, hav1b]
    norm_num [h1, h2, h3, h4, h5, h6, h7, h8, h9, h10, h11, h12, h13, h14, h15, h16, h17, h18,
      h19, h20, h21, h22, h23]
  have hal2b : (Binary32.elementStep p (Binary32.elementStep p
      (initialSpendingState [({1}, 0)] (13421773 / 33554432)) e1 {1} true).1 e2 {1}
        true).1.allocated_pp = [({1}, 0)] := by
    rw [hal2, hal1b]
    norm_num [Binary32.mapAdd, roundF32_zero]
  have hsp2b : (Binary32.elementStep p (Binary32.elementStep p
      (initialSpendingState [({1}, 0)] (13421773 / 33554432)) e1 {1} true).1 e2 {1}
        true).1.allocated_stockpile_pp = [({1}, 13421773 / 67108864)] := by
    rw [hsp2, hsp1b]
    norm_num [Binary32.mapAdd, h1, h2, h3, h4, h5, h6, h7, h8, h9, h10, h11, h12, h13, h14, h15,
      h16, h17, h18, h19, h20, h21, h22, h23]
  have hs3 := b32_funded_step p
    (Binary32.elementStep p (Binary32.elementStep p
      (initialSpendingState [({1}, 0)] (13421773 / 33554432)) e1 {1} true).1 e2 {1} true).1
    e3 {1} true 0 (6710887 / 33554432) 0 1000 (6710887 / 33554432) 0 (6710887 / 33554432)
    (by
      simp only [skipsElement, hgr2b, hav2b, he3.1, he3.2.1]
      norm_num)
    hgr2b
    (by simp [reserveShare, he3.2.1, hav2b]) ht2 hl3
    (by
      rw [if_neg (fun h => he3.2.2 h.1)]
      norm_num [h1, h2, h3, h4, h5, h6, h7, h8, h9, h10, h11, h12, h13, h14, h15, h16, h17, h18,
        h19, h20, h21, h22, h23])
    (by norm_num)
    (by rw [hav2b]; norm_num [h1, h2, h3, h4, h5, h6, h7, h8, h9, h10, h11, h12, h13, h14, h15,
      h16, h17, h18, h19, h20, h21, h22, h23])
  obtain ⟨-, -, -, -, ht3, -, -, hal3, hsp3⟩ := hs3
  rw [if_neg he3.2.2] at ht3
  refine ⟨ht3, ?_, ?_⟩
  · rw [hal3, hal2b]
    norm_num [Binary32.mapAdd, roundF32_zero]
  · rw [hsp3, hsp2b]
    norm_num [Binary32.mapAdd, h1, h2, h3, h4, h5, h6, h7, h8, h9, h10, h11, h12, h13, h14, h15,
      h16, h17, h18, h19, h20, h21, h22, h23]


theorem roundF32_two_fifths : roundF32 (2 / 5) = 13421773 / 33554432 :=
  roundF32_of_near _ _ (-2) 13421773 (by norm_num [le_abs]) (by norm_num [abs_lt])
    (by norm_num [abs_lt]) (by norm_num)

theorem roundF32_tenth : roundF32 (1 / 10) = 13421773 / 134217728 :=
  roundF32_of_near _ _ (-4) 13421773 (by norm_num [le_abs]) (by norm_num [abs_lt])
    (by norm_num [abs_lt]) (by norm_num)

/-- The per-turn limits of the three entries in the pass with the rounding parameters. -/
theorem b32_reserveRounding_limits :
    Binary32.elementLimit reserveRoundingParams smallElementOne = 13421773 / 134217728 ∧
      Binary32.elementLimit reserveRoundingParams smallElementTwo = 13421773 / 134217728 ∧
      Binary32.elementLimit reserveRoundingParams largeElement = 1000 := by
  have hc1 : lookupCostTime reserveRoundingParams smallElementOne =
      (roundF32 (1 / 10), 1) := by
    simp [lookupCostTime, costFind, costKeyEquiv, costKeyLt, ProductionItem.lt,
      ProductionItem.CostIsProductionLocationInvariant, BuildType.toInt, INVALID_OBJECT_ID,
      reserveRoundingParams, roundingUniverse, smallElementOne, sampleItem, shipItem]
  have hc2 : lookupCostTime reserveRoundingParams smallElementTwo =
      (roundF32 (1 / 10), 1) := by
    simp [lookupCostTime, costFind, costKeyEquiv, costKeyLt, ProductionItem.lt,
      ProductionItem.CostIsProductionLocationInvariant, BuildType.toInt, INVALID_OBJECT_ID,
      reserveRoundingParams, roundingUniverse, smallElementOne, smallElementTwo, sampleItem,
      shipItem]
  have hc3 : lookupCostTime reserveRoundingParams largeElement = (1000, 1) := by
    simp [lookupCostTime, costFind, costKeyEquiv, costKeyLt, ProductionItem.lt,
      ProductionItem.CostIsProductionLocationInvariant, BuildType.toInt, INVALID_OBJECT_ID,
      reserveRoundingParams, roundingUniverse, smallElementOne, largeElement, sampleItem,
      shipItem]
  refine ⟨?_, ?_, ?_⟩
  · rw [Binary32.elementLimit, hc1, roundF32_tenth]
    exact (b32_limit_fresh _ _ rfl rfl rfl rfl rfl).1
  · rw [Binary32.elementLimit, hc2, roundF32_tenth]
    exact (b32_limit_fresh _ _ rfl rfl rfl rfl rfl).1
  · rw [Binary32.elementLimit, hc3]
    exact (b32_limit_fresh _ _ rfl rfl rfl rfl rfl).2

/-- C30 fails in binary32: in a group with nothing available and with a reserve of 0.4 (the
`float` `13421773 / 33554432`), the pass over three reserve-eligible entries of cost 0.1, 0.1
and 1000 records a reserve consumption of `6710887 / 16777216`, one unit in the last place above
the initial reserve availability. -/
theorem C30_reserve_consumption_exceeds :
    (∀ kv ∈ ([({1}, 0)] : GroupMap), 0 ≤ kv.2) ∧ 0 ≤ roundF32 (2 / 5) ∧
      ¬ ((Binary32.SetProdQueueElementSpending reserveRoundingParams.rules [({1}, 0)]
          (roundF32 (2 / 5)) reserveRoundingParams.stockpile_limit
          reserveRoundingParams.queue_element_resource_sharing_object_groups
          reserveRoundingParams.queue_item_costs_and_times reserveRoundingParams.is_producible
          [smallElementOne, smallElementTwo, largeElement] [] [] 0
          reserveRoundingParams.simulating
          reserveRoundingParams.the_universe).allocated_stockpile_pp.map Prod.snd).sum ≤
        roundF32 (2 / 5) := by
  obtain ⟨hl1, hl2, hl3⟩ := b32_reserveRounding_limits
  have hpass := b32_reserve_pass reserveRoundingParams smallElementOne smallElementTwo
    largeElement rfl rfl rfl rfl rfl rfl ⟨rfl, rfl, by decide⟩ ⟨rfl, rfl, by decide⟩
    ⟨rfl, rfl, by decide⟩ hl1 hl2 hl3
  have hfields := (b32_SetProdQueueElementSpending_fields reserveRoundingParams [({1}, 0)]
    (13421773 / 33554432) [smallElementOne, smallElementTwo, largeElement] [] [] 0
    (by simp [reserveRoundingParams])).2.2
  rw [roundF32_two_fifths]
  refine ⟨?_, by norm_num, ?_⟩
  · intro kv hkv
    simp only [List.mem_singleton] at hkv
    rw [hkv]
  · rw [hfields, hpass.2.2]
    norm_num

/-- Witness of the amended C30: the reserve-eligible sample entry with nothing in its group and
5 in the reserve. -/
theorem C30_drawdown_conservation_rounded_witness :
    (∀ (k : Nat) (s : ElementSpending),
      (Binary32.spendingLoop sampleParams 0 reserveQueue
        (initialSpendingState [({1}, 0)] 5)).2.2[k]? = some (some s) →
      s.group_drawdown = min s.allocation
        (groupPPAvailable
          (Binary32.stateBeforeEntry sampleParams reserveQueue
            (initialSpendingState [({1}, 0)] 5) k)
          (sampleParams.queue_element_resource_sharing_object_groups.getD k ∅)) ∧
      0 ≤ s.group_drawdown ∧ 0 ≤ s.stockpile_drawdown ∧
      |s.allocation - (s.group_drawdown + s.stockpile_drawdown)| ≤ s.allocation / 2 ^ 23) ∧
    (∀ g : ObjectGroup,
      0 ≤ (mapFind (Binary32.SetProdQueueElementSpending sampleParams.rules [({1}, 0)] 5
        sampleParams.stockpile_limit sampleParams.queue_element_resource_sharing_object_groups
        sampleParams.queue_item_costs_and_times sampleParams.is_producible reserveQueue [] [] 0
        sampleParams.simulating sampleParams.the_universe).allocated_pp g).getD 0 ∧
      (mapFind (Binary32.SetProdQueueElementSpending sampleParams.rules [({1}, 0)] 5
        sampleParams.stockpile_limit sampleParams.queue_element_resource_sharing_object_groups
        sampleParams.queue_item_costs_and_times sampleParams.is_producible reserveQueue [] [] 0
        sampleParams.simulating sampleParams.the_universe).allocated_pp g).getD 0 ≤
          (mapFind [({1}, 0)] g).getD 0 * roundingFactor ^ reserveQueue.length) ∧
    0 ≤ ((Binary32.SetProdQueueElementSpending sampleParams.rules [({1}, 0)] 5
        sampleParams.stockpile_limit sampleParams.queue_element_resource_sharing_object_groups
        sampleParams.queue_item_costs_and_times sampleParams.is_producible reserveQueue [] [] 0
        sampleParams.simulating sampleParams.the_universe).allocated_stockpile_pp.map
          Prod.snd).sum ∧
    ((Binary32.SetProdQueueElementSpending sampleParams.rules [({1}, 0)] 5
        sampleParams.stockpile_limit sampleParams.queue_element_resource_sharing_object_groups
        sampleParams.queue_item_costs_and_times sampleParams.is_producible reserveQueue [] [] 0
        sampleParams.simulating sampleParams.the_universe).allocated_stockpile_pp.map
          Prod.snd).sum ≤ 5 * roundingFactor ^ reserveQueue.length :=
  C30_drawdown_conservation_rounded sampleParams [({1}, 0)] 5 reserveQueue [] [] 0 rfl
    (by
      intro kv hkv
      rw [List.mem_singleton] at hkv
      rw [hkv]
      exact ⟨isF32_zero, le_refl _⟩)
    ⟨isF32_five, by norm_num⟩


theorem b32_addGroupExcess_eq (allocated_pp : GroupMap) (acc : ℚ) (g : ObjectGroup × ℚ) :
    Binary32.addGroupExcess allocated_pp acc g =
      if roundF32 (g.2 - (mapFind allocated_pp g.1).getD 0) < Binary32.EPSILON then acc
      else roundF32 (acc + roundF32 (g.2 - (mapFind allocated_pp g.1).getD 0)) := by
  unfold Binary32.addGroupExcess
  cases mapFind allocated_pp g.1 <;> rfl

/-- The loop over `available_pp` in the binary32 `CalculateNewStockpile` accumulates the sum of
the group excesses. -/
theorem b32_foldl_addGroupExcess (allocated_pp : GroupMap) (available_pp : GroupMap) :
    ∀ acc : ℚ, available_pp.foldl (Binary32.addGroupExcess allocated_pp) acc =
      ((available_pp.map (fun g => roundF32 (g.2 - (mapFind allocated_pp g.1).getD 0))).filter
        (fun x => decide (Binary32.EPSILON ≤ x))).foldl (fun acc x => roundF32 (acc + x))
          acc := by
  induction available_pp with
  | nil => intro acc; rfl
  | cons g rest ih =>
    intro acc
    simp only [List.foldl_cons, List.map_cons, ih]
    rw [b32_addGroupExcess_eq]
    by_cases h : roundF32 (g.2 - (mapFind allocated_pp g.1).getD 0) < Binary32.EPSILON
    · rw [if_pos h, List.filter_cons_of_neg (by simpa using h)]
    · rw [if_neg h, List.filter_cons_of_pos (by simpa using h), List.foldl_cons]

theorem b32_excessSum_isF32 (available consumed : GroupMap) :
    isF32 (Binary32.excessSum available consumed) := by
  unfold Binary32.excessSum
  generalize ((available.map (fun g => roundF32 (g.2 - (mapFind consumed g.1).getD 0))).filter
    (fun x => decide (Binary32.EPSILON ≤ x))) = l
  have h : ∀ acc : ℚ, isF32 acc → isF32 (l.foldl (fun acc x => roundF32 (acc + x)) acc) := by
    induction l with
    | nil => intro acc hacc; exact hacc
    | cons x rest ih =>
      intro acc _
      simp only [List.foldl_cons]
      exact ih _ (isF32_round _)
  exact h 0 isF32_zero

/-- The value that the binary32 `CalculateNewStockpile` returns for a resolvable empire, and
the bound on the contributions plus the direct transfer when import limiting is enabled. -/
theorem b32_new_stockpile_formula (rules : GameRules) (empire_id : Int)
    (starting_stockpile project_transfer_to_stockpile : ℚ)
    (available_pp allocated_pp allocated_stockpile_pp : GroupMap) (context : ScriptingContext)
    (empire : Empire) (hempire : context.GetEmpire empire_id = some empire) :
    Binary32.CalculateNewStockpile rules empire_id starting_stockpile
        project_transfer_to_stockpile available_pp allocated_pp allocated_stockpile_pp context =
      roundF32 (roundF32 (roundF32 (starting_stockpile +
        Binary32.contributionsReference rules.RULE_STOCKPILE_IMPORT_LIMITED
          (Binary32.StockpileCapacity empire.production_queue_empire_id context.planets)
          project_transfer_to_stockpile available_pp allocated_pp) +
        project_transfer_to_stockpile) - Binary32.mapSum allocated_stockpile_pp) ∧
    (rules.RULE_STOCKPILE_IMPORT_LIMITED = true → isF32 project_transfer_to_stockpile →
      Binary32.contributionsReference rules.RULE_STOCKPILE_IMPORT_LIMITED
          (Binary32.StockpileCapacity empire.production_queue_empire_id context.planets)
          project_transfer_to_stockpile available_pp allocated_pp +
        project_transfer_to_stockpile ≤
        Binary32.StockpileCapacity empire.production_queue_empire_id context.planets +
          max |Binary32.StockpileCapacity empire.production_queue_empire_id context.planets -
              project_transfer_to_stockpile|
            |Binary32.contributionsReference rules.RULE_STOCKPILE_IMPORT_LIMITED
              (Binary32.StockpileCapacity empire.production_queue_empire_id context.planets)
              project_transfer_to_stockpile available_pp allocated_pp +
              project_transfer_to_stockpile| / 2 ^ 24) := by
  have hLF := b32_StockpileCapacity_isF32 empire.production_queue_empire_id context.planets
  constructor
  · simp only [Binary32.CalculateNewStockpile, hempire, b32_foldl_addGroupExcess, gt_iff_lt,
      Binary32.contributionsReference, Binary32.excessSum]
    by_cases hlim : rules.RULE_STOCKPILE_IMPORT_LIMITED = true
    · by_cases hover :
          Binary32.StockpileCapacity empire.production_queue_empire_id context.planets <
          roundF32 (((available_pp.map
            (fun g => roundF32 (g.2 - (mapFind allocated_pp g.1).getD 0))).filter
            (fun x => decide (Binary32.EPSILON ≤ x))).foldl (fun acc x => roundF32 (acc + x)) 0 +
              project_transfer_to_stockpile)
      · rw [if_pos ⟨hover, hlim⟩, if_pos ⟨hlim, hover⟩]
      · rw [if_neg (fun h => hover h.1), if_neg (fun h => hover h.2)]
    · rw [if_neg (fun h => hlim h.2), if_neg (fun h => hlim h.1)]
  · intro hlim ht
    have h24 : (0 : ℚ) < 2 ^ 24 := by positivity
    unfold Binary32.contributionsReference
    by_cases hover :
        Binary32.StockpileCapacity empire.production_queue_empire_id context.planets <
        roundF32 (Binary32.excessSum available_pp allocated_pp + project_transfer_to_stockpile)
    · rw [if_pos ⟨hlim, hover⟩]
      have herr := roundF32_sub_err _ _ hLF ht
      rw [abs_le] at herr
      have hmax := le_max_left
        |Binary32.StockpileCapacity empire.production_queue_empire_id context.planets -
          project_transfer_to_stockpile|
        |roundF32 (Binary32.StockpileCapacity empire.production_queue_empire_id
          context.planets - project_transfer_to_stockpile) + project_transfer_to_stockpile|
      have := div_le_div_of_nonneg_right hmax h24.le
      linarith [herr.2]
    · rw [if_neg (fun h => hover h.2)]
      have hle := not_lt.mp hover
      have herr := roundF32_add_err _ _ (b32_excessSum_isF32 available_pp allocated_pp) ht
      rw [abs_le] at herr
      have hmax := le_max_right
        |Binary32.StockpileCapacity empire.production_queue_empire_id context.planets -
          project_transfer_to_stockpile|
        |Binary32.excessSum available_pp allocated_pp + project_transfer_to_stockpile|
      have := div_le_div_of_nonneg_right hmax h24.le
      linarith [herr.1]

/-- C8 (amended): for a resolvable empire, the binary32 `CalculateNewStockpile` returns
`startingLevel + C + directTransfer − used` with every operation rounded to `float`, where
`used` is the sum of all per-group reserve consumption accumulated in `float` and `C` is the sum
accumulated in `float`, over every group of the availability map, of the `float`
`available − consumed` for the groups where that excess is at least `ε` (`consumed` taken as 0
for a group absent from the consumption map), except that when import limiting is enabled and
the `float` of that sum plus `directTransfer` exceeds the reserve capacity, `C` is the `float`
`capacity − directTransfer`; hence with import limiting enabled and `directTransfer` a `float`,
`C + directTransfer` exceeds the capacity by at most one rounding:
`C + directTransfer ≤ capacity + max(|capacity − directTransfer|, |C + directTransfer|) × 2⁻²⁴`. -/
theorem C8_new_stockpile_rounded (rules : GameRules) (empire_id : Int)
    (starting_stockpile project_transfer_to_stockpile : ℚ)
    (available_pp allocated_pp allocated_stockpile_pp : GroupMap) (context : ScriptingContext)
    (empire : Empire) (hempire : context.GetEmpire empire_id = some empire) :
    Binary32.CalculateNewStockpile rules empire_id starting_stockpile
        project_transfer_to_stockpile available_pp allocated_pp allocated_stockpile_pp context =
      roundF32 (roundF32 (roundF32 (starting_stockpile +
        Binary32.contributionsReference rules.RULE_STOCKPILE_IMPORT_LIMITED
          (Binary32.StockpileCapacity empire.production_queue_empire_id context.planets)
          project_transfer_to_stockpile available_pp allocated_pp) +
        project_transfer_to_stockpile) - Binary32.mapSum allocated_stockpile_pp) ∧
    (rules.RULE_STOCKPILE_IMPORT_LIMITED = true → isF32 project_transfer_to_stockpile →
      Binary32.contributionsReference rules.RULE_STOCKPILE_IMPORT_LIMITED
          (Binary32.StockpileCapacity empire.production_queue_empire_id context.planets)
          project_transfer_to_stockpile available_pp allocated_pp +
        project_transfer_to_stockpile ≤
        Binary32.StockpileCapacity empire.production_queue_empire_id context.planets +
          max |Binary32.StockpileCapacity empire.production_queue_empire_id context.planets -
              project_transfer_to_stockpile|
            |Binary32.contributionsReference rules.RULE_STOCKPILE_IMPORT_LIMITED
              (Binary32.StockpileCapacity empire.production_queue_empire_id context.planets)
              project_transfer_to_stockpile available_pp allocated_pp +
              project_transfer_to_stockpile| / 2 ^ 24) :=
  b32_new_stockpile_formula rules empire_id starting_stockpile project_transfer_to_stockpile
    available_pp allocated_pp allocated_stockpile_pp context empire hempire

theorem isF32_one : isF32 1 :=
  roundF32_of_near _ _ 0 8388608 (by norm_num [le_abs]) (by norm_num [abs_lt])
    (by norm_num [abs_lt]) (by norm_num)

/-- Witness of the amended C8: an empire with a reserve capacity of 5, one group with 10
available of which 3 were consumed, import limiting enabled. -/
theorem C8_new_stockpile_rounded_witness :
    Binary32.CalculateNewStockpile { RULE_STOCKPILE_IMPORT_LIMITED := true } 0 2 1
        [({1}, 10)] [({1}, 3)] [({1}, 1)] sampleContext =
      roundF32 (roundF32 (roundF32 (2 +
        Binary32.contributionsReference true
          (Binary32.StockpileCapacity sampleEmpire.production_queue_empire_id
            sampleContext.planets)
          1 [({1}, 10)] [({1}, 3)]) + 1) - Binary32.mapSum [({1}, 1)]) ∧
    ((true : Bool) = true → isF32 1 →
      Binary32.contributionsReference true
          (Binary32.StockpileCapacity sampleEmpire.production_queue_empire_id
            sampleContext.planets)
          1 [({1}, 10)] [({1}, 3)] + 1 ≤
        Binary32.StockpileCapacity sampleEmpire.production_queue_empire_id
            sampleContext.planets +
          max |Binary32.StockpileCapacity sampleEmpire.production_queue_empire_id
              sampleContext.planets - 1|
            |Binary32.contributionsReference true
              (Binary32.StockpileCapacity sampleEmpire.production_queue_empire_id
                sampleContext.planets)
              1 [({1}, 10)] [({1}, 3)] + 1| / 2 ^ 24) :=
  C8_new_stockpile_rounded { RULE_STOCKPILE_IMPORT_LIMITED := true } 0 2 1
    [({1}, 10)] [({1}, 3)] [({1}, 1)] sampleContext sampleEmpire rfl

/-- C8 fails in binary32: with import limiting enabled, a capacity of 1.4 (the `float`
`11744051 / 8388608`), a direct transfer of `3355443 / 16777216` (a `float`) and 1000 unspent in
the only group, the sum of the excesses plus the transfer exceeds the capacity and `C` is
replaced by the `float` of `capacity − directTransfer`, `5033165 / 4194304`; the value returned
is `2936013 / 2097152`, not the `startingLevel + C + directTransfer − used` of the claim (the
capacity), and `C + directTransfer` is more than the capacity. -/
theorem C8_contributions_exceed_capacity :
    capacityContext.GetEmpire 0 = some sampleEmpire ∧
      Binary32.StockpileCapacity sampleEmpire.production_queue_empire_id
        capacityContext.planets = 11744051 / 8388608 ∧
      contributionsReference true (11744051 / 8388608) (3355443 / 16777216) [({1}, 1000)] [] =
        11744051 / 8388608 - 3355443 / 16777216 ∧
      Binary32.CalculateNewStockpile { RULE_STOCKPILE_IMPORT_LIMITED := true } 0 0
        (3355443 / 16777216) [({1}, 1000)] [] [] capacityContext ≠
        0 + contributionsReference true (11744051 / 8388608) (3355443 / 16777216)
          [({1}, 1000)] [] + 3355443 / 16777216 - (([] : GroupMap).map Prod.snd).sum ∧
      ¬ Binary32.contributionsReference true (11744051 / 8388608) (3355443 / 16777216)
          [({1}, 1000)] [] + 3355443 / 16777216 ≤ 11744051 / 8388608 := by
  have h1 : roundF32 (7 / 5) = 11744051 / 8388608 :=
    roundF32_of_near _ _ (0) (11744051) (by norm_num [le_abs]) (by norm_num [abs_lt])
      (by norm_num [abs_lt]) (by norm_num)
  have h2 : roundF32 (11744051 / 8388608) = 11744051 / 8388608 :=
    roundF32_of_near _ _ (0) (11744051) (by norm_num [le_abs]) (by norm_num [abs_lt])
      (by norm_num [abs_lt]) (by norm_num)
  have h3 : roundF32 (4 / 5) = 13421773 / 16777216 :=
    roundF32_of_near _ _ (-1) (13421773) (by norm_num [le_abs]) (by norm_num [abs_lt])
      (by norm_num [abs_lt]) (by norm_num)
  have h4 : roundF32 (3355443 / 16777216) = 3355443 / 16777216 :=
    roundF32_of_near _ _ (-3) (13421772) (by norm_num [le_abs]) (by norm_num [abs_lt])
      (by norm_num [abs_lt]) (by norm_num)
  have h5 : roundF32 (1000) = 1000 :=
    roundF32_of_near _ _ (9) (16384000) (by norm_num [le_abs]) (by norm_num [abs_lt])
      (by norm_num [abs_lt]) (by norm_num)
  have h6 : roundF32 (1 / 1000) = 8589935 / 8589934592 :=
    roundF32_of_near _ _ (-10) (8589935) (by norm_num [le_abs]) (by norm_num [abs_lt])
      (by norm_num [abs_lt]) (by norm_num)
  have h7 : roundF32 (20132659 / 16777216) = 5033165 / 4194304 :=
    roundF32_of_tie _ _ (0) (10066329) (by norm_num [le_abs]) (by norm_num [abs_lt])
      (by norm_num) (by norm_num)
  have h8 : roundF32 (16780571443 / 16777216) = 16387277 / 16384 :=
    roundF32_of_near _ _ (9) (16387277) (by norm_num [le_abs]) (by norm_num [abs_lt])
      (by norm_num [abs_lt]) (by norm_num)
  have h9 : roundF32 (5033165 / 4194304) = 5033165 / 4194304 :=
    roundF32_of_near _ _ (0) (10066330) (by norm_num [le_abs]) (by norm_num [abs_lt])
      (by norm_num [abs_lt]) (by norm_num)
  have h10 : roundF32 (23488103 / 16777216) = 2936013 / 2097152 :=
    roundF32_of_tie _ _ (0) (11744051) (by norm_num [le_abs]) (by norm_num [abs_lt])
      (by norm_num) (by norm_num)
  have h11 : roundF32 (2936013 / 2097152) = 2936013 / 2097152 :=
    roundF32_of_near _ _ (0) (11744052) (by norm_num [le_abs]) (by norm_num [abs_lt])
      (by norm_num [abs_lt]) (by norm_num)
  have hcap : Binary32.StockpileCapacity sampleEmpire.production_queue_empire_id
      capacityContext.planets = 11744051 / 8388608 := by
    norm_num +decide [Binary32.StockpileCapacity, sampleEmpire, capacityContext, ALL_EMPIRES,
      h1, h2, h3, h4, h5, h6, h7, h8, h9, h10, h11]
  have hexact : contributionsReference true (11744051 / 8388608) (3355443 / 16777216)
      [({1}, 1000)] [] = 11744051 / 8388608 - 3355443 / 16777216 := by
    norm_num [contributionsReference, excessSum, mapFind, EPSILON]
  have hC : Binary32.contributionsReference true (11744051 / 8388608) (3355443 / 16777216)
      [({1}, 1000)] [] = 5033165 / 4194304 := by
    norm_num [Binary32.contributionsReference, Binary32.excessSum, mapFind, Binary32.EPSILON,
      h1, h2, h3, h4, h5, h6, h7, h8, h9, h10, h11]
  have hval : Binary32.CalculateNewStockpile { RULE_STOCKPILE_IMPORT_LIMITED := true } 0 0
      (3355443 / 16777216) [({1}, 1000)] [] [] capacityContext = 2936013 / 2097152 := by
    rw [(b32_new_stockpile_formula { RULE_STOCKPILE_IMPORT_LIMITED := true } 0 0
      (3355443 / 16777216) [({1}, 1000)] [] [] capacityContext sampleEmpire rfl).1, hcap]
    simp only []
    rw [hC]
    norm_num [Binary32.mapSum, roundF32_zero, h1, h2, h3, h4, h5, h6, h7, h8, h9, h10, h11]
  refine ⟨rfl, hcap, hexact, ?_, ?_⟩
  · rw [hval, hexact]
    norm_num
  · rw [hC]
    norm_num


/-- Rounding to binary32 raises a non-negative number by at most one part in `2²⁴`, up to the
underflow threshold. -/
theorem roundF32_pos_le (x : ℚ) (hx : 0 ≤ x) :
    roundF32 x ≤ (x + 1 / 10 ^ 30) * roundingFactor := by
  have hpos : (0 : ℚ) < x + 1 / 10 ^ 30 := by positivity
  have hmono := roundF32_mono x (x + 1 / 10 ^ 30) (by linarith)
  have hn : (2 : ℚ) ^ (-126 : ℤ) ≤ |x + 1 / 10 ^ 30| := by
    rw [abs_of_pos hpos]
    have : (2 : ℚ) ^ (-126 : ℤ) ≤ 1 / 10 ^ 30 := by norm_num
    exact le_trans this (by linarith)
  have herr := roundBinary_err_normal 24 (-126) (x + 1 / 10 ^ 30) hn
  rw [abs_of_pos hpos, abs_le] at herr
  have h2 : roundF32 (x + 1 / 10 ^ 30) ≤ (x + 1 / 10 ^ 30) * roundingFactor := by
    unfold roundingFactor roundF32
    have := herr.2
    have h24 : ((2 : ℚ) ^ (24 : ℕ)) = 2 ^ 24 := rfl
    linarith
  linarith

/-- Rounding to binary32 lowers a number above the underflow threshold by at most one part in
`2²⁴`. -/
theorem roundF32_pos_ge (x : ℚ) (hx : 1 / 10 ^ 30 ≤ x) :
    x * (1 - 1 / 2 ^ 24) ≤ roundF32 x := by
  have hpos : (0 : ℚ) < x := lt_of_lt_of_le (by positivity) hx
  have hn : (2 : ℚ) ^ (-126 : ℤ) ≤ |x| := by
    rw [abs_of_pos hpos]
    have : (2 : ℚ) ^ (-126 : ℤ) ≤ 1 / 10 ^ 30 := by norm_num
    exact le_trans this hx
  have herr := roundBinary_err_normal 24 (-126) x hn
  rw [abs_of_pos hpos, abs_le] at herr
  unfold roundF32
  have := herr.1
  linarith

/-- Integers below `2²⁴` in absolute value are `float`s. -/
theorem isF32_intCast (n : ℤ) (hn : |(n : ℚ)| < 2 ^ 24) : isF32 (n : ℚ) := by
  have h := roundBinary_of_grid 24 (-126) 23 n (by norm_num) (by exact_mod_cast hn)
  have he : ((23 : ℤ) - (((24 : ℕ) : ℤ) - 1)) = 0 := by norm_num
  rw [he, zpow_zero, mul_one] at h
  exact h

/-- Powers of the rounding factor up to the 16000th. -/
theorem roundingFactor_pow_le_linear (n : Nat) (hn : n ≤ 16000) :
    roundingFactor ^ n ≤ 1 + (n : ℚ) * (1001 / 1000) / 2 ^ 24 := by
  induction n with
  | zero => simp
  | succ k ih =>
    have hk := ih (by omega)
    have hkq : (k : ℚ) ≤ 16000 := by exact_mod_cast (by omega : k ≤ 16000)
    have hk0 : (0 : ℚ) ≤ (k : ℚ) := Nat.cast_nonneg _
    rw [pow_succ]
    have hrf : roundingFactor = 1 + 1 / 2 ^ 24 := rfl
    have h1 : roundingFactor ^ k * roundingFactor ≤
        (1 + (k : ℚ) * (1001 / 1000) / 2 ^ 24) * roundingFactor :=
      mul_le_mul_of_nonneg_right hk roundingFactor_pos.le
    rw [hrf] at h1 ⊢
    push_cast
    nlinarith


/-- With an effective topping-up factor of 0 the binary32 per-turn limit is at most the steady
limit, whatever the progress of the entry. -/
theorem b32_limit_le_steady (rules : GameRules) (e : Element) (item_cost : ℚ) (T : Int)
    (htl : Binary32.toppingUpLimitFactor rules = 0) :
    Binary32.CalculateProductionPerTurnLimit rules e item_cost T ≤
      Binary32.steadyLimit rules (Binary32.blockCost item_cost e) T := by
  have hb : isF32 (Binary32.basicLimit (Binary32.blockCost item_cost e) T) := isF32_round _
  have htul : roundF32 (Binary32.basicLimit (Binary32.blockCost item_cost e) T +
      min (roundF32 (Binary32.toppingUpLimitFactor rules * Binary32.blockCost item_cost e))
        (roundF32 (Binary32.basicLimit (Binary32.blockCost item_cost e) T -
          roundF32 (2 * Binary32.EPSILON)))) ≤
      Binary32.basicLimit (Binary32.blockCost item_cost e) T := by
    apply roundF32_le_of_le _ _ hb
    have : min (roundF32 (Binary32.toppingUpLimitFactor rules * Binary32.blockCost item_cost e))
        (roundF32 (Binary32.basicLimit (Binary32.blockCost item_cost e) T -
          roundF32 (2 * Binary32.EPSILON))) ≤ 0 := by
      apply le_trans (min_le_left _ _)
      rw [htl, zero_mul, roundF32_zero]
    linarith
  have htu : (if roundF32 (Binary32.blockCost item_cost e -
        roundF32 (e.progress * Binary32.blockCost item_cost e)) <
        roundF32 (Binary32.basicLimit (Binary32.blockCost item_cost e) T +
          min (roundF32 (Binary32.toppingUpLimitFactor rules * Binary32.blockCost item_cost e))
            (roundF32 (Binary32.basicLimit (Binary32.blockCost item_cost e) T -
              roundF32 (2 * Binary32.EPSILON))))
      then roundF32 (Binary32.blockCost item_cost e -
        roundF32 (e.progress * Binary32.blockCost item_cost e))
      else Binary32.basicLimit (Binary32.blockCost item_cost e) T) ≤
      Binary32.basicLimit (Binary32.blockCost item_cost e) T := by
    split_ifs with h
    · exact le_trans h.le htul
    · exact le_refl _
  exact le_trans (min_le_right _ _)
    (max_le (le_max_left _ _) (max_le (le_max_right _ _) (le_trans htu (le_max_left _ _))))

/-- With a frontload factor of 0 and while what the current item still needs is at least the
largest possible topping-up limit, the binary32 per-turn limit is at most the basic limit. -/
theorem b32_limit_le_basic (rules : GameRules) (e : Element) (item_cost : ℚ) (T : Int)
    (hfl : Binary32.frontloadLimitFactor rules = 0)
    (hni : roundF32 (Binary32.basicLimit (Binary32.blockCost item_cost e) T +
        roundF32 (Binary32.basicLimit (Binary32.blockCost item_cost e) T -
          roundF32 (2 * Binary32.EPSILON))) ≤
      roundF32 (Binary32.blockCost item_cost e -
        roundF32 (e.progress * Binary32.blockCost item_cost e))) :
    Binary32.CalculateProductionPerTurnLimit rules e item_cost T ≤
      Binary32.basicLimit (Binary32.blockCost item_cost e) T := by
  have hb : isF32 (Binary32.basicLimit (Binary32.blockCost item_cost e) T) := isF32_round _
  have hone : isF32 (1 : ℚ) := isF32_one
  have heps : 0 ≤ roundF32 (2 * Binary32.EPSILON) :=
    roundF32_nonneg _ (mul_nonneg (by norm_num) (roundF32_nonneg _ (by norm_num)))
  have hfront : Binary32.frontloadLimit rules (Binary32.blockCost item_cost e) T ≤
      Binary32.basicLimit (Binary32.blockCost item_cost e) T := by
    unfold Binary32.frontloadLimit
    rw [hfl, zero_div, roundF32_zero, add_zero, hone, one_mul, hb]
    exact roundF32_le_of_le _ _ hb (by linarith)
  have htul : roundF32 (Binary32.basicLimit (Binary32.blockCost item_cost e) T +
      min (roundF32 (Binary32.toppingUpLimitFactor rules * Binary32.blockCost item_cost e))
        (roundF32 (Binary32.basicLimit (Binary32.blockCost item_cost e) T -
          roundF32 (2 * Binary32.EPSILON)))) ≤
      roundF32 (Binary32.basicLimit (Binary32.blockCost item_cost e) T +
        roundF32 (Binary32.basicLimit (Binary32.blockCost item_cost e) T -
          roundF32 (2 * Binary32.EPSILON))) :=
    roundF32_mono _ _ (add_le_add_left (min_le_right _ _) _)
  have htu : (if roundF32 (Binary32.blockCost item_cost e -
        roundF32 (e.progress * Binary32.blockCost item_cost e)) <
        roundF32 (Binary32.basicLimit (Binary32.blockCost item_cost e) T +
          min (roundF32 (Binary32.toppingUpLimitFactor rules * Binary32.blockCost item_cost e))
            (roundF32 (Binary32.basicLimit (Binary32.blockCost item_cost e) T -
              roundF32 (2 * Binary32.EPSILON))))
      then roundF32 (Binary32.blockCost item_cost e -
        roundF32 (e.progress * Binary32.blockCost item_cost e))
      else Binary32.basicLimit (Binary32.blockCost item_cost e) T) ≤
      Binary32.basicLimit (Binary32.blockCost item_cost e) T := by
    rw [if_neg (not_lt.mpr (le_trans htul hni))]
  exact le_trans (min_le_right _ _)
    (max_le (le_refl _) (max_le hfront htu))

/-- One turn funded at the binary32 limit: the fields it leaves. -/
theorem b32_limitFundedTurn_fields (rules : GameRules) (item_cost : ℚ) (T : Int) (e : Element) :
    (Binary32.limitFundedTurn rules item_cost T e).blocksize = e.blocksize ∧
    (Binary32.limitFundedTurn rules item_cost T e).remaining = e.remaining ∧
    (Binary32.limitFundedTurn rules item_cost T e).progress =
      roundF32 (e.progress +
        roundF32 (Binary32.CalculateProductionPerTurnLimit rules e item_cost T /
          max Binary32.EPSILON (Binary32.blockCost item_cost e))) ∧
    (Binary32.limitFundedTurn rules item_cost T e).turns_left_to_next_item =
      if Binary32.completesThisTurn (Binary32.blockCost item_cost e) e.progress
          (max (Binary32.CalculateProductionPerTurnLimit rules e item_cost T)
            Binary32.EPSILON) = true
        then 1 else -1 := by
  simp only [Binary32.limitFundedTurn, Binary32.fundElement, Binary32.limitSpending, if_true,
    Binary32.blockCost]
  split_ifs <;> exact ⟨rfl, rfl, rfl, rfl⟩


theorem b32_EPSILON_value : Binary32.EPSILON = 8589935 / 8589934592 :=
  roundF32_of_near _ _ (-10) 8589935 (by norm_num [le_abs]) (by norm_num [abs_lt])
    (by norm_num [abs_lt]) (by norm_num)

theorem b32_two_EPSILON_value : roundF32 (2 * Binary32.EPSILON) = 8589935 / 4294967296 := by
  rw [b32_EPSILON_value]
  exact roundF32_of_near _ _ (-9) 8589935 (by norm_num [le_abs]) (by norm_num [abs_lt])
    (by norm_num [abs_lt]) (by norm_num)

/-- Headroom of the basic limit: `T − 1` turns at the basic limit, with the rounding that up to
500 turns accumulate, leave more than `ε` of the block cost. -/
theorem b32_headroom_basic (C b Tq : ℚ) (hT500 : Tq ≤ 500)
    (hb1 : Tq * b ≤ (C + Tq / 10 ^ 30) * roundingFactor)
    (hb2 : 10999 / 10000000 ≤ b) (hb3 : C * (1 - 1 / 2 ^ 24) ≤ Tq * b) :
    b * (Tq - 1 + 1 / 64) + 8589935 / 8589934592 ≤ C * (1 - 1 / 2 ^ 22) := by
  have hC : C * (1 - 1 / 2 ^ 24) ≤ 500 * b := by
    have : Tq * b ≤ 500 * b := mul_le_mul_of_nonneg_right hT500 (by linarith)
    linarith
  unfold roundingFactor at hb1
  have hexp : b * (Tq - 1 + 1 / 64) = Tq * b - 63 / 64 * b := by ring
  rw [hexp]
  norm_num at hb1 hC hb3 ⊢
  linarith

/-- Headroom of the frontloaded limit: `T − 1` turns at the frontloaded limit, with the rounding
that up to 500 turns accumulate, leave more than `ε` of the block cost. -/
theorem b32_headroom_frontload (C b F g Tq : ℚ) (hT2 : 2 ≤ Tq) (hT500 : Tq ≤ 500)
    (hb1 : Tq * b ≤ (C + Tq / 10 ^ 30) * roundingFactor)
    (hb2 : 10999 / 10000000 ≤ b) (hb3 : C * (1 - 1 / 2 ^ 24) ≤ Tq * b)
    (hg0 : 0 ≤ g) (hg1 : (Tq - 1) * g ≤ 30001 / 100000)
    (hF : F ≤ (1 + g) * b * roundingFactor ^ 3 + 1 / 10 ^ 29 - 8589935 / 4294967296) :
    F * (Tq - 1 + 1 / 64) + 8589935 / 8589934592 ≤ C * (1 - 1 / 2 ^ 22) := by
  have hb0 : 0 ≤ b := by linarith
  have hC : C * (1 - 1 / 2 ^ 24) ≤ 500 * b := by
    have : Tq * b ≤ 500 * b := mul_le_mul_of_nonneg_right hT500 hb0
    linarith
  have hg2 : g ≤ 30001 / 100000 := by nlinarith
  have hfac : (1 + g) * (Tq - 1 + 1 / 64) ≤ Tq - 67 / 100 := by
    have : (1 + g) * (Tq - 1 + 1 / 64) = Tq - 1 + 1 / 64 + (Tq - 1) * g + g / 64 := by ring
    rw [this]
    linarith
  have hrf3 : roundingFactor ^ 3 ≤ 1 + 1 / 2 ^ 22 := by
    unfold roundingFactor
    norm_num
  have hrf3b : 1 ≤ roundingFactor ^ 3 := one_le_roundingFactor_pow 3
  have hpos : 0 ≤ Tq - 1 + 1 / 64 := by linarith
  have h1 := mul_le_mul_of_nonneg_right hF hpos
  have h2 : (1 + g) * b * roundingFactor ^ 3 * (Tq - 1 + 1 / 64) ≤
      b * roundingFactor ^ 3 * (Tq - 67 / 100) := by
    have := mul_le_mul_of_nonneg_left hfac (mul_nonneg hb0 (by linarith : 0 ≤ roundingFactor ^ 3))
    calc (1 + g) * b * roundingFactor ^ 3 * (Tq - 1 + 1 / 64)
        = b * roundingFactor ^ 3 * ((1 + g) * (Tq - 1 + 1 / 64)) := by ring
      _ ≤ b * roundingFactor ^ 3 * (Tq - 67 / 100) := this
  have h3 : b * roundingFactor ^ 3 * (Tq - 67 / 100) ≤
      (Tq * b) * (1 + 1 / 2 ^ 22) - 67 / 100 * b := by
    have hx : b * roundingFactor ^ 3 * (Tq - 67 / 100) =
        (Tq * b) * roundingFactor ^ 3 - 67 / 100 * b * roundingFactor ^ 3 := by ring
    rw [hx]
    have hTb0 : 0 ≤ Tq * b := mul_nonneg (by linarith) hb0
    have ha := mul_le_mul_of_nonneg_left hrf3 hTb0
    have hb := mul_le_mul_of_nonneg_left hrf3b (by linarith : 0 ≤ 67 / 100 * b)
    linarith
  have hexp : ((1 + g) * b * roundingFactor ^ 3 + 1 / 10 ^ 29 - 8589935 / 4294967296) *
      (Tq - 1 + 1 / 64) =
      (1 + g) * b * roundingFactor ^ 3 * (Tq - 1 + 1 / 64) +
        (1 / 10 ^ 29 - 8589935 / 4294967296) * (Tq - 1 + 1 / 64) := by ring
  rw [hexp] at h1
  have h4 : (1 / 10 ^ 29 - 8589935 / 4294967296 : ℚ) * (Tq - 1 + 1 / 64) ≤
      (1 / 10 ^ 29 - 8589935 / 4294967296) * 1 := by
    apply mul_le_mul_of_nonpos_left (by linarith) (by norm_num)
  unfold roundingFactor at hb1
  norm_num at hb1 hC hb3 h4 ⊢
  linarith


/-- The completion test of the binary32 pass does not fire while the accumulated production
leaves the headroom: the block cost `C`, the progress `p` with `p × C` at most `T − 2 + 1/64`
steady limits `M`, and the recorded amount `A ≤ M`. -/
theorem b32_test_passes (C M p A Tq : ℚ) (hpF : isF32 p)
    (hC0 : 0 < C) (hp0 : 0 ≤ p) (hM0 : 0 ≤ M) (hA : A ≤ M) (hT500 : Tq ≤ 500)
    (hpC : p * C ≤ (Tq - 2 + 1 / 64) * (M + C / 10 ^ 30))
    (hH : M * (Tq - 1 + 1 / 64) + 8589935 / 8589934592 ≤ C * (1 - 1 / 2 ^ 22)) :
    Binary32.completesThisTurn C p A = false := by
  have h1 : (Tq - 2 + 1 / 64) * (M + C / 10 ^ 30) ≤
      (Tq - 2 + 1 / 64) * M + 500 * (C / 10 ^ 30) := by
    have : (Tq - 2 + 1 / 64) * (C / 10 ^ 30) ≤ 500 * (C / 10 ^ 30) :=
      mul_le_mul_of_nonneg_right (by linarith) (by positivity)
    linarith
  have hmain : M + 8589935 / 8589934592 + 3 * C / 2 ^ 24 ≤ C - p * C := by
    norm_num at h1 hH ⊢
    linarith
  have hpC0 : 0 ≤ p * C := mul_nonneg hp0 hC0.le
  have hp1 : 0 ≤ 1 - p := by
    have : p * C ≤ 1 * C := by nlinarith
    have := le_of_mul_le_mul_right this hC0
    linarith
  have he1 := roundF32_sub_err 1 p isF32_one hpF
  rw [abs_of_nonneg hp1, abs_le] at he1
  have hy1 : (1 - p) * (1 - 1 / 2 ^ 24) ≤ roundF32 (1 - p) := by linarith [he1.1]
  have hy2 : (C - p * C) * (1 - 1 / 2 ^ 24) ≤ C * roundF32 (1 - p) := by
    have := mul_le_mul_of_nonneg_left hy1 hC0.le
    calc (C - p * C) * (1 - 1 / 2 ^ 24) = C * ((1 - p) * (1 - 1 / 2 ^ 24)) := by ring
      _ ≤ _ := this
  have hy3 : (1 : ℚ) / 10 ^ 30 ≤ C * roundF32 (1 - p) := by
    have : (1 : ℚ) / 10 ^ 30 ≤ 8589935 / 8589934592 * (1 - 1 / 2 ^ 24) := by norm_num
    have h2 : (8589935 / 8589934592 : ℚ) * (1 - 1 / 2 ^ 24) ≤ (C - p * C) * (1 - 1 / 2 ^ 24) :=
      mul_le_mul_of_nonneg_right (by
        have : 0 ≤ 3 * C / 2 ^ 24 := by positivity
        linarith) (by norm_num)
    linarith
  have hy4 := roundF32_pos_ge _ hy3
  have hy5 : (C - p * C) * (1 - 1 / 2 ^ 24) * (1 - 1 / 2 ^ 24) ≤
      roundF32 (C * roundF32 (1 - p)) :=
    le_trans (mul_le_mul_of_nonneg_right hy2 (by norm_num)) hy4
  have hy6 : A + 8589935 / 8589934592 ≤ roundF32 (C * roundF32 (1 - p)) := by
    have : (C - p * C) - 2 * C / 2 ^ 24 ≤
        (C - p * C) * (1 - 1 / 2 ^ 24) * (1 - 1 / 2 ^ 24) := by
      have hx : (C - p * C) * (1 - 1 / 2 ^ 24) * (1 - 1 / 2 ^ 24) =
          (C - p * C) - 2 * (C - p * C) / 2 ^ 24 + (C - p * C) / 2 ^ 48 := by ring
      rw [hx]
      have h0 : 0 ≤ C - p * C := by
        have : 0 ≤ 3 * C / 2 ^ 24 := by positivity
        linarith
      have h5 : 2 * (C - p * C) / 2 ^ 24 ≤ 2 * C / 2 ^ 24 := by
        apply div_le_div_of_nonneg_right _ (by positivity)
        linarith
      have h6 : 0 ≤ (C - p * C) / 2 ^ 48 := by positivity
      linarith
    have h7 : 0 ≤ C / 2 ^ 24 := by positivity
    have h8 : 3 * C / 2 ^ 24 = 3 * (C / 2 ^ 24) := by ring
    have h9 : 2 * C / 2 ^ 24 = 2 * (C / 2 ^ 24) := by ring
    linarith
  have hfin : Binary32.EPSILON ≤ roundF32 (roundF32 (C * roundF32 (1 - p)) - A) := by
    have hEF : isF32 (8589935 / 8589934592 : ℚ) := by
      rw [← b32_EPSILON_value]
      exact isF32_round _
    rw [b32_EPSILON_value]
    exact le_roundF32_of_le _ _ hEF (by linarith)
  unfold Binary32.completesThisTurn
  rw [decide_eq_false_iff_not, not_lt]
  exact hfin


/-- The binary32 per-turn limit of an entry with at least one batch remaining whose accumulated
production does not exceed the block cost is non-negative. -/
theorem b32_limit_nonneg (rules : GameRules) (e : Element) (item_cost : ℚ) (T : Int)
    (hrem : 1 ≤ e.remaining) (hC0 : 0 ≤ Binary32.blockCost item_cost e)
    (hp : e.progress * Binary32.blockCost item_cost e ≤ Binary32.blockCost item_cost e) :
    0 ≤ Binary32.CalculateProductionPerTurnLimit rules e item_cost T := by
  have hCF : isF32 (Binary32.blockCost item_cost e) := isF32_round _
  have hT0 : (0 : ℚ) ≤ roundF32 ((max T 1 : Int) : ℚ) := by
    apply roundF32_nonneg
    have : (1 : Int) ≤ max T 1 := le_max_right _ _
    have h : (1 : ℚ) ≤ ((max T 1 : Int) : ℚ) := by exact_mod_cast this
    linarith [h]
  have hb : 0 ≤ Binary32.basicLimit (Binary32.blockCost item_cost e) T :=
    roundF32_nonneg _ (div_nonneg hC0 hT0)
  have hrem1 : (1 : ℚ) ≤ roundF32 (e.remaining : ℚ) := by
    apply le_roundF32_of_le _ _ isF32_one
    exact_mod_cast hrem
  have htot : Binary32.blockCost item_cost e ≤
      roundF32 (Binary32.blockCost item_cost e * roundF32 (e.remaining : ℚ)) := by
    apply le_roundF32_of_le _ _ hCF
    nlinarith
  have hacc : roundF32 (e.progress * Binary32.blockCost item_cost e) ≤
      Binary32.blockCost item_cost e := roundF32_le_of_le _ _ hCF hp
  have hne : 0 ≤ roundF32 (roundF32 (Binary32.blockCost item_cost e *
      roundF32 (e.remaining : ℚ)) - roundF32 (e.progress * Binary32.blockCost item_cost e)) :=
    roundF32_nonneg _ (by linarith)
  exact le_min hne (le_trans hb (le_max_left _ _))

/-- Invariant of a binary32 run funded at the limit, for a bound `M` of the limit with
headroom: during the first `T − 1` turns the entry keeps its blocksize and its remaining count,
and its progress after `n` turns is a non-negative `float` that is at most `n` times the `float`
of `M / C` with `n` roundings, `C` being the block cost. -/
theorem b32_limitFundedTurns_progress (rules : GameRules) (e : Element) (item_cost : ℚ)
    (T : Int) (M : ℚ) (hprog : e.progress = 0) (hrem : 1 ≤ e.remaining) (hT500 : T ≤ 500)
    (hbase : (T : ℚ) * (11 / 10000) ≤ Binary32.blockCost item_cost e)
    (hM0 : 0 ≤ M)
    (hH : M * ((T : ℚ) - 1 + 1 / 64) + 8589935 / 8589934592 ≤
      Binary32.blockCost item_cost e * (1 - 1 / 2 ^ 22))
    (hlim : ∀ (n : Nat) (e2 : Element), (n : Int) + 2 ≤ T → e2.blocksize = e.blocksize →
      e2.remaining = e.remaining → isF32 e2.progress → 0 ≤ e2.progress →
      e2.progress ≤ (n : ℚ) *
        roundF32 (M / max Binary32.EPSILON (Binary32.blockCost item_cost e)) *
          roundingFactor ^ n →
      Binary32.CalculateProductionPerTurnLimit rules e2 item_cost T ≤ M) :
    ∀ n : Nat, (n : Int) + 2 ≤ T →
      (Binary32.limitFundedTurns rules item_cost T n e).blocksize = e.blocksize ∧
      (Binary32.limitFundedTurns rules item_cost T n e).remaining = e.remaining ∧
      isF32 (Binary32.limitFundedTurns rules item_cost T n e).progress ∧
      0 ≤ (Binary32.limitFundedTurns rules item_cost T n e).progress ∧
      (Binary32.limitFundedTurns rules item_cost T n e).progress ≤ (n : ℚ) *
        roundF32 (M / max Binary32.EPSILON (Binary32.blockCost item_cost e)) *
          roundingFactor ^ n ∧
      (Binary32.limitFundedTurns rules item_cost T n e).progress *
          Binary32.blockCost item_cost e ≤
        ((T : ℚ) - 2 + 1 / 64) * (M + Binary32.blockCost item_cost e / 10 ^ 30) := by
  have hblock : ∀ e2 : Element, e2.blocksize = e.blocksize →
      Binary32.blockCost item_cost e2 = Binary32.blockCost item_cost e := by
    intro e2 h
    unfold Binary32.blockCost
    rw [h]
  generalize hCdef : Binary32.blockCost item_cost e = C at *
  generalize hmdef : roundF32 (M / max Binary32.EPSILON C) = m at *
  have hT500q : (T : ℚ) ≤ 500 := by exact_mod_cast hT500
  -- facts that do not depend on the turn
  have key : ∀ n : Nat, (n : Int) + 2 ≤ T → 0 < C ∧ 0 ≤ m ∧ m * C ≤ (M + C / 10 ^ 30) * roundingFactor ∧
      ∀ p : ℚ, 0 ≤ p → p ≤ (n : ℚ) * m * roundingFactor ^ n →
        p * C ≤ ((T : ℚ) - 2 + 1 / 64) * (M + C / 10 ^ 30) := by
    intro n hn
    have hnq : (n : ℚ) + 2 ≤ (T : ℚ) := by exact_mod_cast hn
    have hn0 : (0 : ℚ) ≤ (n : ℚ) := Nat.cast_nonneg _
    have hC0 : 0 < C := by linarith
    have hmax : max Binary32.EPSILON C = C := by
      apply max_eq_right
      rw [b32_EPSILON_value]
      linarith
    have hm0 : 0 ≤ m := by
      rw [← hmdef]
      exact roundF32_nonneg _ (div_nonneg hM0 (by rw [hmax]; exact hC0.le))
    have hmC : m * C ≤ (M + C / 10 ^ 30) * roundingFactor := by
      rw [← hmdef, hmax]
      have h1 := roundF32_pos_le (M / C) (div_nonneg hM0 hC0.le)
      have h2 := mul_le_mul_of_nonneg_right h1 hC0.le
      have h3 : (M / C + 1 / 10 ^ 30) * roundingFactor * C =
          (M + C / 10 ^ 30) * roundingFactor := by
        field_simp
        ring
      linarith
    refine ⟨hC0, hm0, hmC, ?_⟩
    intro p hp0 hp
    have hn498 : n ≤ 498 := by
      have : (n : Int) ≤ 498 := by omega
      exact_mod_cast this
    have hpow := roundingFactor_pow_le_linear (n + 1) (by omega)
    have hpow2 : roundingFactor ^ (n + 1) ≤ 1 + 1 / 32000 := by
      have hcast : ((n + 1 : ℕ) : ℚ) ≤ 499 := by exact_mod_cast (by omega : n + 1 ≤ 499)
      have : ((n + 1 : ℕ) : ℚ) * (1001 / 1000) / 2 ^ 24 ≤ 1 / 32000 := by
        have h499 : ((n + 1 : ℕ) : ℚ) * (1001 / 1000) / 2 ^ 24 ≤ 499 * (1001 / 1000) / 2 ^ 24 := by
          apply div_le_div_of_nonneg_right _ (by positivity)
          exact mul_le_mul_of_nonneg_right hcast (by norm_num)
        have : (499 : ℚ) * (1001 / 1000) / 2 ^ 24 ≤ 1 / 32000 := by norm_num
        linarith
      linarith
    have hX0 : 0 ≤ M + C / 10 ^ 30 := by positivity
    have hpown0 : 0 ≤ roundingFactor ^ n := pow_nonneg roundingFactor_pos.le _
    have h1 : p * C ≤ (n : ℚ) * m * roundingFactor ^ n * C :=
      mul_le_mul_of_nonneg_right hp hC0.le
    have h2 : (n : ℚ) * m * roundingFactor ^ n * C ≤
        (n : ℚ) * roundingFactor ^ (n + 1) * (M + C / 10 ^ 30) := by
      have := mul_le_mul_of_nonneg_left hmC (mul_nonneg hn0 hpown0)
      calc (n : ℚ) * m * roundingFactor ^ n * C = (n : ℚ) * roundingFactor ^ n * (m * C) := by
            ring
        _ ≤ (n : ℚ) * roundingFactor ^ n * ((M + C / 10 ^ 30) * roundingFactor) := this
        _ = _ := by ring
    have h3 : (n : ℚ) * roundingFactor ^ (n + 1) ≤ (T : ℚ) - 2 + 1 / 64 := by
      have h4 : (n : ℚ) * roundingFactor ^ (n + 1) ≤ (n : ℚ) * (1 + 1 / 32000) :=
        mul_le_mul_of_nonneg_left hpow2 hn0
      have hn498q : (n : ℚ) ≤ 498 := by exact_mod_cast hn498
      linarith
    have h5 := mul_le_mul_of_nonneg_right h3 hX0
    linarith
  intro n
  induction n with
  | zero =>
    intro hn
    obtain ⟨hC0, hm0, hmC, hkey⟩ := key 0 hn
    refine ⟨rfl, rfl, ?_, ?_, ?_, ?_⟩
    · show isF32 e.progress
      rw [hprog]
      exact isF32_zero
    · show 0 ≤ e.progress
      rw [hprog]
    · show e.progress ≤ _
      rw [hprog]
      simp
    · show e.progress * C ≤ _
      rw [hprog, zero_mul]
      have h2 : (2 : ℚ) ≤ (T : ℚ) := by exact_mod_cast (by omega : (2 : Int) ≤ T)
      have : 0 ≤ M + C / 10 ^ 30 := by positivity
      exact mul_nonneg (by linarith) this
  | succ n ih =>
    intro hn
    obtain ⟨hbs, hrm, hpF, hp0, hpn, hpC⟩ := ih (by omega)
    obtain ⟨hC0, hm0, hmC, hkey⟩ := key (n + 1) hn
    obtain ⟨f1, f2, f3, -⟩ := b32_limitFundedTurn_fields rules item_cost T
      (Binary32.limitFundedTurns rules item_cost T n e)
    rw [hblock _ hbs] at f3
    have hle1 : (Binary32.limitFundedTurns rules item_cost T n e).progress * C ≤ C := by
      have h2 : (2 : ℚ) ≤ (T : ℚ) := by exact_mod_cast (by omega : (2 : Int) ≤ T)
      have hX0 : 0 ≤ C / 10 ^ 30 := by positivity
      have h1 : ((T : ℚ) - 2 + 1 / 64) * (M + C / 10 ^ 30) ≤
          ((T : ℚ) - 2 + 1 / 64) * M + 500 * (C / 10 ^ 30) := by
        have : ((T : ℚ) - 2 + 1 / 64) * (C / 10 ^ 30) ≤ 500 * (C / 10 ^ 30) :=
          mul_le_mul_of_nonneg_right (by linarith) hX0
        linarith
      norm_num at h1 hH ⊢
      linarith
    have ha0 : 0 ≤ Binary32.CalculateProductionPerTurnLimit rules
        (Binary32.limitFundedTurns rules item_cost T n e) item_cost T := by
      apply b32_limit_nonneg rules _ item_cost T (by rw [hrm]; exact hrem)
      · rw [hblock _ hbs]
        exact hC0.le
      · rw [hblock _ hbs]
        exact hle1
    have haM := hlim n (Binary32.limitFundedTurns rules item_cost T n e) (by omega) hbs hrm hpF
      hp0 hpn
    have hmax : max Binary32.EPSILON C = C := by
      apply max_eq_right
      rw [b32_EPSILON_value]
      have h2 : (2 : ℚ) ≤ (T : ℚ) := by exact_mod_cast (by omega : (2 : Int) ≤ T)
      linarith
    have hx0 : 0 ≤ roundF32 (Binary32.CalculateProductionPerTurnLimit rules
        (Binary32.limitFundedTurns rules item_cost T n e) item_cost T /
          max Binary32.EPSILON C) :=
      roundF32_nonneg _ (div_nonneg ha0 (by rw [hmax]; exact hC0.le))
    have hxm : roundF32 (Binary32.CalculateProductionPerTurnLimit rules
        (Binary32.limitFundedTurns rules item_cost T n e) item_cost T /
          max Binary32.EPSILON C) ≤ m := by
      rw [← hmdef]
      apply roundF32_mono
      apply div_le_div_of_nonneg_right haM
      rw [hmax]
      exact hC0.le
    have hnew : (Binary32.limitFundedTurns rules item_cost T (n + 1) e).progress =
        roundF32 ((Binary32.limitFundedTurns rules item_cost T n e).progress +
          roundF32 (Binary32.CalculateProductionPerTurnLimit rules
            (Binary32.limitFundedTurns rules item_cost T n e) item_cost T /
              max Binary32.EPSILON C)) := f3
    have hbound : (Binary32.limitFundedTurns rules item_cost T (n + 1) e).progress ≤
        ((n + 1 : ℕ) : ℚ) * m * roundingFactor ^ (n + 1) := by
      rw [hnew]
      have h1 := roundF32_add_le _ _ hpF (isF32_round (Binary32.CalculateProductionPerTurnLimit
        rules (Binary32.limitFundedTurns rules item_cost T n e) item_cost T /
          max Binary32.EPSILON C)) (by linarith)
      have hpow1 : 1 ≤ roundingFactor ^ n := one_le_roundingFactor_pow n
      have h2 : m ≤ m * roundingFactor ^ n := by nlinarith
      have h3 : ((Binary32.limitFundedTurns rules item_cost T n e).progress +
          roundF32 (Binary32.CalculateProductionPerTurnLimit rules
            (Binary32.limitFundedTurns rules item_cost T n e) item_cost T /
              max Binary32.EPSILON C)) * roundingFactor ≤
          ((n : ℚ) * m * roundingFactor ^ n + m * roundingFactor ^ n) * roundingFactor :=
        mul_le_mul_of_nonneg_right (by linarith) roundingFactor_pos.le
      have h4 : ((n : ℚ) * m * roundingFactor ^ n + m * roundingFactor ^ n) * roundingFactor =
          ((n + 1 : ℕ) : ℚ) * m * roundingFactor ^ (n + 1) := by
        push_cast
        ring
      linarith
    have hnonneg : 0 ≤ (Binary32.limitFundedTurns rules item_cost T (n + 1) e).progress := by
      rw [hnew]
      exact roundF32_nonneg _ (by linarith)
    refine ⟨?_, ?_, ?_, hnonneg, hbound, hkey _ hnonneg hbound⟩
    · show (Binary32.limitFundedTurn rules item_cost T
        (Binary32.limitFundedTurns rules item_cost T n e)).blocksize = _
      rw [f1, hbs]
    · show (Binary32.limitFundedTurn rules item_cost T
        (Binary32.limitFundedTurns rules item_cost T n e)).remaining = _
      rw [f2, hrm]
    · rw [hnew]
      exact isF32_round _


/-- The frontload factor that line 80 computes from a rule value in its range `[0, 30]` lies
between 0 and `0.3f`. -/
theorem b32_frontloadLimitFactor_range (rules : GameRules)
    (hf0 : 0 ≤ rules.RULE_PRODUCTION_QUEUE_FRONTLOAD_FACTOR)
    (hf1 : rules.RULE_PRODUCTION_QUEUE_FRONTLOAD_FACTOR ≤ 30) :
    0 ≤ Binary32.frontloadLimitFactor rules ∧
      Binary32.frontloadLimitFactor rules ≤ 5033165 / 16777216 := by
  have hd1 : roundF64 (1 / 100) = 5764607523034235 / 576460752303423488 :=
    roundF64_of_near _ _ (-7) (5764607523034235) (by norm_num [le_abs]) (by norm_num [abs_lt])
      (by norm_num [abs_lt]) (by norm_num)
  have hd2 : roundF64 (86469112845513525 / 288230376151711744) =
      5404319552844595 / 18014398509481984 :=
    roundF64_of_near _ _ (-2) (5404319552844595) (by norm_num [le_abs]) (by norm_num [abs_lt])
      (by norm_num [abs_lt]) (by norm_num)
  have hd3 : roundF32 (5404319552844595 / 18014398509481984) = 5033165 / 16777216 :=
    roundF32_of_near _ _ (-2) (10066330) (by norm_num [le_abs]) (by norm_num [abs_lt])
      (by norm_num [abs_lt]) (by norm_num)
  unfold Binary32.frontloadLimitFactor
  rw [hd1]
  constructor
  · apply roundF32_nonneg
    apply roundBinary_nonneg
    exact mul_nonneg hf0 (by norm_num)
  · rw [← hd3, ← hd2]
    apply roundF32_mono
    apply roundBinary_mono 53 (-1022) (by norm_num)
    have := mul_le_mul_of_nonneg_right hf1
      (by norm_num : (0 : ℚ) ≤ 5764607523034235 / 576460752303423488)
    norm_num at this ⊢
    linarith

/-- Bounds of the binary32 basic limit `b = C / T` of a block cost `C` of at least
`T × 0.0011`, for `2 ≤ T ≤ 500`. -/
theorem b32_basicLimit_bounds (C : ℚ) (T : Int) (hT2 : 2 ≤ T) (hT500 : T ≤ 500)
    (hbase : (T : ℚ) * (11 / 10000) ≤ C) :
    (T : ℚ) * Binary32.basicLimit C T ≤ (C + (T : ℚ) / 10 ^ 30) * roundingFactor ∧
      10999 / 10000000 ≤ Binary32.basicLimit C T ∧
      C * (1 - 1 / 2 ^ 24) ≤ (T : ℚ) * Binary32.basicLimit C T := by
  have hT2q : (2 : ℚ) ≤ (T : ℚ) := by exact_mod_cast hT2
  have hT500q : (T : ℚ) ≤ 500 := by exact_mod_cast hT500
  have hTpos : (0 : ℚ) < (T : ℚ) := by linarith
  have hmax : max T 1 = T := max_eq_left (by omega)
  have hTF : roundF32 (T : ℚ) = (T : ℚ) := by
    apply isF32_intCast
    rw [abs_of_pos hTpos]
    norm_num
    linarith
  have hC0 : 0 ≤ C := by nlinarith
  unfold Binary32.basicLimit
  rw [hmax, hTF]
  have hq : (11 / 10000 : ℚ) ≤ C / (T : ℚ) := by
    rw [le_div_iff₀ hTpos]
    linarith
  have hup := roundF32_pos_le (C / (T : ℚ)) (div_nonneg hC0 hTpos.le)
  have hlo := roundF32_pos_ge (C / (T : ℚ)) (le_trans (by norm_num) hq)
  refine ⟨?_, ?_, ?_⟩
  · have := mul_le_mul_of_nonneg_left hup hTpos.le
    have he : (T : ℚ) * ((C / (T : ℚ) + 1 / 10 ^ 30) * roundingFactor) =
        (C + (T : ℚ) / 10 ^ 30) * roundingFactor := by
      field_simp
      ring
    linarith
  · have : (11 / 10000 : ℚ) * (1 - 1 / 2 ^ 24) ≤ C / (T : ℚ) * (1 - 1 / 2 ^ 24) :=
      mul_le_mul_of_nonneg_right hq (by norm_num)
    have h2 : (10999 / 10000000 : ℚ) ≤ 11 / 10000 * (1 - 1 / 2 ^ 24) := by norm_num
    linarith
  · have := mul_le_mul_of_nonneg_left hlo hTpos.le
    have he : (T : ℚ) * (C / (T : ℚ) * (1 - 1 / 2 ^ 24)) = C * (1 - 1 / 2 ^ 24) := by
      field_simp
      ring
    linarith

/-- Headroom of the binary32 steady limit `M` (the larger of the basic and the frontloaded
limit) for a frontload rule in `[0, 30]`, `2 ≤ T ≤ 500` and a block cost of at least
`T × 0.0011`: `M ≥ ε`, and `T − 1` turns at `M` with their rounding leave more than `ε` of the
block cost. -/
theorem b32_steady_headroom (rules : GameRules) (C : ℚ) (T : Int) (hT2 : 2 ≤ T)
    (hT500 : T ≤ 500) (hbase : (T : ℚ) * (11 / 10000) ≤ C)
    (hf0 : 0 ≤ rules.RULE_PRODUCTION_QUEUE_FRONTLOAD_FACTOR)
    (hf1 : rules.RULE_PRODUCTION_QUEUE_FRONTLOAD_FACTOR ≤ 30) :
    Binary32.EPSILON ≤ Binary32.steadyLimit rules C T ∧
      Binary32.steadyLimit rules C T * ((T : ℚ) - 1 + 1 / 64) + 8589935 / 8589934592 ≤
        C * (1 - 1 / 2 ^ 22) := by
  obtain ⟨hb1, hb2, hb3⟩ := b32_basicLimit_bounds C T hT2 hT500 hbase
  obtain ⟨hfl0, hfl1⟩ := b32_frontloadLimitFactor_range rules hf0 hf1
  have hT2q : (2 : ℚ) ≤ (T : ℚ) := by exact_mod_cast hT2
  have hT500q : (T : ℚ) ≤ 500 := by exact_mod_cast hT500
  have hbF : isF32 (Binary32.basicLimit C T) := isF32_round _
  constructor
  · rw [b32_EPSILON_value]
    refine le_trans ?_ (le_max_left _ _)
    refine le_trans ?_ hb2
    norm_num
  unfold Binary32.steadyLimit
  rcases le_total (Binary32.frontloadLimit rules C T) (Binary32.basicLimit C T) with h | h
  · rw [max_eq_left h]
    exact b32_headroom_basic C _ (T : ℚ) hT500q hb1 hb2 hb3
  · rw [max_eq_right h]
    have hmax : max T 1 = T := max_eq_left (by omega)
    have hmax2 : max (T - 1) 1 = T - 1 := max_eq_left (by omega)
    have hT1pos : (0 : ℚ) < (T : ℚ) - 1 := by linarith
    have hT1F : roundF32 (((T - 1 : Int)) : ℚ) = (T : ℚ) - 1 := by
      have : isF32 (((T - 1 : Int)) : ℚ) := by
        apply isF32_intCast
        push_cast
        rw [abs_of_pos hT1pos]
        norm_num
        linarith
      rw [this]
      push_cast
      ring
    have hg0 : 0 ≤ roundF32 (Binary32.frontloadLimitFactor rules / ((T : ℚ) - 1)) :=
      roundF32_nonneg _ (div_nonneg hfl0 hT1pos.le)
    have hgup := roundF32_pos_le (Binary32.frontloadLimitFactor rules / ((T : ℚ) - 1))
      (div_nonneg hfl0 hT1pos.le)
    have hg1 : ((T : ℚ) - 1) *
        roundF32 (Binary32.frontloadLimitFactor rules / ((T : ℚ) - 1)) ≤ 30001 / 100000 := by
      have := mul_le_mul_of_nonneg_left hgup hT1pos.le
      have he : ((T : ℚ) - 1) * ((Binary32.frontloadLimitFactor rules / ((T : ℚ) - 1) +
          1 / 10 ^ 30) * roundingFactor) =
          (Binary32.frontloadLimitFactor rules + ((T : ℚ) - 1) / 10 ^ 30) * roundingFactor := by
        field_simp
        ring
      rw [he] at this
      have h500 : ((T : ℚ) - 1) / 10 ^ 30 ≤ 500 / 10 ^ 30 :=
        div_le_div_of_nonneg_right (by linarith) (by positivity)
      have hx : (Binary32.frontloadLimitFactor rules + ((T : ℚ) - 1) / 10 ^ 30) *
          roundingFactor ≤ (5033165 / 16777216 + 500 / 10 ^ 30) * roundingFactor :=
        mul_le_mul_of_nonneg_right (by linarith) roundingFactor_pos.le
      have hy : ((5033165 : ℚ) / 16777216 + 500 / 10 ^ 30) * roundingFactor ≤
          30001 / 100000 := by
        unfold roundingFactor
        norm_num
      linarith
    apply b32_headroom_frontload C (Binary32.basicLimit C T) _ _ (T : ℚ) hT2q hT500q hb1 hb2 hb3
      hg0 hg1
    -- the frontloaded limit exceeds the basic one, hence is positive
    generalize hgdef : roundF32 (Binary32.frontloadLimitFactor rules / ((T : ℚ) - 1)) = g
      at hg0 hg1 ⊢
    have hbpos : 0 < Binary32.basicLimit C T := by linarith
    have hFdef : Binary32.frontloadLimit rules C T =
        roundF32 (roundF32 (roundF32 (1 + g) * Binary32.basicLimit C T) -
          roundF32 (2 * Binary32.EPSILON)) := by
      unfold Binary32.frontloadLimit
      rw [hmax, hmax2, hT1F, hgdef]
    rw [hFdef, b32_two_EPSILON_value] at h ⊢
    have hgF : isF32 g := by
      rw [← hgdef]
      exact isF32_round _
    have h1 := roundF32_add_le 1 g isF32_one hgF (by linarith)
    have h1pos : 0 ≤ roundF32 (1 + g) := roundF32_nonneg _ (by linarith)
    have h2 := roundF32_pos_le (roundF32 (1 + g) * Binary32.basicLimit C T)
      (mul_nonneg h1pos hbpos.le)
    have hEF : isF32 (8589935 / 4294967296 : ℚ) := by
      have := isF32_round (2 * Binary32.EPSILON)
      rwa [b32_two_EPSILON_value] at this
    have hge : 0 ≤ roundF32 (roundF32 (1 + g) * Binary32.basicLimit C T) -
        8589935 / 4294967296 := by
      by_contra hneg
      have := roundF32_nonpos _ (le_of_lt (not_le.mp hneg))
      linarith
    have h3 := roundF32_sub_le _ _ (isF32_round (roundF32 (1 + g) * Binary32.basicLimit C T))
      hEF hge
    refine le_trans h3 ?_
    have hrf1 : (1 : ℚ) ≤ roundingFactor := by
      unfold roundingFactor
      norm_num
    have hA : roundF32 (1 + g) * Binary32.basicLimit C T ≤
        (1 + g) * roundingFactor * Binary32.basicLimit C T :=
      mul_le_mul_of_nonneg_right h1 hbpos.le
    have hB : roundF32 (roundF32 (1 + g) * Binary32.basicLimit C T) * roundingFactor ≤
        ((1 + g) * roundingFactor * Binary32.basicLimit C T + 1 / 10 ^ 30) * roundingFactor *
          roundingFactor :=
      mul_le_mul_of_nonneg_right (le_trans h2 (mul_le_mul_of_nonneg_right (by linarith)
        roundingFactor_pos.le)) roundingFactor_pos.le
    have hCc : (1 / 10 ^ 30 : ℚ) * roundingFactor * roundingFactor ≤ 1 / 10 ^ 29 := by
      unfold roundingFactor
      norm_num
    have hD : (8589935 / 4294967296 : ℚ) ≤ 8589935 / 4294967296 * roundingFactor := by
      nlinarith
    have hE : ((1 + g) * roundingFactor * Binary32.basicLimit C T + 1 / 10 ^ 30) *
        roundingFactor * roundingFactor =
        (1 + g) * Binary32.basicLimit C T * roundingFactor ^ 3 +
          1 / 10 ^ 30 * roundingFactor * roundingFactor := by ring
    have hG : (roundF32 (roundF32 (1 + g) * Binary32.basicLimit C T) -
        8589935 / 4294967296) * roundingFactor =
        roundF32 (roundF32 (1 + g) * Binary32.basicLimit C T) * roundingFactor -
          8589935 / 4294967296 * roundingFactor := by ring
    linarith

/-- Engine of the binary32 safeguard: when the limit of every state the run goes through is at
most a bound `M ≥ ε` with headroom, the completion test does not fire before turn `T`. -/
theorem b32_no_completion_of_bound (rules : GameRules) (e : Element) (item_cost : ℚ)
    (T : Int) (k : Nat) (M : ℚ) (hprog : e.progress = 0) (hrem : 1 ≤ e.remaining)
    (hT500 : T ≤ 500)
    (hbase : (T : ℚ) * (11 / 10000) ≤ Binary32.blockCost item_cost e)
    (hMe : Binary32.EPSILON ≤ M)
    (hH : M * ((T : ℚ) - 1 + 1 / 64) + 8589935 / 8589934592 ≤
      Binary32.blockCost item_cost e * (1 - 1 / 2 ^ 22))
    (hlim : ∀ (n : Nat) (e2 : Element), (n : Int) + 2 ≤ T → e2.blocksize = e.blocksize →
      e2.remaining = e.remaining → isF32 e2.progress → 0 ≤ e2.progress →
      e2.progress ≤ (n : ℚ) *
        roundF32 (M / max Binary32.EPSILON (Binary32.blockCost item_cost e)) *
          roundingFactor ^ n →
      Binary32.CalculateProductionPerTurnLimit rules e2 item_cost T ≤ M)
    (hk1 : 1 ≤ k) (hkT : (k : Int) < T) :
    Binary32.completionFiresOnTurn rules item_cost T e k = false := by
  obtain ⟨n, rfl⟩ : ∃ n, k = n + 1 := ⟨k - 1, by omega⟩
  have hε0 : 0 ≤ Binary32.EPSILON := by
    rw [b32_EPSILON_value]
    norm_num
  have hM0 : 0 ≤ M := le_trans hε0 hMe
  have hn2 : (n : Int) + 2 ≤ T := by
    push_cast at hkT
    omega
  obtain ⟨hbs, hrm, hpF, hp0, hpn, hpC⟩ := b32_limitFundedTurns_progress rules e item_cost T M
    hprog hrem hT500 hbase hM0 hH hlim n hn2
  have hL := hlim n _ hn2 hbs hrm hpF hp0 hpn
  obtain ⟨-, -, -, f4⟩ := b32_limitFundedTurn_fields rules item_cost T
    (Binary32.limitFundedTurns rules item_cost T n e)
  have hblock : Binary32.blockCost item_cost (Binary32.limitFundedTurns rules item_cost T n e) =
      Binary32.blockCost item_cost e := by
    unfold Binary32.blockCost
    rw [hbs]
  have hT2q : (2 : ℚ) ≤ (T : ℚ) := by exact_mod_cast (by omega : (2 : Int) ≤ T)
  have hT500q : (T : ℚ) ≤ 500 := by exact_mod_cast hT500
  have hnot := b32_test_passes (Binary32.blockCost item_cost e) M
    (Binary32.limitFundedTurns rules item_cost T n e).progress
    (max (Binary32.CalculateProductionPerTurnLimit rules
      (Binary32.limitFundedTurns rules item_cost T n e) item_cost T) Binary32.EPSILON) (T : ℚ)
    hpF (by linarith) hp0 hM0 (max_le hL hMe) hT500q hpC hH
  have hflag : (Binary32.limitFundedTurn rules item_cost T
      (Binary32.limitFundedTurns rules item_cost T n e)).turns_left_to_next_item = -1 := by
    rw [f4, hblock, hnot]
    rfl
  simp only [Binary32.completionFiresOnTurn, Binary32.limitFundedTurns]
  rw [decide_eq_false_iff_not, hflag]
  decide


/-- Arithmetic of the topping-up guard: with a block cost `C` with `C × T ≤ 16000`, the basic
limit `b` and an accumulated production `X` of at most `n ≤ T − 2` basic limits with their
rounding, the largest topping-up limit `b + (b − 2ε)` does not exceed what the item still
needs. -/
theorem b32_topping_guard_arith (C b X Tq nq : ℚ) (hT2 : 2 ≤ Tq) (hT500 : Tq ≤ 500)
    (hn0 : 0 ≤ nq) (hnT : nq + 2 ≤ Tq) (hC0 : 0 ≤ C)
    (hb1 : Tq * b ≤ (C + Tq / 10 ^ 30) * roundingFactor)
    (hb2 : 10999 / 10000000 ≤ b)
    (hCT : C * Tq ≤ 16000)
    (hX : X ≤ nq * (1 + (nq + 1) * (1001 / 1000) / 2 ^ 24) * (b + C / 10 ^ 30)) :
    b + max 0 ((b - 8589935 / 4294967296) * roundingFactor) +
      (X + 1 / 10 ^ 30) * roundingFactor ≤ C := by
  have hb0 : 0 ≤ b := by linarith
  have hC8 : C ≤ 8000 := by nlinarith
  have hTT : Tq * Tq ≤ 250000 := by nlinarith
  have hTT0 : 0 ≤ Tq * Tq := by nlinarith
  have hnn : nq * (nq + 1) ≤ Tq * Tq := by nlinarith
  have hK : nq * (1 + (nq + 1) * (1001 / 1000) / 2 ^ 24) ≤
      (Tq - 2) + Tq * Tq * ((1001 / 1000) / 2 ^ 24) := by
    have : nq * (1 + (nq + 1) * (1001 / 1000) / 2 ^ 24) =
        nq + nq * (nq + 1) * ((1001 / 1000) / 2 ^ 24) := by ring
    rw [this]
    have := mul_le_mul_of_nonneg_right hnn (by norm_num : (0 : ℚ) ≤ (1001 / 1000) / 2 ^ 24)
    linarith
  have hY0 : 0 ≤ b + C / 10 ^ 30 := by positivity
  have hX2 : X ≤ ((Tq - 2) + Tq * Tq * ((1001 / 1000) / 2 ^ 24)) * (b + C / 10 ^ 30) :=
    le_trans hX (mul_le_mul_of_nonneg_right hK hY0)
  have hK501 : (Tq - 2) + Tq * Tq * ((1001 / 1000) / 2 ^ 24) ≤ 501 := by
    have := mul_le_mul_of_nonneg_right hTT (by norm_num : (0 : ℚ) ≤ (1001 / 1000) / 2 ^ 24)
    norm_num at this ⊢
    linarith
  have hK0 : 0 ≤ (Tq - 2) + Tq * Tq * ((1001 / 1000) / 2 ^ 24) := by
    have := mul_nonneg hTT0 (by norm_num : (0 : ℚ) ≤ (1001 / 1000) / 2 ^ 24)
    linarith
  have htiny : ((Tq - 2) + Tq * Tq * ((1001 / 1000) / 2 ^ 24)) * (C / 10 ^ 30) ≤
      501 * (8000 / 10 ^ 30) := by
    apply mul_le_mul hK501 _ (by positivity) (by norm_num)
    exact div_le_div_of_nonneg_right hC8 (by positivity)
  have hX3 : X ≤ (Tq - 2) * b + (Tq * Tq * b) * ((1001 / 1000) / 2 ^ 24) +
      501 * (8000 / 10 ^ 30) := by
    have : ((Tq - 2) + Tq * Tq * ((1001 / 1000) / 2 ^ 24)) * (b + C / 10 ^ 30) =
        (Tq - 2) * b + (Tq * Tq * b) * ((1001 / 1000) / 2 ^ 24) +
          ((Tq - 2) + Tq * Tq * ((1001 / 1000) / 2 ^ 24)) * (C / 10 ^ 30) := by ring
    linarith
  have hrf : roundingFactor = 1 + 1 / 2 ^ 24 := rfl
  have hB : Tq * b ≤ C + C / 2 ^ 24 + 501 / 10 ^ 30 := by
    rw [hrf] at hb1
    have : (C + Tq / 10 ^ 30) * (1 + 1 / 2 ^ 24) =
        C + C / 2 ^ 24 + Tq / 10 ^ 30 * (1 + 1 / 2 ^ 24) := by ring
    rw [this] at hb1
    have h2 : Tq / 10 ^ 30 * (1 + 1 / 2 ^ 24) ≤ 500 / 10 ^ 30 * (1 + 1 / 2 ^ 24) :=
      mul_le_mul_of_nonneg_right (div_le_div_of_nonneg_right hT500 (by positivity))
        (by norm_num)
    have h3 : (500 : ℚ) / 10 ^ 30 * (1 + 1 / 2 ^ 24) ≤ 501 / 10 ^ 30 := by norm_num
    linarith
  have hB1 : Tq * b ≤ 8001 := by
    have : C / 2 ^ 24 ≤ 8000 / 2 ^ 24 := div_le_div_of_nonneg_right hC8 (by positivity)
    norm_num at this hB ⊢
    linarith
  rcases le_total b (8589935 / 4294967296) with hcase | hcase
  · -- the basic limit is below `2ε`
    rw [max_eq_left (mul_nonpos_of_nonpos_of_nonneg (by linarith) roundingFactor_pos.le)]
    have hP : Tq * Tq * b ≤ 501 := by
      have := mul_le_mul hTT hcase hb0 (by norm_num)
      norm_num at this ⊢
      linarith
    have hB2 : Tq * b ≤ 1001 / 1000 := by
      have := mul_le_mul hT500 hcase hb0 (by norm_num)
      norm_num at this ⊢
      linarith
    have hPu := mul_le_mul_of_nonneg_right hP
      (by norm_num : (0 : ℚ) ≤ (1001 / 1000) / 2 ^ 24)
    have hXu : (X + 1 / 10 ^ 30) * roundingFactor ≤
        ((Tq - 2) * b + (Tq * Tq * b) * ((1001 / 1000) / 2 ^ 24) +
          501 * (8000 / 10 ^ 30) + 1 / 10 ^ 30) * roundingFactor :=
      mul_le_mul_of_nonneg_right (by linarith) roundingFactor_pos.le
    rw [hrf] at hXu ⊢
    have hC2 : C / 2 ^ 24 ≤ 8000 / 2 ^ 24 := div_le_div_of_nonneg_right hC8 (by positivity)
    have hexp : ((Tq - 2) * b + (Tq * Tq * b) * ((1001 / 1000) / 2 ^ 24) +
          501 * (8000 / 10 ^ 30) + 1 / 10 ^ 30) * (1 + 1 / 2 ^ 24) =
        Tq * b - 2 * b + (Tq * b - 2 * b) / 2 ^ 24 +
          ((Tq * Tq * b) * ((1001 / 1000) / 2 ^ 24) + 501 * (8000 / 10 ^ 30) + 1 / 10 ^ 30) *
            (1 + 1 / 2 ^ 24) := by ring
    rw [hexp] at hXu
    have hsmall : ((Tq * Tq * b) * ((1001 / 1000) / 2 ^ 24) + 501 * (8000 / 10 ^ 30) +
        1 / 10 ^ 30) * (1 + 1 / 2 ^ 24) ≤
        (501 * ((1001 / 1000) / 2 ^ 24) + 501 * (8000 / 10 ^ 30) + 1 / 10 ^ 30) *
          (1 + 1 / 2 ^ 24) :=
      mul_le_mul_of_nonneg_right (by linarith) (by norm_num)
    have hB3 : (Tq * b - 2 * b) / 2 ^ 24 ≤ (1001 / 1000) / 2 ^ 24 :=
      div_le_div_of_nonneg_right (by linarith) (by positivity)
    norm_num at hXu hsmall hB3 hB hC2 hcase hb2 ⊢
    linarith only [hXu, hsmall, hB3, hB, hC2, hcase, hb2]
  · rw [max_eq_right (mul_nonneg (by linarith) roundingFactor_pos.le)]
    have hP : Tq * Tq * b ≤ 16001 := by
      have h1 := mul_le_mul_of_nonneg_left hb1 (by linarith : 0 ≤ Tq)
      have h2 : Tq * ((C + Tq / 10 ^ 30) * roundingFactor) =
          (C * Tq + Tq * Tq / 10 ^ 30) * roundingFactor := by ring
      have h3 : (C * Tq + Tq * Tq / 10 ^ 30) * roundingFactor ≤
          (16000 + 250000 / 10 ^ 30) * roundingFactor :=
        mul_le_mul_of_nonneg_right
          (add_le_add hCT (div_le_div_of_nonneg_right hTT (by positivity)))
          roundingFactor_pos.le
      have h4 : ((16000 : ℚ) + 250000 / 10 ^ 30) * roundingFactor ≤ 16001 := by
        rw [hrf]
        norm_num
      have h5 : Tq * Tq * b = Tq * (Tq * b) := by ring
      linarith
    have hPu := mul_le_mul_of_nonneg_right hP
      (by norm_num : (0 : ℚ) ≤ (1001 / 1000) / 2 ^ 24)
    have hXu : (X + 1 / 10 ^ 30) * roundingFactor ≤
        ((Tq - 2) * b + (Tq * Tq * b) * ((1001 / 1000) / 2 ^ 24) +
          501 * (8000 / 10 ^ 30) + 1 / 10 ^ 30) * roundingFactor :=
      mul_le_mul_of_nonneg_right (by linarith) roundingFactor_pos.le
    rw [hrf] at hXu ⊢
    have hC2 : C / 2 ^ 24 ≤ 8000 / 2 ^ 24 := div_le_div_of_nonneg_right hC8 (by positivity)
    have hexp : ((Tq - 2) * b + (Tq * Tq * b) * ((1001 / 1000) / 2 ^ 24) +
          501 * (8000 / 10 ^ 30) + 1 / 10 ^ 30) * (1 + 1 / 2 ^ 24) =
        Tq * b - 2 * b + (Tq * b - 2 * b) / 2 ^ 24 +
          ((Tq * Tq * b) * ((1001 / 1000) / 2 ^ 24) + 501 * (8000 / 10 ^ 30) + 1 / 10 ^ 30) *
            (1 + 1 / 2 ^ 24) := by ring
    rw [hexp] at hXu
    have hsmall : ((Tq * Tq * b) * ((1001 / 1000) / 2 ^ 24) + 501 * (8000 / 10 ^ 30) +
        1 / 10 ^ 30) * (1 + 1 / 2 ^ 24) ≤
        (16001 * ((1001 / 1000) / 2 ^ 24) + 501 * (8000 / 10 ^ 30) + 1 / 10 ^ 30) *
          (1 + 1 / 2 ^ 24) :=
      mul_le_mul_of_nonneg_right (by linarith) (by norm_num)
    have hB3 : (Tq * b - 2 * b) / 2 ^ 24 ≤ 8001 / 2 ^ 24 - 2 * b / 2 ^ 24 := by
      have := div_le_div_of_nonneg_right hB1 (by positivity : (0 : ℚ) ≤ 2 ^ 24)
      have he : (Tq * b - 2 * b) / 2 ^ 24 = Tq * b / 2 ^ 24 - 2 * b / 2 ^ 24 := by ring
      linarith
    norm_num at hXu hsmall hB3 hB hC2 hcase ⊢
    linarith only [hXu, hsmall, hB3, hB, hC2, hcase]


/-- The progress that one turn at a limit `M` adds, times the block cost `C ≥ ε`, is at most
`M` with one rounding. -/
theorem b32_rate_mul_le (M C : ℚ) (hM0 : 0 ≤ M) (hC : Binary32.EPSILON ≤ C) :
    roundF32 (M / max Binary32.EPSILON C) * C ≤ (M + C / 10 ^ 30) * roundingFactor := by
  have hC0 : 0 < C := by
    rw [b32_EPSILON_value] at hC
    linarith
  rw [max_eq_right hC]
  have h1 := roundF32_pos_le (M / C) (div_nonneg hM0 hC0.le)
  have h2 := mul_le_mul_of_nonneg_right h1 hC0.le
  have h3 : (M / C + 1 / 10 ^ 30) * roundingFactor * C =
      (M + C / 10 ^ 30) * roundingFactor := by
    field_simp
    ring
  linarith

/-- The topping-up guard in binary32: with a frontload factor of 0, a block cost `C` with
`C × T ≤ 16000` and a progress of at most `n ≤ T − 2` turns at the basic limit, the per-turn
limit is at most the basic limit. -/
theorem b32_limit_le_basic_of_progress (rules : GameRules) (e : Element) (item_cost : ℚ)
    (T : Int) (n : Nat) (hT2 : 2 ≤ T) (hT500 : T ≤ 500) (hn : (n : Int) + 2 ≤ T)
    (hfl : Binary32.frontloadLimitFactor rules = 0)
    (hbase : (T : ℚ) * (11 / 10000) ≤ Binary32.blockCost item_cost e)
    (hCT : Binary32.blockCost item_cost e * (T : ℚ) ≤ 16000)
    (hp0 : 0 ≤ e.progress)
    (hp : e.progress ≤ (n : ℚ) *
      roundF32 (Binary32.basicLimit (Binary32.blockCost item_cost e) T /
        max Binary32.EPSILON (Binary32.blockCost item_cost e)) * roundingFactor ^ n) :
    Binary32.CalculateProductionPerTurnLimit rules e item_cost T ≤
      Binary32.basicLimit (Binary32.blockCost item_cost e) T := by
  apply b32_limit_le_basic rules e item_cost T hfl
  obtain ⟨hb1, hb2, hb3⟩ := b32_basicLimit_bounds (Binary32.blockCost item_cost e) T hT2 hT500
    hbase
  have hbF : isF32 (Binary32.basicLimit (Binary32.blockCost item_cost e) T) := isF32_round _
  generalize Binary32.blockCost item_cost e = C at *
  generalize Binary32.basicLimit C T = b at *
  have hT2q : (2 : ℚ) ≤ (T : ℚ) := by exact_mod_cast hT2
  have hT500q : (T : ℚ) ≤ 500 := by exact_mod_cast hT500
  have hnq : (n : ℚ) + 2 ≤ (T : ℚ) := by exact_mod_cast hn
  have hn0 : (0 : ℚ) ≤ (n : ℚ) := Nat.cast_nonneg _
  have hC0 : 0 < C := by linarith
  have hCe : Binary32.EPSILON ≤ C := by
    rw [b32_EPSILON_value]
    linarith
  have hb0 : 0 ≤ b := by linarith
  have hmC := b32_rate_mul_le b C hb0 hCe
  generalize roundF32 (b / max Binary32.EPSILON C) = m at hp hmC
  have hn498 : n + 1 ≤ 16000 := by omega
  have hpow := roundingFactor_pow_le_linear (n + 1) hn498
  have hpown0 : 0 ≤ roundingFactor ^ n := pow_nonneg roundingFactor_pos.le _
  have hY0 : 0 ≤ b + C / 10 ^ 30 := by positivity
  have hX : e.progress * C ≤
      (n : ℚ) * (1 + ((n : ℚ) + 1) * (1001 / 1000) / 2 ^ 24) * (b + C / 10 ^ 30) := by
    have h1 : e.progress * C ≤ (n : ℚ) * m * roundingFactor ^ n * C :=
      mul_le_mul_of_nonneg_right hp hC0.le
    have h2 : (n : ℚ) * m * roundingFactor ^ n * C ≤
        (n : ℚ) * roundingFactor ^ (n + 1) * (b + C / 10 ^ 30) := by
      have := mul_le_mul_of_nonneg_left hmC (mul_nonneg hn0 hpown0)
      calc (n : ℚ) * m * roundingFactor ^ n * C = (n : ℚ) * roundingFactor ^ n * (m * C) := by
            ring
        _ ≤ (n : ℚ) * roundingFactor ^ n * ((b + C / 10 ^ 30) * roundingFactor) := this
        _ = _ := by ring
    have h3 : (n : ℚ) * roundingFactor ^ (n + 1) * (b + C / 10 ^ 30) ≤
        (n : ℚ) * (1 + ((n : ℚ) + 1) * (1001 / 1000) / 2 ^ 24) * (b + C / 10 ^ 30) := by
      apply mul_le_mul_of_nonneg_right _ hY0
      apply mul_le_mul_of_nonneg_left _ hn0
      push_cast at hpow
      exact hpow
    linarith
  have hguard := b32_topping_guard_arith C b (e.progress * C) (T : ℚ) (n : ℚ) hT2q hT500q hn0
    hnq hC0.le hb1 hb2 hCT hX
  have hacc := roundF32_pos_le (e.progress * C) (mul_nonneg hp0 hC0.le)
  have hEF : isF32 (8589935 / 4294967296 : ℚ) := by
    have := isF32_round (2 * Binary32.EPSILON)
    rwa [b32_two_EPSILON_value] at this
  rw [b32_two_EPSILON_value]
  have hy : roundF32 (b - 8589935 / 4294967296) ≤
      max 0 ((b - 8589935 / 4294967296) * roundingFactor) := by
    rcases le_total 0 (b - 8589935 / 4294967296) with h | h
    · exact le_trans (roundF32_sub_le b _ hbF hEF h) (le_max_right _ _)
    · exact le_trans (roundF32_nonpos _ h) (le_max_left _ _)
  apply roundF32_mono
  linarith


theorem isF32_forty : isF32 40 :=
  roundF32_of_near _ _ 5 10485760 (by norm_num [le_abs]) (by norm_num [abs_lt])
    (by norm_num [abs_lt]) (by norm_num)

/-- C2 (amended): in binary32, under stable costs the rate limiter does not fund a batch faster
than its minimum build time `T ≤ 500` when the base limit has a margin over `ε` (block cost at
least `T × 0.0011`) and at most one smoothing allowance is active: the topping-up factor that
line 81 computes is 0, or the frontload rule is 0 and the block cost times `T` is at most 16000.
For every entry starting at progress 0 with at least one batch remaining and the frontload rule
in its range `[0, 30]`, that receives exactly `CalculateProductionPerTurnLimit` on each turn and
advances as the simulating pass advances it, the completion test does not fire on any turn `k`
with `1 ≤ k < T`. -/
theorem C2_no_early_completion_rounded (rules : GameRules) (e : Element) (item_cost : ℚ)
    (T : Int) (k : Nat) (hprog : e.progress = 0) (hrem : 1 ≤ e.remaining)
    (hf0 : 0 ≤ rules.RULE_PRODUCTION_QUEUE_FRONTLOAD_FACTOR)
    (hf1 : rules.RULE_PRODUCTION_QUEUE_FRONTLOAD_FACTOR ≤ 30)
    (hT500 : T ≤ 500)
    (hbase : (T : ℚ) * (11 / 10000) ≤ Binary32.blockCost item_cost e)
    (hone : Binary32.toppingUpLimitFactor rules = 0 ∨
      (rules.RULE_PRODUCTION_QUEUE_FRONTLOAD_FACTOR = 0 ∧
        Binary32.blockCost item_cost e * (T : ℚ) ≤ 16000))
    (hk1 : 1 ≤ k) (hkT : (k : Int) < T) :
    Binary32.completionFiresOnTurn rules item_cost T e k = false := by
  have hT2 : 2 ≤ T := by omega
  have hblock : ∀ e2 : Element, e2.blocksize = e.blocksize →
      Binary32.blockCost item_cost e2 = Binary32.blockCost item_cost e := by
    intro e2 h
    unfold Binary32.blockCost
    rw [h]
  rcases hone with htl | ⟨hfz, hCT⟩
  · obtain ⟨hMe, hH⟩ := b32_steady_headroom rules (Binary32.blockCost item_cost e) T hT2 hT500
      hbase hf0 hf1
    refine b32_no_completion_of_bound rules e item_cost T k
      (Binary32.steadyLimit rules (Binary32.blockCost item_cost e) T) hprog hrem hT500 hbase hMe
      hH ?_ hk1 hkT
    intro n e2 _ hbs _ _ _ _
    have := b32_limit_le_steady rules e2 item_cost T htl
    rwa [hblock e2 hbs] at this
  · have hfl : Binary32.frontloadLimitFactor rules = 0 := by
      unfold Binary32.frontloadLimitFactor
      rw [hfz, zero_mul, roundF64_zero, roundF32_zero]
    obtain ⟨hb1, hb2, hb3⟩ := b32_basicLimit_bounds (Binary32.blockCost item_cost e) T hT2
      hT500 hbase
    have hT500q : (T : ℚ) ≤ 500 := by exact_mod_cast hT500
    have hMe : Binary32.EPSILON ≤ Binary32.basicLimit (Binary32.blockCost item_cost e) T := by
      rw [b32_EPSILON_value]
      refine le_trans ?_ hb2
      norm_num
    refine b32_no_completion_of_bound rules e item_cost T k
      (Binary32.basicLimit (Binary32.blockCost item_cost e) T) hprog hrem hT500 hbase hMe
      (b32_headroom_basic _ _ (T : ℚ) hT500q hb1 hb2 hb3) ?_ hk1 hkT
    intro n e2 hn hbs _ _ hp0 hp
    have := b32_limit_le_basic_of_progress rules e2 item_cost T n hT2 hT500 hn hfl
      (by rw [hblock e2 hbs]; exact hbase) (by rw [hblock e2 hbs]; exact hCT) hp0
      (by rw [hblock e2 hbs]; exact hp)
    rwa [hblock e2 hbs] at this

/-- Witness of C2 (amended): unit cost 40, minimum build time 4, a topping-up rule of 30 percent
and no frontloading, turn 3. -/
theorem C2_no_early_completion_rounded_witness :
    Binary32.completionFiresOnTurn toppingUpRules 40 4 sampleElement 3 = false :=
  have hcost : Binary32.blockCost 40 sampleElement = 40 := by
    have h1 : roundF32 1 = 1 := isF32_one
    have h40 : roundF32 40 = 40 := isF32_forty
    simp [Binary32.blockCost, sampleElement, h1, h40]
  C2_no_early_completion_rounded toppingUpRules sampleElement 40 4 3 rfl (by decide)
    (by norm_num [toppingUpRules]) (by norm_num [toppingUpRules]) (by decide)
    (by rw [hcost]; norm_num)
    (Or.inr ⟨rfl, by rw [hcost]; norm_num⟩) (by decide) (by decide)


/-- The per-turn limit written with the named intermediate quantities. -/
theorem b32_limit_formula (rules : GameRules) (e : Element) (item_cost : ℚ) (T : Int) :
    Binary32.CalculateProductionPerTurnLimit rules e item_cost T =
      min (roundF32 (roundF32 (Binary32.blockCost item_cost e * roundF32 (e.remaining : ℚ)) -
          roundF32 (e.progress * Binary32.blockCost item_cost e)))
        (max (Binary32.basicLimit (Binary32.blockCost item_cost e) T)
          (max (Binary32.frontloadLimit rules (Binary32.blockCost item_cost e) T)
            (if roundF32 (Binary32.blockCost item_cost e -
                roundF32 (e.progress * Binary32.blockCost item_cost e)) <
              roundF32 (Binary32.basicLimit (Binary32.blockCost item_cost e) T +
                min (roundF32 (Binary32.toppingUpLimitFactor rules *
                    Binary32.blockCost item_cost e))
                  (roundF32 (Binary32.basicLimit (Binary32.blockCost item_cost e) T -
                    roundF32 (2 * Binary32.EPSILON))))
            then roundF32 (Binary32.blockCost item_cost e -
              roundF32 (e.progress * Binary32.blockCost item_cost e))
            else Binary32.basicLimit (Binary32.blockCost item_cost e) T))) := rfl

/-- The factors that lines 80 and 81 compute from a topping-up rule of 30 percent without
frontloading: 0 and `0.3f`. -/
theorem b32_toppingUpRules_factors :
    Binary32.frontloadLimitFactor toppingUpRules = 0 ∧
      Binary32.toppingUpLimitFactor toppingUpRules = 5033165 / 16777216 := by
  have ha0x1 : roundF64 (1 / 100) = 5764607523034235 / 576460752303423488 :=
    roundF64_of_near _ _ (-7) (5764607523034235) (by norm_num [le_abs]) (by norm_num [abs_lt])
      (by norm_num [abs_lt]) (by norm_num)
  have ha0x2 : roundF64 (86469112845513525 / 288230376151711744) = 5404319552844595 / 18014398509481984 :=
    roundF64_of_near _ _ (-2) (5404319552844595) (by norm_num [le_abs]) (by norm_num [abs_lt])
      (by norm_num [abs_lt]) (by norm_num)
  have ha0x3 : roundF64 (5404319552844595 / 18014398509481984) = 5404319552844595 / 18014398509481984 :=
    roundF64_of_near _ _ (-2) (5404319552844595) (by norm_num [le_abs]) (by norm_num [abs_lt])
      (by norm_num [abs_lt]) (by norm_num)
  have ha0x4 : roundF32 (5404319552844595 / 18014398509481984) = 5033165 / 16777216 :=
    roundF32_of_near _ _ (-2) (10066330) (by norm_num [le_abs]) (by norm_num [abs_lt])
      (by norm_num [abs_lt]) (by norm_num)
  have hfl : Binary32.frontloadLimitFactor toppingUpRules = 0 := by
    unfold Binary32.frontloadLimitFactor
    have : toppingUpRules.RULE_PRODUCTION_QUEUE_FRONTLOAD_FACTOR = 0 := rfl
    rw [this, zero_mul, roundF64_zero, roundF32_zero]
  refine ⟨hfl, ?_⟩
  unfold Binary32.toppingUpLimitFactor
  have ht : toppingUpRules.RULE_PRODUCTION_QUEUE_TOPPING_UP_FACTOR = 30 := rfl
  rw [hfl, ht, ha0x1, sub_zero]
  have h30 : (30 : ℚ) * (5764607523034235 / 576460752303423488) =
      86469112845513525 / 288230376151711744 := by norm_num
  rw [h30, ha0x2, ha0x3, max_eq_right (by norm_num), ha0x4]

/-- The quantities of the per-turn limit that do not depend on the progress, for a single-unit
entry of unit cost 100000 with minimum build time 5 and a topping-up rule of 30 percent. -/
theorem b32_topping_constants (e : Element) (hb : e.blocksize = 1) :
    Binary32.blockCost (100000) e = 100000 ∧
      Binary32.basicLimit (100000) 5 = 20000 ∧
      Binary32.frontloadLimit toppingUpRules (100000) 5 = 10239999 / 512 ∧
      Binary32.frontloadLimitFactor toppingUpRules = 0 ∧
      Binary32.toppingUpLimitFactor toppingUpRules = 5033165 / 16777216 := by
  have ha0x1 : roundF64 (1 / 100) = 5764607523034235 / 576460752303423488 :=
    roundF64_of_near _ _ (-7) (5764607523034235) (by norm_num [le_abs]) (by norm_num [abs_lt])
      (by norm_num [abs_lt]) (by norm_num)
  have ha0x2 : roundF64 (86469112845513525 / 288230376151711744) =
      5404319552844595 / 18014398509481984 :=
    roundF64_of_near _ _ (-2) (5404319552844595) (by norm_num [le_abs]) (by norm_num [abs_lt])
      (by norm_num [abs_lt]) (by norm_num)
  have ha0x3 : roundF64 (5404319552844595 / 18014398509481984) =
      5404319552844595 / 18014398509481984 :=
    roundF64_of_near _ _ (-2) (5404319552844595) (by norm_num [le_abs]) (by norm_num [abs_lt])
      (by norm_num [abs_lt]) (by norm_num)
  have ha0x4 : roundF32 (5404319552844595 / 18014398509481984) = 5033165 / 16777216 :=
    roundF32_of_near _ _ (-2) (10066330) (by norm_num [le_abs]) (by norm_num [abs_lt])
      (by norm_num [abs_lt]) (by norm_num)
  have ha0x5 : roundF32 (1) = 1 :=
    roundF32_of_near _ _ (0) (8388608) (by norm_num [le_abs]) (by norm_num [abs_lt])
      (by norm_num [abs_lt]) (by norm_num)
  have ha0x6 : roundF32 (100000) = 100000 :=
    roundF32_of_near _ _ (16) (12800000) (by norm_num [le_abs]) (by norm_num [abs_lt])
      (by norm_num [abs_lt]) (by norm_num)
  have ha0x7 : roundF32 (5) = 5 :=
    roundF32_of_near _ _ (2) (10485760) (by norm_num [le_abs]) (by norm_num [abs_lt])
      (by norm_num [abs_lt]) (by norm_num)
  have ha0x8 : roundF32 (20000) = 20000 :=
    roundF32_of_near _ _ (14) (10240000) (by norm_num [le_abs]) (by norm_num [abs_lt])
      (by norm_num [abs_lt]) (by norm_num)
  have ha0x9 : roundF32 (4) = 4 :=
    roundF32_of_near _ _ (2) (8388608) (by norm_num [le_abs]) (by norm_num [abs_lt])
      (by norm_num [abs_lt]) (by norm_num)
  have ha0x10 : roundF32 (1 / 1000) = 8589935 / 8589934592 :=
    roundF32_of_near _ _ (-10) (8589935) (by norm_num [le_abs]) (by norm_num [abs_lt])
      (by norm_num [abs_lt]) (by norm_num)
  have ha0x11 : roundF32 (8589935 / 4294967296) = 8589935 / 4294967296 :=
    roundF32_of_near _ _ (-9) (8589935) (by norm_num [le_abs]) (by norm_num [abs_lt])
      (by norm_num [abs_lt]) (by norm_num)
  have ha0x12 : roundF32 (85899337330065 / 4294967296) = 10239999 / 512 :=
    roundF32_of_near _ _ (14) (10239999) (by norm_num [le_abs]) (by norm_num [abs_lt])
      (by norm_num [abs_lt]) (by norm_num)
  have ha0x13 : roundF32 (15728640625 / 524288) = 15360001 / 512 :=
    roundF32_of_near _ _ (14) (15360001) (by norm_num [le_abs]) (by norm_num [abs_lt])
      (by norm_num [abs_lt]) (by norm_num)
  have ha0x14 : roundF32 (20479999 / 512) = 40000 :=
    roundF32_of_tie _ _ (15) (10239999) (by norm_num [le_abs]) (by norm_num [abs_lt])
      (by norm_num) (by norm_num)
  have ha0x15 : roundF32 (80000) = 80000 :=
    roundF32_of_near _ _ (16) (10240000) (by norm_num [le_abs]) (by norm_num [abs_lt])
      (by norm_num [abs_lt]) (by norm_num)
  have ha0x16 : roundF32 (1 / 5) = 13421773 / 67108864 :=
    roundF32_of_near _ _ (-3) (13421773) (by norm_num [le_abs]) (by norm_num [abs_lt])
      (by norm_num [abs_lt]) (by norm_num)
  have ha0x17 : roundF32 (13421773 / 67108864) = 13421773 / 67108864 :=
    roundF32_of_near _ _ (-3) (13421773) (by norm_num [le_abs]) (by norm_num [abs_lt])
      (by norm_num [abs_lt]) (by norm_num)
  have hfl : Binary32.frontloadLimitFactor toppingUpRules = 0 := b32_toppingUpRules_factors.1
  have htl : Binary32.toppingUpLimitFactor toppingUpRules = 5033165 / 16777216 := b32_toppingUpRules_factors.2
  refine ⟨?_, ?_, ?_, hfl, htl⟩
  · norm_num [Binary32.blockCost, hb,
      roundF32_zero, ha0x1, ha0x2, ha0x3, ha0x4, ha0x5, ha0x6, ha0x7, ha0x8, ha0x9, ha0x10,
      ha0x11, ha0x12, ha0x13, ha0x14, ha0x15, ha0x16, ha0x17]
  · norm_num [Binary32.basicLimit,
      roundF32_zero, ha0x1, ha0x2, ha0x3, ha0x4, ha0x5, ha0x6, ha0x7, ha0x8, ha0x9, ha0x10,
      ha0x11, ha0x12, ha0x13, ha0x14, ha0x15, ha0x16, ha0x17]
  · unfold Binary32.frontloadLimit Binary32.basicLimit
    rw [hfl, b32_two_EPSILON_value]
    norm_num [
      roundF32_zero, ha0x1, ha0x2, ha0x3, ha0x4, ha0x5, ha0x6, ha0x7, ha0x8, ha0x9, ha0x10,
      ha0x11, ha0x12, ha0x13, ha0x14, ha0x15, ha0x16, ha0x17]

/-- The first turn of the binary32 run funded at the limit with a topping-up rule of 30
percent, unit cost 100000 and minimum build time 5: the limit is `20000`, the progress goes
from `0` to `13421773 / 67108864`, and the completion test does not fire. -/
theorem b32_topping_turn_first (e : Element) (hb : e.blocksize = 1)
    (hr : e.remaining = 1) (hp : e.progress = 0) :
    (Binary32.limitFundedTurn toppingUpRules (100000) 5 e).blocksize = 1 ∧
      (Binary32.limitFundedTurn toppingUpRules (100000) 5 e).remaining = 1 ∧
      (Binary32.limitFundedTurn toppingUpRules (100000) 5 e).progress = 13421773 / 67108864 ∧
      (Binary32.limitFundedTurn toppingUpRules (100000) 5 e).turns_left_to_next_item = -1 ∧
      Binary32.CalculateProductionPerTurnLimit toppingUpRules e (100000) 5 = 20000 := by
  have ha0x1 : roundF64 (1 / 100) = 5764607523034235 / 576460752303423488 :=
    roundF64_of_near _ _ (-7) (5764607523034235) (by norm_num [le_abs]) (by norm_num [abs_lt])
      (by norm_num [abs_lt]) (by norm_num)
  have ha0x2 : roundF64 (86469112845513525 / 288230376151711744) =
      5404319552844595 / 18014398509481984 :=
    roundF64_of_near _ _ (-2) (5404319552844595) (by norm_num [le_abs]) (by norm_num [abs_lt])
      (by norm_num [abs_lt]) (by norm_num)
  have ha0x3 : roundF64 (5404319552844595 / 18014398509481984) =
      5404319552844595 / 18014398509481984 :=
    roundF64_of_near _ _ (-2) (5404319552844595) (by norm_num [le_abs]) (by norm_num [abs_lt])
      (by norm_num [abs_lt]) (by norm_num)
  have ha0x4 : roundF32 (5404319552844595 / 18014398509481984) = 5033165 / 16777216 :=
    roundF32_of_near _ _ (-2) (10066330) (by norm_num [le_abs]) (by norm_num [abs_lt])
      (by norm_num [abs_lt]) (by norm_num)
  have ha0x5 : roundF32 (1) = 1 :=
    roundF32_of_near _ _ (0) (8388608) (by norm_num [le_abs]) (by norm_num [abs_lt])
      (by norm_num [abs_lt]) (by norm_num)
  have ha0x6 : roundF32 (100000) = 100000 :=
    roundF32_of_near _ _ (16) (12800000) (by norm_num [le_abs]) (by norm_num [abs_lt])
      (by norm_num [abs_lt]) (by norm_num)
  have ha0x7 : roundF32 (5) = 5 :=
    roundF32_of_near _ _ (2) (10485760) (by norm_num [le_abs]) (by norm_num [abs_lt])
      (by norm_num [abs_lt]) (by norm_num)
  have ha0x8 : roundF32 (20000) = 20000 :=
    roundF32_of_near _ _ (14) (10240000) (by norm_num [le_abs]) (by norm_num [abs_lt])
      (by norm_num [abs_lt]) (by norm_num)
  have ha0x9 : roundF32 (4) = 4 :=
    roundF32_of_near _ _ (2) (8388608) (by norm_num [le_abs]) (by norm_num [abs_lt])
      (by norm_num [abs_lt]) (by norm_num)
  have ha0x10 : roundF32 (1 / 1000) = 8589935 / 8589934592 :=
    roundF32_of_near _ _ (-10) (8589935) (by norm_num [le_abs]) (by norm_num [abs_lt])
      (by norm_num [abs_lt]) (by norm_num)
  have ha0x11 : roundF32 (8589935 / 4294967296) = 8589935 / 4294967296 :=
    roundF32_of_near _ _ (-9) (8589935) (by norm_num [le_abs]) (by norm_num [abs_lt])
      (by norm_num [abs_lt]) (by norm_num)
  have ha0x12 : roundF32 (85899337330065 / 4294967296) = 10239999 / 512 :=
    roundF32_of_near _ _ (14) (10239999) (by norm_num [le_abs]) (by norm_num [abs_lt])
      (by norm_num [abs_lt]) (by norm_num)
  have ha0x13 : roundF32 (15728640625 / 524288) = 15360001 / 512 :=
    roundF32_of_near _ _ (14) (15360001) (by norm_num [le_abs]) (by norm_num [abs_lt])
      (by norm_num [abs_lt]) (by norm_num)
  have ha0x14 : roundF32 (20479999 / 512) = 40000 :=
    roundF32_of_tie _ _ (15) (10239999) (by norm_num [le_abs]) (by norm_num [abs_lt])
      (by norm_num) (by norm_num)
  have ha0x15 : roundF32 (80000) = 80000 :=
    roundF32_of_near _ _ (16) (10240000) (by norm_num [le_abs]) (by norm_num [abs_lt])
      (by norm_num [abs_lt]) (by norm_num)
  have ha0x16 : roundF32 (1 / 5) = 13421773 / 67108864 :=
    roundF32_of_near _ _ (-3) (13421773) (by norm_num [le_abs]) (by norm_num [abs_lt])
      (by norm_num [abs_lt]) (by norm_num)
  have ha0x17 : roundF32 (13421773 / 67108864) = 13421773 / 67108864 :=
    roundF32_of_near _ _ (-3) (13421773) (by norm_num [le_abs]) (by norm_num [abs_lt])
      (by norm_num [abs_lt]) (by norm_num)
  obtain ⟨f1, f2, f3, f4⟩ := b32_limitFundedTurn_fields toppingUpRules (100000) 5 e
  obtain ⟨hC, hbas, hF, hfl, htl⟩ := b32_topping_constants e hb
  have hL : Binary32.CalculateProductionPerTurnLimit toppingUpRules e (100000) 5 = 20000 := by
    rw [b32_limit_formula, hC, hbas, hF, htl, hr, hp, b32_two_EPSILON_value]
    norm_num [
      roundF32_zero, ha0x1, ha0x2, ha0x3, ha0x4, ha0x5, ha0x6, ha0x7, ha0x8, ha0x9, ha0x10,
      ha0x11, ha0x12, ha0x13, ha0x14, ha0x15, ha0x16, ha0x17]
  refine ⟨by rw [f1, hb], by rw [f2, hr], ?_, ?_, hL⟩
  · rw [f3, hL, hC, hp, b32_EPSILON_value]
    norm_num [
      roundF32_zero, ha0x1, ha0x2, ha0x3, ha0x4, ha0x5, ha0x6, ha0x7, ha0x8, ha0x9, ha0x10,
      ha0x11, ha0x12, ha0x13, ha0x14, ha0x15, ha0x16, ha0x17]
  · rw [f4, hL, hC, hp]
    unfold Binary32.completesThisTurn
    rw [b32_EPSILON_value]
    norm_num [
      roundF32_zero, ha0x1, ha0x2, ha0x3, ha0x4, ha0x5, ha0x6, ha0x7, ha0x8, ha0x9, ha0x10,
      ha0x11, ha0x12, ha0x13, ha0x14, ha0x15, ha0x16, ha0x17]

/-- The second turn of the binary32 run funded at the limit with a topping-up rule of 30
percent, unit cost 100000 and minimum build time 5: the limit is `20000`, the progress goes
from `13421773 / 67108864` to `13421773 / 33554432`, and the completion test does not fire. -/
theorem b32_topping_turn_second (e : Element) (hb : e.blocksize = 1)
    (hr : e.remaining = 1) (hp : e.progress = 13421773 / 67108864) :
    (Binary32.limitFundedTurn toppingUpRules (100000) 5 e).blocksize = 1 ∧
      (Binary32.limitFundedTurn toppingUpRules (100000) 5 e).remaining = 1 ∧
      (Binary32.limitFundedTurn toppingUpRules (100000) 5 e).progress = 13421773 / 33554432 ∧
      (Binary32.limitFundedTurn toppingUpRules (100000) 5 e).turns_left_to_next_item = -1 ∧
      Binary32.CalculateProductionPerTurnLimit toppingUpRules e (100000) 5 = 20000 := by
  have ha1x1 : roundF64 (1 / 100) = 5764607523034235 / 576460752303423488 :=
    roundF64_of_near _ _ (-7) (5764607523034235) (by norm_num [le_abs]) (by norm_num [abs_lt])
      (by norm_num [abs_lt]) (by norm_num)
  have ha1x2 : roundF64 (86469112845513525 / 288230376151711744) =
      5404319552844595 / 18014398509481984 :=
    roundF64_of_near _ _ (-2) (5404319552844595) (by norm_num [le_abs]) (by norm_num [abs_lt])
      (by norm_num [abs_lt]) (by norm_num)
  have ha1x3 : roundF64 (5404319552844595 / 18014398509481984) =
      5404319552844595 / 18014398509481984 :=
    roundF64_of_near _ _ (-2) (5404319552844595) (by norm_num [le_abs]) (by norm_num [abs_lt])
      (by norm_num [abs_lt]) (by norm_num)
  have ha1x4 : roundF32 (5404319552844595 / 18014398509481984) = 5033165 / 16777216 :=
    roundF32_of_near _ _ (-2) (10066330) (by norm_num [le_abs]) (by norm_num [abs_lt])
      (by norm_num [abs_lt]) (by norm_num)
  have ha1x5 : roundF32 (1) = 1 :=
    roundF32_of_near _ _ (0) (8388608) (by norm_num [le_abs]) (by norm_num [abs_lt])
      (by norm_num [abs_lt]) (by norm_num)
  have ha1x6 : roundF32 (100000) = 100000 :=
    roundF32_of_near _ _ (16) (12800000) (by norm_num [le_abs]) (by norm_num [abs_lt])
      (by norm_num [abs_lt]) (by norm_num)
  have ha1x7 : roundF32 (41943040625 / 2097152) = 20000 :=
    roundF32_of_near _ _ (14) (10240000) (by norm_num [le_abs]) (by norm_num [abs_lt])
      (by norm_num [abs_lt]) (by norm_num)
  have ha1x8 : roundF32 (80000) = 80000 :=
    roundF32_of_near _ _ (16) (10240000) (by norm_num [le_abs]) (by norm_num [abs_lt])
      (by norm_num [abs_lt]) (by norm_num)
  have ha1x9 : roundF32 (5) = 5 :=
    roundF32_of_near _ _ (2) (10485760) (by norm_num [le_abs]) (by norm_num [abs_lt])
      (by norm_num [abs_lt]) (by norm_num)
  have ha1x10 : roundF32 (20000) = 20000 :=
    roundF32_of_near _ _ (14) (10240000) (by norm_num [le_abs]) (by norm_num [abs_lt])
      (by norm_num [abs_lt]) (by norm_num)
  have ha1x11 : roundF32 (4) = 4 :=
    roundF32_of_near _ _ (2) (8388608) (by norm_num [le_abs]) (by norm_num [abs_lt])
      (by norm_num [abs_lt]) (by norm_num)
  have ha1x12 : roundF32 (1 / 1000) = 8589935 / 8589934592 :=
    roundF32_of_near _ _ (-10) (8589935) (by norm_num [le_abs]) (by norm_num [abs_lt])
      (by norm_num [abs_lt]) (by norm_num)
  have ha1x13 : roundF32 (8589935 / 4294967296) = 8589935 / 4294967296 :=
    roundF32_of_near _ _ (-9) (8589935) (by norm_num [le_abs]) (by norm_num [abs_lt])
      (by norm_num [abs_lt]) (by norm_num)
  have ha1x14 : roundF32 (85899337330065 / 4294967296) = 10239999 / 512 :=
    roundF32_of_near _ _ (14) (10239999) (by norm_num [le_abs]) (by norm_num [abs_lt])
      (by norm_num [abs_lt]) (by norm_num)
  have ha1x15 : roundF32 (15728640625 / 524288) = 15360001 / 512 :=
    roundF32_of_near _ _ (14) (15360001) (by norm_num [le_abs]) (by norm_num [abs_lt])
      (by norm_num [abs_lt]) (by norm_num)
  have ha1x16 : roundF32 (20479999 / 512) = 40000 :=
    roundF32_of_tie _ _ (15) (10239999) (by norm_num [le_abs]) (by norm_num [abs_lt])
      (by norm_num) (by norm_num)
  have ha1x17 : roundF32 (53687091 / 67108864) = 13421773 / 16777216 :=
    roundF32_of_near _ _ (-1) (13421773) (by norm_num [le_abs]) (by norm_num [abs_lt])
      (by norm_num [abs_lt]) (by norm_num)
  have ha1x18 : roundF32 (41943040625 / 524288) = 80000 :=
    roundF32_of_near _ _ (16) (10240000) (by norm_num [le_abs]) (by norm_num [abs_lt])
      (by norm_num [abs_lt]) (by norm_num)
  have ha1x19 : roundF32 (60000) = 60000 :=
    roundF32_of_near _ _ (15) (15360000) (by norm_num [le_abs]) (by norm_num [abs_lt])
      (by norm_num [abs_lt]) (by norm_num)
  have ha1x20 : roundF32 (1 / 5) = 13421773 / 67108864 :=
    roundF32_of_near _ _ (-3) (13421773) (by norm_num [le_abs]) (by norm_num [abs_lt])
      (by norm_num [abs_lt]) (by norm_num)
  have ha1x21 : roundF32 (13421773 / 33554432) = 13421773 / 33554432 :=
    roundF32_of_near _ _ (-2) (13421773) (by norm_num [le_abs]) (by norm_num [abs_lt])
      (by norm_num [abs_lt]) (by norm_num)
  obtain ⟨f1, f2, f3, f4⟩ := b32_limitFundedTurn_fields toppingUpRules (100000) 5 e
  obtain ⟨hC, hbas, hF, hfl, htl⟩ := b32_topping_constants e hb
  have hL : Binary32.CalculateProductionPerTurnLimit toppingUpRules e (100000) 5 = 20000 := by
    rw [b32_limit_formula, hC, hbas, hF, htl, hr, hp, b32_two_EPSILON_value]
    norm_num [
      roundF32_zero, ha1x1, ha1x2, ha1x3, ha1x4, ha1x5, ha1x6, ha1x7, ha1x8, ha1x9, ha1x10,
      ha1x11, ha1x12, ha1x13, ha1x14, ha1x15, ha1x16, ha1x17, ha1x18, ha1x19, ha1x20, ha1x21]
  refine ⟨by rw [f1, hb], by rw [f2, hr], ?_, ?_, hL⟩
  · rw [f3, hL, hC, hp, b32_EPSILON_value]
    norm_num [
      roundF32_zero, ha1x1, ha1x2, ha1x3, ha1x4, ha1x5, ha1x6, ha1x7, ha1x8, ha1x9, ha1x10,
      ha1x11, ha1x12, ha1x13, ha1x14, ha1x15, ha1x16, ha1x17, ha1x18, ha1x19, ha1x20, ha1x21]
  · rw [f4, hL, hC, hp]
    unfold Binary32.completesThisTurn
    rw [b32_EPSILON_value]
    norm_num [
      roundF32_zero, ha1x1, ha1x2, ha1x3, ha1x4, ha1x5, ha1x6, ha1x7, ha1x8, ha1x9, ha1x10,
      ha1x11, ha1x12, ha1x13, ha1x14, ha1x15, ha1x16, ha1x17, ha1x18, ha1x19, ha1x20, ha1x21]

/-- The third turn of the binary32 run funded at the limit with a topping-up rule of 30
percent, unit cost 100000 and minimum build time 5: the limit is `20000`, the progress goes
from `13421773 / 33554432` to `5033165 / 8388608`, and the completion test does not fire. -/
theorem b32_topping_turn_third (e : Element) (hb : e.blocksize = 1)
    (hr : e.remaining = 1) (hp : e.progress = 13421773 / 33554432) :
    (Binary32.limitFundedTurn toppingUpRules (100000) 5 e).blocksize = 1 ∧
      (Binary32.limitFundedTurn toppingUpRules (100000) 5 e).remaining = 1 ∧
      (Binary32.limitFundedTurn toppingUpRules (100000) 5 e).progress = 5033165 / 8388608 ∧
      (Binary32.limitFundedTurn toppingUpRules (100000) 5 e).turns_left_to_next_item = -1 ∧
      Binary32.CalculateProductionPerTurnLimit toppingUpRules e (100000) 5 = 20000 := by
  have ha2x1 : roundF64 (1 / 100) = 5764607523034235 / 576460752303423488 :=
    roundF64_of_near _ _ (-7) (5764607523034235) (by norm_num [le_abs]) (by norm_num [abs_lt])
      (by norm_num [abs_lt]) (by norm_num)
  have ha2x2 : roundF64 (86469112845513525 / 288230376151711744) =
      5404319552844595 / 18014398509481984 :=
    roundF64_of_near _ _ (-2) (5404319552844595) (by norm_num [le_abs]) (by norm_num [abs_lt])
      (by norm_num [abs_lt]) (by norm_num)
  have ha2x3 : roundF64 (5404319552844595 / 18014398509481984) =
      5404319552844595 / 18014398509481984 :=
    roundF64_of_near _ _ (-2) (5404319552844595) (by norm_num [le_abs]) (by norm_num [abs_lt])
      (by norm_num [abs_lt]) (by norm_num)
  have ha2x4 : roundF32 (5404319552844595 / 18014398509481984) = 5033165 / 16777216 :=
    roundF32_of_near _ _ (-2) (10066330) (by norm_num [le_abs]) (by norm_num [abs_lt])
      (by norm_num [abs_lt]) (by norm_num)
  have ha2x5 : roundF32 (1) = 1 :=
    roundF32_of_near _ _ (0) (8388608) (by norm_num [le_abs]) (by norm_num [abs_lt])
      (by norm_num [abs_lt]) (by norm_num)
  have ha2x6 : roundF32 (100000) = 100000 :=
    roundF32_of_near _ _ (16) (12800000) (by norm_num [le_abs]) (by norm_num [abs_lt])
      (by norm_num [abs_lt]) (by norm_num)
  have ha2x7 : roundF32 (41943040625 / 1048576) = 40000 :=
    roundF32_of_near _ _ (15) (10240000) (by norm_num [le_abs]) (by norm_num [abs_lt])
      (by norm_num [abs_lt]) (by norm_num)
  have ha2x8 : roundF32 (60000) = 60000 :=
    roundF32_of_near _ _ (15) (15360000) (by norm_num [le_abs]) (by norm_num [abs_lt])
      (by norm_num [abs_lt]) (by norm_num)
  have ha2x9 : roundF32 (5) = 5 :=
    roundF32_of_near _ _ (2) (10485760) (by norm_num [le_abs]) (by norm_num [abs_lt])
      (by norm_num [abs_lt]) (by norm_num)
  have ha2x10 : roundF32 (20000) = 20000 :=
    roundF32_of_near _ _ (14) (10240000) (by norm_num [le_abs]) (by norm_num [abs_lt])
      (by norm_num [abs_lt]) (by norm_num)
  have ha2x11 : roundF32 (4) = 4 :=
    roundF32_of_near _ _ (2) (8388608) (by norm_num [le_abs]) (by norm_num [abs_lt])
      (by norm_num [abs_lt]) (by norm_num)
  have ha2x12 : roundF32 (1 / 1000) = 8589935 / 8589934592 :=
    roundF32_of_near _ _ (-10) (8589935) (by norm_num [le_abs]) (by norm_num [abs_lt])
      (by norm_num [abs_lt]) (by norm_num)
  have ha2x13 : roundF32 (8589935 / 4294967296) = 8589935 / 4294967296 :=
    roundF32_of_near _ _ (-9) (8589935) (by norm_num [le_abs]) (by norm_num [abs_lt])
      (by norm_num [abs_lt]) (by norm_num)
  have ha2x14 : roundF32 (85899337330065 / 4294967296) = 10239999 / 512 :=
    roundF32_of_near _ _ (14) (10239999) (by norm_num [le_abs]) (by norm_num [abs_lt])
      (by norm_num [abs_lt]) (by norm_num)
  have ha2x15 : roundF32 (15728640625 / 524288) = 15360001 / 512 :=
    roundF32_of_near _ _ (14) (15360001) (by norm_num [le_abs]) (by norm_num [abs_lt])
      (by norm_num [abs_lt]) (by norm_num)
  have ha2x16 : roundF32 (20479999 / 512) = 40000 :=
    roundF32_of_tie _ _ (15) (10239999) (by norm_num [le_abs]) (by norm_num [abs_lt])
      (by norm_num) (by norm_num)
  have ha2x17 : roundF32 (20132659 / 33554432) = 5033165 / 8388608 :=
    roundF32_of_tie _ _ (-1) (10066329) (by norm_num [le_abs]) (by norm_num [abs_lt])
      (by norm_num) (by norm_num)
  have ha2x18 : roundF32 (15728640625 / 262144) = 15360001 / 256 :=
    roundF32_of_near _ _ (15) (15360001) (by norm_num [le_abs]) (by norm_num [abs_lt])
      (by norm_num [abs_lt]) (by norm_num)
  have ha2x19 : roundF32 (10240001 / 256) = 10240001 / 256 :=
    roundF32_of_near _ _ (15) (10240001) (by norm_num [le_abs]) (by norm_num [abs_lt])
      (by norm_num [abs_lt]) (by norm_num)
  have ha2x20 : roundF32 (1 / 5) = 13421773 / 67108864 :=
    roundF32_of_near _ _ (-3) (13421773) (by norm_num [le_abs]) (by norm_num [abs_lt])
      (by norm_num [abs_lt]) (by norm_num)
  have ha2x21 : roundF32 (40265319 / 67108864) = 5033165 / 8388608 :=
    roundF32_of_near _ _ (-1) (10066330) (by norm_num [le_abs]) (by norm_num [abs_lt])
      (by norm_num [abs_lt]) (by norm_num)
  obtain ⟨f1, f2, f3, f4⟩ := b32_limitFundedTurn_fields toppingUpRules (100000) 5 e
  obtain ⟨hC, hbas, hF, hfl, htl⟩ := b32_topping_constants e hb
  have hL : Binary32.CalculateProductionPerTurnLimit toppingUpRules e (100000) 5 = 20000 := by
    rw [b32_limit_formula, hC, hbas, hF, htl, hr, hp, b32_two_EPSILON_value]
    norm_num [
      roundF32_zero, ha2x1, ha2x2, ha2x3, ha2x4, ha2x5, ha2x6, ha2x7, ha2x8, ha2x9, ha2x10,
      ha2x11, ha2x12, ha2x13, ha2x14, ha2x15, ha2x16, ha2x17, ha2x18, ha2x19, ha2x20, ha2x21]
  refine ⟨by rw [f1, hb], by rw [f2, hr], ?_, ?_, hL⟩
  · rw [f3, hL, hC, hp, b32_EPSILON_value]
    norm_num [
      roundF32_zero, ha2x1, ha2x2, ha2x3, ha2x4, ha2x5, ha2x6, ha2x7, ha2x8, ha2x9, ha2x10,
      ha2x11, ha2x12, ha2x13, ha2x14, ha2x15, ha2x16, ha2x17, ha2x18, ha2x19, ha2x20, ha2x21]
  · rw [f4, hL, hC, hp]
    unfold Binary32.completesThisTurn
    rw [b32_EPSILON_value]
    norm_num [
      roundF32_zero, ha2x1, ha2x2, ha2x3, ha2x4, ha2x5, ha2x6, ha2x7, ha2x8, ha2x9, ha2x10,
      ha2x11, ha2x12, ha2x13, ha2x14, ha2x15, ha2x16, ha2x17, ha2x18, ha2x19, ha2x20, ha2x21]

/-- The fourth turn of the binary32 run funded at the limit with a topping-up rule of 30
percent, unit cost 100000 and minimum build time 5: the limit is `10239999 / 256`, the progress goes
from `5033165 / 8388608` to `1`, and the completion test fires. -/
theorem b32_topping_turn_fourth (e : Element) (hb : e.blocksize = 1)
    (hr : e.remaining = 1) (hp : e.progress = 5033165 / 8388608) :
    (Binary32.limitFundedTurn toppingUpRules (100000) 5 e).blocksize = 1 ∧
      (Binary32.limitFundedTurn toppingUpRules (100000) 5 e).remaining = 1 ∧
      (Binary32.limitFundedTurn toppingUpRules (100000) 5 e).progress = 1 ∧
      (Binary32.limitFundedTurn toppingUpRules (100000) 5 e).turns_left_to_next_item = 1 ∧
      Binary32.CalculateProductionPerTurnLimit toppingUpRules e (100000) 5 = 10239999 / 256 := by
  have ha3x1 : roundF64 (1 / 100) = 5764607523034235 / 576460752303423488 :=
    roundF64_of_near _ _ (-7) (5764607523034235) (by norm_num [le_abs]) (by norm_num [abs_lt])
      (by norm_num [abs_lt]) (by norm_num)
  have ha3x2 : roundF64 (86469112845513525 / 288230376151711744) =
      5404319552844595 / 18014398509481984 :=
    roundF64_of_near _ _ (-2) (5404319552844595) (by norm_num [le_abs]) (by norm_num [abs_lt])
      (by norm_num [abs_lt]) (by norm_num)
  have ha3x3 : roundF64 (5404319552844595 / 18014398509481984) =
      5404319552844595 / 18014398509481984 :=
    roundF64_of_near _ _ (-2) (5404319552844595) (by norm_num [le_abs]) (by norm_num [abs_lt])
      (by norm_num [abs_lt]) (by norm_num)
  have ha3x4 : roundF32 (5404319552844595 / 18014398509481984) = 5033165 / 16777216 :=
    roundF32_of_near _ _ (-2) (10066330) (by norm_num [le_abs]) (by norm_num [abs_lt])
      (by norm_num [abs_lt]) (by norm_num)
  have ha3x5 : roundF32 (1) = 1 :=
    roundF32_of_near _ _ (0) (8388608) (by norm_num [le_abs]) (by norm_num [abs_lt])
      (by norm_num [abs_lt]) (by norm_num)
  have ha3x6 : roundF32 (100000) = 100000 :=
    roundF32_of_near _ _ (16) (12800000) (by norm_num [le_abs]) (by norm_num [abs_lt])
      (by norm_num [abs_lt]) (by norm_num)
  have ha3x7 : roundF32 (15728640625 / 262144) = 15360001 / 256 :=
    roundF32_of_near _ _ (15) (15360001) (by norm_num [le_abs]) (by norm_num [abs_lt])
      (by norm_num [abs_lt]) (by norm_num)
  have ha3x8 : roundF32 (10239999 / 256) = 10239999 / 256 :=
    roundF32_of_near _ _ (15) (10239999) (by norm_num [le_abs]) (by norm_num [abs_lt])
      (by norm_num [abs_lt]) (by norm_num)
  have ha3x9 : roundF32 (5) = 5 :=
    roundF32_of_near _ _ (2) (10485760) (by norm_num [le_abs]) (by norm_num [abs_lt])
      (by norm_num [abs_lt]) (by norm_num)
  have ha3x10 : roundF32 (20000) = 20000 :=
    roundF32_of_near _ _ (14) (10240000) (by norm_num [le_abs]) (by norm_num [abs_lt])
      (by norm_num [abs_lt]) (by norm_num)
  have ha3x11 : roundF32 (4) = 4 :=
    roundF32_of_near _ _ (2) (8388608) (by norm_num [le_abs]) (by norm_num [abs_lt])
      (by norm_num [abs_lt]) (by norm_num)
  have ha3x12 : roundF32 (1 / 1000) = 8589935 / 8589934592 :=
    roundF32_of_near _ _ (-10) (8589935) (by norm_num [le_abs]) (by norm_num [abs_lt])
      (by norm_num [abs_lt]) (by norm_num)
  have ha3x13 : roundF32 (8589935 / 4294967296) = 8589935 / 4294967296 :=
    roundF32_of_near _ _ (-9) (8589935) (by norm_num [le_abs]) (by norm_num [abs_lt])
      (by norm_num [abs_lt]) (by norm_num)
  have ha3x14 : roundF32 (85899337330065 / 4294967296) = 10239999 / 512 :=
    roundF32_of_near _ _ (14) (10239999) (by norm_num [le_abs]) (by norm_num [abs_lt])
      (by norm_num [abs_lt]) (by norm_num)
  have ha3x15 : roundF32 (15728640625 / 524288) = 15360001 / 512 :=
    roundF32_of_near _ _ (14) (15360001) (by norm_num [le_abs]) (by norm_num [abs_lt])
      (by norm_num [abs_lt]) (by norm_num)
  have ha3x16 : roundF32 (20479999 / 512) = 40000 :=
    roundF32_of_tie _ _ (15) (10239999) (by norm_num [le_abs]) (by norm_num [abs_lt])
      (by norm_num) (by norm_num)
  have ha3x17 : roundF32 (3355443 / 8388608) = 3355443 / 8388608 :=
    roundF32_of_near _ _ (-2) (13421772) (by norm_num [le_abs]) (by norm_num [abs_lt])
      (by norm_num [abs_lt]) (by norm_num)
  have ha3x18 : roundF32 (10485759375 / 262144) = 10239999 / 256 :=
    roundF32_of_near _ _ (15) (10239999) (by norm_num [le_abs]) (by norm_num [abs_lt])
      (by norm_num [abs_lt]) (by norm_num)
  have ha3x19 : roundF32 (10239999 / 25600000) = 13421771 / 33554432 :=
    roundF32_of_near _ _ (-2) (13421771) (by norm_num [le_abs]) (by norm_num [abs_lt])
      (by norm_num [abs_lt]) (by norm_num)
  have ha3x20 : roundF32 (33554431 / 33554432) = 1 :=
    roundF32_of_tie _ _ (-1) (16777215) (by norm_num [le_abs]) (by norm_num [abs_lt])
      (by norm_num) (by norm_num)
  obtain ⟨f1, f2, f3, f4⟩ := b32_limitFundedTurn_fields toppingUpRules (100000) 5 e
  obtain ⟨hC, hbas, hF, hfl, htl⟩ := b32_topping_constants e hb
  have hL : Binary32.CalculateProductionPerTurnLimit toppingUpRules e (100000) 5 = 10239999 / 256 := by
    rw [b32_limit_formula, hC, hbas, hF, htl, hr, hp, b32_two_EPSILON_value]
    norm_num [
      roundF32_zero, ha3x1, ha3x2, ha3x3, ha3x4, ha3x5, ha3x6, ha3x7, ha3x8, ha3x9, ha3x10,
      ha3x11, ha3x12, ha3x13, ha3x14, ha3x15, ha3x16, ha3x17, ha3x18, ha3x19, ha3x20]
  refine ⟨by rw [f1, hb], by rw [f2, hr], ?_, ?_, hL⟩
  · rw [f3, hL, hC, hp, b32_EPSILON_value]
    norm_num [
      roundF32_zero, ha3x1, ha3x2, ha3x3, ha3x4, ha3x5, ha3x6, ha3x7, ha3x8, ha3x9, ha3x10,
      ha3x11, ha3x12, ha3x13, ha3x14, ha3x15, ha3x16, ha3x17, ha3x18, ha3x19, ha3x20]
  · rw [f4, hL, hC, hp]
    unfold Binary32.completesThisTurn
    rw [b32_EPSILON_value]
    norm_num [
      roundF32_zero, ha3x1, ha3x2, ha3x3, ha3x4, ha3x5, ha3x6, ha3x7, ha3x8, ha3x9, ha3x10,
      ha3x11, ha3x12, ha3x13, ha3x14, ha3x15, ha3x16, ha3x17, ha3x18, ha3x19, ha3x20]

/-- The quantities of the per-turn limit that do not depend on the progress, for a single-unit
entry of unit cost 0.001 with minimum build time 2 and no smoothing. -/
theorem b32_small_cost_constants (e : Element) (hb : e.blocksize = 1) :
    Binary32.blockCost (1 / 1000) e = 8589935 / 8589934592 ∧
      Binary32.basicLimit (8589935 / 8589934592) 2 = 8589935 / 17179869184 ∧
      Binary32.frontloadLimit ({} : GameRules) (8589935 / 8589934592) 2 = -(6442451 / 4294967296) ∧
      Binary32.frontloadLimitFactor ({} : GameRules) = 0 ∧
      Binary32.toppingUpLimitFactor ({} : GameRules) = 0 := by
  have hb0x1 : roundF64 (1 / 100) = 5764607523034235 / 576460752303423488 :=
    roundF64_of_near _ _ (-7) (5764607523034235) (by norm_num [le_abs]) (by norm_num [abs_lt])
      (by norm_num [abs_lt]) (by norm_num)
  have hb0x2 : roundF32 (1) = 1 :=
    roundF32_of_near _ _ (0) (8388608) (by norm_num [le_abs]) (by norm_num [abs_lt])
      (by norm_num [abs_lt]) (by norm_num)
  have hb0x3 : roundF32 (1 / 1000) = 8589935 / 8589934592 :=
    roundF32_of_near _ _ (-10) (8589935) (by norm_num [le_abs]) (by norm_num [abs_lt])
      (by norm_num [abs_lt]) (by norm_num)
  have hb0x4 : roundF32 (8589935 / 8589934592) = 8589935 / 8589934592 :=
    roundF32_of_near _ _ (-10) (8589935) (by norm_num [le_abs]) (by norm_num [abs_lt])
      (by norm_num [abs_lt]) (by norm_num)
  have hb0x5 : roundF32 (2) = 2 :=
    roundF32_of_near _ _ (1) (8388608) (by norm_num [le_abs]) (by norm_num [abs_lt])
      (by norm_num [abs_lt]) (by norm_num)
  have hb0x6 : roundF32 (8589935 / 17179869184) = 8589935 / 17179869184 :=
    roundF32_of_near _ _ (-11) (8589935) (by norm_num [le_abs]) (by norm_num [abs_lt])
      (by norm_num [abs_lt]) (by norm_num)
  have hb0x7 : roundF32 (8589935 / 4294967296) = 8589935 / 4294967296 :=
    roundF32_of_near _ _ (-9) (8589935) (by norm_num [le_abs]) (by norm_num [abs_lt])
      (by norm_num [abs_lt]) (by norm_num)
  have hb0x8 : roundF32 (-(25769805 / 17179869184)) = -(6442451 / 4294967296) :=
    roundF32_of_tie _ _ (-10) (-12884903) (by norm_num [le_abs]) (by norm_num [abs_lt])
      (by norm_num) (by norm_num)
  have hb0x9 : roundF32 (-(17179869 / 17179869184)) = -(4294967 / 4294967296) :=
    roundF32_of_tie _ _ (-10) (-8589935) (by norm_num [le_abs]) (by norm_num [abs_lt])
      (by norm_num) (by norm_num)
  have hb0x10 : roundF32 (1 / 2) = 1 / 2 :=
    roundF32_of_near _ _ (-1) (8388608) (by norm_num [le_abs]) (by norm_num [abs_lt])
      (by norm_num [abs_lt]) (by norm_num)
  have hfl : Binary32.frontloadLimitFactor ({} : GameRules) = 0 := by
    unfold Binary32.frontloadLimitFactor
    norm_num [roundF64_zero, roundF32_zero]
  have htl : Binary32.toppingUpLimitFactor ({} : GameRules) = 0 := by
    unfold Binary32.toppingUpLimitFactor Binary32.frontloadLimitFactor
    norm_num [roundF64_zero, roundF32_zero]
  refine ⟨?_, ?_, ?_, hfl, htl⟩
  · norm_num [Binary32.blockCost, hb,
      roundF32_zero, hb0x1, hb0x2, hb0x3, hb0x4, hb0x5, hb0x6, hb0x7, hb0x8, hb0x9, hb0x10]
  · norm_num [Binary32.basicLimit,
      roundF32_zero, hb0x1, hb0x2, hb0x3, hb0x4, hb0x5, hb0x6, hb0x7, hb0x8, hb0x9, hb0x10]
  · unfold Binary32.frontloadLimit Binary32.basicLimit
    rw [hfl, b32_two_EPSILON_value]
    norm_num [
      roundF32_zero, hb0x1, hb0x2, hb0x3, hb0x4, hb0x5, hb0x6, hb0x7, hb0x8, hb0x9, hb0x10]

/-- The first turn of the binary32 run funded at the limit without smoothing, unit cost 0.001 and
minimum build time 2: the limit is `8589935 / 17179869184`, half the `float` `ε`, and the completion
test fires. -/
theorem b32_small_cost_turn (e : Element) (hb : e.blocksize = 1)
    (hr : e.remaining = 1) (hp : e.progress = 0) :
    (Binary32.limitFundedTurn ({} : GameRules) (1 / 1000) 2 e).blocksize = 1 ∧
      (Binary32.limitFundedTurn ({} : GameRules) (1 / 1000) 2 e).remaining = 1 ∧
      (Binary32.limitFundedTurn ({} : GameRules) (1 / 1000) 2 e).progress = 1 / 2 ∧
      (Binary32.limitFundedTurn ({} : GameRules) (1 / 1000) 2 e).turns_left_to_next_item = 1 ∧
      Binary32.CalculateProductionPerTurnLimit ({} : GameRules) e (1 / 1000) 2 = 8589935 / 17179869184 := by
  have hb0x1 : roundF64 (1 / 100) = 5764607523034235 / 576460752303423488 :=
    roundF64_of_near _ _ (-7) (5764607523034235) (by norm_num [le_abs]) (by norm_num [abs_lt])
      (by norm_num [abs_lt]) (by norm_num)
  have hb0x2 : roundF32 (1) = 1 :=
    roundF32_of_near _ _ (0) (8388608) (by norm_num [le_abs]) (by norm_num [abs_lt])
      (by norm_num [abs_lt]) (by norm_num)
  have hb0x3 : roundF32 (1 / 1000) = 8589935 / 8589934592 :=
    roundF32_of_near _ _ (-10) (8589935) (by norm_num [le_abs]) (by norm_num [abs_lt])
      (by norm_num [abs_lt]) (by norm_num)
  have hb0x4 : roundF32 (8589935 / 8589934592) = 8589935 / 8589934592 :=
    roundF32_of_near _ _ (-10) (8589935) (by norm_num [le_abs]) (by norm_num [abs_lt])
      (by norm_num [abs_lt]) (by norm_num)
  have hb0x5 : roundF32 (2) = 2 :=
    roundF32_of_near _ _ (1) (8388608) (by norm_num [le_abs]) (by norm_num [abs_lt])
      (by norm_num [abs_lt]) (by norm_num)
  have hb0x6 : roundF32 (8589935 / 17179869184) = 8589935 / 17179869184 :=
    roundF32_of_near _ _ (-11) (8589935) (by norm_num [le_abs]) (by norm_num [abs_lt])
      (by norm_num [abs_lt]) (by norm_num)
  have hb0x7 : roundF32 (8589935 / 4294967296) = 8589935 / 4294967296 :=
    roundF32_of_near _ _ (-9) (8589935) (by norm_num [le_abs]) (by norm_num [abs_lt])
      (by norm_num [abs_lt]) (by norm_num)
  have hb0x8 : roundF32 (-(25769805 / 17179869184)) = -(6442451 / 4294967296) :=
    roundF32_of_tie _ _ (-10) (-12884903) (by norm_num [le_abs]) (by norm_num [abs_lt])
      (by norm_num) (by norm_num)
  have hb0x9 : roundF32 (-(17179869 / 17179869184)) = -(4294967 / 4294967296) :=
    roundF32_of_tie _ _ (-10) (-8589935) (by norm_num [le_abs]) (by norm_num [abs_lt])
      (by norm_num) (by norm_num)
  have hb0x10 : roundF32 (1 / 2) = 1 / 2 :=
    roundF32_of_near _ _ (-1) (8388608) (by norm_num [le_abs]) (by norm_num [abs_lt])
      (by norm_num [abs_lt]) (by norm_num)
  obtain ⟨f1, f2, f3, f4⟩ := b32_limitFundedTurn_fields ({} : GameRules) (1 / 1000) 2 e
  obtain ⟨hC, hbas, hF, hfl, htl⟩ := b32_small_cost_constants e hb
  have hL : Binary32.CalculateProductionPerTurnLimit ({} : GameRules) e (1 / 1000) 2 = 8589935 / 17179869184 := by
    rw [b32_limit_formula, hC, hbas, hF, htl, hr, hp, b32_two_EPSILON_value]
    norm_num [
      roundF32_zero, hb0x1, hb0x2, hb0x3, hb0x4, hb0x5, hb0x6, hb0x7, hb0x8, hb0x9, hb0x10]
  refine ⟨by rw [f1, hb], by rw [f2, hr], ?_, ?_, hL⟩
  · rw [f3, hL, hC, hp, b32_EPSILON_value]
    norm_num [
      roundF32_zero, hb0x1, hb0x2, hb0x3, hb0x4, hb0x5, hb0x6, hb0x7, hb0x8, hb0x9, hb0x10]
  · rw [f4, hL, hC, hp]
    unfold Binary32.completesThisTurn
    rw [b32_EPSILON_value]
    norm_num [
      roundF32_zero, hb0x1, hb0x2, hb0x3, hb0x4, hb0x5, hb0x6, hb0x7, hb0x8, hb0x9, hb0x10]


/-- In binary32 the topping-up allowance completes a batch early when the block cost is large:
with a topping-up rule of 30 percent, no frontloading, unit cost 100000 and a minimum build time
of 5 turns, an entry funded at its limit receives 20000 on each of the first three turns and
`39999.996` on the fourth, where the completion test fires. The rounding of the progress makes
what the item still needs, `39999.996`, fall below the topping-up limit `40000`. -/
theorem b32_topping_up_completes_early :
    Binary32.completionFiresOnTurn toppingUpRules 100000 5 sampleElement 3 = false ∧
      Binary32.completionFiresOnTurn toppingUpRules 100000 5 sampleElement 4 = true ∧
      Binary32.CalculateProductionPerTurnLimit toppingUpRules
        (Binary32.limitFundedTurns toppingUpRules 100000 5 3 sampleElement) 100000 5 =
          10239999 / 256 := by
  have s1 := b32_topping_turn_first sampleElement rfl rfl rfl
  have s2 := b32_topping_turn_second _ s1.1 s1.2.1 s1.2.2.1
  have s3 := b32_topping_turn_third _ s2.1 s2.2.1 s2.2.2.1
  have s4 := b32_topping_turn_fourth _ s3.1 s3.2.1 s3.2.2.1
  refine ⟨?_, ?_, s4.2.2.2.2⟩
  · have h3 : (Binary32.limitFundedTurns toppingUpRules 100000 5 3
        sampleElement).turns_left_to_next_item = -1 := s3.2.2.2.1
    unfold Binary32.completionFiresOnTurn
    rw [h3]
    decide
  · have h4 : (Binary32.limitFundedTurns toppingUpRules 100000 5 4
        sampleElement).turns_left_to_next_item = 1 := s4.2.2.2.1
    unfold Binary32.completionFiresOnTurn
    rw [h4]
    decide

/-- Counterexample to C2 as stated: an entry of unit cost 1/1000 with blocksize 1, one batch
remaining, no progress, minimum build time 2 and both smoothing factors 0 receives its limit
1/2000 on turn 1, and the completion test fires on that turn, earlier than turn 2; it fires with
the recorded amount (floored at `ε`) as well as with the bare limit. The same holds in binary32,
where the limit is half the `float` `ε`. -/
theorem C2_counterexample :
    sampleElement.progress = 0 ∧ (0 : ℚ) < 1 / 1000 ∧ 1 ≤ sampleElement.blocksize ∧
      1 ≤ sampleElement.remaining ∧ (1 : Int) ≤ 2 ∧ (1 : Nat) ≤ 1 ∧ ((1 : Nat) : Int) < 2 ∧
      CalculateProductionPerTurnLimit {} sampleElement (1 / 1000) 2 = 1 / 2000 ∧
      completionFiresOnTurn {} (1 / 1000) 2 sampleElement 1 = true ∧
      completesThisTurn (1 / 1000 * (sampleElement.blocksize : ℚ)) sampleElement.progress
        (CalculateProductionPerTurnLimit {} sampleElement (1 / 1000) 2) = true ∧
      Binary32.CalculateProductionPerTurnLimit {} sampleElement (1 / 1000) 2 =
        8589935 / 17179869184 ∧
      Binary32.completionFiresOnTurn {} (1 / 1000) 2 sampleElement 1 = true := by
  have s1 := b32_small_cost_turn sampleElement rfl rfl rfl
  refine ⟨rfl, by norm_num, by decide, by decide, by decide, by decide, by decide, ?_, ?_, ?_,
    s1.2.2.2.2, ?_⟩
  · norm_num +decide [completionFiresOnTurn, limitFundedTurns, limitFundedTurn, limitSpending,
      fundElement, completesThisTurn, CalculateProductionPerTurnLimit, EPSILON, sampleElement]
  · norm_num +decide [completionFiresOnTurn, limitFundedTurns, limitFundedTurn, limitSpending,
      fundElement, completesThisTurn, CalculateProductionPerTurnLimit, EPSILON, sampleElement]
  · norm_num +decide [completionFiresOnTurn, limitFundedTurns, limitFundedTurn, limitSpending,
      fundElement, completesThisTurn, CalculateProductionPerTurnLimit, EPSILON, sampleElement]
  · have h1 : (Binary32.limitFundedTurns {} (1 / 1000) 2 1
        sampleElement).turns_left_to_next_item = 1 := s1.2.2.2.1
    unfold Binary32.completionFiresOnTurn
    rw [h1]
    decide

end FreeOrion
